import Mathlib

/-!
# srsmgmt: stream lifecycle over a repository, a playlist directory and the RTC list

Shallow embedding of `internal/srsmgmt/service.go`, `internal/srsmgmtrepo/streams.go`,
`pkg/playlist/playlist.go`, `pkg/srsclient/service.go` and `pkg/srsconfig/srsconfig.go`.

Conventions of the embedding

* a Go `string` is a Lean `String`; scanning functions work on its list of characters;
* a Go `int` is an `Int`; `time.Time` is an instant counted in nanoseconds since the Unix
  epoch, `*time.Time` is an `Option`;
* `uuid.UUID` (16 bytes) is a number below `2^128`;
* the database table, the files below the live directory, the RTC list of `SRSConfig`, the
  kick requests sent to the media server and the goroutines started by a handler are the
  fields of `World`; every service method is a function from a `World` to a result and a
  new `World`;
* what the outside decides during one call (a database statement that fails, a directory
  removal that fails) is read from a `Faults` record;
* third-party functions the code calls and whose text is not part of the repository
  (`uuid.FromString`, `regexp.Compile` on a caller-supplied pattern, `time.Format`,
  the time-zone database) are fields of `Env`.
-/

namespace Srsmgmt

/-! ## Strings -/

/-- Go `strings.HasPrefix` on character lists. -/
def startsWith : List Char → List Char → Bool
  | _, [] => true
  | [], _ :: _ => false
  | c :: cs, p :: ps => c == p && startsWith cs ps

/-- Go `strings.Contains` on character lists. -/
def containsChars : List Char → List Char → Bool
  | [], sub => sub.isEmpty
  | c :: cs, sub => startsWith (c :: cs) sub || containsChars cs sub

/-- Go `strings.Contains(s, sub)`. -/
def strContains (s sub : String) : Bool :=
  containsChars s.toList sub.toList

/-- Characters accepted by the class `[^&$]` of the password expression. -/
def passChar (c : Char) : Bool :=
  c != '&' && c != '$'

/-- What follows the literal `lit` at the start of `s`, when `s` starts with it. -/
def stripLit : List Char → List Char → Option (List Char)
  | s, [] => some s
  | [], _ :: _ => none
  | c :: cs, p :: ps => if c == p then stripLit cs ps else none

/-- First submatch of `regexp.MustCompile("password=([^&$]+)").FindStringSubmatch`:
the leftmost place where `password=` is followed by at least one character other than
`&` and `$`, and the longest run of such characters there. `none` when `len(passParams) == 0`. -/
def findPasswordChars : List Char → Option (List Char)
  | [] => none
  | c :: cs =>
    match stripLit (c :: cs) "password=".toList with
    | some rest =>
      if rest.takeWhile passChar != [] then some (rest.takeWhile passChar)
      else findPasswordChars cs
    | none => findPasswordChars cs

/-- The value `passParams[1]` read from `st.Param`, when the expression matches. -/
def findPassword (param : String) : Option String :=
  (findPasswordChars param.toList).map String.mk

/-! ## Identifiers and time -/

/-- A `uuid.UUID`: sixteen bytes, read as one big-endian number. -/
abbrev UUID := Fin (2 ^ 128)

/-- A `time.Time` instant, in nanoseconds since the Unix epoch. -/
abbrev Time := Int

/-- The zero `time.Time` (January 1, year 1, 00:00:00 UTC). -/
def zeroTime : Time := -62135596800 * 1000000000

/-- Go `Time.IsZero`. -/
def Time.IsZero (t : Time) : Bool := t == zeroTime

/-- Go `Time.Unix`: whole seconds since the epoch. -/
def Time.Unix (t : Time) : Int := t / 1000000000

/-- Lower-case hexadecimal digit of a number below sixteen. -/
def hexDigit (n : Nat) : Char :=
  if n < 10 then Char.ofNat (48 + n) else Char.ofNat (87 + n)

/-- The `k` low hexadecimal digits of `n`, most significant first. -/
def hexDigits : Nat → Nat → List Char
  | 0, _ => []
  | k + 1, n => hexDigits k (n / 16) ++ [hexDigit (n % 16)]

/-- Go `UUID.String`: the canonical form `xxxxxxxx-xxxx-xxxx-xxxx-xxxxxxxxxxxx`. -/
def uuidChars (u : UUID) : List Char :=
  hexDigits 8 (u.val / 16 ^ 24) ++ '-' :: hexDigits 4 (u.val / 16 ^ 20) ++ '-' ::
    hexDigits 4 (u.val / 16 ^ 16) ++ '-' :: hexDigits 4 (u.val / 16 ^ 12) ++ '-' ::
    hexDigits 12 u.val

/-- Go `UUID.String`. -/
def uuidString (u : UUID) : String := String.mk (uuidChars u)

/-! ## Configuration and third-party functions -/

/-- Fields of `config.Config` that the service reads. -/
structure Config where
  HLSAddr : String
  RTMPAddr : String
  SRTAddr : String
  LiveTSPath : String
  deriving DecidableEq, Repr

/-- Library functions used by the code whose text is outside the repository. -/
structure Env where
  /-- The process configuration. -/
  cfg : Config
  /-- Function `uuid.FromString` of `github.com/gofrs/uuid`; `none` when it returns an error. -/
  uuidFromString : String → Option UUID
  /-- Whether `regexp.Compile(pattern)` matches somewhere in the text (`MatchString`);
  the pattern is taken to compile. -/
  regexpMatch : String → String → Bool
  /-- Go `Time.Format("2006-01-02T15:04:05.000Z")`. -/
  formatTime : Time → String
  /-- Go `time.ParseInLocation` for "Europe/Moscow": the instant of a civil date and
  time (year, month, day, hour, minute, second), `none` when it is not a valid one. -/
  civilToTime : Nat → Nat → Nat → Nat → Nat → Nat → Option Time
  /-- Go `os.RemoveAll(path)` when it returns no error: the files (path and content) that
  are left once the path and everything below it have been removed. -/
  removeAll : List (String × String) → String → List (String × String)

/-! ## Data model -/

def StreamStatusWaitPublish : Int := 1
def StreamStatusPublish : Int := 2
def StreamStatusPause : Int := 3
def StreamStatusStopPublish : Int := 4
def StreamStatusError : Int := 5
def StreamStatusStartRequired : Int := 6
def SRSok : Int := 0
def SRSfail : Int := 1
def OutputPlaylistPrefix : String := "master-"

/-- Error values returned by the service, the repository and the playlist package. -/
inductive Error where
  | ErrNotFound
  | ErrAlreadyExists
  | ErrNoStreaming
  | ErrBadRequest
  | ErrBadStatus
  | ErrInternalError
  | ErrUnauthorized
  /-- An error of the database driver (`result.Error`). -/
  | dbError
  /-- An error of the operating system on a file (`*os.PathError`). -/
  | osError
  /-- Value `playlist.ErrOperationTimedout`. -/
  | plOperationTimedout
  /-- Value `playlist.ErrInternalError`. -/
  | plInternalError
  /-- Value `playlist.ErrIvalidStartTime`. -/
  | plIvalidStartTime
  deriving DecidableEq, Repr

/-- The `Stream` of `service.go`. -/
structure Stream where
  StreamID : UUID
  App : String
  Password : String
  Status : Int
  HLS : String
  RTMPpush : String
  SRTpush : String
  CreatedAt : Time
  UpdatedAt : Time
  ClientId : String
  StartedAt : Option Time
  StopedAt : Option Time
  RTC : Bool
  deriving DecidableEq, Repr

/-- The zero value `Stream{}`. -/
def Stream.zero : Stream :=
  { StreamID := 0, App := "", Password := "", Status := 0, HLS := "", RTMPpush := "",
    SRTpush := "", CreatedAt := zeroTime, UpdatedAt := zeroTime, ClientId := "",
    StartedAt := none, StopedAt := none, RTC := false }

/-- The webhook event `SRSStream` of `service.go` (the fields the handlers read). -/
structure SRSStream where
  Action : String
  ClientID : String
  App : String
  StreamID : String
  Param : String
  M3U8 : String
  deriving DecidableEq, Repr

/-- A row of the table `streams` (`srsmgmtrepo.Stream`). A null or invalid `sql.NullTime`
is `none`. The column `deleted_at` is left out: rows are only ever removed with
`Unscoped().Delete`, so it is null in every row. -/
structure Row where
  StreamID : UUID
  CreatedAt : Time
  UpdatedAt : Time
  App : String
  Password : String
  Status : Int
  ClientId : String
  StartedAt : Option Time
  StopedAt : Option Time
  RTC : Bool
  deriving DecidableEq, Repr

/-- An entry of `SRSConfig.Streams`. -/
structure SRSstream where
  ID : String
  Password : String
  deriving DecidableEq, Repr

/-- A goroutine started by a webhook handler. It carries the value its `*Stream` argument
has when the handler returns. -/
inductive Task where
  /-- Started at `service.go:354`: `playlist.Create` with the stream's `StartedAt`. -/
  | createDVR (stream : Stream)
  /-- Started at `service.go:370`: `playlist.Create` with no start time. -/
  | createLive (stream : Stream)
  /-- Started at `service.go:432`: set `Publish`, then `playlist.Create` with `StartedAt`. -/
  | hlsPublish (stream : Stream)
  deriving DecidableEq, Repr

/-- Everything the service acts on. -/
structure World where
  /-- The rows of the table `streams`. -/
  repo : List Row
  /-- The regular files: path and content. -/
  fs : List (String × String)
  /-- The list `SRSConfig.Streams`. -/
  rtc : List SRSstream
  /-- Client ids for which a kick request was sent to the media server, latest last. -/
  kicked : List String
  /-- Goroutines started by the handlers, latest last. -/
  spawned : List Task
  deriving DecidableEq, Repr

/-- What the outside decides during one call of a service method. -/
structure Faults where
  /-- The `SELECT` of `Repo.GetStream` returns an error other than a missing row. -/
  dbGet : Bool
  /-- The `INSERT` of `Repo.CreateStream` returns an error. -/
  dbCreate : Bool
  /-- The `UPDATE` of `Repo.UpdateStream` returns an error. -/
  dbUpdate : Bool
  /-- The `DELETE` of `Repo.DeleteStream` returns an error. -/
  dbDelete : Bool
  /-- The call `os.RemoveAll` returns an error. -/
  removeAll : Bool
  /-- The HTTP call to the media server that kicks a client returns an error. -/
  kick : Bool
  /-- The method `SRSConfig.configReload` returns an error. -/
  configReload : Bool
  /-- The paths at which a call `os.OpenFile` of `Playlist.Refresh` returns an error. -/
  openFile : List String
  /-- The raw playlists whose task in `Playlist.Refresh` has a call `fmt.Fprintln` return an
  error, each with the number of characters that the live file and the DVR file hold by
  then, of those the task would have written. -/
  fprintln : List (String × Nat × Nat)
  /-- Among the tasks of `Playlist.Refresh` that send an error, taken in the order of
  `plsToParse`, the index (modulo their number) of the one that sends first. -/
  firstQueued : Nat
  deriving DecidableEq, Repr

/-- No statement fails. -/
def Faults.none : Faults :=
  { dbGet := false, dbCreate := false, dbUpdate := false, dbDelete := false,
    removeAll := false, kick := false, configReload := false,
    openFile := [], fprintln := [], firstQueued := 0 }

/-! ## Repository (`internal/srsmgmtrepo/streams.go`)

The table is a list of rows. `First(&stream, id)` is the first row with that primary key,
`Updates` rewrites every row the `WHERE` clause selects and, as the repository contract
says, hands back the persisted row; `Create` refuses a primary key that is already there.
Timestamps are stored as given. -/

/-- The response built from a row by `GetStream` and `UpdateStream`. -/
def Row.toStream (r : Row) : Stream :=
  { StreamID := r.StreamID, App := r.App, Password := r.Password, Status := r.Status,
    HLS := "", RTMPpush := "", SRTpush := "", CreatedAt := r.CreatedAt,
    UpdatedAt := r.UpdatedAt, ClientId := r.ClientId, StartedAt := r.StartedAt,
    StopedAt := r.StopedAt, RTC := r.RTC }

/-- The column values `UpdateStream` writes for a stream. -/
def Stream.toRow (s : Stream) : Row :=
  { StreamID := s.StreamID, CreatedAt := s.CreatedAt, UpdatedAt := s.UpdatedAt, App := s.App,
    Password := s.Password, Status := s.Status, ClientId := s.ClientId,
    StartedAt := s.StartedAt, StopedAt := s.StopedAt, RTC := s.RTC }

/-- The row `First(&stream, id)` finds. -/
def findRow (rows : List Row) (id : UUID) : Option Row :=
  rows.find? (fun r => r.StreamID == id)

/-- Method `Repo.GetStream`. -/
def Repo.GetStream (flt : Faults) (rows : List Row) (streamID : UUID) : Except Error Stream :=
  if flt.dbGet then .error .ErrNotFound
  else match findRow rows streamID with
    | none => .error .ErrNotFound
    | some r => .ok r.toStream

/-- Method `Repo.CreateStream`; `now` is the time gorm writes to `created_at` and
`updated_at`. The response carries no `StartedAt` and no `StopedAt`. -/
def Repo.CreateStream (flt : Faults) (now : Time) (rows : List Row) (s : Stream) :
    Except Error Stream × List Row :=
  if flt.dbCreate || (findRow rows s.StreamID).isSome then (.error .dbError, rows)
  else
    let stream : Row :=
      { StreamID := s.StreamID, CreatedAt := now, UpdatedAt := now, App := s.App,
        Password := s.Password, Status := StreamStatusWaitPublish, ClientId := "",
        StartedAt := none, StopedAt := none, RTC := s.RTC }
    (.ok { StreamID := stream.StreamID, App := stream.App, Password := stream.Password,
           Status := stream.Status, HLS := "", RTMPpush := "", SRTpush := "",
           CreatedAt := stream.CreatedAt, UpdatedAt := stream.UpdatedAt,
           ClientId := stream.ClientId, StartedAt := none, StopedAt := none,
           RTC := stream.RTC },
     rows ++ [stream])

/-- Method `Repo.UpdateStream`. When no row has the key, the scan leaves `updated` at
its zero value. -/
def Repo.UpdateStream (flt : Faults) (rows : List Row) (s : Stream) :
    Except Error Stream × List Row :=
  if flt.dbUpdate then (.error .dbError, rows)
  else
    let rows1 := rows.map (fun r => if r.StreamID == s.StreamID then s.toRow else r)
    match findRow rows1 s.StreamID with
    | some updated => (.ok updated.toStream, rows1)
    | none => (.ok Stream.zero, rows1)

/-- Method `Repo.DeleteStream`. -/
def Repo.DeleteStream (flt : Faults) (rows : List Row) (streamID : UUID) :
    Except Error UUID × List Row :=
  if flt.dbDelete then (.error .dbError, rows)
  else (.ok streamID, rows.filter (fun r => r.StreamID != streamID))

/-! ## Paths and files -/

/-- The elements of a path between its slashes. -/
def splitSlash : List Char → List (List Char)
  | [] => [[]]
  | c :: cs =>
    if c == '/' then [] :: splitSlash cs
    else match splitSlash cs with
      | [] => [[c]]
      | h :: t => (c :: h) :: t

/-- One element of `path.Clean`, on the stack of elements kept so far (latest first). -/
def cleanStep (rooted : Bool) (acc : List (List Char)) (el : List Char) : List (List Char) :=
  if el == [] || el == ['.'] then acc
  else if el == ['.', '.'] then
    match acc with
    | [] => if rooted then [] else [el]
    | top :: rest => if top == ['.', '.'] then el :: acc else rest
  else el :: acc

/-- The elements joined with slashes. -/
def joinSlash : List (List Char) → List Char
  | [] => []
  | [e] => e
  | e :: f :: es => e ++ '/' :: joinSlash (f :: es)

/-- Go `path.Clean`. -/
def pathClean (p : List Char) : List Char :=
  let rooted := startsWith p ['/']
  let kept := ((splitSlash p).foldl (cleanStep rooted) []).reverse
  let out := (if rooted then ['/'] else []) ++ joinSlash kept
  if out == [] then ['.'] else out

/-- Go `path.Join` of two elements. -/
def pathJoin (a b : String) : String :=
  if a.toList == [] && b.toList == [] then ""
  else if a.toList == [] then String.mk (pathClean b.toList)
  else if b.toList == [] then String.mk (pathClean a.toList)
  else String.mk (pathClean (a.toList ++ '/' :: b.toList))

/-- The path without its trailing slashes. -/
def dropTrailingSlashes (p : List Char) : List Char :=
  (p.reverse.dropWhile (fun c => c == '/')).reverse

/-- Go `path.Base`. -/
def pathBase (p : String) : String :=
  if p.toList == [] then "."
  else
    let q := dropTrailingSlashes p.toList
    if q == [] then "/"
    else String.mk ((q.reverse.takeWhile (fun c => c != '/')).reverse)

/-- The files: path and content. -/
abbrev FS := List (String × String)

/-- Content of the file at a path, `none` when `os.Open` fails. -/
def readFile (fs : FS) (p : String) : Option String :=
  (fs.find? (fun e => e.1 == p)).map (fun e => e.2)

/-- The files after the file at `p` has been given the content `c` (created when absent). -/
def writeFile (fs : FS) (p : String) (c : String) : FS :=
  if fs.any (fun e => e.1 == p) then fs.map (fun e => if e.1 == p then (p, c) else e)
  else fs ++ [(p, c)]

/-! ## Playlists (`pkg/playlist/playlist.go`)

The tasks `Refresh` starts for the tiers write different files: the files they leave are
those they leave when they are run one after the other, and the error that is returned is
the one any of them has sent first. The goroutines of `Create` are run step by step in
`createStep`; the service calls `Create` on files that do not change while it waits. -/

def AllPlaylists : String := ""
def LiveNumChunks : Int := 6

/-- The variable `playlistTypes`. -/
def playlistTypes : List String := ["low.m3u8", "mid.m3u8", "high.m3u8"]

/-- The struct `PLline`. -/
structure PLline where
  Num : Int
  Line : String
  TS : Bool
  deriving DecidableEq, Repr

/-- The struct `PLstruct`. -/
structure PLstruct where
  Header : List PLline
  TS : List PLline
  deriving DecidableEq, Repr

/-- Function `dropCR` of `bufio`: the line without one trailing carriage return. -/
def dropCR (line : List Char) : List Char :=
  match line.reverse with
  | '\r' :: rest => rest.reverse
  | _ => line

/-- Constant `bufio.MaxScanTokenSize`: the size of the largest buffer of a scanner. -/
def maxScanTokenSize : Nat := 64 * 1024

/-- Number of bytes of a character in a Go string (`utf8.RuneLen`). -/
def runeLen (c : Char) : Nat :=
  if c.toNat < 0x80 then 1 else if c.toNat < 0x800 then 2 else if c.toNat < 0x10000 then 3 else 4

/-- The tokens of a `bufio.Scanner` with `bufio.ScanLines` and the default buffer; `cur`
holds the characters of the line being read, latest first, and `n` the number of their
bytes. A line is a token when it fits the largest buffer together with its line feed, or
leaves room in it at the end of the file: when it has less than `maxScanTokenSize` bytes.
At a longer line `Scan` returns false with `ErrTooLong`; `getTSName` does not read
`fScan.Err()`, so its loop ends there as at the end of the file. -/
def scanLinesAux : List Char → List Char → Nat → List String
  | [], cur, _ => if cur == [] then [] else [String.mk (dropCR cur.reverse)]
  | c :: cs, cur, n =>
    if c == '\n' then String.mk (dropCR cur.reverse) :: scanLinesAux cs [] 0
    else if maxScanTokenSize ≤ n + runeLen c then []
    else scanLinesAux cs (c :: cur) (n + runeLen c)

/-- The lines of a file as the scanner of `getTSName` returns them. -/
def scanLines (content : String) : List String :=
  scanLinesAux content.toList [] 0

/-- Expression `EXTINF` of `getTSName`. -/
def reHd (line : String) : Bool :=
  containsChars line.toList "EXTINF".toList

/-- Expression `.+\.ts` of `getTSName`: `.ts` after at least one character. -/
def reTs (line : String) : Bool :=
  containsChars (line.toList.drop 1) ".ts".toList

/-- The loop of `getTSName` over the scanned lines. -/
def getTSNameLoop : List String → Int → Bool → PLstruct → PLstruct
  | [], _, _, pl => pl
  | line :: rest, lineNum, header, pl =>
    let header := if header && reHd line then false else header
    if header then
      getTSNameLoop rest (lineNum + 1) header
        { pl with Header := pl.Header ++ [{ Num := lineNum, Line := line, TS := false }] }
    else
      getTSNameLoop rest (lineNum + 1) false
        { pl with TS := pl.TS ++ [{ Num := lineNum, Line := line, TS := reTs line }] }

/-- Function `getTSName`. -/
def getTSName (fs : FS) (filePath : String) : Except Error PLstruct :=
  match readFile fs filePath with
  | none => .error .osError
  | some content => .ok (getTSNameLoop (scanLines content) 1 true { Header := [], TS := [] })

/-- Class `\d`. -/
def isDigit (c : Char) : Bool := '0' ≤ c && c ≤ '9'

/-- Class `\w`. -/
def isWord (c : Char) : Bool :=
  isDigit c || ('a' ≤ c && c ≤ 'z') || ('A' ≤ c && c ≤ 'Z') || c == '_'

/-- Value of a string of decimal digits. -/
def digitsVal (ds : List Char) : Nat :=
  ds.foldl (fun n c => 10 * n + (c.toNat - 48)) 0

/-- A group `-(\d{k})` at the start of `s`: the digits and what follows them. -/
def dashDigits (k : Nat) (s : List Char) : Option (List Char × List Char) :=
  match s with
  | '-' :: rest =>
    if (rest.take k).length == k && (rest.take k).all isDigit then some (rest.take k, rest.drop k)
    else none
  | _ => none

/-- The six groups of `-(\d{4})-(\d{2})-(\d{2})-(\d{2})-(\d{2})-(\d{2})-` at the start of `s`. -/
def stampGroups (s : List Char) : Option (List (List Char)) :=
  match dashDigits 4 s with
  | none => none
  | some (y, s1) =>
    match dashDigits 2 s1 with
    | none => none
    | some (mo, s2) =>
      match dashDigits 2 s2 with
      | none => none
      | some (d, s3) =>
        match dashDigits 2 s3 with
        | none => none
        | some (h, s4) =>
          match dashDigits 2 s4 with
          | none => none
          | some (mi, s5) =>
            match dashDigits 2 s5 with
            | none => none
            | some (sec, s6) =>
              match s6 with
              | '-' :: _ => some [y, mo, d, h, mi, sec]
              | _ => none

/-- The groups of the leftmost match of
`\w+-(\d{4})-(\d{2})-(\d{2})-(\d{2})-(\d{2})-(\d{2})-`: the match starts at a word
character and its `\w+` ends where the run of word characters ends. -/
def findStamp : List Char → Option (List (List Char))
  | [] => none
  | c :: cs =>
    if isWord c then
      match stampGroups ((c :: cs).dropWhile isWord) with
      | some g => some g
      | none => findStamp cs
    else findStamp cs

/-- Method `Playlist.timeFromTS`. -/
def timeFromTS (env : Env) (TSfilename : String) : Except Error Time :=
  match findStamp TSfilename.toList with
  | some [y, mo, d, h, mi, sec] =>
    match env.civilToTime (digitsVal y) (digitsVal mo) (digitsVal d) (digitsVal h)
        (digitsVal mi) (digitsVal sec) with
    | some t => .ok t
    | none => .error .plInternalError
  | _ => .error .plInternalError

/-- Expression `#EXT-X-DISCONTINUITY` of `Refresh`. -/
def re_h2 (line : String) : Bool :=
  containsChars line.toList "#EXT-X-DISCONTINUITY".toList

/-- First submatch of `EXT-X-MEDIA-SEQUENCE.+?(\d+)`: after the leftmost occurrence of
the literal that has a digit at least one character further, the first run of digits that
starts at least one character after the literal. -/
def findSeq : List Char → Option (List Char)
  | [] => none
  | c :: cs =>
    match stripLit (c :: cs) "EXT-X-MEDIA-SEQUENCE".toList with
    | some rest =>
      if ((rest.drop 1).dropWhile (fun x => !isDigit x)) != [] then
        some (((rest.drop 1).dropWhile (fun x => !isDigit x)).takeWhile isDigit)
      else findSeq cs
    | none => findSeq cs

/-- Largest `int`. -/
def maxInt64 : Int := 2 ^ 63 - 1

/-- Arithmetic of `int`: the result modulo `2^64`, in the signed range. -/
def wrapInt64 (x : Int) : Int := (x + 2 ^ 63) % 2 ^ 64 - 2 ^ 63

/-- Go `strconv.Atoi` on a string of digits, its error dropped: the value, or the largest
`int` when the value is out of range. -/
def atoiDigits (ds : List Char) : Int :=
  if (digitsVal ds : Int) ≤ maxInt64 then (digitsVal ds : Int) else maxInt64

/-- What `fmt.Fprintln(f, line)` appends. -/
def fprintln (content : String) (line : String) : String :=
  content ++ line ++ "\n"

/-- Whether a start time is given and is not the zero time (`startTs != nil && !startTs.IsZero()`). -/
def anchored (startTs : Option Time) : Bool :=
  match startTs with
  | some t => !t.IsZero
  | none => false

/-- Name of the DVR file of a tier: `fmt.Sprintf("%s%d-%s", prefix, startTs.Unix(), pl)`. -/
def dvrName (outputPlaylistPrefix : String) (startTs : Option Time) (pl : String) : String :=
  match startTs with
  | some t => outputPlaylistPrefix ++ toString t.Unix ++ "-" ++ pl
  | none => outputPlaylistPrefix ++ pl

/-- The loop of `Refresh` over the header lines: the sequence number read so far and the
content of the live and of the DVR file. -/
def refreshHeader (dvrOn : Bool) : List PLline → Int → String → String → Int × String × String
  | [], tsCounter, live, dvr => (tsCounter, live, dvr)
  | line :: rest, tsCounter, live, dvr =>
    if re_h2 line.Line then refreshHeader dvrOn rest tsCounter live dvr
    else
      match findSeq line.Line.toList with
      | some ds => refreshHeader dvrOn rest (atoiDigits ds) live dvr
      | none =>
        refreshHeader dvrOn rest tsCounter (fprintln live line.Line)
          (if dvrOn then fprintln dvr line.Line else dvr)

/-- The loop of `Refresh` that adds one to the counter for every segment line. -/
def countTS : List PLline → Int → Int
  | [], tsCounter => tsCounter
  | v :: rest, tsCounter => countTS rest (if v.TS then wrapInt64 (tsCounter + 1) else tsCounter)

/-- The loop of `Refresh` over the lines of the segment part; `n` is `len(plLines.TS)` and
`i` the index of the line at the head. The error, if any, comes with what was written
before it. -/
def refreshSegments (env : Env) (startTs : Option Time) (dvrOn : Bool) (n : Int) :
    List PLline → Int → Bool → String → String → String → Option Error × String × String
  | [], _, _, _, live, dvr => (none, live, dvr)
  | tss :: rest, i, startPlaylist, prevLine, live, dvr =>
    if tss.TS && !startPlaylist then
      match timeFromTS env tss.Line with
      | .error e => (some e, live, dvr)
      | .ok tsTime =>
        if (match startTs with
            | none => true
            | some t => decide (tsTime > t)) then
          let dvr1 := if dvrOn then fprintln dvr prevLine else dvr
          let live1 := if n - i ≤ LiveNumChunks + 2 then fprintln live prevLine else live
          let dvr2 := if dvrOn then fprintln dvr1 tss.Line else dvr1
          let live2 := if n - i ≤ LiveNumChunks * 2 then fprintln live1 tss.Line else live1
          refreshSegments env startTs dvrOn n rest (i + 1) true tss.Line live2 dvr2
        else
          refreshSegments env startTs dvrOn n rest (i + 1) false tss.Line live dvr
    else if !startPlaylist then
      refreshSegments env startTs dvrOn n rest (i + 1) false tss.Line live dvr
    else
      let dvr2 := if dvrOn then fprintln dvr tss.Line else dvr
      let live2 := if n - i ≤ LiveNumChunks * 2 then fprintln live tss.Line else live
      refreshSegments env startTs dvrOn n rest (i + 1) true tss.Line live2 dvr2

/-- The content `Refresh` writes to the live and to the DVR file of one tier, from the
lines of the raw playlist; `now` is the reading of the clock. -/
def refreshContent (env : Env) (now : Time) (startTs : Option Time) (plLines : PLstruct) :
    Option Error × String × String :=
  let dvrOn := anchored startTs
  let (tsCounter0, live0, dvr0) := refreshHeader dvrOn plLines.Header 0 "" ""
  let tsCounter1 := countTS plLines.TS tsCounter0
  let live1 :=
    if wrapInt64 (tsCounter1 - LiveNumChunks) > 0 then
      live0 ++ "#EXT-X-MEDIA-SEQUENCE:" ++ toString (wrapInt64 (tsCounter1 - LiveNumChunks)) ++ "\n"
    else live0
  let live2 :=
    if dvrOn then live1
    else live1 ++ "#EXT-X-PROGRAM-DATE-TIME:" ++ env.formatTime now ++ "\n"
      ++ "#EXT-X-PLAYLIST-TYPE:EVENT" ++ "\n"
  let dvr2 :=
    match startTs with
    | some t =>
      if dvrOn then dvr0 ++ "#EXT-X-PROGRAM-DATE-TIME:" ++ env.formatTime t ++ "\n"
        ++ "#EXT-X-PLAYLIST-TYPE:EVENT" ++ "\n"
      else dvr0
    | none => dvr0
  refreshSegments env startTs dvrOn plLines.TS.length plLines.TS 0 false "" live2 dvr2

/-- The task `Refresh` starts for the tier `pl`, and the error it sends on `errC`. The raw
playlist is read; the live file is opened, which empties it, then with a DVR anchor the DVR
file; the lines are written. When a `Fprintln` fails the task ends with the error of the
write, and the files hold a part of what would have been written. -/
def refreshTier (env : Env) (flt : Faults) (now : Time) (livePath : String)
    (startTs : Option Time) (outputPlaylistPrefix : String) (fs : FS) (pl : String) :
    Option Error × FS :=
  match getTSName fs (pathJoin livePath pl) with
  | .error _ => (some .plIvalidStartTime, fs)
  | .ok plLines =>
    if flt.openFile.contains (pathJoin livePath (outputPlaylistPrefix ++ pl)) then
      (some .osError, fs)
    else if anchored startTs
        && flt.openFile.contains (pathJoin livePath (dvrName outputPlaylistPrefix startTs pl)) then
      (some .osError, writeFile fs (pathJoin livePath (outputPlaylistPrefix ++ pl)) "")
    else
      match refreshContent env now startTs plLines with
      | (err, live, dvr) =>
        match flt.fprintln.lookup pl with
        | some (k, m) =>
          let fs1 := writeFile fs (pathJoin livePath (outputPlaylistPrefix ++ pl))
            (String.mk (live.toList.take k))
          let fs2 :=
            if anchored startTs then
              writeFile fs1 (pathJoin livePath (dvrName outputPlaylistPrefix startTs pl))
                (String.mk (dvr.toList.take m))
            else fs1
          (some .osError, fs2)
        | none =>
          let fs1 := writeFile fs (pathJoin livePath (outputPlaylistPrefix ++ pl)) live
          let fs2 :=
            if anchored startTs then
              writeFile fs1 (pathJoin livePath (dvrName outputPlaylistPrefix startTs pl)) dvr
            else fs1
          (err, fs2)

/-- All the tasks of `Refresh`: the errors they send on `errC`, listed in the order of
`plsToParse`, and the files they leave. The tasks write different files, so the files are
those the tasks leave when they run one after the other. -/
def refreshAll (env : Env) (flt : Faults) (now : Time) (livePath : String)
    (startTs : Option Time) (outputPlaylistPrefix : String) :
    List String → FS → List Error × FS
  | [], fs => ([], fs)
  | pl :: rest, fs =>
    match refreshTier env flt now livePath startTs outputPlaylistPrefix fs pl with
    | (err, fs1) =>
      match refreshAll env flt now livePath startTs outputPlaylistPrefix rest fs1 with
      | (errs, fs2) => (err.toList ++ errs, fs2)

/-- The receive of `Refresh` from the closed channel `errC`: the error that was sent first,
which is the one of any of the tasks that sent one; `none` when no task sent one. -/
def firstQueuedError (k : Nat) (errs : List Error) : Option Error :=
  errs[k % errs.length]?

/-- Method `Playlist.Refresh`. -/
def Playlist.Refresh (env : Env) (flt : Faults) (now : Time) (fs : FS)
    (livePath plType : String) (startTs : Option Time) (outputPlaylistPrefix : String) :
    Option Error × FS :=
  match refreshAll env flt now livePath startTs outputPlaylistPrefix
      (playlistTypes.filter (fun pl => env.regexpMatch plType pl)) fs with
  | (errs, fs1) => (firstQueuedError flt.firstQueued errs, fs1)

/-- A write with `os.O_APPEND|os.O_WRONLY`: `none` when the file does not exist. -/
def appendFile (fs : FS) (p : String) (s : String) : Option FS :=
  match readFile fs p with
  | none => none
  | some c => some (writeFile fs p (c ++ s))

/-- The loop of `Playlist.Stop` over the tiers. -/
def stopLoop (livePath outputPlaylistPrefix : String) (startTs : Option Time) :
    List String → FS → Option Error × FS
  | [], fs => (none, fs)
  | pl :: rest, fs =>
    match appendFile fs (pathJoin livePath (outputPlaylistPrefix ++ pl)) "#EXT-X-ENDLIST\n" with
    | none => (some .osError, fs)
    | some fs1 =>
      if anchored startTs then
        match appendFile fs1 (pathJoin livePath (dvrName outputPlaylistPrefix startTs pl))
            "#EXT-X-ENDLIST\n" with
        | none => (some .osError, fs1)
        | some fs2 => stopLoop livePath outputPlaylistPrefix startTs rest fs2
      else stopLoop livePath outputPlaylistPrefix startTs rest fs1

/-- Method `Playlist.Stop`. -/
def Playlist.Stop (fs : FS) (livePath outputPlaylistPrefix : String) (startTs : Option Time) :
    Option Error × FS :=
  stopLoop livePath outputPlaylistPrefix startTs playlistTypes fs

/-- The capability line `genMasterPlaylist` writes before a playlist name. -/
def streamInf (v : String) : String :=
  if strContains v "low" then
    "#EXT-X-STREAM-INF:BANDWIDTH=1100000,RESOLUTION=852x480,FRAME-RATE=25.000,CODECS=\"avc1.4d0028,mp4a.40.2\",CLOSED-CAPTIONS=NONE\n"
  else if strContains v "mid" then
    "#EXT-X-STREAM-INF:BANDWIDTH=2200000,RESOLUTION=1280x720,FRAME-RATE=25.000,CODECS=\"avc1.4d0028,mp4a.40.2\",CLOSED-CAPTIONS=NONE\n"
  else if strContains v "high" then
    "#EXT-X-STREAM-INF:BANDWIDTH=6500000,RESOLUTION=1920x1080,FRAME-RATE=25.000,CODECS=\"avc1.4d0028,mp4a.40.2\",CLOSED-CAPTIONS=NONE\n"
  else ""

/-- Method `Playlist.genMasterPlaylist`. -/
def genMasterPlaylist (fs : FS) (key : String) (info : List String) (pl : String) :
    Option Error × FS :=
  let buf := info.foldl (fun b v => b ++ streamInf v ++ v ++ "\n") "#EXTM3U\n"
  (none, writeFile fs (pathJoin pl (key ++ ".m3u8")) buf)

/-- Whether the polling task of a tier finds a segment line in the raw playlist. -/
def tierHasSegment (fs : FS) (livePath item : String) : Bool :=
  match getTSName fs (pathJoin livePath item) with
  | .ok plLines => plLines.TS.any (fun ts => ts.TS)
  | .error _ => false

/-- Method `Playlist.Create` as the service model calls it, on files that do not change
while it waits and with no goroutine late: the master playlist is written when every tier
shows a segment, otherwise the wait ends with the timeout. The goroutines, the channels
and the timer of the method are `createStep`. -/
def Playlist.Create (fs : FS) (livePath outputPlaylistPrefix : String)
    (startTs : Option Time) : Option Error × FS :=
  let outputPlaylistPrefix :=
    match startTs with
    | some t => if !t.IsZero then outputPlaylistPrefix ++ toString t.Unix ++ "-"
      else outputPlaylistPrefix
    | none => outputPlaylistPrefix
  if playlistTypes.all (tierHasSegment fs livePath) then
    genMasterPlaylist fs (outputPlaylistPrefix ++ "index")
      (playlistTypes.map (fun item => outputPlaylistPrefix ++ item)) livePath
  else (some .plOperationTimedout, fs)

/-- Where the task that `Playlist.Create` starts for a tier stands. -/
inductive TierTask where
  /-- It reads the raw playlist, at its start and after every tick of `PL_RetryTime`. -/
  | polling
  /-- It has found a segment line and is blocked in the send `plInfoC <- plInfo`. -/
  | sending
  /-- Its value has been received, and it has returned. -/
  | done
  deriving DecidableEq, Repr

/-- Where the goroutine that called `Playlist.Create` stands. -/
inductive CreateMain where
  /-- It has received `received` values and is about to run the next statement: the
  `select` of the loop, or after three values the writing of the master playlist. -/
  | running (received : Nat)
  /-- It is blocked in the `select` of the loop, no case being ready. -/
  | parked (received : Nat)
  /-- It has returned. -/
  | returned (err : Option Error)
  deriving DecidableEq, Repr

/-- The goroutines and channels of one call of `Playlist.Create`. -/
structure CreateState where
  /-- The files. -/
  fs : FS
  /-- The timer of `time.After(PL_WaitTime)` has fired. -/
  fired : Bool
  /-- The value of the timer waits in the channel `tcanel`, which has room for one. -/
  tcanel : Bool
  /-- The tasks of the tiers, in the order of `playlistTypes`. -/
  tasks : List (String × TierTask)
  /-- The calling goroutine. -/
  main : CreateMain
  /-- The call has written the master playlist. -/
  wrote : Bool
  deriving DecidableEq, Repr

/-- What happens next in a call of `Playlist.Create`. -/
inductive CreateEvent where
  /-- The task of a tier reads its raw playlist, at its start or after a tick. -/
  | poll (item : String)
  /-- The calling goroutine runs its next statement; `pick` is the case its `select`
  takes when it is ready (`none` for `tcanel`, the tier of a blocked sender for `plInfoC`). -/
  | run (pick : Option String)
  /-- The timer of `time.After(PL_WaitTime)` fires, 12 seconds after the call. -/
  | timer
  /-- The media server, or anyone else, leaves the files `fs`. -/
  | server (fs : FS)
  deriving DecidableEq, Repr

/-- The call has started its three tasks and is about to run its first `select`. -/
def createInit (fs : FS) : CreateState :=
  { fs := fs, fired := false, tcanel := false,
    tasks := playlistTypes.map (fun item => (item, TierTask.polling)),
    main := .running 0, wrote := false }

/-- The tasks after the one of `item` has moved to `t`. -/
def setTask (tasks : List (String × TierTask)) (item : String) (t : TierTask) :
    List (String × TierTask) :=
  tasks.map (fun e => if e.1 == item then (item, t) else e)

/-- Whether a task is blocked in its send on `plInfoC`. -/
def someSending (tasks : List (String × TierTask)) : Bool :=
  tasks.any (fun e => e.2 == TierTask.sending)

/-- One step of a call of `Playlist.Create`. The channel `plInfoC` has no buffer: a send
completes at once when the calling goroutine is blocked in its `select`, which then goes
on, and blocks otherwise until a `select` takes it. The timer sends without blocking: when
the calling goroutine is blocked in its `select` the `select` takes the value and the call
returns the timeout, otherwise the value waits in `tcanel`. A `select` with several ready
cases takes any of them; with none it blocks. A step that cannot be taken as described
leaves everything as it is. -/
def createStep (livePath outputPlaylistPrefix : String) (startTs : Option Time)
    (s : CreateState) : CreateEvent → CreateState
  | .server fs => { s with fs := fs }
  | .timer =>
    if s.fired then s
    else
      match s.main with
      | .parked _ => { s with fired := true, main := .returned (some .plOperationTimedout) }
      | _ => { s with fired := true, tcanel := true }
  | .poll item =>
    if s.tasks.lookup item == some TierTask.polling && tierHasSegment s.fs livePath item then
      match s.main with
      | .parked n => { s with tasks := setTask s.tasks item .done, main := .running (n + 1) }
      | _ => { s with tasks := setTask s.tasks item .sending }
    else s
  | .run pick =>
    match s.main with
    | .running n =>
      if n < playlistTypes.length then
        if !s.tcanel && !someSending s.tasks then { s with main := .parked n }
        else
          match pick with
          | none =>
            if s.tcanel then
              { s with tcanel := false, main := .returned (some .plOperationTimedout) }
            else s
          | some item =>
            if s.tasks.lookup item == some TierTask.sending then
              { s with tasks := setTask s.tasks item .done, main := .running (n + 1) }
            else s
      else
        let outputPlaylistPrefix :=
          match startTs with
          | some t => if !t.IsZero then outputPlaylistPrefix ++ toString t.Unix ++ "-"
            else outputPlaylistPrefix
          | none => outputPlaylistPrefix
        match genMasterPlaylist s.fs (outputPlaylistPrefix ++ "index")
            (playlistTypes.map (fun item => outputPlaylistPrefix ++ item)) livePath with
        | (err, fs1) => { s with fs := fs1, main := .returned err, wrote := true }
    | _ => s

/-- A call of `Playlist.Create` on the files `fs` after the steps `events`. -/
def createRun (livePath outputPlaylistPrefix : String) (startTs : Option Time) (fs : FS)
    (events : List CreateEvent) : CreateState :=
  events.foldl (createStep livePath outputPlaylistPrefix startTs) (createInit fs)

/-- Class `[a-fA-F0-9]`. -/
def isHex (c : Char) : Bool :=
  isDigit c || ('a' ≤ c && c ≤ 'f') || ('A' ≤ c && c ≤ 'F')

/-- What follows `k` hexadecimal digits at the start of `s`. -/
def hexRun : Nat → List Char → Option (List Char)
  | 0, s => some s
  | _ + 1, [] => none
  | k + 1, c :: cs => if isHex c then hexRun k cs else none

/-- What follows `k` hexadecimal digits and a hyphen at the start of `s`. -/
def hexRunDash (k : Nat) (s : List Char) : Option (List Char) :=
  match hexRun k s with
  | some ('-' :: rest) => some rest
  | _ => none

/-- Whether the expression of `Delete` (8-4-4-4-12 hexadecimal digits) matches at the
start of `s`. -/
def uuidAt (s : List Char) : Bool :=
  match hexRunDash 8 s with
  | none => false
  | some s1 =>
    match hexRunDash 4 s1 with
    | none => false
    | some s2 =>
      match hexRunDash 4 s2 with
      | none => false
      | some s3 =>
        match hexRunDash 4 s3 with
        | none => false
        | some s4 => (hexRun 12 s4).isSome

/-- Whether the expression of `Delete` matches somewhere in `s`. -/
def reUUID : List Char → Bool
  | [] => false
  | c :: cs => uuidAt (c :: cs) || reUUID cs

/-- Method `Playlist.Delete`: when the expression matches the path, `os.RemoveAll` is called
with the path as it was given, and its error is returned. -/
def Playlist.Delete (env : Env) (flt : Faults) (fs : FS) (filePath : String) :
    Option Error × FS :=
  if !reUUID filePath.toList then (some .plInternalError, fs)
  else if flt.removeAll then (some .osError, fs)
  else (none, env.removeAll fs filePath)

/-! ## Media-server client and RTC list (`pkg/srsclient/service.go`, `pkg/srsconfig/srsconfig.go`) -/

/-- Method `SrsClientSet.KickSRSStream` (`pkg/srsclient/httpendpoints.go`): the request to
kick the client is sent to the media server; the first component tells whether the call
returns an error. -/
def SrsClientSet.KickSRSStream (flt : Faults) (kicked : List String) (cid : String) :
    Bool × List String :=
  (flt.kick, kicked ++ [cid])

/-- Method `srsClientService.KickSRSStream`: with an empty id nothing is sent; the error of
the call to the media server is dropped. -/
def KickSRSStream (_flt : Faults) (kicked : List String) (cid : String) :
    Option Error × List String :=
  if cid == "" then (none, kicked)
  else (none, kicked ++ [cid])

/-- Method `SRSConfig.AddRTC`. -/
def AddRTC (streams : List SRSstream) (id pass : String) : List SRSstream :=
  if streams.any (fun x => x.ID == id) then streams
  else streams ++ [{ ID := id, Password := pass }]

/-- Method `SRSConfig.RemoveRTC`: after a removal at index `i` the loop goes on at `i + 1`
of the shortened list, or returns when the reload fails. -/
def RemoveRTC (flt : Faults) (id : String) : List SRSstream → List SRSstream
  | [] => []
  | x :: xs =>
    if x.ID == id then
      if flt.configReload then xs
      else
        match xs with
        | [] => []
        | y :: ys => y :: RemoveRTC flt id ys
    else x :: RemoveRTC flt id xs

/-! ## Service (`internal/srsmgmt/service.go`) -/

/-- Method `addSRSUrls`. -/
def addSRSUrls (cfg : Config) (stream : Stream) : Stream :=
  let streamTS :=
    match stream.StartedAt with
    | some t => if !t.IsZero then toString t.Unix ++ "-" else ""
    | none => ""
  { stream with
    HLS := cfg.HLSAddr ++ "/" ++ stream.App ++ "/" ++ uuidString stream.StreamID ++ "/"
      ++ OutputPlaylistPrefix ++ streamTS ++ "index.m3u8"
    RTMPpush := cfg.RTMPAddr ++ "/" ++ stream.App ++ "/" ++ uuidString stream.StreamID
      ++ "?password=" ++ stream.Password
    SRTpush := cfg.SRTAddr ++ "?streamid=#!::r=" ++ stream.App ++ "/"
      ++ uuidString stream.StreamID ++ ",m=publish,password=" ++ stream.Password }

/-- The directory of a stream: `path.Join(s.cfg.LiveTSPath, stream.StreamID.String())`. -/
def streamDir (env : Env) (id : UUID) : String :=
  pathJoin env.cfg.LiveTSPath (uuidString id)

/-- Method `GetStream`. -/
def GetStream (env : Env) (flt : Faults) (w : World) (st : Stream) : Except Error Stream × World :=
  match Repo.GetStream flt w.repo st.StreamID with
  | .error _ => (.error .ErrNotFound, w)
  | .ok stream => (.ok (addSRSUrls env.cfg stream), w)

/-- The end of `CreateStream`: the URLs and the RTC list. -/
def createFinish (env : Env) (flt : Faults) (w : World) (stream : Stream) :
    Except Error Stream × World :=
  let stream := addSRSUrls env.cfg stream
  if stream.RTC then
    (.ok stream, { w with rtc := AddRTC w.rtc (uuidString stream.StreamID) stream.Password })
  else
    (.ok stream, { w with rtc := RemoveRTC flt (uuidString stream.StreamID) w.rtc })

/-- Method `CreateStream`; `now` is the time of the call. -/
def CreateStream (env : Env) (flt : Faults) (now : Time) (w : World) (newStream : Stream) :
    Except Error Stream × World :=
  let newStream := { newStream with RTC := true }
  match Repo.GetStream flt w.repo newStream.StreamID with
  | .error _ =>
    match Repo.CreateStream flt now w.repo newStream with
    | (.error _, _) => (.error .ErrInternalError, w)
    | (.ok stream, rows) => createFinish env flt { w with repo := rows } stream
  | .ok stream =>
    let stream :=
      { stream with
        Status := StreamStatusWaitPublish, StopedAt := none, StartedAt := none,
        RTC := newStream.RTC, Password := newStream.Password }
    match Repo.UpdateStream flt w.repo stream with
    | (.error _, _) => (.error .ErrInternalError, w)
    | (.ok stream, rows) => createFinish env flt { w with repo := rows } stream

/-- Method `DeleteStream`. -/
def DeleteStream (env : Env) (flt : Faults) (w : World) (streamID : UUID) :
    Except Error UUID × World :=
  match Repo.GetStream flt w.repo streamID with
  | .error _ => (.error .ErrNotFound, w)
  | .ok stream =>
    match KickSRSStream flt w.kicked stream.ClientId with
    | (some _, kicked) => (.error .ErrInternalError, { w with kicked := kicked })
    | (none, kicked) =>
      let w1 := { w with kicked := kicked }
      match Playlist.Delete env flt w1.fs (streamDir env stream.StreamID) with
      | (some _, fs) => (.error .ErrInternalError, { w1 with fs := fs })
      | (none, fs) =>
        let w2 := { w1 with fs := fs, rtc := RemoveRTC flt (uuidString stream.StreamID) w1.rtc }
        match Repo.DeleteStream flt w2.repo stream.StreamID with
        | (.error _, _) => (.error .ErrInternalError, w2)
        | (.ok _, rows) => (.ok streamID, { w2 with repo := rows })

/-- Method `StartStream`; `now` is the time of the call. -/
def StartStream (env : Env) (flt : Faults) (now : Time) (w : World) (streamID : UUID) :
    Except Error Stream × World :=
  match Repo.GetStream flt w.repo streamID with
  | .error _ => (.error .ErrNotFound, w)
  | .ok stream =>
    if stream.Status == StreamStatusStopPublish then (.error .ErrBadStatus, w)
    else if stream.Status == StreamStatusWaitPublish
        || stream.Status == StreamStatusStartRequired then
      let stream := { stream with Status := StreamStatusStartRequired, StartedAt := some now }
      match Repo.UpdateStream flt w.repo stream with
      | (.error _, _) => (.error .ErrInternalError, w)
      | (.ok stream, rows) => (.ok (addSRSUrls env.cfg stream), { w with repo := rows })
    else
      let stream := { stream with StartedAt := some now }
      match Playlist.Refresh env flt now w.fs (streamDir env stream.StreamID) AllPlaylists
          stream.StartedAt OutputPlaylistPrefix with
      | (some err, fs) => (.error err, { w with fs := fs })
      | (none, fs) =>
        match Playlist.Create fs (streamDir env stream.StreamID) OutputPlaylistPrefix
            stream.StartedAt with
        | (_, fs1) =>
          let w1 := { w with fs := fs1 }
          match Repo.UpdateStream flt w1.repo stream with
          | (.error _, _) => (.error .ErrInternalError, w1)
          | (.ok stream, rows) => (.ok (addSRSUrls env.cfg stream), { w1 with repo := rows })

/-- Method `StopStream`; `now` is the time of the call. -/
def StopStream (env : Env) (flt : Faults) (now : Time) (w : World) (streamID : UUID) :
    Except Error Stream × World :=
  match Repo.GetStream flt w.repo streamID with
  | .error _ => (.error .ErrNotFound, w)
  | .ok stream =>
    if stream.Status == StreamStatusStopPublish then (.error .ErrBadStatus, w)
    else
      match KickSRSStream flt w.kicked stream.ClientId with
      | (some err, kicked) => (.error err, { w with kicked := kicked })
      | (none, kicked) =>
        let w1 := { w with kicked := kicked }
        match Playlist.Stop w1.fs (streamDir env stream.StreamID) OutputPlaylistPrefix
            stream.StartedAt with
        | (some _, fs) => (.error .ErrBadStatus, { w1 with fs := fs })
        | (none, fs) =>
          let w2 := { w1 with fs := fs }
          let stream :=
            { stream with
              Status := StreamStatusStopPublish, ClientId := "", StopedAt := some now,
              RTC := false }
          match Repo.UpdateStream flt w2.repo stream with
          | (.error _, _) => (.error .ErrInternalError, w2)
          | (.ok stream, rows) =>
            (.ok (addSRSUrls env.cfg stream),
             { w2 with repo := rows, rtc := RemoveRTC flt (uuidString stream.StreamID) w2.rtc })

/-- The `switch st.Action` of `UpdateSRSStream`, for the stream read from the repository. -/
def updateSRSAction (flt : Faults) (w : World) (st : SRSStream) (stream : Stream) :
    (Int × Option Error) × World :=
  if st.Action == "on_publish" then
    if stream.Status == StreamStatusStartRequired || stream.Status == StreamStatusWaitPublish
        || stream.Status == StreamStatusError then
      let published := { stream with Status := StreamStatusPublish, ClientId := st.ClientID }
      let dvr := if stream.Status == StreamStatusStartRequired then [Task.createDVR published]
        else []
      ((SRSok, none),
       { w with
         repo := (Repo.UpdateStream flt w.repo published).2
         spawned := w.spawned ++ dvr ++ [Task.createLive published] })
    else if stream.Status == StreamStatusPause || stream.Status == StreamStatusPublish then
      let stream := { stream with Status := StreamStatusPublish, ClientId := st.ClientID }
      match Repo.UpdateStream flt w.repo stream with
      | (.error err, _) => ((SRSfail, some err), w)
      | (.ok _, rows) => ((SRSok, none), { w with repo := rows })
    else ((SRSfail, some .ErrBadRequest), w)
  else if st.Action == "on_unpublish" then
    if stream.Status == StreamStatusPublish then
      let stream := { stream with Status := StreamStatusPause, ClientId := "" }
      match Repo.UpdateStream flt w.repo stream with
      | (.error err, _) => ((SRSfail, some err), w)
      | (.ok _, rows) => ((SRSok, none), { w with repo := rows })
    else ((SRSok, none), w)
  else ((SRSfail, some .ErrBadRequest), w)

/-- Method `UpdateSRSStream`. -/
def UpdateSRSStream (env : Env) (flt : Faults) (w : World) (st : SRSStream) :
    (Int × Option Error) × World :=
  if strContains st.Param "upstream=rtc" then ((SRSok, none), w)
  else if st.App != "live" then ((SRSfail, some .ErrBadRequest), w)
  else
    match env.uuidFromString st.StreamID with
    | none => ((SRSfail, some .ErrNotFound), w)
    | some streamUuid =>
      match findPassword st.Param with
      | none => ((SRSfail, some .ErrBadRequest), w)
      | some pass =>
        match Repo.GetStream flt w.repo streamUuid with
        | .error _ => ((SRSfail, some .ErrNotFound), w)
        | .ok stream =>
          if stream.Password != pass then ((SRSfail, some .ErrUnauthorized), w)
          else updateSRSAction flt w st stream

/-- Method `UpdateHlsSRS`; `now` is the time of the call. -/
def UpdateHlsSRS (env : Env) (flt : Faults) (now : Time) (w : World) (st : SRSStream) :
    (Int × Option Error) × World :=
  if strContains st.Param "upstream=rtc" then ((SRSok, none), w)
  else
    match env.uuidFromString st.StreamID with
    | none => ((SRSfail, some .ErrNotFound), w)
    | some streamUuid =>
      match Repo.GetStream flt w.repo streamUuid with
      | .error _ => ((SRSfail, some .ErrNotFound), w)
      | .ok stream =>
        let plName := pathBase st.M3U8
        match (if stream.Status != StreamStatusStopPublish then
            Playlist.Refresh env flt now w.fs (streamDir env stream.StreamID) plName
              stream.StartedAt OutputPlaylistPrefix
          else (none, w.fs)) with
        | (some err, fs) => ((0, some err), { w with fs := fs })
        | (none, fs) =>
          if stream.Status == StreamStatusStartRequired then
            ((0, none), { w with fs := fs, spawned := w.spawned ++ [Task.hlsPublish stream] })
          else ((0, none), { w with fs := fs })

/-! ## Goroutines and sequences of operations -/

/-- The failure branch of the goroutines of `UpdateSRSStream`: status `Error` is written and
the client is kicked. -/
def createFailed (flt : Faults) (w : World) (stream : Stream) : World :=
  { w with
    repo := (Repo.UpdateStream flt w.repo { stream with Status := StreamStatusError }).2
    kicked := (KickSRSStream flt w.kicked stream.ClientId).2 }

/-- A goroutine runs to its end. -/
def runTask (env : Env) (flt : Faults) (w : World) : Task → World
  | .createDVR stream =>
    match Playlist.Create w.fs (streamDir env stream.StreamID) OutputPlaylistPrefix
        stream.StartedAt with
    | (some _, fs) => createFailed flt { w with fs := fs } stream
    | (none, fs) => { w with fs := fs }
  | .createLive stream =>
    match Playlist.Create w.fs (streamDir env stream.StreamID) OutputPlaylistPrefix none with
    | (some _, fs) => createFailed flt { w with fs := fs } stream
    | (none, fs) => { w with fs := fs }
  | .hlsPublish stream =>
    let stream := { stream with Status := StreamStatusPublish }
    let w1 := { w with repo := (Repo.UpdateStream flt w.repo stream).2 }
    match Playlist.Create w1.fs (streamDir env stream.StreamID) OutputPlaylistPrefix
        stream.StartedAt with
    | (some _, fs) =>
      { w1 with
        fs := fs
        repo := (Repo.UpdateStream flt w1.repo { stream with Status := StreamStatusError }).2 }
    | (none, fs) => { w1 with fs := fs }

/-- One step of the system: a call of a service method, the run of a started goroutine,
or the media server writing files. -/
inductive Op where
  | create (flt : Faults) (now : Time) (newStream : Stream)
  | start (flt : Faults) (now : Time) (streamID : UUID)
  | stop (flt : Faults) (now : Time) (streamID : UUID)
  | delete (flt : Faults) (streamID : UUID)
  /-- A webhook event handled by `UpdateSRSStream` (`on_publish`, `on_unpublish`). -/
  | srs (flt : Faults) (st : SRSStream)
  /-- A segment-written notification handled by `UpdateHlsSRS`. -/
  | hls (flt : Faults) (now : Time) (st : SRSStream)
  /-- The goroutine at place `k` of the started ones runs to its end. -/
  | goroutine (flt : Faults) (k : Nat)
  /-- The media server leaves the files as `fs`. -/
  | mediaServer (fs : FS)

/-- The world after one step. -/
def applyOp (env : Env) (w : World) : Op → World
  | .create flt now newStream => (CreateStream env flt now w newStream).2
  | .start flt now streamID => (StartStream env flt now w streamID).2
  | .stop flt now streamID => (StopStream env flt now w streamID).2
  | .delete flt streamID => (DeleteStream env flt w streamID).2
  | .srs flt st => (UpdateSRSStream env flt w st).2
  | .hls flt now st => (UpdateHlsSRS env flt now w st).2
  | .goroutine flt k =>
    match w.spawned.get? k with
    | some task => runTask env flt { w with spawned := w.spawned.eraseIdx k } task
    | none => w
  | .mediaServer fs => { w with fs := fs }

/-- The world after a sequence of steps. -/
def runOps (env : Env) (w : World) (ops : List Op) : World :=
  ops.foldl (applyOp env) w

/-- The client ids a step may store with status `Publish` satisfy `ok`: the one of an
`on_publish` event, and the one read by a segment-written notification whose goroutine
runs. -/
def opClients (ok : String → Prop) (w : World) : Op → Prop
  | .srs _ st => st.Action = "on_publish" → ok st.ClientID
  | .goroutine _ k => ∀ stream, w.spawned.get? k = some (Task.hlsPublish stream) →
      ok stream.ClientId
  | _ => True

/-- Every step of a sequence run from `w` satisfies `opClients`. -/
def runClients (ok : String → Prop) (env : Env) : World → List Op → Prop
  | _, [] => True
  | w, op :: ops => opClients ok w op ∧ runClients ok env (applyOp env w op) ops

/-- A property of rows that every write of the service establishes or keeps: it holds of a
waiting row without start time, of every row that is paused, stopped, in error or
required to start, of a published row whose client id satisfies `ok`, and it is kept when
a start time is put on a row that is not waiting. -/
structure RowClosed (P : Row → Prop) (ok : String → Prop) : Prop where
  waiting : ∀ x : Row, x.Status = StreamStatusWaitPublish → x.StartedAt = none → P x
  other : ∀ x : Row, x.Status = StreamStatusPause ∨ x.Status = StreamStatusStopPublish
    ∨ x.Status = StreamStatusError ∨ x.Status = StreamStatusStartRequired → P x
  started : ∀ (r : Row) (t : Time), P r → r.Status ≠ StreamStatusWaitPublish →
    P { r with StartedAt := some t }
  published : ∀ x : Row, x.Status = StreamStatusPublish → ok x.ClientId → P x

/-! ## Words of the playlist claims

Definitions that follow the wording of the claims on `getTSName`, `Refresh` and
`timeFromTS`; the theorems compare them with the definitions taken from the source. -/

/-- The text of lines written one after the other with `fmt.Fprintln`. -/
def linesText : List String → String
  | [] => ""
  | l :: ls => l ++ "\n" ++ linesText ls

/-- Number of bytes of a text in a Go string (`len`). -/
def byteLen (cs : List Char) : Nat := (cs.map runeLen).sum

/-- Lines numbered from `k` on, flagged by `f`. -/
def numbered (f : String → Bool) : Int → List String → List PLline
  | _, [] => []
  | k, l :: ls => { Num := k, Line := l, TS := f l } :: numbered f (k + 1) ls

/-- A discontinuity-marker line. -/
def isDiscontinuity (l : String) : Bool := re_h2 l

/-- A media-sequence line: not a discontinuity marker, and `EXT-X-MEDIA-SEQUENCE` is
followed, at least one character further, by a digit. -/
def isMediaSequence (l : String) : Bool := !re_h2 l && (findSeq l.toList).isSome

/-- The header lines without the discontinuity markers and the media-sequence lines. -/
def copiedHeader (hs : List PLline) : List String :=
  (hs.filter (fun l => !isDiscontinuity l.Line && !isMediaSequence l.Line)).map (fun l => l.Line)

/-- The number of the last media-sequence line of the header, `c` when there is none. -/
def declaredSeq : List PLline → Int → Int
  | [], c => c
  | l :: ls, c =>
    if isMediaSequence l.Line then
      match findSeq l.Line.toList with
      | some ds => declaredSeq ls (atoiDigits ds)
      | none => declaredSeq ls c
    else declaredSeq ls c

/-- Number of segment-reference lines. -/
def segmentCount (ts : List PLline) : Nat := (ts.filter (fun l => l.TS)).length

/-- The media-sequence line of the live output for a counter. -/
def seqLine (counter : Int) : String :=
  if counter - LiveNumChunks > 0 then
    "#EXT-X-MEDIA-SEQUENCE:" ++ toString (counter - LiveNumChunks) ++ "\n"
  else ""

/-- The two lines that date a playlist. -/
def dateLines (env : Env) (t : Time) : String :=
  "#EXT-X-PROGRAM-DATE-TIME:" ++ env.formatTime t ++ "\n" ++ "#EXT-X-PLAYLIST-TYPE:EVENT" ++ "\n"

/-- Whether a capture time is after the start time, or no start time is given. -/
def afterAnchor (startTs : Option Time) (tsTime : Time) : Bool :=
  match startTs with
  | none => true
  | some t => decide (tsTime > t)

/-- A line of the segment part that does not start the playlist: it is no segment
reference, or its capture time is read and is not after the start time. -/
def waits (env : Env) (startTs : Option Time) (l : PLline) : Prop :=
  l.TS = false ∨ ∃ t, timeFromTS env l.Line = .ok t ∧ afterAnchor startTs t = false

/-- A line of the segment part that starts the playlist: a segment reference whose
capture time is read and is after the start time. -/
def starts (env : Env) (startTs : Option Time) (l : PLline) : Prop :=
  l.TS = true ∧ ∃ t, timeFromTS env l.Line = .ok t ∧ afterAnchor startTs t = true

/-- The line of the last element of a list, `prev` for the empty list. -/
def lastLine (prev : String) : List PLline → String
  | [] => prev
  | l :: ls => lastLine l.Line ls

/-- The line before the first line of `rest` in `pre ++ rest`, the empty line when `pre`
is empty. -/
def lineBefore (pre : List PLline) : String := lastLine "" pre

/-- The last `k` elements of a list. -/
def lastN {α : Type} (k : Nat) (l : List α) : List α := l.drop (l.length - k)

/-- The counter of `Refresh` once the header and the segment part have been read. -/
def refreshCounter (pl : PLstruct) : Int :=
  countTS pl.TS (declaredSeq pl.Header 0)

/-- What `Refresh` writes to the live file before the lines of the segment part: the copied
header lines, the media-sequence line when the counter less the window is positive and,
without a DVR anchor, the two lines that date the playlist. -/
def livePreamble (env : Env) (now : Time) (startTs : Option Time) (pl : PLstruct) : String :=
  linesText (copiedHeader pl.Header)
    ++ (if wrapInt64 (refreshCounter pl - LiveNumChunks) > 0 then
          "#EXT-X-MEDIA-SEQUENCE:" ++ toString (wrapInt64 (refreshCounter pl - LiveNumChunks))
            ++ "\n"
        else "")
    ++ (if anchored startTs then "" else dateLines env now)

/-- What `Refresh` writes to the DVR file before the lines of the segment part: the copied
header lines and the two lines that date the playlist at the anchor. -/
def dvrPreamble (env : Env) (startTs : Option Time) (pl : PLstruct) : String :=
  match startTs with
  | some t =>
    if anchored startTs then linesText (copiedHeader pl.Header) ++ dateLines env t else ""
  | none => ""

/-- The lines at the places `i`, `i + 1`, and so on, that are among the last
`2 * LiveNumChunks` of `n` places. -/
def liveTail (n : Int) : Int → List PLline → List String
  | _, [] => []
  | i, t :: ts =>
    (if n - i ≤ LiveNumChunks * 2 then [t.Line] else []) ++ liveTail n (i + 1) ts

/-- The text `-YYYY-MM-DD-hh-mm-ss-` of six groups of characters, followed by `rest`. -/
def stampText (y mo d h mi sec rest : List Char) : List Char :=
  '-' :: (y ++ '-' :: (mo ++ '-' :: (d ++ '-' :: (h ++ '-' :: (mi ++ '-' :: (sec ++ '-' :: rest))))))

/-- A group of `k` decimal digits. -/
def digitGroup (k : Nat) (g : List Char) : Prop := g.length = k ∧ ∀ c ∈ g, isDigit c = true

/-- At place `k` of `s` starts a substring of the form
`<word characters>-YYYY-MM-DD-hh-mm-ss-` whose six groups of digits are `g`. -/
def stampAt (s : List Char) (k : Nat) (g : List (List Char)) : Prop :=
  ∃ w y mo d h mi sec rest, g = [y, mo, d, h, mi, sec] ∧ w ≠ [] ∧ (∀ c ∈ w, isWord c = true)
    ∧ digitGroup 4 y ∧ digitGroup 2 mo ∧ digitGroup 2 d ∧ digitGroup 2 h ∧ digitGroup 2 mi
    ∧ digitGroup 2 sec ∧ s.drop k = w ++ stampText y mo d h mi sec rest

/-- The groups `g` are those of the leftmost substring of `s` of the form
`<word characters>-YYYY-MM-DD-hh-mm-ss-`. -/
def leftmostStamp (s : List Char) (g : List (List Char)) : Prop :=
  ∃ k, stampAt s k g ∧ ∀ j, j < k → ∀ g2, ¬ stampAt s j g2

/-- Every segment-reference line of the list follows an EXTINF line; `prev` tells whether
the line before the list is an EXTINF line. -/
def followExtinf : Bool → List PLline → Bool
  | _, [] => true
  | prev, l :: ls => (!l.TS || prev) && followExtinf (reHd l.Line) ls

/-- The files `Playlist.Stop` appends to, in the order of the loop: for every tier the live
playlist and, with a DVR anchor, the DVR playlist. -/
def stopFiles (livePath outputPlaylistPrefix : String) (startTs : Option Time) :
    List String → List String
  | [] => []
  | pl :: rest =>
    pathJoin livePath (outputPlaylistPrefix ++ pl)
      :: ((if anchored startTs then [pathJoin livePath (dvrName outputPlaylistPrefix startTs pl)]
           else [])
          ++ stopFiles livePath outputPlaylistPrefix startTs rest)

/-- The content of the file `q` after the line `s` has been appended to the files `paths`,
one after the other. -/
def appendedTo (s q : String) (paths : List String) (c : Option String) : Option String :=
  paths.foldl (fun c p => if q = p then c.map (fun x => x ++ s) else c) c

/-- The prefix `Playlist.Create` gives to the names it writes: with a DVR anchor the Unix
time of the anchor and a hyphen follow the prefix it was called with. -/
def createPrefix (outputPlaylistPrefix : String) (startTs : Option Time) : String :=
  match startTs with
  | some t => if !t.IsZero then outputPlaylistPrefix ++ toString t.Unix ++ "-"
    else outputPlaylistPrefix
  | none => outputPlaylistPrefix

/-- A group of `k` hexadecimal digits. -/
def hexGroup (k : Nat) (g : List Char) : Prop := g.length = k ∧ ∀ c ∈ g, isHex c = true

/-- A text shaped like a stream identifier: 8, 4, 4, 4 and 12 hexadecimal digits with
hyphens between the groups. -/
def uuidShaped (u : List Char) : Prop :=
  ∃ a b c d e, u = a ++ '-' :: (b ++ '-' :: (c ++ '-' :: (d ++ '-' :: e)))
    ∧ hexGroup 8 a ∧ hexGroup 4 b ∧ hexGroup 4 c ∧ hexGroup 4 d ∧ hexGroup 12 e

/-- The text has a substring shaped like a stream identifier. -/
def hasUuid (s : List Char) : Prop :=
  ∃ pre u post, s = pre ++ (u ++ post) ∧ uuidShaped u

/-- The steps of a call during which the files do not change and nothing is late: every
task reads its raw playlist once, the calling goroutine runs after each, then the timer
fires. -/
def createQuiet : List CreateEvent :=
  [.run none, .poll "low.m3u8", .run none, .poll "mid.m3u8", .run none, .poll "high.m3u8",
   .run none, .run none, .timer]

/-- Number of tasks whose value has been received. -/
def doneCount (tasks : List (String × TierTask)) : Nat :=
  (tasks.filter (fun e => e.2 == TierTask.done)).length

/-- The files as the last `server` step left them. -/
def serverFiles (fs : FS) (events : List CreateEvent) : FS :=
  events.foldl (fun cur e => match e with | .server f => f | _ => cur) fs

/-- What holds of the calling goroutine of `Playlist.Create`: it has received as many
values as there are tasks that have returned; it is blocked only before the timer fires,
with fewer than three values and no task blocked in its send; it returns without error
only with three values, having written the master playlist, and with an error only the
timeout, having written nothing. -/
def mainInv (tasks : List (String × TierTask)) (fired tcanel wrote : Bool) :
    CreateMain → Prop
  | .running n => doneCount tasks = n ∧ wrote = false ∧ (fired = true → tcanel = true)
  | .parked n => doneCount tasks = n ∧ n < 3 ∧ someSending tasks = false
      ∧ fired = false ∧ wrote = false
  | .returned none => doneCount tasks = 3 ∧ wrote = true
  | .returned (some e) => e = Error.plOperationTimedout ∧ wrote = false ∧ fired = true
      ∧ doneCount tasks < 3

/-- What holds of a call of `Playlist.Create` after any steps. -/
def CreateInv (s : CreateState) : Prop :=
  s.tasks.map (fun e => e.1) = playlistTypes
  ∧ (s.tcanel = true → s.fired = true)
  ∧ mainInv s.tasks s.fired s.tcanel s.wrote s.main

/-! ## A concrete environment and world, for evaluation -/

/-- Value of a hexadecimal digit. -/
def hexVal (c : Char) : Option Nat :=
  if isDigit c then some (c.toNat - 48)
  else if 'a' ≤ c && c ≤ 'f' then some (c.toNat - 87)
  else if 'A' ≤ c && c ≤ 'F' then some (c.toNat - 55)
  else none

/-- Value of a string in the canonical form of a UUID: hyphens at the four places of the
form, hexadecimal digits elsewhere, 36 characters. -/
def uuidFromCanonical (s : String) : Option UUID :=
  if s.toList.length == 36 && uuidAt s.toList then
    some (Fin.ofNat ((s.toList.filterMap hexVal).foldl (fun n d => 16 * n + d) 0))
  else none

/-- Whether a year of the Gregorian calendar is a leap year. -/
def isLeapYear (y : Nat) : Bool :=
  (y % 4 == 0 && y % 100 != 0) || y % 400 == 0

/-- Number of days of a month. -/
def daysInMonth (y m : Nat) : Nat :=
  if m == 2 then (if isLeapYear y then 29 else 28)
  else if m == 4 || m == 6 || m == 9 || m == 11 then 30
  else 31

/-- Days from 1 January 1970 to a date of the Gregorian calendar. -/
def daysFromCivil (y m d : Nat) : Int :=
  let y1 : Int := if m ≤ 2 then (y : Int) - 1 else y
  let era : Int := y1 / 400
  let yoe : Int := y1 - era * 400
  let mp : Int := if m ≤ 2 then (m : Int) + 9 else (m : Int) - 3
  let doy : Int := (153 * mp + 2) / 5 + d - 1
  let doe : Int := yoe * 365 + yoe / 4 - yoe / 100 + doy
  era * 146097 + doe - 719468

/-- The instant of a civil date and time in Moscow, three hours ahead of UTC (the offset
in force since 26 October 2014); `none` when a field is out of range. -/
def moscowCivilToTime (y mo d h mi sec : Nat) : Option Time :=
  if 1 ≤ mo && mo ≤ 12 && 1 ≤ d && d ≤ daysInMonth y mo && h < 24 && mi < 60 && sec < 60 then
    some ((daysFromCivil y mo d * 86400 + h * 3600 + mi * 60 + sec - 10800) * 1000000000)
  else none

/-- The removal of a path on files that are named by their clean paths: the file whose name
is the clean form of the path (`path.Clean`) and the files whose names continue it after a
slash are removed. -/
def lexicalRemoveAll (fs : FS) (p : String) : FS :=
  fs.filter (fun e =>
    !(e.1.toList == pathClean p.toList
      || startsWith e.1.toList (pathClean p.toList ++ ['/'])))

/-- An environment for evaluation: the canonical form is the only form of identifier read,
a pattern matches where it occurs as it is written, a time is printed as its number of
seconds, civil times are Moscow times at three hours ahead of UTC, and files are named by
their clean paths. -/
def demoEnv : Env :=
  { cfg := { HLSAddr := "http://hls", RTMPAddr := "rtmp://srs", SRTAddr := "srt://srs",
             LiveTSPath := "/tmp" }
    uuidFromString := uuidFromCanonical
    regexpMatch := fun pattern text => strContains text pattern
    formatTime := fun t => toString t.Unix
    civilToTime := moscowCivilToTime
    removeAll := lexicalRemoveAll }

/-- A stored stream with the identifier and the password of the test in `http_test.go`. -/
def demoRow (status : Int) : Row :=
  { StreamID := 0x00000000111100000000000000000000, CreatedAt := 1000, UpdatedAt := 1000,
    App := "live", Password := "123", Status := status, ClientId := "",
    StartedAt := none, StopedAt := none, RTC := true }

/-- A world whose table holds `demoRow status` and nothing else. -/
def demoWorld (status : Int) : World :=
  { repo := [demoRow status], fs := [], rtc := [], kicked := [], spawned := [] }

/-- A webhook event for the stream of `demoRow`. -/
def demoEvent (action param : String) : SRSStream :=
  { Action := action, ClientID := "c7", App := "live",
    StreamID := "00000000-1111-0000-0000-000000000000", Param := param, M3U8 := "" }

/-- A world with no stream, no file and no RTC entry. -/
def emptyWorld : World :=
  { repo := [], fs := [], rtc := [], kicked := [], spawned := [] }

/-- The world of `demoWorld status` once the media server published: the live playlist of
every tier is in the directory of the stream. -/
def liveWorld (status : Int) : World :=
  { demoWorld status with
    fs := [("/tmp/00000000-1111-0000-0000-000000000000/master-low.m3u8", "#EXTM3U\n"),
           ("/tmp/00000000-1111-0000-0000-000000000000/master-mid.m3u8", "#EXTM3U\n"),
           ("/tmp/00000000-1111-0000-0000-000000000000/master-high.m3u8", "#EXTM3U\n")] }

/-- The world of `demoWorld status` with the raw playlist of every tier, written by the
media server, each holding one segment captured on 4 November 2026 at noon in Moscow. -/
def rawWorld (status : Int) : World :=
  { demoWorld status with
    fs := [("/tmp/00000000-1111-0000-0000-000000000000/low.m3u8",
            "#EXTM3U\n#EXT-X-MEDIA-SEQUENCE:0\n#EXTINF:2.0,\nlow-2026-11-04-12-00-00-0.ts\n"),
           ("/tmp/00000000-1111-0000-0000-000000000000/mid.m3u8",
            "#EXTM3U\n#EXT-X-MEDIA-SEQUENCE:0\n#EXTINF:2.0,\nmid-2026-11-04-12-00-00-0.ts\n"),
           ("/tmp/00000000-1111-0000-0000-000000000000/high.m3u8",
            "#EXTM3U\n#EXT-X-MEDIA-SEQUENCE:0\n#EXTINF:2.0,\nhigh-2026-11-04-12-00-00-0.ts\n")] }

/-- The stream an `Except` holds, the zero stream for an error. -/
def okStream (e : Except Error Stream) : Stream :=
  match e with
  | .ok s => s
  | .error _ => Stream.zero

/-- The two lines of segment `k` of a raw playlist of the low tier: the segment is captured
at second `k` of noon, 4 November 2026, Moscow time. -/
def demoSegment (k : Nat) : List String :=
  ["#EXTINF:2.0,",
   "low-2026-11-04-12-00-" ++ (if k < 10 then "0" else "") ++ toString k ++ "-" ++ toString k
     ++ ".ts"]

/-- A raw playlist of the low tier that declares the sequence number `seq` and lists the
segments 0 to `k - 1`. -/
def demoPlaylist (seq k : Nat) : String :=
  linesText (["#EXTM3U", "#EXT-X-VERSION:3", "#EXT-X-MEDIA-SEQUENCE:" ++ toString seq,
      "#EXT-X-TARGETDURATION:2"]
    ++ ((List.range k).map demoSegment).flatten)

/-- The files of a stream directory that holds one raw playlist of the low tier. -/
def lowFiles (content : String) : FS :=
  [("/tmp/00000000-1111-0000-0000-000000000000/low.m3u8", content)]

/-- The live playlist of the low tier after `Refresh` has run on `lowFiles content`. -/
def refreshedLive (now : Time) (startTs : Option Time) (content : String) : Option String :=
  readFile (Playlist.Refresh demoEnv Faults.none now (lowFiles content)
      "/tmp/00000000-1111-0000-0000-000000000000" "low.m3u8" startTs OutputPlaylistPrefix).2
    "/tmp/00000000-1111-0000-0000-000000000000/master-low.m3u8"

/-- The DVR playlist of the low tier after `Refresh` has run on `lowFiles content` with a
start time within the first second of 1970. -/
def refreshedDvr (now : Time) (startTs : Option Time) (content : String) : Option String :=
  readFile (Playlist.Refresh demoEnv Faults.none now (lowFiles content)
      "/tmp/00000000-1111-0000-0000-000000000000" "low.m3u8" startTs OutputPlaylistPrefix).2
    "/tmp/00000000-1111-0000-0000-000000000000/master-0-low.m3u8"

/-- A valid calendar date and time of day: the month from 1 to 12, the day from 1 to the
number of days of the month, the hour below 24, the minute and the second below 60. -/
def validCivil (y mo d h mi sec : Nat) : Prop :=
  1 ≤ mo ∧ mo ≤ 12 ∧ 1 ≤ d ∧ d ≤ daysInMonth y mo ∧ h < 24 ∧ mi < 60 ∧ sec < 60

/-! ## Lemmas on the repository -/

theorem findRow_cons (r : Row) (rows : List Row) (id : UUID) :
    findRow (r :: rows) id = if r.StreamID = id then some r else findRow rows id := by
  unfold findRow
  by_cases h : r.StreamID = id <;> simp [List.find?_cons, h]

theorem findRow_some_id {rows : List Row} {id : UUID} {r : Row}
    (h : findRow rows id = some r) : r.StreamID = id := by
  have := List.find?_some h
  simpa using this

theorem findRow_update (rows : List Row) (id : UUID) (x : Row) (hx : x.StreamID = id) :
    findRow (rows.map (fun r => if r.StreamID == id then x else r)) id
      = if (findRow rows id).isSome then some x else none := by
  induction rows with
  | nil => simp [findRow]
  | cons r rows ih =>
    by_cases h : r.StreamID = id
    · simp [findRow_cons, h, hx]
    · simp only [List.map_cons, findRow_cons, h, if_false, beq_iff_eq]
      simpa using ih

theorem findRow_append_new (rows : List Row) (id : UUID) (x : Row) (hx : x.StreamID = id)
    (h : findRow rows id = none) : findRow (rows ++ [x]) id = some x := by
  induction rows with
  | nil => simp [findRow_cons, hx]
  | cons r rows ih =>
    by_cases hr : r.StreamID = id
    · simp [findRow_cons, hr] at h
    · simp only [findRow_cons, hr, if_false] at h
      simp only [List.cons_append, findRow_cons, hr, if_false]
      exact ih h

theorem findRow_delete (rows : List Row) (id : UUID) :
    findRow (rows.filter (fun r => r.StreamID != id)) id = none := by
  induction rows with
  | nil => simp [findRow]
  | cons r rows ih =>
    by_cases h : r.StreamID = id
    · simp [List.filter_cons, h, ih]
    · simp [List.filter_cons, h, findRow_cons, ih]

theorem repo_get_ok (flt : Faults) (rows : List Row) (id : UUID) (r : Row)
    (hf : flt.dbGet = false) (h : findRow rows id = some r) :
    Repo.GetStream flt rows id = .ok r.toStream := by
  simp [Repo.GetStream, hf, h]

theorem repo_get_ok_inv {flt : Faults} {rows : List Row} {id : UUID} {s : Stream}
    (h : Repo.GetStream flt rows id = .ok s) :
    flt.dbGet = false ∧ ∃ r, findRow rows id = some r ∧ s = r.toStream := by
  unfold Repo.GetStream at h
  by_cases hf : flt.dbGet = true
  · simp [hf] at h
  · cases hr : findRow rows id with
    | none => simp [hf, hr] at h
    | some r =>
      simp only [hf, hr] at h
      refine ⟨by simpa using hf, r, rfl, ?_⟩
      simpa using h.symm

theorem repo_update_ok (flt : Faults) (rows : List Row) (s : Stream) (r : Row)
    (hf : flt.dbUpdate = false) (h : findRow rows s.StreamID = some r) :
    Repo.UpdateStream flt rows s
      = (.ok s.toRow.toStream,
         rows.map (fun x => if x.StreamID == s.StreamID then s.toRow else x)) := by
  have hu := findRow_update rows s.StreamID s.toRow rfl
  simp only [h, Option.isSome_some, if_true] at hu
  simp only [Repo.UpdateStream, hf, hu]
  simp

theorem map_update_idem (rows : List Row) (id : UUID) (x : Row) (hx : x.StreamID = id) :
    (rows.map (fun r => if r.StreamID == id then x else r)).map
        (fun r => if r.StreamID == id then x else r)
      = rows.map (fun r => if r.StreamID == id then x else r) := by
  rw [List.map_map]
  apply List.map_congr_left
  intro r _
  by_cases h : r.StreamID = id <;> simp [h, hx]

/-- An event that passes the checks of `UpdateSRSStream` reaches the `switch` on its action. -/
theorem update_srs_authorized (env : Env) (flt : Faults) (w : World) (st : SRSStream) (r : Row)
    (hdb : flt.dbGet = false)
    (happ : st.App = "live")
    (hrtc : strContains st.Param "upstream=rtc" = false)
    (hid : env.uuidFromString st.StreamID = some r.StreamID)
    (hrow : findRow w.repo r.StreamID = some r)
    (hpass : findPassword st.Param = some r.Password) :
    UpdateSRSStream env flt w st = updateSRSAction flt w st r.toStream := by
  simp [UpdateSRSStream, hrtc, happ, hid, hpass,
    repo_get_ok flt w.repo r.StreamID r hdb hrow, Row.toStream]

/-- The row a handler writes when it changes status and client of the stream it read. -/
theorem update_status_client (flt : Faults) (rows : List Row) (r : Row) (status : Int)
    (client : String) (hup : flt.dbUpdate = false)
    (hrow : findRow rows r.StreamID = some r) :
    Repo.UpdateStream flt rows { r.toStream with Status := status, ClientId := client }
      = (.ok ({ r with Status := status, ClientId := client } : Row).toStream,
         rows.map (fun x => if x.StreamID == r.StreamID
           then { r with Status := status, ClientId := client } else x)) := by
  have h := repo_update_ok flt rows { r.toStream with Status := status, ClientId := client } r
    hup (by simpa [Row.toStream] using hrow)
  simpa [Row.toStream, Stream.toRow] using h

/-! ## Lemmas on files -/

theorem readFile_isSome (fs : FS) (p : String) :
    (readFile fs p).isSome = fs.any (fun e => e.1 == p) := by
  induction fs with
  | nil => simp [readFile]
  | cons e fs ih =>
    unfold readFile at ih ⊢
    by_cases h : e.1 = p
    · simp [List.find?_cons, h]
    · have hb : (e.1 == p) = false := by simpa using h
      simp only [List.find?_cons, hb, List.any_cons, Bool.false_or]
      exact ih

theorem readFile_writeFile_keeps (fs : FS) (p q c : String)
    (h : (readFile fs q).isSome = true) : (readFile (writeFile fs p c) q).isSome = true := by
  rw [readFile_isSome] at h ⊢
  unfold writeFile
  by_cases ha : fs.any (fun e => e.1 == p) = true
  · simp only [ha, if_true]
    rw [List.any_eq_true] at h ⊢
    obtain ⟨e, he, heq⟩ := h
    by_cases hp : e.1 = p
    · refine ⟨(p, c), List.mem_map.mpr ⟨e, he, by simp [hp]⟩, ?_⟩
      simpa [hp] using heq
    · exact ⟨e, List.mem_map.mpr ⟨e, he, by simp [hp]⟩, heq⟩
  · simp only [ha]
    simp [List.any_append, h]

theorem appendFile_keeps {fs fs1 : FS} {p s : String} (q : String)
    (ha : appendFile fs p s = some fs1) (h : (readFile fs q).isSome = true) :
    (readFile fs1 q).isSome = true := by
  unfold appendFile at ha
  cases hr : readFile fs p with
  | none => simp [hr] at ha
  | some c =>
    simp only [hr, Option.some.injEq] at ha
    rw [← ha]
    exact readFile_writeFile_keeps fs p q _ h

theorem appendFile_isSome (fs : FS) (p s : String) (h : (readFile fs p).isSome = true) :
    ∃ fs1, appendFile fs p s = some fs1 := by
  unfold appendFile
  cases hr : readFile fs p with
  | none => simp [hr] at h
  | some c => exact ⟨_, rfl⟩

/-- The loop of `Stop` ends without error when the files it appends to exist. -/
theorem stopLoop_ok (livePath pfx : String) (startTs : Option Time) (tiers : List String) :
    ∀ fs : FS, (∀ pl ∈ tiers, (readFile fs (pathJoin livePath (pfx ++ pl))).isSome = true
        ∧ (anchored startTs = true →
             (readFile fs (pathJoin livePath (dvrName pfx startTs pl))).isSome = true)) →
      (stopLoop livePath pfx startTs tiers fs).1 = none := by
  induction tiers with
  | nil => intro fs _; rfl
  | cons pl rest ih =>
    intro fs h
    obtain ⟨fs1, h1⟩ := appendFile_isSome fs (pathJoin livePath (pfx ++ pl)) "#EXT-X-ENDLIST\n"
      (h pl (List.mem_cons_self _ _)).1
    have keep1 : ∀ q, (readFile fs q).isSome = true → (readFile fs1 q).isSome = true :=
      fun q hq => appendFile_keeps q h1 hq
    unfold stopLoop
    simp only [h1]
    by_cases hanch : anchored startTs = true
    · obtain ⟨fs2, h2⟩ := appendFile_isSome fs1 (pathJoin livePath (dvrName pfx startTs pl))
        "#EXT-X-ENDLIST\n" (keep1 _ ((h pl (List.mem_cons_self _ _)).2 hanch))
      simp only [hanch, if_true, h2]
      apply ih
      intro pl2 hpl2
      have := h pl2 (List.mem_cons_of_mem _ hpl2)
      exact ⟨appendFile_keeps _ h2 (keep1 _ this.1),
        fun ha => appendFile_keeps _ h2 (keep1 _ (this.2 ha))⟩
    · simp only [hanch]
      apply ih
      intro pl2 hpl2
      have := h pl2 (List.mem_cons_of_mem _ hpl2)
      exact ⟨keep1 _ this.1, fun ha => keep1 _ (this.2 ha)⟩

/-- On a stopped stream the `switch` on the action changes nothing. -/
theorem updateSRSAction_stopped (flt : Faults) (w : World) (st : SRSStream) (stream : Stream)
    (hs : stream.Status = StreamStatusStopPublish) :
    (updateSRSAction flt w st stream).2 = w := by
  unfold updateSRSAction
  rw [hs]
  by_cases ha : st.Action = "on_publish"
  · simp [ha, StreamStatusStopPublish, StreamStatusStartRequired, StreamStatusWaitPublish,
      StreamStatusError, StreamStatusPause, StreamStatusPublish]
  · by_cases hb : st.Action = "on_unpublish" <;>
      simp [ha, hb, StreamStatusStopPublish, StreamStatusPublish]

/-! ## The directory of a stream carries its identifier -/

theorem hexDigit_isHex (d : Nat) (h : d < 16) : isHex (hexDigit d) = true := by
  interval_cases d <;> decide

theorem hexDigits_length (k n : Nat) : (hexDigits k n).length = k := by
  induction k generalizing n with
  | zero => rfl
  | succ k ih => simp [hexDigits, ih]

theorem hexDigits_isHex (k n : Nat) : ∀ c ∈ hexDigits k n, isHex c = true := by
  induction k generalizing n with
  | zero => intro c hc; simp [hexDigits] at hc
  | succ k ih =>
    intro c hc
    simp only [hexDigits, List.mem_append, List.mem_singleton] at hc
    rcases hc with hc | hc
    · exact ih _ c hc
    · rw [hc]
      exact hexDigit_isHex _ (Nat.mod_lt _ (by decide))

theorem hexRun_append (l rest : List Char) (m : Nat) (h : ∀ c ∈ l, isHex c = true) :
    hexRun (l.length + m) (l ++ rest) = hexRun m rest := by
  induction l with
  | nil => simp
  | cons c cs ih =>
    have hc : isHex c = true := h c (List.mem_cons_self _ _)
    have hcs : ∀ x ∈ cs, isHex x = true := fun x hx => h x (List.mem_cons_of_mem _ hx)
    have hl : (c :: cs).length + m = (cs.length + m) + 1 := by simp; omega
    rw [hl]
    simp only [List.cons_append, hexRun, hc, if_true]
    exact ih hcs

theorem hexRun_hexDigits (k n : Nat) (rest : List Char) :
    hexRun k (hexDigits k n ++ rest) = some rest := by
  have h := hexRun_append (hexDigits k n) rest 0 (hexDigits_isHex k n)
  rw [hexDigits_length] at h
  simpa [hexRun] using h

theorem hexRunDash_hexDigits (k n : Nat) (rest : List Char) :
    hexRunDash k (hexDigits k n ++ '-' :: rest) = some rest := by
  simp [hexRunDash, hexRun_hexDigits]

theorem uuidAt_uuidChars (u : UUID) : uuidAt (uuidChars u) = true := by
  have h12 := hexRun_hexDigits 12 u.val []
  simp only [List.append_nil] at h12
  simp [uuidAt, uuidChars, List.append_assoc, hexRunDash_hexDigits, h12]

theorem uuidChars_length (u : UUID) : (uuidChars u).length = 36 := by
  simp [uuidChars, hexDigits_length]

theorem isHex_ne_slash (c : Char) (h : isHex c = true) : c ≠ '/' := by
  intro hc
  rw [hc] at h
  revert h
  decide

theorem uuidChars_no_slash (u : UUID) : ∀ c ∈ uuidChars u, c ≠ '/' := by
  intro c hc
  simp only [uuidChars, List.mem_append, List.mem_cons] at hc
  have hd : ('-' : Char) ≠ '/' := by decide
  rcases hc with (((hc | hc | hc) | hc | hc) | hc | hc) | hc | hc
  all_goals first
    | exact isHex_ne_slash c (hexDigits_isHex _ _ c hc)
    | (rw [hc]; exact hd)

theorem reUUID_append (pre u : List Char) (hu : uuidAt u = true) (hne : u ≠ []) :
    reUUID (pre ++ u) = true := by
  induction pre with
  | nil =>
    cases u with
    | nil => exact absurd rfl hne
    | cons c cs => simp [reUUID, hu]
  | cons c cs ih => simp [reUUID, ih]

theorem splitSlash_ne_nil (p : List Char) : splitSlash p ≠ [] := by
  cases p with
  | nil => simp [splitSlash]
  | cons c cs =>
    unfold splitSlash
    by_cases h : c = '/'
    · simp [h]
    · simp only [beq_iff_eq, h, if_false]
      cases splitSlash cs <;> simp

theorem splitSlash_no_slash (u : List Char) (h : ∀ c ∈ u, c ≠ '/') : splitSlash u = [u] := by
  induction u with
  | nil => rfl
  | cons c cs ih =>
    have hc : c ≠ '/' := h c (List.mem_cons_self _ _)
    have hcs := ih (fun x hx => h x (List.mem_cons_of_mem _ hx))
    simp [splitSlash, hc, hcs]

theorem splitSlash_append (a u : List Char) (h : ∀ c ∈ u, c ≠ '/') :
    splitSlash (a ++ '/' :: u) = splitSlash a ++ [u] := by
  induction a with
  | nil => simp [splitSlash, splitSlash_no_slash u h]
  | cons c cs ih =>
    by_cases hc : c = '/'
    · simp [splitSlash, hc, ih]
    · simp only [List.cons_append, splitSlash, beq_iff_eq, hc, if_false, List.append_eq, ih]
      cases hs : splitSlash cs with
      | nil => exact absurd hs (splitSlash_ne_nil cs)
      | cons x xs => simp

theorem joinSlash_append_last (ys : List (List Char)) (u : List Char) :
    ∃ pre, joinSlash (ys ++ [u]) = pre ++ u := by
  induction ys with
  | nil => exact ⟨[], by simp [joinSlash]⟩
  | cons y ys ih =>
    obtain ⟨pre, hpre⟩ := ih
    cases hys : ys ++ [u] with
    | nil => simp at hys
    | cons z zs =>
      refine ⟨y ++ '/' :: pre, ?_⟩
      rw [hys] at hpre
      rw [List.cons_append, hys]
      simp [joinSlash, hpre]

/-- Cleaning a path whose last element is an ordinary name keeps that name at the end. -/
theorem pathClean_ends (p u : List Char) (xs : List (List Char))
    (hsplit : splitSlash p = xs ++ [u]) (hlen : 2 < u.length) :
    ∃ pre, pathClean p = pre ++ u := by
  have h0 : (u == []) = false := by
    cases u with
    | nil => simp at hlen
    | cons c cs => rfl
  have h1 : (u == ['.']) = false := by
    apply beq_eq_false_iff_ne.mpr
    intro h; rw [h] at hlen; simp at hlen
  have h2 : (u == ['.', '.']) = false := by
    apply beq_eq_false_iff_ne.mpr
    intro h; rw [h] at hlen; simp at hlen
  have hune : u ≠ [] := by
    intro h; rw [h] at hlen; simp at hlen
  unfold pathClean
  simp only [hsplit, List.foldl_append, List.foldl_cons, List.foldl_nil]
  generalize List.foldl (cleanStep (startsWith p ['/'])) [] xs = acc
  have hstep : cleanStep (startsWith p ['/']) acc u = u :: acc := by
    simp [cleanStep, h0, h1, h2]
  rw [hstep, List.reverse_cons]
  obtain ⟨pre, hpre⟩ := joinSlash_append_last acc.reverse u
  rw [hpre]
  have hout : ((if startsWith p ['/'] = true then ['/'] else []) ++ (pre ++ u) == [])
      = false := by
    apply beq_eq_false_iff_ne.mpr
    intro h
    have := congrArg List.length h
    simp at this
    exact hune this.2.2
  simp only [hout]
  exact ⟨(if startsWith p ['/'] = true then ['/'] else []) ++ pre, by simp⟩

/-- Joining a directory and an ordinary name gives a path that ends with the name. -/
theorem pathJoin_ends (a : String) (u : List Char) (hns : ∀ c ∈ u, c ≠ '/')
    (hlen : 2 < u.length) : ∃ pre, (pathJoin a (String.mk u)).toList = pre ++ u := by
  have hne : u ≠ [] := by
    intro h; rw [h] at hlen; simp at hlen
  have hb : (u == []) = false := beq_eq_false_iff_ne.mpr hne
  have hbl : ((String.mk u).toList == []) = false := hb
  unfold pathJoin
  rw [hbl]
  by_cases ha : (a.toList == []) = true
  · obtain ⟨pre, hpre⟩ := pathClean_ends u u [] (by simpa using splitSlash_no_slash _ hns) hlen
    refine ⟨pre, ?_⟩
    rw [ha]
    simp only [Bool.and_false, Bool.false_eq_true, if_false, if_true]
    exact hpre
  · obtain ⟨pre, hpre⟩ := pathClean_ends (a.toList ++ '/' :: u) u (splitSlash a.toList)
      (splitSlash_append _ _ hns) hlen
    refine ⟨pre, ?_⟩
    have ha2 : (a.toList == []) = false := by simpa using ha
    rw [ha2]
    simp only [Bool.and_false, Bool.false_eq_true, if_false]
    exact hpre

/-- The expression of `Playlist.Delete` matches the directory of every stream. -/
theorem reUUID_streamDir (env : Env) (id : UUID) :
    reUUID (streamDir env id).toList = true := by
  have hlen : 2 < (uuidChars id).length := by rw [uuidChars_length]; decide
  have hne : uuidChars id ≠ [] := by
    intro h; rw [h] at hlen; simp at hlen
  obtain ⟨pre, hpre⟩ := pathJoin_ends env.cfg.LiveTSPath (uuidChars id)
    (uuidChars_no_slash id) hlen
  unfold streamDir uuidString
  rw [hpre]
  exact reUUID_append pre _ (uuidAt_uuidChars id) hne

/-! ## Webhook credentials and creation -/

/-- C1: an event for a stored stream (application "live", identifier of the stream, no
`upstream=rtc` in the parameters) whose parameters carry `password=X`, `X` being the run
of characters the handler reads after `password=`, with `X` different from the stored
password, is answered with `SRSfail` and `ErrUnauthorized`, and nothing is changed: the
table, the files, the RTC list and the started goroutines are as before. This holds for
every action, `on_publish` included. -/
theorem C1_wrong_password_unauthorized (env : Env) (flt : Faults) (w : World) (st : SRSStream)
    (r : Row) (X : String)
    (hdb : flt.dbGet = false)
    (happ : st.App = "live")
    (hrtc : strContains st.Param "upstream=rtc" = false)
    (hid : env.uuidFromString st.StreamID = some r.StreamID)
    (hrow : findRow w.repo r.StreamID = some r)
    (hpass : findPassword st.Param = some X)
    (hne : X ≠ r.Password) :
    UpdateSRSStream env flt w st = ((SRSfail, some Error.ErrUnauthorized), w) := by
  have hne2 : ¬ r.Password = X := fun h => hne h.symm
  simp [UpdateSRSStream, hrtc, happ, hid, hpass, repo_get_ok flt w.repo r.StreamID r hdb hrow,
    Row.toStream, hne2]

/-- C1 at the request of `TestHTTP`: password "viod" against the stored "123". -/
theorem C1_wrong_password_unauthorized_witness :
    UpdateSRSStream demoEnv Faults.none (demoWorld 1) (demoEvent "on_publish" "?password=viod")
      = ((SRSfail, some Error.ErrUnauthorized), demoWorld 1) :=
  C1_wrong_password_unauthorized demoEnv Faults.none (demoWorld 1)
    (demoEvent "on_publish" "?password=viod") (demoRow 1) "viod"
    (by decide) (by decide) (by decide) (by decide) (by decide) (by decide) (by decide)

/-- C2: when `CreateStream` succeeds, for an identifier that was unknown as for one that was
stored, a `GetStream` for that identifier that reaches the database succeeds and returns
a record with that identifier, status `WaitPublish` and no `StartedAt`. -/
theorem C2_create_then_get (env : Env) (flt flt2 : Faults) (now : Time) (w w1 : World)
    (newStream s st : Stream)
    (hc : CreateStream env flt now w newStream = (.ok s, w1))
    (hst : st.StreamID = newStream.StreamID)
    (hdb : flt2.dbGet = false) :
    ∃ g, GetStream env flt2 w1 st = (.ok g, w1) ∧ g.StreamID = newStream.StreamID
      ∧ g.Status = StreamStatusWaitPublish ∧ g.StartedAt = none := by
  have key : ∃ x : Row, findRow w1.repo newStream.StreamID = some x
      ∧ x.Status = StreamStatusWaitPublish ∧ x.StartedAt = none := by
    unfold CreateStream at hc
    cases hg : Repo.GetStream flt w.repo newStream.StreamID with
    | error e =>
      simp only [hg] at hc
      unfold Repo.CreateStream at hc
      by_cases hf : (flt.dbCreate || (findRow w.repo newStream.StreamID).isSome) = true
      · simp [hf] at hc
      · simp only [hf] at hc
        have hnone : findRow w.repo newStream.StreamID = none := by
          cases hfr : findRow w.repo newStream.StreamID with
          | none => rfl
          | some x => simp [hfr] at hf
        simp only [createFinish, addSRSUrls, if_true, Bool.false_eq_true, if_false] at hc
        have hw := (Prod.mk.inj hc).2
        rw [← hw]
        exact ⟨_, findRow_append_new w.repo newStream.StreamID _ rfl hnone, rfl, rfl⟩
    | ok s0 =>
      obtain ⟨_, r, hr, hs0⟩ := repo_get_ok_inv hg
      have hid := findRow_some_id hr
      subst hs0
      simp only [hg] at hc
      have hu := repo_update_ok flt w.repo
        { r.toStream with Status := StreamStatusWaitPublish, StopedAt := none, StartedAt := none,
                          RTC := true, Password := newStream.Password } r
      by_cases hf : flt.dbUpdate = true
      · simp [Repo.UpdateStream, hf] at hc
      · have hf2 : flt.dbUpdate = false := by simpa using hf
        have hu2 := hu hf2 (by simpa [Row.toStream, hid] using hr)
        simp only [Row.toStream] at hu2 hc
        rw [hu2] at hc
        simp only [createFinish, addSRSUrls, Stream.toRow, Row.toStream, if_true] at hc
        have hw := (Prod.mk.inj hc).2
        rw [← hw]
        have hfu := findRow_update w.repo newStream.StreamID
          { r with Status := StreamStatusWaitPublish, StopedAt := none, StartedAt := none,
                   RTC := true, Password := newStream.Password } hid
        simp only [hr, Option.isSome_some, if_true] at hfu
        refine ⟨{ r with Status := StreamStatusWaitPublish, StopedAt := none,
                          StartedAt := none, RTC := true, Password := newStream.Password },
          ?_, rfl, rfl⟩
        simpa [hid] using hfu
  obtain ⟨x, hx, hxs, hxt⟩ := key
  refine ⟨addSRSUrls env.cfg x.toStream, ?_, ?_, ?_, ?_⟩
  · simp [GetStream, hst, repo_get_ok flt2 w1.repo newStream.StreamID x hdb hx]
  · simpa [addSRSUrls, Row.toStream] using findRow_some_id hx
  · simpa [addSRSUrls, Row.toStream] using hxs
  · simpa [addSRSUrls, Row.toStream] using hxt

/-- C2 on a stream stored with status `StopPublish` and on an empty table. -/
theorem C2_create_then_get_witness :
    (∃ g, GetStream demoEnv Faults.none
        (CreateStream demoEnv Faults.none 77 (demoWorld 4) (demoRow 0).toStream).2
        (demoRow 0).toStream
        = (.ok g, (CreateStream demoEnv Faults.none 77 (demoWorld 4) (demoRow 0).toStream).2)
      ∧ g.StreamID = (demoRow 0).StreamID
      ∧ g.Status = StreamStatusWaitPublish ∧ g.StartedAt = none)
    ∧ (∃ g, GetStream demoEnv Faults.none
        (CreateStream demoEnv Faults.none 77 { demoWorld 4 with repo := [] }
          (demoRow 0).toStream).2
        (demoRow 0).toStream
        = (.ok g,
           (CreateStream demoEnv Faults.none 77 { demoWorld 4 with repo := [] }
              (demoRow 0).toStream).2)
      ∧ g.StreamID = (demoRow 0).StreamID
      ∧ g.Status = StreamStatusWaitPublish ∧ g.StartedAt = none) :=
  ⟨C2_create_then_get demoEnv Faults.none Faults.none 77 (demoWorld 4) _ (demoRow 0).toStream
      (okStream (CreateStream demoEnv Faults.none 77 (demoWorld 4) (demoRow 0).toStream).1)
      (demoRow 0).toStream rfl rfl rfl,
   C2_create_then_get demoEnv Faults.none Faults.none 77 { demoWorld 4 with repo := [] } _
      (demoRow 0).toStream
      (okStream (CreateStream demoEnv Faults.none 77 { demoWorld 4 with repo := [] }
        (demoRow 0).toStream).1)
      (demoRow 0).toStream rfl rfl rfl⟩

/-- C3: when `CreateStream` succeeds for an identifier that is stored, whatever the status,
`StartedAt` and `StopedAt` of the stored row, the row then stored under the identifier is
the former one with status `WaitPublish`, no `StartedAt`, no `StopedAt`, the password of
the request and `RTC` set. -/
theorem C3_reactivate_resets (env : Env) (flt : Faults) (now : Time) (w w1 : World)
    (newStream s : Stream) (r : Row)
    (hrow : findRow w.repo newStream.StreamID = some r)
    (hc : CreateStream env flt now w newStream = (.ok s, w1)) :
    findRow w1.repo newStream.StreamID
      = some { r with Status := StreamStatusWaitPublish, StartedAt := none, StopedAt := none,
                      Password := newStream.Password, RTC := true } := by
  have hid := findRow_some_id hrow
  unfold CreateStream at hc
  cases hg : Repo.GetStream flt w.repo newStream.StreamID with
  | error e =>
    simp only [hg] at hc
    simp [Repo.CreateStream, hrow] at hc
  | ok s0 =>
    obtain ⟨_, r0, hr0, hs0⟩ := repo_get_ok_inv hg
    have hrr : r0 = r := by
      rw [hrow] at hr0
      exact (Option.some.inj hr0).symm
    subst hrr
    subst hs0
    simp only [hg] at hc
    by_cases hf : flt.dbUpdate = true
    · simp [Repo.UpdateStream, hf] at hc
    · have hf2 : flt.dbUpdate = false := by simpa using hf
      have hu2 := repo_update_ok flt w.repo
        { r0.toStream with Status := StreamStatusWaitPublish, StopedAt := none,
                           StartedAt := none, RTC := true, Password := newStream.Password } r0
        hf2 (by simpa [Row.toStream, hid] using hrow)
      simp only [Row.toStream] at hu2 hc
      rw [hu2] at hc
      simp only [createFinish, addSRSUrls, Stream.toRow, Row.toStream, if_true] at hc
      have hw := (Prod.mk.inj hc).2
      rw [← hw]
      have hfu := findRow_update w.repo newStream.StreamID
        { r0 with Status := StreamStatusWaitPublish, StopedAt := none, StartedAt := none,
                  RTC := true, Password := newStream.Password } hid
      simp only [hrow, Option.isSome_some, if_true] at hfu
      simpa [hid] using hfu

/-- C3 on a stream stopped at time 60 after a start at time 50, recreated with password "new". -/
theorem C3_reactivate_resets_witness :
    findRow
      (CreateStream demoEnv Faults.none 77
        { demoWorld 4 with
          repo := [{ demoRow 4 with StartedAt := some 50, StopedAt := some 60, ClientId := "c1" }] }
        { (demoRow 0).toStream with Password := "new" }).2.repo
      (demoRow 0).StreamID
      = some { demoRow 1 with Password := "new", ClientId := "c1" } :=
  C3_reactivate_resets demoEnv Faults.none 77
    { demoWorld 4 with
      repo := [{ demoRow 4 with StartedAt := some 50, StopedAt := some 60, ClientId := "c1" }] }
    _ { (demoRow 0).toStream with Password := "new" }
    (okStream (CreateStream demoEnv Faults.none 77
      { demoWorld 4 with
        repo := [{ demoRow 4 with StartedAt := some 50, StopedAt := some 60, ClientId := "c1" }] }
      { (demoRow 0).toStream with Password := "new" }).1)
    { demoRow 4 with StartedAt := some 50, StopedAt := some 60, ClientId := "c1" }
    rfl rfl

/-! ## Publish and unpublish events -/

/-- C4: for an authorized `on_publish` event (application "live", stored stream, matching
password) handled while the database answers: when the stored status is `WaitPublish`,
`Error`, `StartRequired`, `Pause` or `Publish` the answer is `SRSok` without error and the
stored row becomes the former one with status `Publish` and the client id of the event;
for every other status, `StopPublish` among them, the answer is `SRSfail` with
`ErrBadRequest` and nothing is changed. -/
theorem C4_on_publish_transitions (env : Env) (flt : Faults) (w : World) (st : SRSStream)
    (r : Row)
    (hdb : flt.dbGet = false)
    (hup : flt.dbUpdate = false)
    (hact : st.Action = "on_publish")
    (happ : st.App = "live")
    (hrtc : strContains st.Param "upstream=rtc" = false)
    (hid : env.uuidFromString st.StreamID = some r.StreamID)
    (hrow : findRow w.repo r.StreamID = some r)
    (hpass : findPassword st.Param = some r.Password) :
    ((r.Status = StreamStatusWaitPublish ∨ r.Status = StreamStatusError
        ∨ r.Status = StreamStatusStartRequired ∨ r.Status = StreamStatusPause
        ∨ r.Status = StreamStatusPublish) →
      (UpdateSRSStream env flt w st).1 = (SRSok, none)
      ∧ findRow (UpdateSRSStream env flt w st).2.repo r.StreamID
          = some { r with Status := StreamStatusPublish, ClientId := st.ClientID })
    ∧ (¬ (r.Status = StreamStatusWaitPublish ∨ r.Status = StreamStatusError
        ∨ r.Status = StreamStatusStartRequired ∨ r.Status = StreamStatusPause
        ∨ r.Status = StreamStatusPublish) →
      UpdateSRSStream env flt w st = ((SRSfail, some Error.ErrBadRequest), w)) := by
  rw [update_srs_authorized env flt w st r hdb happ hrtc hid hrow hpass]
  have hu := update_status_client flt w.repo r StreamStatusPublish st.ClientID hup hrow
  have hfu := findRow_update w.repo r.StreamID
    { r with Status := StreamStatusPublish, ClientId := st.ClientID } rfl
  simp only [hrow, Option.isSome_some, if_true] at hfu
  simp only [Row.toStream] at hu
  constructor
  · intro hs
    by_cases h1 : r.Status = StreamStatusStartRequired ∨ r.Status = StreamStatusWaitPublish
        ∨ r.Status = StreamStatusError
    · have hb : (r.Status == StreamStatusStartRequired || r.Status == StreamStatusWaitPublish
          || r.Status == StreamStatusError) = true := by
        simpa [or_assoc, and_assoc] using h1
      simp only [updateSRSAction, hact, Row.toStream, hb, beq_self_eq_true, if_true, hu]
      exact ⟨by trivial, hfu⟩
    · have hb : (r.Status == StreamStatusStartRequired || r.Status == StreamStatusWaitPublish
          || r.Status == StreamStatusError) = false := by
        simpa [or_assoc, and_assoc] using h1
      have h2 : (r.Status == StreamStatusPause || r.Status == StreamStatusPublish) = true := by
        have : r.Status = StreamStatusPause ∨ r.Status = StreamStatusPublish := by tauto
        simpa using this
      simp only [updateSRSAction, hact, Row.toStream, hb, h2, beq_self_eq_true, if_true, hu]
      exact ⟨by trivial, hfu⟩
  · intro hs
    have hb : (r.Status == StreamStatusStartRequired || r.Status == StreamStatusWaitPublish
        || r.Status == StreamStatusError) = false := by
      have : ¬ (r.Status = StreamStatusStartRequired ∨ r.Status = StreamStatusWaitPublish
          ∨ r.Status = StreamStatusError) := by tauto
      simpa [or_assoc, and_assoc] using this
    have h2 : (r.Status == StreamStatusPause || r.Status == StreamStatusPublish) = false := by
      have : ¬ (r.Status = StreamStatusPause ∨ r.Status = StreamStatusPublish) := by tauto
      simpa using this
    simp [updateSRSAction, hact, Row.toStream, hb, h2]

/-- C4 on a stream that waits for its publisher. -/
theorem C4_on_publish_transitions_witness :
    ((demoRow 1).Status = StreamStatusWaitPublish ∨ (demoRow 1).Status = StreamStatusError
        ∨ (demoRow 1).Status = StreamStatusStartRequired
        ∨ (demoRow 1).Status = StreamStatusPause
        ∨ (demoRow 1).Status = StreamStatusPublish) ∧
    (UpdateSRSStream demoEnv Faults.none (demoWorld 1)
        (demoEvent "on_publish" "?password=123")).1 = (SRSok, none)
    ∧ findRow (UpdateSRSStream demoEnv Faults.none (demoWorld 1)
        (demoEvent "on_publish" "?password=123")).2.repo (demoRow 1).StreamID
        = some { demoRow 1 with Status := StreamStatusPublish, ClientId := "c7" } :=
  ⟨by decide,
   (C4_on_publish_transitions demoEnv Faults.none (demoWorld 1)
      (demoEvent "on_publish" "?password=123") (demoRow 1)
      (by decide) (by decide) (by decide) (by decide) (by decide) (by decide) (by decide)
      (by decide)).1 (by decide)⟩

/-- C5: for an authorized `on_unpublish` event: when the stored status is `Publish` and the
database answers, the answer is `SRSok` without error and the stored row becomes the
former one with status `Pause` and an empty client id; for every other status the answer
is `SRSok` without error and nothing is changed. -/
theorem C5_on_unpublish_transitions (env : Env) (flt : Faults) (w : World) (st : SRSStream)
    (r : Row)
    (hdb : flt.dbGet = false)
    (hact : st.Action = "on_unpublish")
    (happ : st.App = "live")
    (hrtc : strContains st.Param "upstream=rtc" = false)
    (hid : env.uuidFromString st.StreamID = some r.StreamID)
    (hrow : findRow w.repo r.StreamID = some r)
    (hpass : findPassword st.Param = some r.Password) :
    (r.Status = StreamStatusPublish → flt.dbUpdate = false →
      (UpdateSRSStream env flt w st).1 = (SRSok, none)
      ∧ findRow (UpdateSRSStream env flt w st).2.repo r.StreamID
          = some { r with Status := StreamStatusPause, ClientId := "" })
    ∧ (r.Status ≠ StreamStatusPublish →
      UpdateSRSStream env flt w st = ((SRSok, none), w)) := by
  rw [update_srs_authorized env flt w st r hdb happ hrtc hid hrow hpass]
  have hne : (st.Action == "on_publish") = false := by simp [hact]
  constructor
  · intro hs hup
    have hu := update_status_client flt w.repo r StreamStatusPause "" hup hrow
    have hfu := findRow_update w.repo r.StreamID
      { r with Status := StreamStatusPause, ClientId := "" } rfl
    simp only [hrow, Option.isSome_some, if_true] at hfu
    simp only [Row.toStream] at hu
    simp only [updateSRSAction, hne, hact, Row.toStream, hs, beq_self_eq_true, if_true, hu]
    exact ⟨by trivial, hfu⟩
  · intro hs
    simp [updateSRSAction, hne, hact, Row.toStream, hs]

/-- C5 on a stream that waits for its publisher: nothing is changed. -/
theorem C5_on_unpublish_transitions_witness :
    (demoRow 1).Status ≠ StreamStatusPublish ∧
    UpdateSRSStream demoEnv Faults.none (demoWorld 1) (demoEvent "on_unpublish" "?password=123")
      = ((SRSok, none), demoWorld 1) :=
  ⟨by decide,
   (C5_on_unpublish_transitions demoEnv Faults.none (demoWorld 1)
      (demoEvent "on_unpublish" "?password=123") (demoRow 1)
      (by decide) (by decide) (by decide) (by decide) (by decide) (by decide)
      (by decide)).2 (by decide)⟩

/-- C6: for a stored stream with status `Pause` or `Publish` and an authorized `on_publish`
event handled while the database answers, both the first and the second handling answer
`SRSok` without error; the world after the second handling is the world after the first;
the stored row after the first is the former one with status `Publish` and the client id
of the event, every other column kept; and the first handling starts no goroutine and
touches no file and no other part of the world than the table. -/
theorem C6_on_publish_idempotent (env : Env) (flt : Faults) (w : World) (st : SRSStream)
    (r : Row)
    (hdb : flt.dbGet = false)
    (hup : flt.dbUpdate = false)
    (hact : st.Action = "on_publish")
    (happ : st.App = "live")
    (hrtc : strContains st.Param "upstream=rtc" = false)
    (hid : env.uuidFromString st.StreamID = some r.StreamID)
    (hrow : findRow w.repo r.StreamID = some r)
    (hpass : findPassword st.Param = some r.Password)
    (hs : r.Status = StreamStatusPause ∨ r.Status = StreamStatusPublish) :
    (UpdateSRSStream env flt w st).1 = (SRSok, none)
    ∧ (UpdateSRSStream env flt (UpdateSRSStream env flt w st).2 st).1 = (SRSok, none)
    ∧ (UpdateSRSStream env flt (UpdateSRSStream env flt w st).2 st).2
        = (UpdateSRSStream env flt w st).2
    ∧ findRow (UpdateSRSStream env flt w st).2.repo r.StreamID
        = some { r with Status := StreamStatusPublish, ClientId := st.ClientID }
    ∧ (UpdateSRSStream env flt w st).2
        = { w with repo := w.repo.map (fun x => if x.StreamID == r.StreamID
              then { r with Status := StreamStatusPublish, ClientId := st.ClientID } else x) } := by
  have hb : (r.Status == StreamStatusStartRequired || r.Status == StreamStatusWaitPublish
      || r.Status == StreamStatusError) = false := by
    rcases hs with h | h <;> rw [h] <;> decide
  have h2 : (r.Status == StreamStatusPause || r.Status == StreamStatusPublish) = true := by
    simpa using hs
  have hfu := findRow_update w.repo r.StreamID
    { r with Status := StreamStatusPublish, ClientId := st.ClientID } rfl
  simp only [hrow, Option.isSome_some, if_true] at hfu
  -- the first handling
  have first : UpdateSRSStream env flt w st
      = ((SRSok, none), { w with repo := w.repo.map (fun x => if x.StreamID == r.StreamID
          then { r with Status := StreamStatusPublish, ClientId := st.ClientID } else x) }) := by
    rw [update_srs_authorized env flt w st r hdb happ hrtc hid hrow hpass]
    have hu := update_status_client flt w.repo r StreamStatusPublish st.ClientID hup hrow
    simp only [Row.toStream] at hu
    simp only [updateSRSAction, hact, Row.toStream, hb, h2, beq_self_eq_true, if_true, hu]
    simp
  -- the second handling, on the row the first one wrote
  have second : UpdateSRSStream env flt
      { w with repo := w.repo.map (fun x => if x.StreamID == r.StreamID
          then { r with Status := StreamStatusPublish, ClientId := st.ClientID } else x) } st
      = ((SRSok, none), { w with repo := w.repo.map (fun x => if x.StreamID == r.StreamID
          then { r with Status := StreamStatusPublish, ClientId := st.ClientID } else x) }) := by
    rw [update_srs_authorized env flt _ st
      { r with Status := StreamStatusPublish, ClientId := st.ClientID } hdb happ hrtc hid hfu hpass]
    have hu := update_status_client flt
      (w.repo.map (fun x => if x.StreamID == r.StreamID
          then { r with Status := StreamStatusPublish, ClientId := st.ClientID } else x))
      { r with Status := StreamStatusPublish, ClientId := st.ClientID }
      StreamStatusPublish st.ClientID hup hfu
    simp only [Row.toStream] at hu
    have hidem := map_update_idem w.repo r.StreamID
      { r with Status := StreamStatusPublish, ClientId := st.ClientID } rfl
    have hb2 : (StreamStatusPublish == StreamStatusStartRequired
        || StreamStatusPublish == StreamStatusWaitPublish
        || StreamStatusPublish == StreamStatusError) = false := by decide
    have h22 : (StreamStatusPublish == StreamStatusPause
        || StreamStatusPublish == StreamStatusPublish) = true := by decide
    simp only [updateSRSAction, hact, Row.toStream, hb2, h22, beq_self_eq_true, if_true, hu]
    simp only [hidem]
    simp
  rw [first]
  refine ⟨rfl, ?_, ?_, hfu, rfl⟩
  · simp only [second]
  · simp only [second]

/-- C6 on a paused stream. -/
theorem C6_on_publish_idempotent_witness :
    (UpdateSRSStream demoEnv Faults.none (demoWorld 3)
        (demoEvent "on_publish" "?password=123")).1 = (SRSok, none)
    ∧ (UpdateSRSStream demoEnv Faults.none
        (UpdateSRSStream demoEnv Faults.none (demoWorld 3)
          (demoEvent "on_publish" "?password=123")).2
        (demoEvent "on_publish" "?password=123")).1 = (SRSok, none)
    ∧ (UpdateSRSStream demoEnv Faults.none
        (UpdateSRSStream demoEnv Faults.none (demoWorld 3)
          (demoEvent "on_publish" "?password=123")).2
        (demoEvent "on_publish" "?password=123")).2
        = (UpdateSRSStream demoEnv Faults.none (demoWorld 3)
            (demoEvent "on_publish" "?password=123")).2
    ∧ findRow (UpdateSRSStream demoEnv Faults.none (demoWorld 3)
        (demoEvent "on_publish" "?password=123")).2.repo (demoRow 3).StreamID
        = some { demoRow 3 with Status := StreamStatusPublish, ClientId := "c7" }
    ∧ (UpdateSRSStream demoEnv Faults.none (demoWorld 3)
        (demoEvent "on_publish" "?password=123")).2
        = { demoWorld 3 with
            repo := (demoWorld 3).repo.map (fun x =>
              if x.StreamID == (demoRow 3).StreamID
              then { demoRow 3 with Status := StreamStatusPublish, ClientId := "c7" }
              else x) } :=
  C6_on_publish_idempotent demoEnv Faults.none (demoWorld 3)
    (demoEvent "on_publish" "?password=123") (demoRow 3)
    (by decide) (by decide) (by decide) (by decide) (by decide) (by decide) (by decide)
    (by decide) (by decide)

/-! ## Stop, start and delete -/

/-- C7 fails for a stream that was created and never published: no live playlist exists,
`Playlist.Stop` cannot open `master-low.m3u8`, and `StopStream` answers `ErrBadStatus` and
leaves the row in status `WaitPublish`. -/
theorem C7_stop_unpublished_counterexample :
    findRow (CreateStream demoEnv Faults.none 77 emptyWorld (demoRow 0).toStream).2.repo
        (demoRow 0).StreamID = some { demoRow 1 with CreatedAt := 77, UpdatedAt := 77 }
    ∧ StopStream demoEnv Faults.none 90
        (CreateStream demoEnv Faults.none 77 emptyWorld (demoRow 0).toStream).2
        (demoRow 0).StreamID
      = (.error Error.ErrBadStatus,
         (CreateStream demoEnv Faults.none 77 emptyWorld (demoRow 0).toStream).2) := by
  constructor
  · decide
  · rfl

/-- C7 as amended: for a stored stream whose status is not `StopPublish` and whose live
playlist exists for every tier, as does its DVR playlist for every tier when `StartedAt`
is set and is not the zero time, and while the database answers, `StopStream` succeeds;
the stored row becomes the former one with status `StopPublish`, an empty client id,
`StopedAt` at the time of the call and `RTC` unset. -/
theorem C7_stop_with_playlists (env : Env) (flt : Faults) (now : Time) (w : World) (r : Row)
    (hdb : flt.dbGet = false)
    (hup : flt.dbUpdate = false)
    (hrow : findRow w.repo r.StreamID = some r)
    (hs : r.Status ≠ StreamStatusStopPublish)
    (hfiles : ∀ pl ∈ playlistTypes,
      (readFile w.fs (pathJoin (streamDir env r.StreamID) (OutputPlaylistPrefix ++ pl))).isSome
        = true
      ∧ (anchored r.StartedAt = true →
          (readFile w.fs (pathJoin (streamDir env r.StreamID)
            (dvrName OutputPlaylistPrefix r.StartedAt pl))).isSome = true)) :
    (∃ s, (StopStream env flt now w r.StreamID).1 = .ok s
      ∧ s.Status = StreamStatusStopPublish ∧ s.ClientId = "")
    ∧ findRow (StopStream env flt now w r.StreamID).2.repo r.StreamID
        = some { r with Status := StreamStatusStopPublish, ClientId := "",
                        StopedAt := some now, RTC := false } := by
  have hstop := stopLoop_ok (streamDir env r.StreamID) OutputPlaylistPrefix r.StartedAt
    playlistTypes w.fs hfiles
  have hu := repo_update_ok flt w.repo
    { r.toStream with Status := StreamStatusStopPublish, ClientId := "", StopedAt := some now,
                      RTC := false } r hup (by simpa [Row.toStream] using hrow)
  have hfu := findRow_update w.repo r.StreamID
    { r with Status := StreamStatusStopPublish, ClientId := "", StopedAt := some now,
             RTC := false } rfl
  simp only [hrow, Option.isSome_some, if_true] at hfu
  simp only [Row.toStream, Stream.toRow] at hu
  have hsb : (r.Status == StreamStatusStopPublish) = false := by simpa using hs
  cases hst : stopLoop (streamDir env r.StreamID) OutputPlaylistPrefix r.StartedAt
      playlistTypes w.fs with
  | mk e fs1 =>
    rw [hst] at hstop
    simp only at hstop
    subst hstop
    simp only [StopStream, repo_get_ok flt w.repo r.StreamID r hdb hrow, Row.toStream, hsb,
      KickSRSStream, Playlist.Stop]
    by_cases hc : r.ClientId = "" <;>
      (simp [hc, hst, hu, addSRSUrls, Row.toStream]; simpa using hfu)

/-- C7 as amended, on a stream with its three live playlists. -/
theorem C7_stop_with_playlists_witness :
    (∃ s, (StopStream demoEnv Faults.none 90 (liveWorld 2) (demoRow 2).StreamID).1 = .ok s
      ∧ s.Status = StreamStatusStopPublish ∧ s.ClientId = "")
    ∧ findRow (StopStream demoEnv Faults.none 90 (liveWorld 2) (demoRow 2).StreamID).2.repo
        (demoRow 2).StreamID
        = some { demoRow 2 with Status := StreamStatusStopPublish, ClientId := "",
                                StopedAt := some 90, RTC := false } :=
  C7_stop_with_playlists demoEnv Faults.none 90 (liveWorld 2) (demoRow 2)
    (by decide) (by decide) (by decide) (by decide) (by decide)

/-- C8: for a stored stream with status `StopPublish`, `StartStream`, `StopStream`, a
webhook event for the stream with any action and any parameters (`on_publish` and
`on_unpublish` among them) and a segment-written notification for the stream all leave
the world as it is: the stored rows, every file, the RTC list, the kick requests and the
started goroutines; `StartStream` and `StopStream` answer `ErrBadStatus` whenever the
database answers the read. -/
theorem C8_stop_publish_absorbing (env : Env) (flt : Faults) (now : Time) (w : World) (r : Row)
    (hrow : findRow w.repo r.StreamID = some r)
    (hs : r.Status = StreamStatusStopPublish) :
    (StartStream env flt now w r.StreamID).2 = w
    ∧ (StopStream env flt now w r.StreamID).2 = w
    ∧ (flt.dbGet = false →
        (StartStream env flt now w r.StreamID).1 = .error Error.ErrBadStatus
        ∧ (StopStream env flt now w r.StreamID).1 = .error Error.ErrBadStatus)
    ∧ (∀ st : SRSStream, env.uuidFromString st.StreamID = some r.StreamID →
        (UpdateSRSStream env flt w st).2 = w
        ∧ (UpdateHlsSRS env flt now w st).2 = w) := by
  have hget : Repo.GetStream flt w.repo r.StreamID = .error Error.ErrNotFound
      ∨ Repo.GetStream flt w.repo r.StreamID = .ok r.toStream := by
    by_cases hf : flt.dbGet = true
    · left; simp [Repo.GetStream, hf]
    · right; exact repo_get_ok flt w.repo r.StreamID r (by simpa using hf) hrow
  refine ⟨?_, ?_, ?_, ?_⟩
  · rcases hget with h | h <;> simp [StartStream, h, Row.toStream, hs]
  · rcases hget with h | h <;> simp [StopStream, h, Row.toStream, hs]
  · intro hdb
    have h := repo_get_ok flt w.repo r.StreamID r hdb hrow
    constructor
    · simp [StartStream, h, Row.toStream, hs]
    · simp [StopStream, h, Row.toStream, hs]
  · intro st hid
    constructor
    · unfold UpdateSRSStream
      by_cases h1 : strContains st.Param "upstream=rtc" = true
      · simp [h1]
      · by_cases h2 : st.App = "live"
        · cases h3 : findPassword st.Param with
          | none => simp [h1, h2, hid, h3]
          | some pass =>
            rcases hget with h | h
            · simp [h1, h2, hid, h3, h]
            · by_cases h4 : r.Password = pass
              · have hact := updateSRSAction_stopped flt w st r.toStream hs
                simpa [h1, h2, hid, h3, h, h4, Row.toStream] using hact
              · simp [h1, h2, hid, h3, h, Row.toStream, h4]
        · simp [h1, h2]
    · unfold UpdateHlsSRS
      by_cases h1 : strContains st.Param "upstream=rtc" = true
      · simp [h1]
      · rcases hget with h | h
        · simp [h1, hid, h]
        · have hst : (StreamStatusStopPublish == StreamStatusStartRequired) = false := by decide
          simp [h1, hid, h, Row.toStream, hs, hst]

/-- C8 on a stopped stream that still has its live playlists, for an `on_publish` event,
an `on_unpublish` event and a segment-written notification that carry its password. -/
theorem C8_stop_publish_absorbing_witness :
    (StartStream demoEnv Faults.none 90 (liveWorld 4) (demoRow 4).StreamID).2 = liveWorld 4
    ∧ (StopStream demoEnv Faults.none 90 (liveWorld 4) (demoRow 4).StreamID).2 = liveWorld 4
    ∧ (StartStream demoEnv Faults.none 90 (liveWorld 4) (demoRow 4).StreamID).1
        = .error Error.ErrBadStatus
    ∧ (StopStream demoEnv Faults.none 90 (liveWorld 4) (demoRow 4).StreamID).1
        = .error Error.ErrBadStatus
    ∧ (UpdateSRSStream demoEnv Faults.none (liveWorld 4)
        (demoEvent "on_publish" "?password=123")).2 = liveWorld 4
    ∧ (UpdateSRSStream demoEnv Faults.none (liveWorld 4)
        (demoEvent "on_unpublish" "?password=123")).2 = liveWorld 4
    ∧ (UpdateHlsSRS demoEnv Faults.none 90 (liveWorld 4)
        { demoEvent "on_hls" "?password=123" with M3U8 := "/live/low.m3u8" }).2 = liveWorld 4 :=
  have h := C8_stop_publish_absorbing demoEnv Faults.none 90 (liveWorld 4) (demoRow 4)
    (by decide) (by decide)
  ⟨h.1, h.2.1, (h.2.2.1 rfl).1, (h.2.2.1 rfl).2,
   (h.2.2.2 (demoEvent "on_publish" "?password=123") (by decide)).1,
   (h.2.2.2 (demoEvent "on_unpublish" "?password=123") (by decide)).1,
   (h.2.2.2 { demoEvent "on_hls" "?password=123" with M3U8 := "/live/low.m3u8" }
      (by decide)).2⟩

/-- C9: when `StartStream` succeeds on a stored stream, the stored row becomes the former
one with `StartedAt` at the time of the call and with status `StartRequired` if the
status was `WaitPublish` or `StartRequired`, the former status otherwise (`Publish`,
`Pause` and `Error` among them), and the stream returned carries that time; when the
status was `WaitPublish` or `StartRequired` the files are as before and the call gives the
same answer and the same rows over any other set of files. -/
theorem C9_start_stream (env : Env) (flt : Faults) (now : Time) (w w1 : World) (s : Stream)
    (r : Row)
    (hrow : findRow w.repo r.StreamID = some r)
    (hc : StartStream env flt now w r.StreamID = (.ok s, w1)) :
    findRow w1.repo r.StreamID
      = some { r with
          StartedAt := some now
          Status := if r.Status = StreamStatusWaitPublish ∨ r.Status = StreamStatusStartRequired
            then StreamStatusStartRequired else r.Status }
    ∧ s.StartedAt = some now
    ∧ ((r.Status = StreamStatusWaitPublish ∨ r.Status = StreamStatusStartRequired) →
        w1.fs = w.fs
        ∧ ∀ fs0 : FS, StartStream env flt now { w with fs := fs0 } r.StreamID
            = (.ok s, { w1 with fs := fs0 })) := by
  unfold StartStream at hc
  cases hg : Repo.GetStream flt w.repo r.StreamID with
  | error e => simp [hg] at hc
  | ok s0 =>
    obtain ⟨hdb, r0, hr0, hs0⟩ := repo_get_ok_inv hg
    have hrr : r0 = r := by
      rw [hrow] at hr0
      exact (Option.some.inj hr0).symm
    subst hrr
    subst hs0
    simp only [hg] at hc
    by_cases hstop : r0.Status = StreamStatusStopPublish
    · simp [Row.toStream, hstop] at hc
    · have hsb : (r0.Status == StreamStatusStopPublish) = false := by simpa using hstop
      by_cases hw : r0.Status = StreamStatusWaitPublish ∨ r0.Status = StreamStatusStartRequired
      · have hwb : (r0.Status == StreamStatusWaitPublish
            || r0.Status == StreamStatusStartRequired) = true := by simpa using hw
        simp only [Row.toStream, hsb, hwb, if_true, Bool.false_eq_true, if_false] at hc
        by_cases hup : flt.dbUpdate = true
        · simp [Repo.UpdateStream, hup] at hc
        · have hup2 : flt.dbUpdate = false := by simpa using hup
          have hu := repo_update_ok flt w.repo
            { r0.toStream with Status := StreamStatusStartRequired, StartedAt := some now } r0
            hup2 (by simpa [Row.toStream] using hrow)
          have hfu := findRow_update w.repo r0.StreamID
            { r0 with Status := StreamStatusStartRequired, StartedAt := some now } rfl
          simp only [hrow, Option.isSome_some, if_true] at hfu
          simp only [Row.toStream, Stream.toRow] at hu
          simp only [hu] at hc
          obtain ⟨hs1, hw1⟩ := Prod.mk.inj hc
          have hs2 := (Except.ok.inj hs1).symm
          subst hs2
          subst hw1
          refine ⟨?_, ?_, ?_⟩
          · rw [if_pos hw]
            simpa using hfu
          · simp [addSRSUrls]
          · intro _
            refine ⟨rfl, ?_⟩
            intro fs0
            have hg0 : Repo.GetStream flt ({ w with fs := fs0 } : World).repo r0.StreamID
                = .ok r0.toStream := hg
            simp only [StartStream, hg0, Row.toStream, hsb, hwb, if_true, hu,
              Bool.false_eq_true, if_false]
      · have hwb : (r0.Status == StreamStatusWaitPublish
            || r0.Status == StreamStatusStartRequired) = false := by simpa using hw
        simp only [Row.toStream, hsb, hwb, Bool.false_eq_true, if_false] at hc
        cases hR : Playlist.Refresh env flt now w.fs (streamDir env r0.StreamID) AllPlaylists
            (some now) OutputPlaylistPrefix with
        | mk e fs1 =>
          cases e with
          | some err => simp [hR] at hc
          | none =>
            cases hC : Playlist.Create fs1 (streamDir env r0.StreamID) OutputPlaylistPrefix
                (some now) with
            | mk e2 fs2 =>
              simp only [hR, hC] at hc
              by_cases hup : flt.dbUpdate = true
              · simp [Repo.UpdateStream, hup] at hc
              · have hup2 : flt.dbUpdate = false := by simpa using hup
                have hu := repo_update_ok flt w.repo
                  { r0.toStream with StartedAt := some now } r0
                  hup2 (by simpa [Row.toStream] using hrow)
                have hfu := findRow_update w.repo r0.StreamID
                  { r0 with StartedAt := some now } rfl
                simp only [hrow, Option.isSome_some, if_true] at hfu
                simp only [Row.toStream, Stream.toRow] at hu
                simp only [hu] at hc
                obtain ⟨hs1, hw1⟩ := Prod.mk.inj hc
                have hs2 := (Except.ok.inj hs1).symm
                subst hs2
                subst hw1
                refine ⟨?_, ?_, ?_⟩
                · rw [if_neg hw]
                  simpa using hfu
                · simp [addSRSUrls]
                · intro h; exact absurd h hw

/-- C9 on a stream that waits for its publisher, also over an empty set of files, and on
a publishing stream whose raw playlists hold a segment. -/
theorem C9_start_stream_witness :
    (findRow (StartStream demoEnv Faults.none 90 (rawWorld 1) (demoRow 1).StreamID).2.repo
        (demoRow 1).StreamID
        = some { demoRow 1 with StartedAt := some 90, Status := StreamStatusStartRequired }
      ∧ (okStream (StartStream demoEnv Faults.none 90 (rawWorld 1)
          (demoRow 1).StreamID).1).StartedAt = some 90
      ∧ (StartStream demoEnv Faults.none 90 (rawWorld 1) (demoRow 1).StreamID).2.fs
          = (rawWorld 1).fs
      ∧ StartStream demoEnv Faults.none 90 { rawWorld 1 with fs := [] } (demoRow 1).StreamID
          = (.ok (okStream (StartStream demoEnv Faults.none 90 (rawWorld 1)
                (demoRow 1).StreamID).1),
             { (StartStream demoEnv Faults.none 90 (rawWorld 1) (demoRow 1).StreamID).2 with
               fs := [] }))
    ∧ (findRow (StartStream demoEnv Faults.none 90 (rawWorld 2) (demoRow 2).StreamID).2.repo
        (demoRow 2).StreamID
        = some { demoRow 2 with StartedAt := some 90, Status := StreamStatusPublish }
      ∧ (okStream (StartStream demoEnv Faults.none 90 (rawWorld 2)
          (demoRow 2).StreamID).1).StartedAt = some 90) :=
  have h1 := C9_start_stream demoEnv Faults.none 90 (rawWorld 1) _
    (okStream (StartStream demoEnv Faults.none 90 (rawWorld 1) (demoRow 1).StreamID).1)
    (demoRow 1) (by decide) rfl
  have h2 := C9_start_stream demoEnv Faults.none 90 (rawWorld 2) _
    (okStream (StartStream demoEnv Faults.none 90 (rawWorld 2) (demoRow 2).StreamID).1)
    (demoRow 2) (by decide) rfl
  ⟨⟨h1.1, h1.2.1, (h1.2.2 (by decide)).1, (h1.2.2 (by decide)).2 []⟩, h2.1, h2.2.1⟩

/-- C10: while the database answers and the directory can be removed, `DeleteStream` of a
stored stream returns its identifier and leaves no row under it, so that `GetStream` for
the identifier then answers `ErrNotFound`; `DeleteStream` of an identifier that is not
stored answers `ErrNotFound` and changes nothing. -/
theorem C10_delete_stream (env : Env) (flt flt2 : Faults) (w : World) (id : UUID) (st : Stream)
    (hst : st.StreamID = id) :
    (∀ r, findRow w.repo id = some r → flt.dbGet = false → flt.removeAll = false →
        flt.dbDelete = false →
        (DeleteStream env flt w id).1 = .ok id
        ∧ findRow (DeleteStream env flt w id).2.repo id = none
        ∧ (GetStream env flt2 (DeleteStream env flt w id).2 st).1 = .error Error.ErrNotFound)
    ∧ (findRow w.repo id = none → DeleteStream env flt w id = (.error Error.ErrNotFound, w)) := by
  constructor
  · intro r hrow hdb hrm hdel
    have hid := findRow_some_id hrow
    have hre : reUUID (streamDir env r.StreamID).data = true := reUUID_streamDir env r.StreamID
    have hdelete : DeleteStream env flt w id
        = (.ok id,
           { w with
             kicked := (KickSRSStream flt w.kicked r.ClientId).2
             fs := env.removeAll w.fs (streamDir env r.StreamID)
             rtc := RemoveRTC flt (uuidString r.StreamID) w.rtc
             repo := w.repo.filter (fun x => x.StreamID != r.StreamID) }) := by
      unfold DeleteStream
      rw [repo_get_ok flt w.repo id r hdb hrow]
      by_cases hc : r.ClientId = "" <;>
        simp [KickSRSStream, hc, Row.toStream, Playlist.Delete, hre, hrm, Repo.DeleteStream,
          hdel]
    rw [hdelete]
    have hnone : findRow (w.repo.filter (fun x => x.StreamID != r.StreamID)) id = none := by
      rw [hid]
      exact findRow_delete w.repo id
    refine ⟨rfl, hnone, ?_⟩
    simp [GetStream, Repo.GetStream, hst, hnone]
  · intro hnone
    simp [DeleteStream, Repo.GetStream, hnone]

/-- C10 on a stored stream with its raw playlists, and on an empty table. -/
theorem C10_delete_stream_witness :
    ((DeleteStream demoEnv Faults.none (rawWorld 2) (demoRow 2).StreamID).1
        = .ok (demoRow 2).StreamID
      ∧ findRow (DeleteStream demoEnv Faults.none (rawWorld 2) (demoRow 2).StreamID).2.repo
          (demoRow 2).StreamID = none
      ∧ (GetStream demoEnv Faults.none
          (DeleteStream demoEnv Faults.none (rawWorld 2) (demoRow 2).StreamID).2
          (demoRow 2).toStream).1 = .error Error.ErrNotFound)
    ∧ DeleteStream demoEnv Faults.none emptyWorld (demoRow 2).StreamID
        = (.error Error.ErrNotFound, emptyWorld) :=
  ⟨(C10_delete_stream demoEnv Faults.none Faults.none (rawWorld 2) (demoRow 2).StreamID
      (demoRow 2).toStream rfl).1 (demoRow 2) (by decide) (by decide) (by decide) (by decide),
   (C10_delete_stream demoEnv Faults.none Faults.none emptyWorld (demoRow 2).StreamID
      (demoRow 2).toStream rfl).2 (by decide)⟩

/-! ## Segment-written notifications and the checks before the repository -/

set_option maxRecDepth 20000 in
/-- C11 fails on the code: `UpdateHlsSRS` reads no password. On a publishing stream whose
raw playlists hold a segment, a notification without a password and one with a password
other than the stored "123" are both answered with code 0 and no error, and both write the
live playlist of the reporting tier, which did not exist before. -/
theorem C11_hls_reads_no_password :
    (UpdateHlsSRS demoEnv Faults.none 90 (rawWorld 2)
        { demoEvent "on_hls" "" with M3U8 := "/live/low.m3u8" }).1 = (0, none)
    ∧ (UpdateHlsSRS demoEnv Faults.none 90 (rawWorld 2)
        { demoEvent "on_hls" "?password=viod" with M3U8 := "/live/low.m3u8" }).1 = (0, none)
    ∧ readFile (rawWorld 2).fs "/tmp/00000000-1111-0000-0000-000000000000/master-low.m3u8"
        = none
    ∧ readFile (UpdateHlsSRS demoEnv Faults.none 90 (rawWorld 2)
        { demoEvent "on_hls" "" with M3U8 := "/live/low.m3u8" }).2.fs
        "/tmp/00000000-1111-0000-0000-000000000000/master-low.m3u8"
        = some ("#EXTM3U\n#EXT-X-PROGRAM-DATE-TIME:0\n#EXT-X-PLAYLIST-TYPE:EVENT\n"
            ++ "#EXTINF:2.0,\nlow-2026-11-04-12-00-00-0.ts\n")
    ∧ readFile (UpdateHlsSRS demoEnv Faults.none 90 (rawWorld 2)
        { demoEvent "on_hls" "?password=viod" with M3U8 := "/live/low.m3u8" }).2.fs
        "/tmp/00000000-1111-0000-0000-000000000000/master-low.m3u8"
        = some ("#EXTM3U\n#EXT-X-PROGRAM-DATE-TIME:0\n#EXT-X-PLAYLIST-TYPE:EVENT\n"
            ++ "#EXTINF:2.0,\nlow-2026-11-04-12-00-00-0.ts\n") := by
  refine ⟨?_, ?_, ?_, ?_, ?_⟩ <;> rfl

/-- C12: an event whose parameters contain `upstream=rtc` is answered by `UpdateSRSStream`
and by `UpdateHlsSRS` with `SRSok` and no error, whatever the application, the identifier,
the action, the password, the stored rows and the answers of the database, and the world
is left as it is; an event without the marker whose application is not "live" is answered
by `UpdateSRSStream` with `SRSfail` and `ErrBadRequest`, the world left as it is, whatever
the password and the stored rows. -/
theorem C12_checks_before_repository (env : Env) (flt : Faults) (now : Time) (w : World)
    (st : SRSStream) :
    (strContains st.Param "upstream=rtc" = true →
      UpdateSRSStream env flt w st = ((SRSok, none), w)
      ∧ UpdateHlsSRS env flt now w st = ((SRSok, none), w))
    ∧ (strContains st.Param "upstream=rtc" = false → st.App ≠ "live" →
      UpdateSRSStream env flt w st = ((SRSfail, some Error.ErrBadRequest), w)) := by
  constructor
  · intro h
    simp [UpdateSRSStream, UpdateHlsSRS, h]
  · intro h happ
    simp [UpdateSRSStream, h, happ]

/-- C12 on an event with the marker, an unknown application, an identifier that cannot be
read and no password, and on an event without the marker for the application "vod". -/
theorem C12_checks_before_repository_witness :
    (UpdateSRSStream demoEnv Faults.none (demoWorld 1)
        { Action := "on_publish", ClientID := "c7", App := "vod", StreamID := "not-an-id",
          Param := "?upstream=rtc", M3U8 := "" } = ((SRSok, none), demoWorld 1)
      ∧ UpdateHlsSRS demoEnv Faults.none 90 (demoWorld 1)
        { Action := "on_publish", ClientID := "c7", App := "vod", StreamID := "not-an-id",
          Param := "?upstream=rtc", M3U8 := "" } = ((SRSok, none), demoWorld 1))
    ∧ UpdateSRSStream demoEnv Faults.none (demoWorld 1)
        { demoEvent "on_publish" "?password=123" with App := "vod" }
        = ((SRSfail, some Error.ErrBadRequest), demoWorld 1) :=
  ⟨(C12_checks_before_repository demoEnv Faults.none 90 (demoWorld 1)
      { Action := "on_publish", ClientID := "c7", App := "vod", StreamID := "not-an-id",
        Param := "?upstream=rtc", M3U8 := "" }).1 (by decide),
   (C12_checks_before_repository demoEnv Faults.none 90 (demoWorld 1)
      { demoEvent "on_publish" "?password=123" with App := "vod" }).2 (by decide) (by decide)⟩

/-! ## Invariants of the stored rows -/

theorem findRow_mem {rows : List Row} {id : UUID} {r : Row} (h : findRow rows id = some r) :
    r ∈ rows :=
  List.mem_of_find?_eq_some h

theorem repo_get_mem {flt : Faults} {rows : List Row} {id : UUID} {s : Stream}
    (h : Repo.GetStream flt rows id = .ok s) : ∃ r ∈ rows, s = r.toStream := by
  obtain ⟨_, r, hr, hs⟩ := repo_get_ok_inv h
  exact ⟨r, findRow_mem hr, hs⟩

theorem update_rows (P : Row → Prop) (flt : Faults) (rows : List Row) (s : Stream)
    (h : ∀ r ∈ rows, P r) (hs : P s.toRow) : ∀ r ∈ (Repo.UpdateStream flt rows s).2, P r := by
  unfold Repo.UpdateStream
  by_cases hf : flt.dbUpdate = true
  · simpa [hf] using h
  · have key : ∀ r ∈ rows.map (fun r => if r.StreamID == s.StreamID then s.toRow else r),
        P r := by
      intro r hr
      obtain ⟨x, hx, hxr⟩ := List.mem_map.mp hr
      by_cases hid : (x.StreamID == s.StreamID) = true
      · simp only [hid, if_true] at hxr
        rw [← hxr]; exact hs
      · simp only [hid] at hxr
        rw [← hxr]; exact h x hx
    have hf2 : flt.dbUpdate = false := by simpa using hf
    simp only [hf2, Bool.false_eq_true, if_false]
    cases findRow (rows.map (fun r => if r.StreamID == s.StreamID then s.toRow else r))
        s.StreamID <;> exact key

theorem create_rows (P : Row → Prop) (flt : Faults) (now : Time) (rows : List Row) (s : Stream)
    (h : ∀ r ∈ rows, P r)
    (hnew : ∀ x : Row, x.Status = StreamStatusWaitPublish → x.StartedAt = none → P x) :
    ∀ r ∈ (Repo.CreateStream flt now rows s).2, P r := by
  unfold Repo.CreateStream
  split
  · exact h
  · intro r hr
    simp only [List.mem_append, List.mem_singleton] at hr
    rcases hr with hr | hr
    · exact h r hr
    · rw [hr]; exact hnew _ rfl rfl

theorem delete_rows (P : Row → Prop) (flt : Faults) (rows : List Row) (id : UUID)
    (h : ∀ r ∈ rows, P r) : ∀ r ∈ (Repo.DeleteStream flt rows id).2, P r := by
  unfold Repo.DeleteStream
  split
  · exact h
  · intro r hr
    exact h r (List.mem_filter.mp hr).1

theorem createFinish_repo (env : Env) (flt : Faults) (w : World) (s : Stream) :
    (createFinish env flt w s).2.repo = w.repo := by
  by_cases h : (addSRSUrls env.cfg s).RTC = true <;> simp [createFinish, h]

theorem CreateStream_rows (P : Row → Prop) (ok : String → Prop) (hc : RowClosed P ok)
    (env : Env) (flt : Faults) (now : Time) (w : World) (ns : Stream)
    (h : ∀ r ∈ w.repo, P r) : ∀ r ∈ (CreateStream env flt now w ns).2.repo, P r := by
  unfold CreateStream
  cases hg : Repo.GetStream flt w.repo ns.StreamID with
  | error e =>
    have hcr := create_rows P flt now w.repo { ns with RTC := true } h hc.waiting
    cases hx : Repo.CreateStream flt now w.repo { ns with RTC := true } with
    | mk res rows =>
      rw [hx] at hcr
      cases res with
      | error e2 => simpa [hg, hx] using h
      | ok s =>
        simp only [hg, hx, createFinish_repo]
        exact hcr
  | ok s0 =>
    have hur := update_rows P flt w.repo
      { s0 with Status := StreamStatusWaitPublish, StopedAt := none, StartedAt := none,
                RTC := true, Password := ns.Password } h (hc.waiting _ rfl rfl)
    cases hx : Repo.UpdateStream flt w.repo
      { s0 with Status := StreamStatusWaitPublish, StopedAt := none, StartedAt := none,
                RTC := true, Password := ns.Password } with
    | mk res rows =>
      rw [hx] at hur
      cases res with
      | error e2 => simpa [hg, hx] using h
      | ok s =>
        simp only [hg, hx, createFinish_repo]
        exact hur

theorem StartStream_rows (P : Row → Prop) (ok : String → Prop) (hc : RowClosed P ok)
    (env : Env) (flt : Faults) (now : Time) (w : World) (id : UUID)
    (h : ∀ r ∈ w.repo, P r) : ∀ r ∈ (StartStream env flt now w id).2.repo, P r := by
  unfold StartStream
  split
  · exact h
  · rename_i stream hg
    obtain ⟨r0, hr0, hs0⟩ := repo_get_mem hg
    subst hs0
    split
    · exact h
    · split
      · rename_i hne hw
        have hur := update_rows P flt w.repo
          { r0.toStream with Status := StreamStatusStartRequired, StartedAt := some now } h
          (hc.other _ (Or.inr (Or.inr (Or.inr rfl))))
        dsimp only at hur ⊢
        split
        · exact h
        · rename_i s1 rows heq
          rw [heq] at hur
          exact hur
      · rename_i hne hw
        have hw1 : r0.Status ≠ StreamStatusWaitPublish := by
          intro h1
          apply hw
          simp [Row.toStream, h1]
        have hur := update_rows P flt w.repo { r0.toStream with StartedAt := some now } h
          (hc.started r0 now (h r0 hr0) hw1)
        dsimp only at hur ⊢
        split
        · exact h
        · split
          · exact h
          · rename_i s1 rows heq
            rw [heq] at hur
            exact hur

theorem StopStream_rows (P : Row → Prop) (ok : String → Prop) (hc : RowClosed P ok)
    (env : Env) (flt : Faults) (now : Time) (w : World) (id : UUID)
    (h : ∀ r ∈ w.repo, P r) : ∀ r ∈ (StopStream env flt now w id).2.repo, P r := by
  unfold StopStream
  split
  · exact h
  · rename_i stream hg
    split
    · exact h
    · split
      · exact h
      · dsimp only
        split
        · exact h
        · have hur := update_rows P flt w.repo
            { stream with Status := StreamStatusStopPublish, ClientId := "",
                          StopedAt := some now, RTC := false } h
            (hc.other _ (Or.inr (Or.inl rfl)))
          split
          · exact h
          · rename_i s1 rows heq
            rw [heq] at hur
            exact hur

theorem DeleteStream_rows (P : Row → Prop)
    (env : Env) (flt : Faults) (w : World) (id : UUID)
    (h : ∀ r ∈ w.repo, P r) : ∀ r ∈ (DeleteStream env flt w id).2.repo, P r := by
  unfold DeleteStream
  split
  · exact h
  · rename_i stream hg
    split
    · exact h
    · dsimp only
      split
      · exact h
      · have hdr := delete_rows P flt w.repo stream.StreamID h
        split
        · exact h
        · rename_i s1 rows heq
          rw [heq] at hdr
          exact hdr

theorem updateSRSAction_rows (P : Row → Prop) (ok : String → Prop) (hc : RowClosed P ok)
    (flt : Faults) (w : World) (st : SRSStream) (stream : Stream)
    (hcl : st.Action = "on_publish" → ok st.ClientID)
    (h : ∀ r ∈ w.repo, P r) : ∀ r ∈ (updateSRSAction flt w st stream).2.repo, P r := by
  unfold updateSRSAction
  split
  · rename_i hact
    have hact2 : st.Action = "on_publish" := by simpa using hact
    have hur := update_rows P flt w.repo
      { stream with Status := StreamStatusPublish, ClientId := st.ClientID } h
      (hc.published _ rfl (hcl hact2))
    split
    · exact hur
    · split
      · dsimp only at hur ⊢
        split
        · exact h
        · rename_i s1 rows heq
          rw [heq] at hur
          exact hur
      · exact h
  · split
    · split
      · have hur := update_rows P flt w.repo
          { stream with Status := StreamStatusPause, ClientId := "" } h
          (hc.other _ (Or.inl rfl))
        dsimp only at hur ⊢
        split
        · exact h
        · rename_i s1 rows heq
          rw [heq] at hur
          exact hur
      · exact h
    · exact h

theorem UpdateSRSStream_rows (P : Row → Prop) (ok : String → Prop) (hc : RowClosed P ok)
    (env : Env) (flt : Faults) (w : World) (st : SRSStream)
    (hcl : st.Action = "on_publish" → ok st.ClientID)
    (h : ∀ r ∈ w.repo, P r) : ∀ r ∈ (UpdateSRSStream env flt w st).2.repo, P r := by
  unfold UpdateSRSStream
  split
  · exact h
  · split
    · exact h
    · split
      · exact h
      · split
        · exact h
        · split
          · exact h
          · split
            · exact h
            · exact updateSRSAction_rows P ok hc flt w st _ hcl h

theorem UpdateHlsSRS_repo (env : Env) (flt : Faults) (now : Time) (w : World) (st : SRSStream) :
    (UpdateHlsSRS env flt now w st).2.repo = w.repo := by
  unfold UpdateHlsSRS
  split
  · rfl
  · split
    · rfl
    · split
      · rfl
      · dsimp only
        split
        · rfl
        · split <;> rfl

theorem runTask_rows (P : Row → Prop) (ok : String → Prop) (hc : RowClosed P ok)
    (env : Env) (flt : Faults) (w : World) (task : Task)
    (hcl : ∀ stream, task = Task.hlsPublish stream → ok stream.ClientId)
    (h : ∀ r ∈ w.repo, P r) : ∀ r ∈ (runTask env flt w task).repo, P r := by
  cases task with
  | createDVR stream =>
    simp only [runTask]
    split
    · exact update_rows P flt w.repo { stream with Status := StreamStatusError } h
        (hc.other _ (Or.inr (Or.inr (Or.inl rfl))))
    · exact h
  | createLive stream =>
    simp only [runTask]
    split
    · exact update_rows P flt w.repo { stream with Status := StreamStatusError } h
        (hc.other _ (Or.inr (Or.inr (Or.inl rfl))))
    · exact h
  | hlsPublish stream =>
    have h1 := update_rows P flt w.repo { stream with Status := StreamStatusPublish } h
      (hc.published _ rfl (hcl stream rfl))
    simp only [runTask]
    split
    · exact update_rows P flt _ { stream with Status := StreamStatusError } h1
        (hc.other _ (Or.inr (Or.inr (Or.inl rfl))))
    · exact h1

theorem applyOp_rows (P : Row → Prop) (ok : String → Prop) (hc : RowClosed P ok)
    (env : Env) (w : World) (op : Op) (hcl : opClients ok w op)
    (h : ∀ r ∈ w.repo, P r) : ∀ r ∈ (applyOp env w op).repo, P r := by
  cases op with
  | create flt now ns => exact CreateStream_rows P ok hc env flt now w ns h
  | start flt now id => exact StartStream_rows P ok hc env flt now w id h
  | stop flt now id => exact StopStream_rows P ok hc env flt now w id h
  | delete flt id => exact DeleteStream_rows P env flt w id h
  | srs flt st => exact UpdateSRSStream_rows P ok hc env flt w st hcl h
  | hls flt now st =>
    simp only [applyOp]
    rw [UpdateHlsSRS_repo]
    exact h
  | goroutine flt k =>
    simp only [applyOp]
    cases hk : w.spawned.get? k with
    | none => exact h
    | some task =>
      exact runTask_rows P ok hc env flt _ task (fun stream ht => hcl stream (by rw [hk, ht])) h
  | mediaServer fs => exact h

theorem runOps_rows (P : Row → Prop) (ok : String → Prop) (hc : RowClosed P ok)
    (env : Env) (ops : List Op) :
    ∀ w : World, runClients ok env w ops → (∀ r ∈ w.repo, P r) →
      ∀ r ∈ (runOps env w ops).repo, P r := by
  induction ops with
  | nil => intro w _ h; exact h
  | cons op ops ih =>
    intro w hcl h
    exact ih (applyOp env w op) hcl.2 (applyOp_rows P ok hc env w op hcl.1 h)

theorem runClients_true (env : Env) (ops : List Op) :
    ∀ w : World, runClients (fun _ => True) env w ops := by
  induction ops with
  | nil => intro w; trivial
  | cons op ops ih =>
    intro w
    refine ⟨?_, ih _⟩
    cases op <;> simp [opClients]

/-- C13 fails when an `on_publish` event carries an empty client id, as the event of
`TestHTTP` does: after `CreateStream` and that event with the stored password, the row
has status `Publish` and an empty client id. -/
theorem C13_publish_without_client_counterexample :
    (runOps demoEnv emptyWorld
      [Op.create Faults.none 77 (demoRow 0).toStream,
       Op.srs Faults.none { demoEvent "on_publish" "?password=123" with ClientID := "" }]).repo
      = [{ demoRow 2 with CreatedAt := 77, UpdatedAt := 77, ClientId := "" }] := by
  decide

/-- The goroutine of a segment-written notification stores status `Publish` with the
client id it read: after `CreateStream`, `StartStream`, a notification and the run of its
goroutine, the row has status `Publish` and an empty client id. -/
theorem hls_goroutine_publishes_without_client :
    (runOps demoEnv emptyWorld
      [Op.mediaServer (rawWorld 0).fs,
       Op.create Faults.none 77 (demoRow 0).toStream,
       Op.start Faults.none 90 (demoRow 0).StreamID,
       Op.hls Faults.none 95 { demoEvent "on_hls" "" with M3U8 := "/live/low.m3u8" },
       Op.goroutine Faults.none 0]).repo
      = [{ demoRow 2 with CreatedAt := 77, UpdatedAt := 77, ClientId := "",
                          StartedAt := some 90 }] := by
  rfl

/-- C13 as amended: over every sequence of calls of `CreateStream`, `StartStream`,
`StopStream`, `DeleteStream`, webhook events, segment-written notifications, runs of
started goroutines and writes of the media server, from an empty table, in which every
`on_publish` event carries a client id and the goroutine of a segment-written notification
runs only for a stream that was read with a client id, no stored row has status `Publish`
together with an empty client id. -/
theorem C13_publish_has_client (env : Env) (ops : List Op)
    (hcl : runClients (fun c => c ≠ "") env emptyWorld ops) :
    ∀ r ∈ (runOps env emptyWorld ops).repo,
      r.Status = StreamStatusPublish → r.ClientId ≠ "" := by
  apply runOps_rows (fun r => r.Status = StreamStatusPublish → r.ClientId ≠ "")
    (fun c => c ≠ "") _ env ops emptyWorld hcl
  · intro r hr
    simp [emptyWorld] at hr
  · constructor
    · intro x hx _ h2
      rw [hx] at h2
      exact absurd h2 (by decide)
    · intro x hx h2
      rw [h2] at hx
      exact absurd hx (by decide)
    · intro r t hr _ h2
      exact hr h2
    · intro x _ hok _
      exact hok

/-- C13 as amended, on a stream that is created, published by client "c7", unpublished,
published again, with a `StartStream` that finds no raw playlist: its row has status
`Publish` and the client id "c7". -/
theorem C13_publish_has_client_witness :
    ({ demoRow 2 with CreatedAt := 77, UpdatedAt := 77, ClientId := "c7" } : Row)
      ∈ (runOps demoEnv emptyWorld
          [Op.create Faults.none 77 (demoRow 0).toStream,
           Op.srs Faults.none (demoEvent "on_publish" "?password=123"),
           Op.srs Faults.none (demoEvent "on_unpublish" "?password=123"),
           Op.srs Faults.none (demoEvent "on_publish" "?password=123"),
           Op.start Faults.none 90 (demoRow 0).StreamID]).repo
    ∧ ({ demoRow 2 with CreatedAt := 77, UpdatedAt := 77, ClientId := "c7" } : Row).ClientId ≠ "" :=
  ⟨by decide,
   C13_publish_has_client demoEnv
    [Op.create Faults.none 77 (demoRow 0).toStream,
     Op.srs Faults.none (demoEvent "on_publish" "?password=123"),
     Op.srs Faults.none (demoEvent "on_unpublish" "?password=123"),
     Op.srs Faults.none (demoEvent "on_publish" "?password=123"),
     Op.start Faults.none 90 (demoRow 0).StreamID]
    ⟨trivial, fun _ => by decide, fun h => absurd h (by decide), fun _ => by decide, trivial,
      trivial⟩
    { demoRow 2 with CreatedAt := 77, UpdatedAt := 77, ClientId := "c7" }
    (by decide) rfl⟩

/-- C14: over every sequence of calls of `CreateStream`, `StartStream`, `StopStream`,
`DeleteStream`, webhook events, segment-written notifications, runs of started goroutines
and writes of the media server, whatever fails on the way, from an empty table, no stored
row has status `WaitPublish` together with a start time. -/
theorem C14_waiting_has_no_start (env : Env) (ops : List Op) :
    ∀ r ∈ (runOps env emptyWorld ops).repo,
      r.Status = StreamStatusWaitPublish → r.StartedAt = none := by
  apply runOps_rows (fun r => r.Status = StreamStatusWaitPublish → r.StartedAt = none)
    (fun _ => True) _ env ops emptyWorld (runClients_true env ops emptyWorld)
  · intro r hr
    simp [emptyWorld] at hr
  · constructor
    · intro x _ hx _
      exact hx
    · intro x hx h1
      rw [h1] at hx
      exact absurd hx (by decide)
    · intro r t _ hne h1
      exact absurd h1 hne
    · intro x hx _ h1
      rw [hx] at h1
      exact absurd h1 (by decide)

/-- C14 on a stream that is created, started, published and created again: its
row has status `WaitPublish` and no start time. -/
theorem C14_waiting_has_no_start_witness :
    ({ demoRow 1 with CreatedAt := 77, UpdatedAt := 77, ClientId := "c7",
                      StopedAt := none, StartedAt := none, Password := "new" } : Row)
      ∈ (runOps demoEnv emptyWorld
          [Op.create Faults.none 77 (demoRow 0).toStream,
           Op.start Faults.none 90 (demoRow 0).StreamID,
           Op.srs Faults.none (demoEvent "on_publish" "?password=123"),
           Op.create Faults.none 99 { (demoRow 0).toStream with Password := "new" }]).repo
    ∧ ({ demoRow 1 with CreatedAt := 77, UpdatedAt := 77, ClientId := "c7",
                        StopedAt := none, StartedAt := none, Password := "new" } : Row).StartedAt
        = none :=
  ⟨by decide,
   C14_waiting_has_no_start demoEnv
    [Op.create Faults.none 77 (demoRow 0).toStream,
     Op.start Faults.none 90 (demoRow 0).StreamID,
     Op.srs Faults.none (demoEvent "on_publish" "?password=123"),
     Op.create Faults.none 99 { (demoRow 0).toStream with Password := "new" }]
    { demoRow 1 with CreatedAt := 77, UpdatedAt := 77, ClientId := "c7", StopedAt := none,
                     StartedAt := none, Password := "new" }
    (by decide) rfl⟩

/-! ## Reading a playlist -/

theorem stripLit_append (lit rest : List Char) : stripLit (lit ++ rest) lit = some rest := by
  induction lit with
  | nil => cases rest <;> rfl
  | cons c cs ih => simp [stripLit, ih]

theorem containsChars_skip (a b : List Char) (c : Char) (sub : List Char)
    (h : ∀ x ∈ a, x ≠ c) : containsChars (a ++ b) (c :: sub) = containsChars b (c :: sub) := by
  induction a with
  | nil => rfl
  | cons x xs ih =>
    have hx : (x == c) = false := by
      have := h x (List.mem_cons_self _ _)
      simpa using this
    simp only [List.cons_append, containsChars, startsWith, hx, Bool.false_and, Bool.false_or]
    exact ih (fun y hy => h y (List.mem_cons_of_mem _ hy))

theorem startsWith_iff (s p : List Char) : startsWith s p = true ↔ ∃ b, s = p ++ b := by
  induction p generalizing s with
  | nil => simp [startsWith]
  | cons c cs ih =>
    cases s with
    | nil => simp [startsWith]
    | cons d ds =>
      simp only [startsWith, Bool.and_eq_true, beq_iff_eq, ih, List.cons_append, List.cons.injEq]
      constructor
      · rintro ⟨h1, b, h2⟩
        exact ⟨b, h1, h2⟩
      · rintro ⟨b, h1, h2⟩
        exact ⟨h1, b, h2⟩

theorem containsChars_iff (s sub : List Char) :
    containsChars s sub = true ↔ ∃ a b, s = a ++ sub ++ b := by
  induction s with
  | nil =>
    simp only [containsChars, List.isEmpty_iff]
    constructor
    · intro h; exact ⟨[], [], by simp [h]⟩
    · rintro ⟨a, b, h⟩
      have := congrArg List.length h
      simp at this
      exact List.length_eq_zero.mp (by omega)
  | cons c cs ih =>
    simp only [containsChars, Bool.or_eq_true, startsWith_iff, ih]
    constructor
    · rintro (⟨b, h⟩ | ⟨a, b, h⟩)
      · exact ⟨[], b, by simpa using h⟩
      · exact ⟨c :: a, b, by simp [h]⟩
    · rintro ⟨a, b, h⟩
      cases a with
      | nil => left; exact ⟨b, by simpa using h⟩
      | cons d ds =>
        right
        simp only [List.cons_append, List.cons.injEq] at h
        exact ⟨ds, b, h.2⟩

theorem reHd_iff (l : String) :
    reHd l = true ↔ ∃ a b, l.toList = a ++ "EXTINF".toList ++ b :=
  containsChars_iff _ _

theorem reTs_iff (l : String) :
    reTs l = true ↔ ∃ a b, a ≠ [] ∧ l.toList = a ++ ".ts".toList ++ b := by
  unfold reTs
  rw [containsChars_iff]
  constructor
  · rintro ⟨a, b, h⟩
    cases hl : l.toList with
    | nil =>
      rw [hl] at h
      have := congrArg List.length h
      simp at this
      omega
    | cons c cs =>
      rw [hl] at h
      simp only [List.drop_succ_cons, List.drop_zero] at h
      exact ⟨c :: a, b, by simp, by simp [h]⟩
  · rintro ⟨a, b, ha, h⟩
    cases a with
    | nil => exact absurd rfl ha
    | cons c cs =>
      rw [h]
      exact ⟨cs, b, by simp⟩

theorem numbered_lines (f : String → Bool) (k : Int) (ls : List String) :
    (numbered f k ls).map (fun l => l.Line) = ls := by
  induction ls generalizing k with
  | nil => rfl
  | cons l ls ih => simp [numbered, ih]

theorem numbered_nums (f : String → Bool) (k : Int) (ls : List String) :
    (numbered f k ls).map (fun l => l.Num)
      = (List.range ls.length).map (fun (i : Nat) => k + (i : Int)) := by
  induction ls generalizing k with
  | nil => rfl
  | cons l ls ih =>
    simp only [numbered, List.map_cons, ih, List.length_cons, List.range_succ_eq_map,
      List.map_map, Nat.cast_zero, add_zero, List.cons.injEq, true_and]
    apply List.map_congr_left
    intro i _
    simp only [Function.comp, Nat.cast_succ]
    omega

theorem numbered_nums_append (f g : String → Bool) (k : Int) (xs ys : List String) :
    (numbered f k xs ++ numbered g (k + xs.length) ys).map (fun l => l.Num)
      = (List.range (xs ++ ys).length).map (fun (i : Nat) => k + (i : Int)) := by
  rw [List.map_append, numbered_nums, numbered_nums, List.length_append, List.range_add,
    List.map_append, List.map_map]
  congr 1
  apply List.map_congr_left
  intro i _
  simp only [Function.comp]
  push_cast
  ring_nf

theorem numbered_flags (f : String → Bool) (k : Int) (ls : List String) :
    ∀ l ∈ numbered f k ls, l.TS = f l.Line := by
  induction ls generalizing k with
  | nil => intro l hl; simp [numbered] at hl
  | cons x xs ih =>
    intro l hl
    simp only [numbered, List.mem_cons] at hl
    rcases hl with hl | hl
    · rw [hl]
    · exact ih _ l hl

theorem getTSNameLoop_ts (lines : List String) (k : Int) (pl : PLstruct) :
    getTSNameLoop lines k false pl = { pl with TS := pl.TS ++ numbered reTs k lines } := by
  induction lines generalizing k pl with
  | nil => simp [getTSNameLoop, numbered]
  | cons l ls ih =>
    simp only [getTSNameLoop, Bool.false_and, Bool.false_eq_true, if_false, ih, numbered,
      List.append_assoc, List.singleton_append]

theorem getTSNameLoop_header (lines : List String) (k : Int) (pl : PLstruct) :
    getTSNameLoop lines k true pl
      = { Header := pl.Header
            ++ numbered (fun _ => false) k (lines.takeWhile (fun l => !reHd l))
          TS := pl.TS ++ numbered reTs (k + (lines.takeWhile (fun l => !reHd l)).length)
            (lines.dropWhile (fun l => !reHd l)) } := by
  induction lines generalizing k pl with
  | nil => simp [getTSNameLoop, numbered]
  | cons l ls ih =>
    by_cases h : reHd l = true
    · simp [getTSNameLoop, h, getTSNameLoop_ts, numbered, List.takeWhile_cons,
        List.dropWhile_cons]
    · have h2 : reHd l = false := by simpa using h
      simp only [getTSNameLoop, h2, Bool.and_false, Bool.false_eq_true, if_false, if_true, ih,
        List.takeWhile_cons, List.dropWhile_cons, Bool.not_false, numbered, List.append_assoc,
        List.singleton_append, List.length_cons]
      congr 2
      push_cast
      ring_nf

theorem dropCR_of_no_cr (xs : List Char) (h : ∀ ys, xs ≠ ys ++ ['\r']) : dropCR xs = xs := by
  unfold dropCR
  split
  · rename_i rest heq
    exfalso
    apply h rest.reverse
    have := congrArg List.reverse heq
    simpa using this
  · rfl

theorem runeLen_eq (c : Char) : runeLen c = c.utf8Size := by
  unfold runeLen Char.utf8Size
  have h1 : (c.val ≤ UInt32.ofNatCore 127 (by decide)) ↔ c.toNat < 0x80 := by
    show c.val.toNat ≤ 127 ↔ c.val.toNat < 128
    omega
  have h2 : (c.val ≤ UInt32.ofNatCore 2047 (by decide)) ↔ c.toNat < 0x800 := by
    show c.val.toNat ≤ 2047 ↔ c.val.toNat < 2048
    omega
  have h3 : (c.val ≤ UInt32.ofNatCore 65535 (by decide)) ↔ c.toNat < 0x10000 := by
    show c.val.toNat ≤ 65535 ↔ c.val.toNat < 65536
    omega
  simp only [h1, h2, h3]

theorem scanLinesAux_line (xs : List Char) (h : ∀ c ∈ xs, c ≠ '\n') (rest cur : List Char)
    (n : Nat) (hn : n + byteLen xs < maxScanTokenSize) :
    scanLinesAux (xs ++ '\n' :: rest) cur n
      = String.mk (dropCR (cur.reverse ++ xs)) :: scanLinesAux rest [] 0 := by
  induction xs generalizing cur n with
  | nil => simp [scanLinesAux]
  | cons c cs ih =>
    have hc : c ≠ '\n' := h c (List.mem_cons_self _ _)
    have hcs : ∀ x ∈ cs, x ≠ '\n' := fun x hx => h x (List.mem_cons_of_mem _ hx)
    have hb : byteLen (c :: cs) = runeLen c + byteLen cs := by simp [byteLen]
    have h1 : ¬ maxScanTokenSize ≤ n + runeLen c := by omega
    simp only [List.cons_append, scanLinesAux, beq_iff_eq, hc, if_false, h1, List.append_eq]
    rw [ih hcs (c :: cur) (n + runeLen c) (by omega)]
    simp

theorem scanLinesAux_last (xs : List Char) (h : ∀ c ∈ xs, c ≠ '\n') (cur : List Char)
    (n : Nat) (hn : n + byteLen xs < maxScanTokenSize) :
    scanLinesAux xs cur n
      = if cur.reverse ++ xs = [] then [] else [String.mk (dropCR (cur.reverse ++ xs))] := by
  induction xs generalizing cur n with
  | nil => simp [scanLinesAux]
  | cons c cs ih =>
    have hc : c ≠ '\n' := h c (List.mem_cons_self _ _)
    have hcs : ∀ x ∈ cs, x ≠ '\n' := fun x hx => h x (List.mem_cons_of_mem _ hx)
    have hb : byteLen (c :: cs) = runeLen c + byteLen cs := by simp [byteLen]
    have h1 : ¬ maxScanTokenSize ≤ n + runeLen c := by omega
    simp only [scanLinesAux, beq_iff_eq, hc, if_false, h1]
    rw [ih hcs (c :: cur) (n + runeLen c) (by omega)]
    simp

/-- At a line that does not fit the buffer the scanner stops. -/
theorem scanLinesAux_too_long (xs : List Char) (h : ∀ c ∈ xs, c ≠ '\n') (rest cur : List Char)
    (n : Nat) (hn0 : n < maxScanTokenSize) (hn : maxScanTokenSize ≤ n + byteLen xs) :
    scanLinesAux (xs ++ rest) cur n = [] := by
  induction xs generalizing cur n with
  | nil =>
    exfalso
    have : byteLen [] = 0 := rfl
    omega
  | cons c cs ih =>
    have hc : c ≠ '\n' := h c (List.mem_cons_self _ _)
    have hcs : ∀ x ∈ cs, x ≠ '\n' := fun x hx => h x (List.mem_cons_of_mem _ hx)
    have hb : byteLen (c :: cs) = runeLen c + byteLen cs := by simp [byteLen]
    simp only [List.cons_append, scanLinesAux, beq_iff_eq, hc, if_false, List.append_eq]
    by_cases h1 : maxScanTokenSize ≤ n + runeLen c
    · simp [h1]
    · simp only [h1, if_false]
      exact ih hcs (c :: cur) (n + runeLen c) (by omega) (by omega)

theorem byteLen_replicate (n : Nat) : byteLen (List.replicate n 'a') = n := by
  induction n with
  | zero => rfl
  | succ k ih =>
    have : byteLen ('a' :: List.replicate k 'a') = 1 + byteLen (List.replicate k 'a') := rfl
    rw [List.replicate_succ, this, ih]
    omega

/-- The scanner returns the lines of a text, each without one trailing carriage return,
when every line has less than `maxScanTokenSize` bytes: the lines that end with a line
feed and, when it is not empty, the text after the last line feed. -/
theorem scanLines_lines (ls : List String) (last : String)
    (h : ∀ l ∈ ls ++ [last],
      (∀ c ∈ l.toList, c ≠ '\n') ∧ byteLen l.toList < maxScanTokenSize) :
    scanLines (linesText ls ++ last)
      = (ls ++ (if last = "" then [] else [last])).map
          (fun l => String.mk (dropCR l.toList)) := by
  induction ls with
  | nil =>
    have hl := h last (by simp)
    have e : linesText [] ++ last = last := by simp [linesText]
    rw [e]
    unfold scanLines
    rw [scanLinesAux_last _ hl.1 [] 0 (by omega)]
    by_cases hlast : last = ""
    · subst hlast
      rfl
    · have : last.data ≠ [] := fun hd => hlast (String.ext hd)
      simp [hlast, this, String.toList]
  | cons l ls ih =>
    have hl := h l (by simp)
    have hls := ih (fun x hx => h x (by
      rcases List.mem_append.mp hx with hx | hx
      · exact List.mem_append_left _ (List.mem_cons_of_mem _ hx)
      · exact List.mem_append_right _ hx))
    unfold scanLines at hls ⊢
    have htext : (linesText (l :: ls) ++ last).toList
        = l.toList ++ '\n' :: (linesText ls ++ last).toList := by
      simp [linesText, String.toList]
    rw [htext, scanLinesAux_line _ hl.1 _ _ 0 (by omega), hls]
    simp

/-- Every text is made of lines that end with a line feed, followed by a text without
line feed. -/
theorem content_lines (content : String) :
    ∃ (ls : List String) (last : String), content = linesText ls ++ last
      ∧ ∀ l ∈ ls ++ [last], ∀ c ∈ l.toList, c ≠ '\n' := by
  suffices hs : ∀ cs : List Char, ∃ (ls : List String) (last : String),
      String.mk cs = linesText ls ++ last
        ∧ ∀ l ∈ ls ++ [last], ∀ c ∈ l.toList, c ≠ '\n' by
    exact hs content.data
  intro cs
  induction cs with
  | nil => exact ⟨[], "", rfl, by simp⟩
  | cons c cs ih =>
    obtain ⟨ls, last, he, hl⟩ := ih
    by_cases hc : c = '\n'
    · refine ⟨"" :: ls, last, ?_, ?_⟩
      · apply String.ext
        have := congrArg String.data he
        simp only [String.data_append] at this
        simp only [linesText, String.data_append, this, hc]
        rfl
      · intro l hl2
        rcases List.mem_cons.mp hl2 with h1 | h1
        · subst h1; intro c hc2; simp at hc2
        · exact hl l h1
    · cases ls with
      | nil =>
        refine ⟨[], String.mk (c :: last.data), ?_, ?_⟩
        · apply String.ext
          have := congrArg String.data he
          simp only [linesText, String.data_append] at this
          simp only [linesText, String.data_append, this]
          rfl
        · intro l hl2
          have h1 : l = String.mk (c :: last.data) := by simpa using hl2
          subst h1
          intro x hx
          rcases List.mem_cons.mp hx with h2 | h2
          · rw [h2]; exact hc
          · exact hl last (by simp) x h2
      | cons l0 ls0 =>
        refine ⟨String.mk (c :: l0.data) :: ls0, last, ?_, ?_⟩
        · apply String.ext
          have := congrArg String.data he
          simp only [linesText, String.data_append] at this
          simp only [linesText, String.data_append, this]
          rfl
        · intro l hl2
          rcases List.mem_cons.mp hl2 with h1 | h1
          · subst h1
            intro x hx
            rcases List.mem_cons.mp hx with h2 | h2
            · rw [h2]; exact hc
            · exact hl l0 (by simp) x h2
          · exact hl l (List.mem_cons_of_mem _ h1)

/-- A file whose first line does not fit the buffer of the scanner is read as a playlist
without lines, and without error. -/
theorem getTSName_too_long (p : String) (xs : List Char) (rest : String)
    (hx : ∀ c ∈ xs, c ≠ '\n') (hb : maxScanTokenSize ≤ byteLen xs) :
    getTSName [(p, String.mk xs ++ rest)] p = .ok ⟨[], []⟩ := by
  have hr : readFile [(p, String.mk xs ++ rest)] p = some (String.mk xs ++ rest) := by
    simp [readFile]
  have hs : scanLines (String.mk xs ++ rest) = [] := by
    unfold scanLines
    have : (String.mk xs ++ rest).toList = xs ++ rest.toList := by
      simp [String.toList]
    rw [this]
    exact scanLinesAux_too_long xs hx _ [] 0 (by decide) (by omega)
  simp only [getTSName, hr, hs]
  rfl

/-- C19, a counterexample: of a file whose first line has 65536 characters `a`, followed
by an EXTINF line and a segment line, `getTSName` returns no line at all, and no error. -/
theorem C19_getTSName_split_counterexample :
    getTSName [("/tmp/00000000-1111-0000-0000-000000000000/low.m3u8",
        String.mk (List.replicate 65536 'a') ++ "\n#EXTINF:2.0,\nlow-2026-11-04-12-00-00-0.ts\n")]
      "/tmp/00000000-1111-0000-0000-000000000000/low.m3u8" = .ok ⟨[], []⟩ :=
  getTSName_too_long _ (List.replicate 65536 'a') _
    (fun c hc => by rw [List.eq_of_mem_replicate hc]; decide)
    (by rw [byteLen_replicate]; decide)

/-- C19 as amended: of a file that can be read and whose lines have each less than
`maxScanTokenSize` = 65536 bytes, `getTSName` returns a split of the lines of the file, each
without one trailing carriage return: `Header` followed by `TS` carries these lines in
order, numbered 1, 2, and so on; `Header` is the longest run of lines from the start none
of which contains `EXTINF`; every line of `Header` has `TS` unset; a line of `TS` has `TS`
set exactly when `.ts` occurs in it after at least one character. The lines of the file
are the texts `ls` that end with a line feed and, when it is not empty, the text `last`
after the last line feed; every file is made this way. -/
theorem C19_getTSName_split (fs : FS) (filePath : String) (ls : List String) (last : String)
    (h : readFile fs filePath = some (linesText ls ++ last))
    (hl : ∀ l ∈ ls ++ [last],
      (∀ c ∈ l.toList, c ≠ '\n') ∧ byteLen l.toList < maxScanTokenSize) :
    ∃ pl, getTSName fs filePath = .ok pl
      ∧ (pl.Header ++ pl.TS).map (fun l => l.Line)
          = (ls ++ (if last = "" then [] else [last])).map
              (fun l => String.mk (dropCR l.toList))
      ∧ (pl.Header ++ pl.TS).map (fun l => l.Num)
          = (List.range (ls ++ (if last = "" then [] else [last])).length).map
              (fun (i : Nat) => 1 + (i : Int))
      ∧ pl.Header.map (fun l => l.Line)
          = ((ls ++ (if last = "" then [] else [last])).map
              (fun l => String.mk (dropCR l.toList))).takeWhile (fun l => !reHd l)
      ∧ (∀ l ∈ pl.Header, l.TS = false)
      ∧ (∀ l ∈ pl.TS, (l.TS = true ↔
          ∃ a b, a ≠ [] ∧ l.Line.toList = a ++ ".ts".toList ++ b))
      ∧ (∀ l : String, reHd l = true ↔ ∃ a b, l.toList = a ++ "EXTINF".toList ++ b)
      ∧ (∀ xs : List Char, dropCR (xs ++ ['\r']) = xs)
      ∧ (∀ xs : List Char, (∀ ys, xs ≠ ys ++ ['\r']) → dropCR xs = xs)
      ∧ (∀ l : String, byteLen l.toList = l.utf8ByteSize)
      ∧ (∀ content : String, ∃ (ls : List String) (last : String),
          content = linesText ls ++ last ∧ ∀ l ∈ ls ++ [last], ∀ c ∈ l.toList, c ≠ '\n') := by
  have hsc := scanLines_lines ls last hl
  refine ⟨getTSNameLoop (scanLines (linesText ls ++ last)) 1 true { Header := [], TS := [] },
    by simp only [getTSName, h], ?_, ?_, ?_, ?_, ?_, reHd_iff, ?_, dropCR_of_no_cr, ?_,
    content_lines⟩
  · rw [getTSNameLoop_header]
    simp only [List.nil_append]
    rw [List.map_append, numbered_lines, numbered_lines, List.takeWhile_append_dropWhile, hsc]
  · rw [getTSNameLoop_header]
    simp only [List.nil_append]
    rw [numbered_nums_append, List.takeWhile_append_dropWhile, hsc, List.length_map]
  · rw [getTSNameLoop_header]
    simp only [List.nil_append]
    rw [numbered_lines, hsc]
  · rw [getTSNameLoop_header]
    simp only [List.nil_append]
    intro l hl
    exact numbered_flags _ _ _ l hl
  · rw [getTSNameLoop_header]
    simp only [List.nil_append]
    intro l hl
    rw [numbered_flags _ _ _ l hl]
    exact reTs_iff l.Line
  · intro xs
    simp [dropCR]
  · intro l
    cases l with
    | mk data =>
      show byteLen data = String.utf8ByteSize ⟨data⟩
      induction data with
      | nil => rfl
      | cons c cs ih =>
        have : byteLen (c :: cs) = runeLen c + byteLen cs := by simp [byteLen]
        rw [this, ih, runeLen_eq]
        simp [String.utf8ByteSize, String.utf8ByteSize.go]
        omega

/-- C19 as amended, on the raw playlist of the low tier of `rawWorld`. -/
theorem C19_getTSName_split_witness :
    ∃ pl, getTSName (rawWorld 2).fs "/tmp/00000000-1111-0000-0000-000000000000/low.m3u8" = .ok pl
      ∧ (pl.Header ++ pl.TS).map (fun l => l.Line)
          = ["#EXTM3U", "#EXT-X-MEDIA-SEQUENCE:0", "#EXTINF:2.0,", "low-2026-11-04-12-00-00-0.ts"]
      ∧ (pl.Header ++ pl.TS).map (fun l => l.Num) = [1, 2, 3, 4]
      ∧ pl.Header.map (fun l => l.Line) = ["#EXTM3U", "#EXT-X-MEDIA-SEQUENCE:0"]
      ∧ pl.TS.map (fun l => l.TS) = [false, true] := by
  obtain ⟨pl, h1, h2, h3, h4, h5, h6, _⟩ :=
    C19_getTSName_split (rawWorld 2).fs "/tmp/00000000-1111-0000-0000-000000000000/low.m3u8"
      ["#EXTM3U", "#EXT-X-MEDIA-SEQUENCE:0", "#EXTINF:2.0,", "low-2026-11-04-12-00-00-0.ts"] ""
      (by decide) (by decide)
  refine ⟨pl, h1, h2.trans (by decide), h3.trans (by decide), h4.trans (by decide), ?_⟩
  have e : getTSName (rawWorld 2).fs "/tmp/00000000-1111-0000-0000-000000000000/low.m3u8"
      = .ok ⟨[⟨1, "#EXTM3U", false⟩, ⟨2, "#EXT-X-MEDIA-SEQUENCE:0", false⟩],
          [⟨3, "#EXTINF:2.0,", false⟩, ⟨4, "low-2026-11-04-12-00-00-0.ts", true⟩]⟩ := by
    rfl
  rw [e] at h1
  cases h1
  rfl

/-! ## Rewriting a playlist -/

theorem fprintln_eq (c l : String) : fprintln c l = c ++ linesText [l] := by
  simp [fprintln, linesText, String.append_assoc]

theorem linesText_append (a b : List String) :
    linesText (a ++ b) = linesText a ++ linesText b := by
  induction a with
  | nil => simp [linesText]
  | cons x xs ih => simp [linesText, ih, String.append_assoc]

theorem linesText_cons (l : String) (ls : List String) :
    linesText (l :: ls) = linesText [l] ++ linesText ls := by
  simp [linesText, String.append_assoc]

theorem refreshHeader_eq (dvrOn : Bool) (hs : List PLline) (c : Int) (live dvr : String) :
    refreshHeader dvrOn hs c live dvr
      = (declaredSeq hs c, live ++ linesText (copiedHeader hs),
         if dvrOn then dvr ++ linesText (copiedHeader hs) else dvr) := by
  induction hs generalizing c live dvr with
  | nil => simp [refreshHeader, declaredSeq, copiedHeader, linesText]
  | cons l ls ih =>
    by_cases h2 : re_h2 l.Line = true
    · simp [refreshHeader, h2, ih, declaredSeq, copiedHeader, isMediaSequence,
        isDiscontinuity, List.filter_cons]
    · have h2f : re_h2 l.Line = false := by simpa using h2
      cases hs : findSeq l.Line.data with
      | some ds =>
        simp [refreshHeader, h2f, hs, ih, declaredSeq, copiedHeader, isMediaSequence,
          isDiscontinuity, List.filter_cons]
      | none =>
        cases dvrOn <;>
          simp [refreshHeader, h2f, hs, ih, declaredSeq, copiedHeader, isMediaSequence,
            isDiscontinuity, List.filter_cons, fprintln_eq,
            String.append_assoc, linesText]

theorem refreshContent_eq (env : Env) (now : Time) (startTs : Option Time) (pl : PLstruct) :
    refreshContent env now startTs pl
      = refreshSegments env startTs (anchored startTs) pl.TS.length pl.TS 0 false ""
          (livePreamble env now startTs pl) (dvrPreamble env startTs pl) := by
  unfold refreshContent
  simp only [refreshHeader_eq, String.empty_append]
  congr 1
  · unfold livePreamble refreshCounter
    by_cases ha : anchored startTs = true <;>
      by_cases hw : 0 < wrapInt64 (countTS pl.TS (declaredSeq pl.Header 0) - LiveNumChunks) <;>
      simp only [ha, hw, if_true, if_false, dateLines, String.append_assoc, String.append_empty,
        gt_iff_lt, Bool.false_eq_true, not_false_eq_true]
  · unfold dvrPreamble
    cases startTs with
    | none => simp [anchored]
    | some t =>
      by_cases ha : anchored (some t) = true
      · simp only [ha, if_true, dateLines, String.append_assoc]
      · simp only [ha, if_false, Bool.false_eq_true]

theorem refreshSegments_started (env : Env) (startTs : Option Time) (dvrOn : Bool) (n : Int)
    (ts : List PLline) (i : Int) (prev live dvr : String) :
    refreshSegments env startTs dvrOn n ts i true prev live dvr
      = (none, live ++ linesText (liveTail n i ts),
         if dvrOn then dvr ++ linesText (ts.map (fun l => l.Line)) else dvr) := by
  induction ts generalizing i prev live dvr with
  | nil => cases dvrOn <;> simp [refreshSegments, liveTail, linesText]
  | cons t ts ih =>
    simp only [refreshSegments, Bool.not_true, Bool.and_false, Bool.false_eq_true, if_false, ih,
      liveTail, List.map_cons]
    by_cases hl : n - i ≤ LiveNumChunks * 2 <;> cases dvrOn <;>
      simp only [hl, if_true, if_false, fprintln, linesText_append, linesText,
        String.append_assoc, String.append_empty, String.empty_append, List.nil_append,
        Bool.false_eq_true]

theorem refreshSegments_waits (env : Env) (startTs : Option Time) (dvrOn : Bool) (n : Int)
    (pre rest : List PLline) (h : ∀ l ∈ pre, waits env startTs l) (i : Int)
    (prev live dvr : String) :
    refreshSegments env startTs dvrOn n (pre ++ rest) i false prev live dvr
      = refreshSegments env startTs dvrOn n rest (i + pre.length) false (lastLine prev pre)
          live dvr := by
  induction pre generalizing i prev with
  | nil => simp [lastLine]
  | cons l ls ih =>
    have hl := h l (List.mem_cons_self _ _)
    have hls : ∀ x ∈ ls, waits env startTs x := fun x hx => h x (List.mem_cons_of_mem _ hx)
    have hi : i + 1 + (ls.length : Int) = i + ((l :: ls).length : Int) := by
      simp only [List.length_cons]; omega
    rw [← hi]
    rcases hl with hl | ⟨t, ht, ha⟩
    · simp only [List.cons_append, refreshSegments, hl, Bool.false_and, Bool.false_eq_true,
        if_false, Bool.not_false, if_true, lastLine]
      exact ih hls (i + 1) l.Line
    · unfold afterAnchor at ha
      cases hts : l.TS with
      | false =>
        simp only [List.cons_append, refreshSegments, hts, Bool.false_and, Bool.false_eq_true,
          if_false, Bool.not_false, if_true, lastLine]
        exact ih hls (i + 1) l.Line
      | true =>
        simp only [List.cons_append, refreshSegments, hts, Bool.not_false, Bool.and_self,
          if_true, ht, ha, Bool.false_eq_true, if_false, lastLine]
        exact ih hls (i + 1) l.Line

theorem refreshSegments_starts (env : Env) (startTs : Option Time) (dvrOn : Bool) (n : Int)
    (x : PLline) (post : List PLline) (hx : starts env startTs x) (i : Int)
    (prev live dvr : String) :
    refreshSegments env startTs dvrOn n (x :: post) i false prev live dvr
      = (none,
         live ++ linesText ((if n - i ≤ LiveNumChunks + 2 then [prev] else [])
           ++ liveTail n i (x :: post)),
         if dvrOn then dvr ++ linesText (prev :: (x :: post).map (fun l => l.Line))
         else dvr) := by
  obtain ⟨hts, t, ht, ha⟩ := hx
  unfold afterAnchor at ha
  simp only [refreshSegments, hts, Bool.not_false, Bool.and_self, if_true, ht, ha,
    refreshSegments_started, liveTail, List.map_cons]
  by_cases h8 : n - i ≤ LiveNumChunks + 2 <;> by_cases h12 : n - i ≤ LiveNumChunks * 2 <;>
    cases dvrOn <;>
    simp only [h8, h12, if_true, if_false, fprintln, linesText_append, linesText,
      String.append_assoc, String.append_empty, String.empty_append, List.nil_append,
      Bool.false_eq_true, List.singleton_append, List.cons_append]

theorem liveTail_lastN (n i : Int) (ts : List PLline) (hn : n = i + ts.length) :
    liveTail n i ts = (lastN 12 ts).map (fun l => l.Line) := by
  induction ts generalizing i with
  | nil => simp [liveTail, lastN]
  | cons t ts ih =>
    have hn2 : n = i + 1 + (ts.length : Int) := by
      rw [hn]; simp only [List.length_cons]; omega
    have ih2 := ih (i + 1) hn2
    unfold lastN at ih2 ⊢
    by_cases h12 : (t :: ts).length ≤ 12
    · have hle : n - i ≤ LiveNumChunks * 2 := by
        rw [hn]; simp only [LiveNumChunks]; omega
      have h0 : (t :: ts).length - 12 = 0 := by omega
      have h1 : ts.length - 12 = 0 := by simp only [List.length_cons] at h12; omega
      simp only [liveTail, hle, if_true, ih2, h0, h1, List.drop_zero, List.map_cons,
        List.singleton_append]
    · have hgt : ¬ n - i ≤ LiveNumChunks * 2 := by
        rw [hn]; simp only [LiveNumChunks]; omega
      have hd : (t :: ts).length - 12 = (ts.length - 12) + 1 := by
        simp only [List.length_cons] at h12 ⊢; omega
      simp only [liveTail, hgt, if_false, ih2, hd, List.drop_succ_cons, List.nil_append]

theorem extends_fprintln (c : Prop) [Decidable c] (s0 s x : String) (h : ∃ u, s = s0 ++ u) :
    ∃ u, (if c then fprintln s x else s) = s0 ++ u := by
  obtain ⟨u, hu⟩ := h
  by_cases hc : c
  · exact ⟨u ++ x ++ "\n", by simp only [hc, if_true, fprintln, hu, String.append_assoc]⟩
  · exact ⟨u, by simp only [hc, if_false, hu]⟩

theorem refreshSegments_extends (env : Env) (startTs : Option Time) (dvrOn : Bool) (n : Int)
    (live0 dvr0 : String) (ts : List PLline) :
    ∀ (i : Int) (sp : Bool) (prev live dvr : String),
      (∃ u, live = live0 ++ u) → (∃ v, dvr = dvr0 ++ v) →
      ∃ e a b, refreshSegments env startTs dvrOn n ts i sp prev live dvr
        = (e, live0 ++ a, dvr0 ++ b) := by
  induction ts with
  | nil =>
    intro i sp prev live dvr ⟨u, hu⟩ ⟨v, hv⟩
    exact ⟨none, u, v, by simp [refreshSegments, hu, hv]⟩
  | cons t ts ih =>
    intro i sp prev live dvr hl hd
    unfold refreshSegments
    split
    · split
      · obtain ⟨u, hu⟩ := hl
        obtain ⟨v, hv⟩ := hd
        exact ⟨_, u, v, by rw [hu, hv]⟩
      · split
        · dsimp only
          apply ih
          · exact extends_fprintln _ _ _ _ (extends_fprintln _ _ _ _ hl)
          · exact extends_fprintln _ _ _ _ (extends_fprintln _ _ _ _ hd)
        · exact ih _ _ _ _ _ hl hd
    · split
      · exact ih _ _ _ _ _ hl hd
      · dsimp only
        apply ih
        · exact extends_fprintln _ _ _ _ hl
        · exact extends_fprintln _ _ _ _ hd

theorem copiedHeader_eq (hs : List PLline) :
    copiedHeader hs
      = (hs.map (fun l => l.Line)).filter
          (fun l => !isDiscontinuity l && !isMediaSequence l) := by
  unfold copiedHeader
  rw [List.filter_map]
  rfl

theorem stripLit_eq_some (lit : List Char) : ∀ (s rest : List Char),
    stripLit s lit = some rest ↔ s = lit ++ rest := by
  induction lit with
  | nil => intro s rest; cases s <;> simp [stripLit, eq_comm]
  | cons p ps ih =>
    intro s rest
    cases s with
    | nil => simp [stripLit]
    | cons c cs =>
      simp only [stripLit, List.cons_append, List.cons.injEq]
      by_cases h : c = p
      · subst h
        simp [ih]
      · simp [h]

theorem dropWhile_ne_nil_iff {α : Type} (f : α → Bool) (l : List α) :
    l.dropWhile f ≠ [] ↔ ∃ x ∈ l, f x = false := by
  induction l with
  | nil => simp
  | cons x xs ih =>
    by_cases hx : f x = true
    · simp [List.dropWhile_cons, hx, ih]
    · simp [List.dropWhile_cons, hx]

theorem findSeq_isSome_iff (s : List Char) :
    (findSeq s).isSome = true
      ↔ ∃ a mid d b, s = a ++ "EXT-X-MEDIA-SEQUENCE".toList ++ mid ++ d :: b
          ∧ mid ≠ [] ∧ isDigit d = true := by
  induction s with
  | nil =>
    simp only [findSeq, Option.isSome_none, Bool.false_eq_true, false_iff]
    rintro ⟨a, mid, d, b, h, -, -⟩
    have := congrArg List.length h
    simp at this
    omega
  | cons c cs ih =>
    have hstep : (∃ a mid d b, c :: cs = a ++ "EXT-X-MEDIA-SEQUENCE".toList ++ mid ++ d :: b
          ∧ mid ≠ [] ∧ isDigit d = true)
        ↔ (∃ rest, stripLit (c :: cs) "EXT-X-MEDIA-SEQUENCE".toList = some rest
              ∧ ((rest.drop 1).dropWhile (fun x => !isDigit x)) ≠ [])
          ∨ (∃ a mid d b, cs = a ++ "EXT-X-MEDIA-SEQUENCE".toList ++ mid ++ d :: b
              ∧ mid ≠ [] ∧ isDigit d = true) := by
      constructor
      · rintro ⟨a, mid, d, b, h, hm, hd⟩
        cases a with
        | nil =>
          left
          refine ⟨mid ++ d :: b, ?_, ?_⟩
          · rw [stripLit_eq_some, h]; simp
          · rw [dropWhile_ne_nil_iff]
            refine ⟨d, ?_, by simp [hd]⟩
            cases mid with
            | nil => exact absurd rfl hm
            | cons m ms => simp
        | cons a0 as =>
          right
          simp only [List.cons_append, List.cons.injEq] at h
          exact ⟨as, mid, d, b, h.2, hm, hd⟩
      · rintro (⟨rest, hs, hne⟩ | ⟨a, mid, d, b, h, hm, hd⟩)
        · rw [stripLit_eq_some] at hs
          rw [dropWhile_ne_nil_iff] at hne
          obtain ⟨x, hx, hxd⟩ := hne
          cases rest with
          | nil => simp at hx
          | cons r rs =>
            simp only [List.drop_succ_cons, List.drop_zero] at hx
            obtain ⟨u, v, huv⟩ := List.append_of_mem hx
            refine ⟨[], r :: u, x, v, ?_, by simp, by simpa using hxd⟩
            rw [hs, huv]; simp
        · exact ⟨c :: a, mid, d, b, by rw [h]; simp, hm, hd⟩
    rw [hstep, ← ih, findSeq]
    cases hs : stripLit (c :: cs) "EXT-X-MEDIA-SEQUENCE".toList with
    | none => simp
    | some rest =>
      by_cases hne : ((rest.drop 1).dropWhile (fun x => !isDigit x)) = []
      · simp only [hne, bne_self_eq_false, Bool.false_eq_true, if_false, Option.some.injEq,
          exists_eq_left', ne_eq, not_true_eq_false, false_or]
      · have hb : (((rest.drop 1).dropWhile (fun x => !isDigit x)) != []) = true := by
          simpa using hne
        simp only [hb, if_true, Option.isSome_some, Option.some.injEq, exists_eq_left', ne_eq,
          hne, not_false_eq_true, true_or]

theorem isDiscontinuity_iff (l : String) :
    isDiscontinuity l = true ↔ ∃ a b, l.toList = a ++ "#EXT-X-DISCONTINUITY".toList ++ b :=
  containsChars_iff _ _

theorem isMediaSequence_iff (l : String) :
    isMediaSequence l = true
      ↔ (¬ ∃ a b, l.toList = a ++ "#EXT-X-DISCONTINUITY".toList ++ b)
        ∧ ∃ a mid d b, l.toList = a ++ "EXT-X-MEDIA-SEQUENCE".toList ++ mid ++ d :: b
            ∧ mid ≠ [] ∧ isDigit d = true := by
  unfold isMediaSequence
  rw [Bool.and_eq_true, findSeq_isSome_iff, ← isDiscontinuity_iff]
  simp [isDiscontinuity]


theorem dropWhile_digits_head (ds post : List Char) (hne : ds ≠ [])
    (hd : ∀ c ∈ ds, isDigit c = true) :
    (ds ++ post).dropWhile (fun x => !isDigit x) = ds ++ post := by
  cases ds with
  | nil => exact absurd rfl hne
  | cons d ds =>
    have := hd d (List.mem_cons_self _ _)
    simp [List.dropWhile_cons, this]

theorem takeWhile_digits (ds post : List Char) (hd : ∀ c ∈ ds, isDigit c = true)
    (hp : ∀ c ∈ post.head?, isDigit c = false) :
    (ds ++ post).takeWhile isDigit = ds := by
  induction ds with
  | nil =>
    cases post with
    | nil => rfl
    | cons p ps =>
      have := hp p (by simp)
      simp [List.takeWhile_cons, this]
  | cons d ds ih =>
    have h1 := hd d (List.mem_cons_self _ _)
    simp only [List.cons_append, List.takeWhile_cons, h1, if_true, List.cons.injEq, true_and]
    exact ih (fun c hc => hd c (List.mem_cons_of_mem _ hc))

/-- The number of a media-sequence line as the media server writes it. -/
theorem findSeq_standard (ds post : List Char) (hne : ds ≠ [])
    (hd : ∀ c ∈ ds, isDigit c = true) (hp : ∀ c ∈ post.head?, isDigit c = false) :
    findSeq ("#EXT-X-MEDIA-SEQUENCE:".toList ++ ds ++ post) = some ds := by
  have e : "#EXT-X-MEDIA-SEQUENCE:".toList ++ ds ++ post
      = '#' :: ("EXT-X-MEDIA-SEQUENCE".toList ++ (':' :: (ds ++ post))) := by
    simp
  rw [e, findSeq]
  have h1 : stripLit ('#' :: ("EXT-X-MEDIA-SEQUENCE".toList ++ (':' :: (ds ++ post))))
      "EXT-X-MEDIA-SEQUENCE".toList = none := by
    rfl
  rw [h1]
  dsimp only
  have e2 : "EXT-X-MEDIA-SEQUENCE".toList ++ (':' :: (ds ++ post))
      = 'E' :: ("XT-X-MEDIA-SEQUENCE".toList ++ (':' :: (ds ++ post))) := rfl
  rw [e2, findSeq, ← e2, stripLit_append]
  dsimp only
  simp only [List.drop_succ_cons, List.drop_zero]
  rw [dropWhile_digits_head ds post hne hd, takeWhile_digits ds post hd hp]
  have : ((ds ++ post) != []) = true := by
    cases ds with
    | nil => exact absurd rfl hne
    | cons d ds => rfl
  rw [if_pos this]

theorem not_discontinuity_standard (ds : List Char) (hd : ∀ c ∈ ds, isDigit c = true) :
    containsChars ("#EXT-X-MEDIA-SEQUENCE:".toList ++ ds) "#EXT-X-DISCONTINUITY".toList
      = false := by
  have e : "#EXT-X-MEDIA-SEQUENCE:".toList ++ ds
      = '#' :: ("EXT-X-MEDIA-SEQUENCE:".toList ++ ds) := rfl
  have h0 : containsChars ('#' :: ("EXT-X-MEDIA-SEQUENCE:".toList ++ ds))
        "#EXT-X-DISCONTINUITY".toList
      = containsChars ("EXT-X-MEDIA-SEQUENCE:".toList ++ ds) "#EXT-X-DISCONTINUITY".toList := by
    rfl
  rw [e, h0]
  have h1 := containsChars_skip ("EXT-X-MEDIA-SEQUENCE:".toList ++ ds) [] '#'
    "EXT-X-DISCONTINUITY".toList (by
      intro x hx
      rcases List.mem_append.mp hx with h | h
      · exact (by decide : ∀ y ∈ "EXT-X-MEDIA-SEQUENCE:".toList, y ≠ '#') x h
      · intro hx2
        have := hd x h
        rw [hx2] at this
        exact absurd this (by decide))
  rw [List.append_nil] at h1
  exact h1.trans rfl

theorem declaredSeq_none (hs : List PLline) (c : Int)
    (h : ∀ x ∈ hs, isMediaSequence x.Line = false) : declaredSeq hs c = c := by
  induction hs with
  | nil => rfl
  | cons l ls ih =>
    unfold declaredSeq
    rw [if_neg (by simp [h l (List.mem_cons_self _ _)])]
    exact ih (fun x hx => h x (List.mem_cons_of_mem _ hx))

theorem declaredSeq_cons_some (l : PLline) (ls : List PLline) (c : Int) (ds : List Char)
    (hm : isMediaSequence l.Line = true) (hf : findSeq l.Line.toList = some ds) :
    declaredSeq (l :: ls) c = declaredSeq ls (atoiDigits ds) := by
  rw [declaredSeq, if_pos hm, hf]

theorem declaredSeq_append (pre post : List PLline) (c : Int) :
    declaredSeq (pre ++ post) c = declaredSeq post (declaredSeq pre c) := by
  induction pre generalizing c with
  | nil => rfl
  | cons l ls ih =>
    simp only [List.cons_append]
    rw [declaredSeq, declaredSeq]
    split
    · split
      · exact ih _
      · exact ih _
    · exact ih _

/-- The counter starts from the number of the last media-sequence line of the header,
when this line is written as the media server writes it. -/
theorem declaredSeq_last (pre post : List PLline) (l : PLline) (ds : List Char) (c : Int)
    (hl : l.Line.toList = "#EXT-X-MEDIA-SEQUENCE:".toList ++ ds) (hne : ds ≠ [])
    (hd : ∀ c ∈ ds, isDigit c = true)
    (hpost : ∀ x ∈ post, isMediaSequence x.Line = false) :
    declaredSeq (pre ++ l :: post) c = atoiDigits ds := by
  have hf : findSeq l.Line.toList = some ds := by
    have := findSeq_standard ds [] hne hd (by simp)
    rw [List.append_nil] at this
    rw [hl]; exact this
  have hm : isMediaSequence l.Line = true := by
    unfold isMediaSequence re_h2
    rw [hf, hl, not_discontinuity_standard ds hd]
    rfl
  rw [declaredSeq_append, declaredSeq_cons_some l post _ ds hm hf, declaredSeq_none post _ hpost]

/-- C18: the live file `Refresh` writes for a tier begins with the header lines of the raw
playlist, in their order, without the discontinuity markers and the media-sequence
lines; the counter starts from the number of the last media-sequence line, which is not
copied; with a DVR anchor the DVR file begins with the same lines. A discontinuity marker
is a line in which `#EXT-X-DISCONTINUITY` occurs; a media-sequence line is another line in
which `EXT-X-MEDIA-SEQUENCE` is followed, at least one character further, by a digit; the
number of a line `#EXT-X-MEDIA-SEQUENCE:` followed by digits is the value of these digits. -/
theorem C18_header_copied (env : Env) (now : Time) (startTs : Option Time) (pl : PLstruct) :
    (∃ rest, (refreshContent env now startTs pl).2.1
        = linesText ((pl.Header.map (fun l => l.Line)).filter
            (fun l => !isDiscontinuity l && !isMediaSequence l)) ++ rest)
    ∧ (anchored startTs = true →
        ∃ rest, (refreshContent env now startTs pl).2.2
          = linesText ((pl.Header.map (fun l => l.Line)).filter
              (fun l => !isDiscontinuity l && !isMediaSequence l)) ++ rest)
    ∧ (refreshHeader (anchored startTs) pl.Header 0 "" "").1 = declaredSeq pl.Header 0
    ∧ (∀ l : String, isDiscontinuity l = true
        ↔ ∃ a b, l.toList = a ++ "#EXT-X-DISCONTINUITY".toList ++ b)
    ∧ (∀ l : String, isMediaSequence l = true
        ↔ (¬ ∃ a b, l.toList = a ++ "#EXT-X-DISCONTINUITY".toList ++ b)
          ∧ ∃ a mid d b, l.toList = a ++ "EXT-X-MEDIA-SEQUENCE".toList ++ mid ++ d :: b
              ∧ mid ≠ [] ∧ isDigit d = true)
    ∧ (∀ (pre post : List PLline) (l : PLline) (ds : List Char),
        pl.Header = pre ++ l :: post →
        l.Line.toList = "#EXT-X-MEDIA-SEQUENCE:".toList ++ ds →
        ds ≠ [] → (∀ c ∈ ds, isDigit c = true) →
        (∀ x ∈ post, isMediaSequence x.Line = false) →
        declaredSeq pl.Header 0 = atoiDigits ds ∧ atoiDigits ds = min (digitsVal ds : Int) maxInt64) := by
  rw [← copiedHeader_eq, refreshContent_eq]
  refine ⟨?_, ?_, ?_, isDiscontinuity_iff, isMediaSequence_iff, ?_⟩
  · obtain ⟨e, a, b, h⟩ := refreshSegments_extends env startTs (anchored startTs)
      pl.TS.length (linesText (copiedHeader pl.Header)) "" pl.TS 0 false ""
      (livePreamble env now startTs pl) (dvrPreamble env startTs pl)
      ⟨_, by unfold livePreamble; rw [String.append_assoc]⟩ ⟨_, (String.empty_append _).symm⟩
    exact ⟨a, by rw [h]⟩
  · intro ha
    obtain ⟨e, a, b, h⟩ := refreshSegments_extends env startTs (anchored startTs)
      pl.TS.length "" (linesText (copiedHeader pl.Header)) pl.TS 0 false ""
      (livePreamble env now startTs pl) (dvrPreamble env startTs pl)
      ⟨_, (String.empty_append _).symm⟩
      ⟨dateLines env (startTs.getD 0), by
        unfold dvrPreamble
        cases startTs with
        | none => simp [anchored] at ha
        | some t => simp only [ha, if_true, Option.getD_some]⟩
    exact ⟨b, by rw [h]⟩
  · rw [refreshHeader_eq]
  · intro pre post l ds hh hl hne hd hpost
    refine ⟨?_, ?_⟩
    · rw [hh]
      exact declaredSeq_last pre post l ds 0 hl hne hd hpost
    · unfold atoiDigits
      split
      · rename_i h
        exact (min_eq_left h).symm
      · rename_i h
        exact (min_eq_right (le_of_not_le h)).symm

set_option maxRecDepth 20000 in
/-- C18 on a raw playlist whose header holds a discontinuity marker and the media-sequence
line of number 100, with a DVR anchor before the capture time of the segment: the live and
the DVR file begin with the three other header lines, and the counter starts from 100. -/
theorem C18_header_copied_witness :
    refreshContent demoEnv 0 (some 1)
        (getTSNameLoop (scanLines ("#EXTM3U\n#EXT-X-VERSION:3\n#EXT-X-DISCONTINUITY\n"
          ++ "#EXT-X-MEDIA-SEQUENCE:100\n#EXT-X-TARGETDURATION:2\n"
          ++ "#EXTINF:2.0,\nlow-2026-11-04-12-00-00-0.ts\n")) 1 true ⟨[], []⟩)
      = (none,
         "#EXTM3U\n#EXT-X-VERSION:3\n#EXT-X-TARGETDURATION:2\n#EXT-X-MEDIA-SEQUENCE:95\n"
           ++ "#EXTINF:2.0,\nlow-2026-11-04-12-00-00-0.ts\n",
         "#EXTM3U\n#EXT-X-VERSION:3\n#EXT-X-TARGETDURATION:2\n"
           ++ "#EXT-X-PROGRAM-DATE-TIME:0\n#EXT-X-PLAYLIST-TYPE:EVENT\n"
           ++ "#EXTINF:2.0,\nlow-2026-11-04-12-00-00-0.ts\n")
    ∧ declaredSeq (getTSNameLoop (scanLines ("#EXTM3U\n#EXT-X-VERSION:3\n#EXT-X-DISCONTINUITY\n"
          ++ "#EXT-X-MEDIA-SEQUENCE:100\n#EXT-X-TARGETDURATION:2\n"
          ++ "#EXTINF:2.0,\nlow-2026-11-04-12-00-00-0.ts\n")) 1 true ⟨[], []⟩).Header 0
        = atoiDigits "100".toList
    ∧ atoiDigits "100".toList = 100
    ∧ isDiscontinuity "#EXT-X-DISCONTINUITY" = true
    ∧ isMediaSequence "#EXT-X-MEDIA-SEQUENCE:100" = true :=
  ⟨rfl,
   ((C18_header_copied demoEnv 0 (some 1)
      (getTSNameLoop (scanLines ("#EXTM3U\n#EXT-X-VERSION:3\n#EXT-X-DISCONTINUITY\n"
          ++ "#EXT-X-MEDIA-SEQUENCE:100\n#EXT-X-TARGETDURATION:2\n"
          ++ "#EXTINF:2.0,\nlow-2026-11-04-12-00-00-0.ts\n")) 1 true ⟨[], []⟩)).2.2.2.2.2
      [⟨1, "#EXTM3U", false⟩, ⟨2, "#EXT-X-VERSION:3", false⟩, ⟨3, "#EXT-X-DISCONTINUITY", false⟩]
      [⟨5, "#EXT-X-TARGETDURATION:2", false⟩] ⟨4, "#EXT-X-MEDIA-SEQUENCE:100", false⟩
      "100".toList rfl rfl (by decide) (by decide) (by decide)).1,
   rfl,
   ((C18_header_copied demoEnv 0 (some 1) ⟨[], []⟩).2.2.2.1 "#EXT-X-DISCONTINUITY").mpr
     ⟨[], [], rfl⟩,
   ((C18_header_copied demoEnv 0 (some 1) ⟨[], []⟩).2.2.2.2.1 "#EXT-X-MEDIA-SEQUENCE:100").mpr
     ⟨fun h => absurd ((isDiscontinuity_iff "#EXT-X-MEDIA-SEQUENCE:100").mpr h) (by decide),
      ['#'], [':'], '1', ['0', '0'], rfl, by decide, by decide⟩⟩

theorem wrapInt64_id (x : Int) (h1 : -2 ^ 63 ≤ x) (h2 : x < 2 ^ 63) : wrapInt64 x = x := by
  unfold wrapInt64
  rw [Int.emod_eq_of_lt (by omega) (by omega)]
  omega

theorem atoiDigits_bounds (ds : List Char) : 0 ≤ atoiDigits ds ∧ atoiDigits ds ≤ maxInt64 := by
  unfold atoiDigits
  split
  · rename_i h
    exact ⟨Int.natCast_nonneg _, h⟩
  · exact ⟨by decide, le_refl _⟩

theorem declaredSeq_bounds (hs : List PLline) (c : Int) (hc : 0 ≤ c ∧ c ≤ maxInt64) :
    0 ≤ declaredSeq hs c ∧ declaredSeq hs c ≤ maxInt64 := by
  induction hs generalizing c with
  | nil => exact hc
  | cons l ls ih =>
    unfold declaredSeq
    split
    · split
      · exact ih _ (atoiDigits_bounds _)
      · exact ih _ hc
    · exact ih _ hc

theorem countTS_eq (ts : List PLline) (c : Int) (h0 : 0 ≤ c)
    (h : c + segmentCount ts ≤ maxInt64) : countTS ts c = c + segmentCount ts := by
  induction ts generalizing c with
  | nil => simp [countTS, segmentCount]
  | cons v rest ih =>
    unfold maxInt64 at h
    cases hv : v.TS with
    | false =>
      have hcnt : segmentCount (v :: rest) = segmentCount rest := by
        simp [segmentCount, List.filter_cons, hv]
      rw [hcnt] at h ⊢
      simp only [countTS, hv, Bool.false_eq_true, if_false]
      exact ih c h0 (by unfold maxInt64; exact h)
    | true =>
      have hcnt : segmentCount (v :: rest) = segmentCount rest + 1 := by
        simp [segmentCount, List.filter_cons, hv]
      rw [hcnt] at h ⊢
      push_cast at h ⊢
      simp only [countTS, hv, if_true]
      rw [wrapInt64_id (c + 1) (by omega) (by omega)]
      rw [ih (c + 1) (by omega) (by unfold maxInt64; omega)]
      ring

theorem lastN_append {α : Type} (k : Nat) (pre s : List α) (h : k ≤ s.length) :
    lastN k (pre ++ s) = lastN k s := by
  unfold lastN
  have : (pre ++ s).length - k = pre.length + (s.length - k) := by
    simp only [List.length_append]; omega
  rw [this, List.drop_append]

/-- The content `Refresh` writes when the segment part is `pre ++ x :: post`, no line of
`pre` starts the playlist and `x` does. -/
theorem refreshContent_start (env : Env) (now : Time) (startTs : Option Time) (pl : PLstruct)
    (pre : List PLline) (x : PLline) (post : List PLline)
    (hts : pl.TS = pre ++ x :: post)
    (hpre : ∀ l ∈ pre, waits env startTs l)
    (hx : starts env startTs x) :
    refreshContent env now startTs pl
      = (none,
         livePreamble env now startTs pl
           ++ linesText ((if (x :: post).length ≤ 8 then [lineBefore pre] else [])
               ++ (lastN 12 (x :: post)).map (fun l => l.Line)),
         if anchored startTs then
           dvrPreamble env startTs pl
             ++ linesText (lineBefore pre :: (x :: post).map (fun l => l.Line))
         else dvrPreamble env startTs pl) := by
  rw [refreshContent_eq, hts, refreshSegments_waits _ _ _ _ pre (x :: post) hpre,
    refreshSegments_starts _ _ _ _ x post hx]
  have hn : (((pre ++ x :: post).length : Nat) : Int)
      = (0 + (pre.length : Int)) + ((x :: post).length : Nat) := by
    simp only [List.length_append]
    push_cast
    ring
  rw [liveTail_lastN _ _ _ hn]
  have h8 : ((((pre ++ x :: post).length : Nat) : Int) - (0 + (pre.length : Int))
      ≤ LiveNumChunks + 2) ↔ (x :: post).length ≤ 8 := by
    rw [hn]
    simp only [LiveNumChunks]
    omega
  simp only [h8, lineBefore]

theorem refreshCounter_eq (pl : PLstruct)
    (h : declaredSeq pl.Header 0 + segmentCount pl.TS ≤ maxInt64) :
    refreshCounter pl = declaredSeq pl.Header 0 + segmentCount pl.TS := by
  unfold refreshCounter
  exact countTS_eq _ _ (declaredSeq_bounds pl.Header 0 ⟨le_refl _, by decide⟩).1 h

theorem livePreamble_eq (env : Env) (now : Time) (startTs : Option Time) (pl : PLstruct)
    (h : declaredSeq pl.Header 0 + segmentCount pl.TS ≤ maxInt64) :
    livePreamble env now startTs pl
      = linesText (copiedHeader pl.Header)
          ++ seqLine (declaredSeq pl.Header 0 + segmentCount pl.TS)
          ++ (if anchored startTs then "" else dateLines env now) := by
  have h0 := (declaredSeq_bounds pl.Header 0 ⟨le_refl _, by decide⟩).1
  have hw : wrapInt64 (refreshCounter pl - LiveNumChunks)
      = declaredSeq pl.Header 0 + segmentCount pl.TS - LiveNumChunks := by
    rw [refreshCounter_eq pl h]
    unfold maxInt64 at h
    apply wrapInt64_id <;> simp only [LiveNumChunks] <;> omega
  unfold livePreamble seqLine
  rw [hw]

set_option maxRecDepth 20000 in
/-- C16, a counterexample: a raw playlist of 10 segments that declares the number 100 is
rewritten with the media-sequence number 104, not 4, and a raw playlist of one segment
that declares the number 0 is rewritten with no media-sequence line. -/
theorem C16_media_sequence_counterexample :
    refreshedLive 0 none (demoPlaylist 100 10)
      = some ("#EXTM3U\n#EXT-X-VERSION:3\n#EXT-X-TARGETDURATION:2\n"
          ++ "#EXT-X-MEDIA-SEQUENCE:104\n"
          ++ "#EXT-X-PROGRAM-DATE-TIME:0\n#EXT-X-PLAYLIST-TYPE:EVENT\n"
          ++ linesText (((List.range 10).map demoSegment).flatten.drop 8))
    ∧ refreshedLive 0 none (demoPlaylist 0 1)
      = some ("#EXTM3U\n#EXT-X-VERSION:3\n#EXT-X-TARGETDURATION:2\n"
          ++ "#EXT-X-PROGRAM-DATE-TIME:0\n#EXT-X-PLAYLIST-TYPE:EVENT\n"
          ++ linesText (demoSegment 0)) := by
  constructor <;> rfl

/-- C16: when the number the header declares plus the number of segment-reference lines
is within the range of `int`, the live file is the copied header lines, then one
media-sequence line whose number is the declared number plus the number of
segment-reference lines less 6 when that is positive and no media-sequence line
otherwise, then without a DVR anchor the two lines that date the playlist, then lines of
the segment part; no copied header line is a media-sequence line. -/
theorem C16_media_sequence (env : Env) (now : Time) (startTs : Option Time) (pl : PLstruct)
    (h : declaredSeq pl.Header 0 + segmentCount pl.TS ≤ maxInt64) :
    (∃ rest, (refreshContent env now startTs pl).2.1
        = linesText (copiedHeader pl.Header)
            ++ seqLine (declaredSeq pl.Header 0 + segmentCount pl.TS)
            ++ (if anchored startTs then "" else dateLines env now)
            ++ rest)
    ∧ (∀ l ∈ copiedHeader pl.Header, isMediaSequence l = false)
    ∧ seqLine (declaredSeq pl.Header 0 + segmentCount pl.TS)
        = (if declaredSeq pl.Header 0 + segmentCount pl.TS - 6 > 0 then
            "#EXT-X-MEDIA-SEQUENCE:"
              ++ toString (declaredSeq pl.Header 0 + segmentCount pl.TS - 6) ++ "\n"
           else "") := by
  refine ⟨?_, ?_, rfl⟩
  · rw [refreshContent_eq, ← livePreamble_eq env now startTs pl h]
    obtain ⟨e, a, b, hh⟩ := refreshSegments_extends env startTs (anchored startTs)
      pl.TS.length (livePreamble env now startTs pl) "" pl.TS 0 false ""
      (livePreamble env now startTs pl) (dvrPreamble env startTs pl)
      ⟨"", (String.append_empty _).symm⟩ ⟨_, (String.empty_append _).symm⟩
    exact ⟨a, by rw [hh]⟩
  · intro l hl
    rw [copiedHeader_eq, List.mem_filter] at hl
    have := hl.2
    simp only [Bool.and_eq_true, Bool.not_eq_true'] at this
    exact this.2

theorem C16_media_sequence_witness :
    ∃ pl, getTSName (lowFiles (demoPlaylist 100 10))
        "/tmp/00000000-1111-0000-0000-000000000000/low.m3u8" = .ok pl
      ∧ declaredSeq pl.Header 0 = 100 ∧ segmentCount pl.TS = 10
      ∧ (∃ rest, (refreshContent demoEnv 0 none pl).2.1
          = linesText (copiedHeader pl.Header)
              ++ seqLine (declaredSeq pl.Header 0 + segmentCount pl.TS)
              ++ (if anchored none then "" else dateLines demoEnv 0)
              ++ rest) :=
  ⟨getTSNameLoop (scanLines (demoPlaylist 100 10)) 1 true ⟨[], []⟩, rfl, rfl, rfl,
    (C16_media_sequence demoEnv 0 none
      (getTSNameLoop (scanLines (demoPlaylist 100 10)) 1 true ⟨[], []⟩) (by decide)).1⟩

set_option maxRecDepth 20000 in
/-- C15 fails on the code: of a segment part of 12 lines (6 segments), with no start time,
the live file holds the last 11 lines: the first line, the EXTINF line of the first
segment, is not written, and the first segment of the live file has no EXTINF line. The
line before the first segment-reference line is written to the live file under the test
of `LiveNumChunks + 2` remaining lines, the segment lines under the test of
`LiveNumChunks * 2`; with a start time before the first segment the DVR file of the same
playlist, to which this line is written without a test, holds the 12 lines. -/
theorem C15_first_extinf_lost :
    (((List.range 6).map demoSegment).flatten).length = 12
    ∧ refreshedLive 0 none (demoPlaylist 0 6)
      = some ("#EXTM3U\n#EXT-X-VERSION:3\n#EXT-X-TARGETDURATION:2\n"
          ++ "#EXT-X-PROGRAM-DATE-TIME:0\n#EXT-X-PLAYLIST-TYPE:EVENT\n"
          ++ linesText ((((List.range 6).map demoSegment).flatten).drop 1))
    ∧ refreshedDvr 0 (some 1) (demoPlaylist 0 6)
      = some ("#EXTM3U\n#EXT-X-VERSION:3\n#EXT-X-TARGETDURATION:2\n"
          ++ "#EXT-X-PROGRAM-DATE-TIME:0\n#EXT-X-PLAYLIST-TYPE:EVENT\n"
          ++ linesText (((List.range 6).map demoSegment).flatten)) := by
  refine ⟨?_, ?_, ?_⟩ <;> rfl

/-- When the first segment-reference line of the segment part has a capture time that
is read and is after the start time (or no start time is given), and the part counts at
least 12 lines from that line on, the live file is the preamble followed by the last 12
lines of the segment part, in their order. -/
theorem live_window_full (env : Env) (now : Time) (startTs : Option Time) (pl : PLstruct)
    (pre : List PLline) (x : PLline) (post : List PLline)
    (hts : pl.TS = pre ++ x :: post)
    (hpre : ∀ l ∈ pre, l.TS = false)
    (hx : starts env startTs x)
    (hlen : 12 ≤ (x :: post).length) :
    (refreshContent env now startTs pl).1 = none
    ∧ (refreshContent env now startTs pl).2.1
      = livePreamble env now startTs pl
          ++ linesText ((lastN 12 pl.TS).map (fun l => l.Line)) := by
  rw [refreshContent_start env now startTs pl pre x post hts
    (fun l hl => Or.inl (hpre l hl)) hx]
  have h8 : ¬ (x :: post).length ≤ 8 := by omega
  rw [hts, lastN_append 12 pre (x :: post) hlen]
  simp only [h8, if_false, List.nil_append, and_self]

set_option maxRecDepth 20000 in
theorem live_window_full_ten_segments :
    (refreshContent demoEnv 0 none
        (getTSNameLoop (scanLines (demoPlaylist 0 10)) 1 true ⟨[], []⟩)).1 = none
    ∧ (refreshContent demoEnv 0 none
        (getTSNameLoop (scanLines (demoPlaylist 0 10)) 1 true ⟨[], []⟩)).2.1
      = livePreamble demoEnv 0 none (getTSNameLoop (scanLines (demoPlaylist 0 10)) 1 true ⟨[], []⟩)
          ++ linesText ((lastN 12
              (getTSNameLoop (scanLines (demoPlaylist 0 10)) 1 true ⟨[], []⟩).TS).map
                (fun l => l.Line)) :=
  live_window_full demoEnv 0 none
    (getTSNameLoop (scanLines (demoPlaylist 0 10)) 1 true ⟨[], []⟩)
    [⟨5, "#EXTINF:2.0,", false⟩] ⟨6, "low-2026-11-04-12-00-00-0.ts", true⟩
    ((getTSNameLoop (scanLines (demoPlaylist 0 10)) 1 true ⟨[], []⟩).TS.drop 2)
    rfl (by decide) ⟨rfl, 1793782800000000000, rfl, rfl⟩ (by decide)

theorem refreshContent_waits (env : Env) (now : Time) (startTs : Option Time) (pl : PLstruct)
    (h : ∀ l ∈ pl.TS, waits env startTs l) :
    refreshContent env now startTs pl
      = (none, livePreamble env now startTs pl, dvrPreamble env startTs pl) := by
  rw [refreshContent_eq]
  have := refreshSegments_waits env startTs (anchored startTs) pl.TS.length pl.TS [] h 0 ""
    (livePreamble env now startTs pl) (dvrPreamble env startTs pl)
  rw [List.append_nil] at this
  rw [this]
  rfl

set_option maxRecDepth 20000 in
/-- C17, a counterexample: the anchor is the first nanosecond of 1970, the first segment
file has no capture time in its name and the second one is captured in 2026; `Refresh`
fails and the DVR file holds no line of the segment part. -/
theorem C17_dvr_from_anchor_counterexample :
    anchored (some 1) = true
    ∧ timeFromTS demoEnv "low-2026-11-04-12-00-00-0.ts" = .ok 1793782800000000000
    ∧ (Playlist.Refresh demoEnv Faults.none 0
        (lowFiles ("#EXTM3U\n#EXTINF:2.0,\nintro.ts\n#EXTINF:2.0,\n"
          ++ "low-2026-11-04-12-00-00-0.ts\n"))
        "/tmp/00000000-1111-0000-0000-000000000000" "low.m3u8" (some 1)
        OutputPlaylistPrefix).1 = some Error.plInternalError
    ∧ refreshedDvr 0 (some 1)
        ("#EXTM3U\n#EXTINF:2.0,\nintro.ts\n#EXTINF:2.0,\n" ++ "low-2026-11-04-12-00-00-0.ts\n")
      = some "#EXTM3U\n#EXT-X-PROGRAM-DATE-TIME:0\n#EXT-X-PLAYLIST-TYPE:EVENT\n" := by
  refine ⟨?_, ?_, ?_, ?_⟩ <;> rfl

/-- C17: with a DVR anchor, when the capture time of every segment-reference line up to
the first one after the anchor is read, the DVR file is its preamble, the line before that
segment-reference line (an empty line when there is none in the segment part) and every
line from that one on, in order; the live file is its preamble, that same line before when
at most 8 lines are left, and the last 12 of the lines from the segment-reference line on.
When the capture time of every segment-reference line is read and none is after the
anchor, both files end with their preamble. -/
theorem C17_dvr_from_anchor (env : Env) (now t : Time) (pl : PLstruct)
    (hanch : anchored (some t) = true) :
    (∀ pre x post, pl.TS = pre ++ x :: post → (∀ l ∈ pre, waits env (some t) l) →
      starts env (some t) x →
      refreshContent env now (some t) pl
        = (none,
           livePreamble env now (some t) pl
             ++ linesText ((if (x :: post).length ≤ 8 then [lineBefore pre] else [])
                 ++ (lastN 12 (x :: post)).map (fun l => l.Line)),
           dvrPreamble env (some t) pl
             ++ linesText (lineBefore pre :: (x :: post).map (fun l => l.Line))))
    ∧ ((∀ l ∈ pl.TS, waits env (some t) l) →
      refreshContent env now (some t) pl
        = (none, livePreamble env now (some t) pl, dvrPreamble env (some t) pl)) := by
  refine ⟨?_, refreshContent_waits env now (some t) pl⟩
  intro pre x post hts hpre hx
  rw [refreshContent_start env now (some t) pl pre x post hts hpre hx, hanch]
  rfl

set_option maxRecDepth 20000 in
theorem C17_dvr_from_anchor_witness :
    anchored (some 1793782801000000000) = true
    ∧ refreshContent demoEnv 0 (some 1793782801000000000)
        (getTSNameLoop (scanLines (demoPlaylist 0 4)) 1 true ⟨[], []⟩)
      = (none,
         "#EXTM3U\n#EXT-X-VERSION:3\n#EXT-X-TARGETDURATION:2\n"
           ++ linesText ["#EXTINF:2.0,", "low-2026-11-04-12-00-02-2.ts", "#EXTINF:2.0,",
               "low-2026-11-04-12-00-03-3.ts"],
         "#EXTM3U\n#EXT-X-VERSION:3\n#EXT-X-TARGETDURATION:2\n"
           ++ "#EXT-X-PROGRAM-DATE-TIME:1793782801\n#EXT-X-PLAYLIST-TYPE:EVENT\n"
           ++ linesText ["#EXTINF:2.0,", "low-2026-11-04-12-00-02-2.ts", "#EXTINF:2.0,",
               "low-2026-11-04-12-00-03-3.ts"]) :=
  ⟨rfl,
   (C17_dvr_from_anchor demoEnv 0 1793782801000000000
      (getTSNameLoop (scanLines (demoPlaylist 0 4)) 1 true ⟨[], []⟩) rfl).1
     [⟨5, "#EXTINF:2.0,", false⟩, ⟨6, "low-2026-11-04-12-00-00-0.ts", true⟩,
      ⟨7, "#EXTINF:2.0,", false⟩, ⟨8, "low-2026-11-04-12-00-01-1.ts", true⟩,
      ⟨9, "#EXTINF:2.0,", false⟩]
     ⟨10, "low-2026-11-04-12-00-02-2.ts", true⟩
     [⟨11, "#EXTINF:2.0,", false⟩, ⟨12, "low-2026-11-04-12-00-03-3.ts", true⟩]
     rfl
     (by
       intro l hl
       simp only [List.mem_cons, List.mem_singleton, List.not_mem_nil, or_false] at hl
       rcases hl with rfl | rfl | rfl | rfl | rfl
       · exact Or.inl rfl
       · exact Or.inr ⟨1793782800000000000, rfl, rfl⟩
       · exact Or.inl rfl
       · exact Or.inr ⟨1793782801000000000, rfl, rfl⟩
       · exact Or.inl rfl)
     ⟨rfl, 1793782802000000000, rfl, rfl⟩⟩

/-! ## Reading the capture time of a segment -/

theorem dashDigits_some (k : Nat) (s g r : List Char) :
    dashDigits k s = some (g, r) ↔ s = '-' :: (g ++ r) ∧ digitGroup k g := by
  unfold dashDigits digitGroup
  split
  · rename_i rest
    constructor
    · intro h
      split at h
      · rename_i hc
        simp only [Bool.and_eq_true, beq_iff_eq, List.all_eq_true] at hc
        simp only [Option.some.injEq, Prod.mk.injEq] at h
        obtain ⟨h1, h2⟩ := h
        subst h1 h2
        exact ⟨by rw [List.take_append_drop], hc.1, hc.2⟩
      · exact absurd h (by simp)
    · rintro ⟨h1, h2, h3⟩
      have hr : rest = g ++ r := by simpa using h1
      subst hr
      have ht : List.take k (g ++ r) = g := by rw [← h2]; exact List.take_left' rfl
      have hd : List.drop k (g ++ r) = r := by rw [← h2]; exact List.drop_left' rfl
      rw [ht, hd]
      simp only [h2, beq_self_eq_true, Bool.true_and, List.all_eq_true]
      rw [if_pos h3]
  · rename_i hne
    constructor
    · intro h; exact absurd h (by simp)
    · rintro ⟨h1, _⟩
      exact absurd h1 (hne _)

theorem dashDigits_none_of (k : Nat) (s : List Char)
    (h : dashDigits k s = none) (g r : List Char) : ¬ (s = '-' :: (g ++ r) ∧ digitGroup k g) := by
  intro hh
  rw [(dashDigits_some k s g r).mpr hh] at h
  exact absurd h (by simp)

theorem dashDigits_unique (k : Nat) (g r g2 r2 : List Char) (hg : digitGroup k g)
    (hg2 : digitGroup k g2) (h : g ++ r = g2 ++ r2) : g = g2 ∧ r = r2 := by
  have h1 := (dashDigits_some k ('-' :: (g ++ r)) g r).mpr ⟨rfl, hg⟩
  have h2 := (dashDigits_some k ('-' :: (g ++ r)) g2 r2).mpr ⟨by rw [h], hg2⟩
  rw [h1] at h2
  simp only [Option.some.injEq, Prod.mk.injEq] at h2
  exact h2

theorem stampGroups_some (s : List Char) (gs : List (List Char)) :
    stampGroups s = some gs ↔
      ∃ y mo d h mi sec rest, gs = [y, mo, d, h, mi, sec] ∧ digitGroup 4 y ∧ digitGroup 2 mo
        ∧ digitGroup 2 d ∧ digitGroup 2 h ∧ digitGroup 2 mi ∧ digitGroup 2 sec
        ∧ s = stampText y mo d h mi sec rest := by
  constructor
  · intro hs
    unfold stampGroups at hs
    split at hs
    · exact absurd hs (by simp)
    · rename_i y s1 h1
      split at hs
      · exact absurd hs (by simp)
      · rename_i mo s2 h2
        split at hs
        · exact absurd hs (by simp)
        · rename_i d s3 h3
          split at hs
          · exact absurd hs (by simp)
          · rename_i h s4 h4
            split at hs
            · exact absurd hs (by simp)
            · rename_i mi s5 h5
              split at hs
              · exact absurd hs (by simp)
              · rename_i sec s6 h6
                split at hs
                · rename_i rest
                  simp only [Option.some.injEq] at hs
                  obtain ⟨e1, g1⟩ := (dashDigits_some _ _ _ _).mp h1
                  obtain ⟨e2, g2⟩ := (dashDigits_some _ _ _ _).mp h2
                  obtain ⟨e3, g3⟩ := (dashDigits_some _ _ _ _).mp h3
                  obtain ⟨e4, g4⟩ := (dashDigits_some _ _ _ _).mp h4
                  obtain ⟨e5, g5⟩ := (dashDigits_some _ _ _ _).mp h5
                  obtain ⟨e6, g6⟩ := (dashDigits_some _ _ _ _).mp h6
                  refine ⟨y, mo, d, h, mi, sec, rest, hs.symm, g1, g2, g3, g4, g5, g6, ?_⟩
                  unfold stampText
                  rw [e1, e2, e3, e4, e5, e6]
                · exact absurd hs (by simp)
  · rintro ⟨y, mo, d, h, mi, sec, rest, rfl, g1, g2, g3, g4, g5, g6, rfl⟩
    unfold stampGroups stampText
    rw [(dashDigits_some 4 _ y _).mpr ⟨rfl, g1⟩]
    simp only
    rw [(dashDigits_some 2 _ mo _).mpr ⟨rfl, g2⟩]
    simp only
    rw [(dashDigits_some 2 _ d _).mpr ⟨rfl, g3⟩]
    simp only
    rw [(dashDigits_some 2 _ h _).mpr ⟨rfl, g4⟩]
    simp only
    rw [(dashDigits_some 2 _ mi _).mpr ⟨rfl, g5⟩]
    simp only
    rw [(dashDigits_some 2 _ sec _).mpr ⟨rfl, g6⟩]
    rfl

theorem dropWhile_word_append (w t : List Char) (hw : ∀ c ∈ w, isWord c = true) :
    (w ++ '-' :: t).dropWhile isWord = '-' :: t := by
  induction w with
  | nil => rfl
  | cons c cs ih =>
    have hc : isWord c = true := hw c (List.mem_cons_self _ _)
    simp only [List.cons_append, List.dropWhile_cons, hc, if_true]
    exact ih (fun x hx => hw x (List.mem_cons_of_mem _ hx))

theorem stampAt_zero (c : Char) (cs : List Char) (g : List (List Char)) :
    stampAt (c :: cs) 0 g ↔ isWord c = true ∧ stampGroups ((c :: cs).dropWhile isWord) = some g := by
  constructor
  · rintro ⟨w, y, mo, d, h, mi, sec, rest, rfl, hne, hw, g1, g2, g3, g4, g5, g6, hs⟩
    rw [List.drop_zero] at hs
    constructor
    · cases w with
      | nil => exact absurd rfl hne
      | cons a as =>
        simp only [List.cons_append, List.cons.injEq] at hs
        rw [hs.1]
        exact hw a (List.mem_cons_self _ _)
    · rw [hs]
      unfold stampText
      rw [dropWhile_word_append w _ hw]
      exact (stampGroups_some _ _).mpr
        ⟨y, mo, d, h, mi, sec, rest, rfl, g1, g2, g3, g4, g5, g6, rfl⟩
  · rintro ⟨hc, hs⟩
    obtain ⟨y, mo, d, h, mi, sec, rest, rfl, g1, g2, g3, g4, g5, g6, e⟩ :=
      (stampGroups_some _ _).mp hs
    refine ⟨(c :: cs).takeWhile isWord, y, mo, d, h, mi, sec, rest, rfl, ?_, ?_,
      g1, g2, g3, g4, g5, g6, ?_⟩
    · simp only [List.takeWhile_cons, hc, if_true]
      exact List.cons_ne_nil _ _
    · intro x hx
      exact List.mem_takeWhile_imp hx
    · rw [List.drop_zero, ← e, List.takeWhile_append_dropWhile]

theorem stampAt_succ (c : Char) (cs : List Char) (k : Nat) (g : List (List Char)) :
    stampAt (c :: cs) (k + 1) g ↔ stampAt cs k g := by
  unfold stampAt
  simp only [List.drop_succ_cons]

theorem findStamp_none (s : List Char) :
    findStamp s = none ↔ ∀ k g, ¬ stampAt s k g := by
  induction s with
  | nil =>
    simp only [findStamp, true_iff]
    rintro k g ⟨w, y, mo, d, h, mi, sec, rest, _, hne, _, _, _, _, _, _, _, hs⟩
    rw [List.drop_nil] at hs
    cases w with
    | nil => exact hne rfl
    | cons a as => exact absurd hs (by simp)
  | cons c cs ih =>
    unfold findStamp
    by_cases hc : isWord c = true
    · rw [if_pos hc]
      cases hg : stampGroups ((c :: cs).dropWhile isWord) with
      | some g0 =>
        constructor
        · intro h; exact absurd h (by simp)
        · intro h; exact absurd ((stampAt_zero c cs g0).mpr ⟨hc, hg⟩) (h 0 g0)
      | none =>
        simp only
        rw [ih]
        constructor
        · intro h k g
          cases k with
          | zero =>
            intro h0
            have := ((stampAt_zero c cs g).mp h0).2
            rw [hg] at this
            exact absurd this (by simp)
          | succ k => rw [stampAt_succ]; exact h k g
        · intro h k g
          rw [← stampAt_succ c]
          exact h (k + 1) g
    · rw [if_neg hc, ih]
      constructor
      · intro h k g
        cases k with
        | zero =>
          intro h0
          exact hc ((stampAt_zero c cs g).mp h0).1
        | succ k => rw [stampAt_succ]; exact h k g
      · intro h k g
        rw [← stampAt_succ c]
        exact h (k + 1) g

theorem leftmostStamp_succ (c : Char) (cs : List Char) (g : List (List Char))
    (h0 : ∀ g2, ¬ stampAt (c :: cs) 0 g2) :
    leftmostStamp (c :: cs) g ↔ leftmostStamp cs g := by
  constructor
  · rintro ⟨k, hk, hlt⟩
    cases k with
    | zero => exact absurd hk (h0 g)
    | succ k =>
      refine ⟨k, (stampAt_succ c cs k g).mp hk, ?_⟩
      intro j hj g2 hs
      exact hlt (j + 1) (by omega) g2 ((stampAt_succ c cs j g2).mpr hs)
  · rintro ⟨k, hk, hlt⟩
    refine ⟨k + 1, (stampAt_succ c cs k g).mpr hk, ?_⟩
    intro j hj g2 hs
    cases j with
    | zero => exact h0 g2 hs
    | succ j => exact hlt j (by omega) g2 ((stampAt_succ c cs j g2).mp hs)

theorem findStamp_some (s : List Char) (g : List (List Char)) :
    findStamp s = some g ↔ leftmostStamp s g := by
  induction s with
  | nil =>
    constructor
    · intro h; exact absurd h (by simp [findStamp])
    · rintro ⟨k, hk, _⟩
      exact absurd hk ((findStamp_none []).mp rfl k g)
  | cons c cs ih =>
    unfold findStamp
    by_cases hc : isWord c = true
    · rw [if_pos hc]
      cases hg : stampGroups ((c :: cs).dropWhile isWord) with
      | some g0 =>
        simp only [Option.some.injEq]
        have h0 : stampAt (c :: cs) 0 g0 := (stampAt_zero c cs g0).mpr ⟨hc, hg⟩
        constructor
        · rintro rfl
          exact ⟨0, h0, fun j hj => absurd hj (by omega)⟩
        · rintro ⟨k, hk, hlt⟩
          cases k with
          | zero =>
            have := ((stampAt_zero c cs g).mp hk).2
            rw [hg] at this
            exact Option.some.inj this
          | succ k => exact absurd h0 (hlt 0 (by omega) g0)
      | none =>
        simp only
        rw [ih]
        symm
        apply leftmostStamp_succ
        intro g2 h2
        have := ((stampAt_zero c cs g2).mp h2).2
        rw [hg] at this
        exact absurd this (by simp)
    · rw [if_neg hc, ih]
      symm
      apply leftmostStamp_succ
      intro g2 h2
      exact hc ((stampAt_zero c cs g2).mp h2).1

theorem leftmostStamp_shape (s : List Char) (g : List (List Char)) (h : leftmostStamp s g) :
    ∃ y mo d h mi sec, g = [y, mo, d, h, mi, sec] := by
  obtain ⟨k, ⟨w, y, mo, d, h, mi, sec, rest, hg, _⟩, _⟩ := h
  exact ⟨y, mo, d, h, mi, sec, hg⟩

theorem timeFromTS_stamp (env : Env) (name : String) (y mo d h mi sec : List Char)
    (hf : leftmostStamp name.toList [y, mo, d, h, mi, sec]) :
    timeFromTS env name
      = match env.civilToTime (digitsVal y) (digitsVal mo) (digitsVal d) (digitsVal h)
          (digitsVal mi) (digitsVal sec) with
        | some t => .ok t
        | none => .error .plInternalError := by
  unfold timeFromTS
  rw [(findStamp_some _ _).mpr hf]

theorem timeFromTS_no_stamp (env : Env) (name : String)
    (hf : ∀ g, ¬ leftmostStamp name.toList g) :
    timeFromTS env name = .error .plInternalError := by
  unfold timeFromTS
  cases h : findStamp name.toList with
  | none => rfl
  | some g => exact absurd ((findStamp_some _ _).mp h) (hf g)

theorem timeFromTS_ok_or_internal (env : Env) (name : String) :
    (∃ t, timeFromTS env name = .ok t) ∨ timeFromTS env name = .error .plInternalError := by
  by_cases hf : ∃ g, leftmostStamp name.toList g
  · obtain ⟨g, hg⟩ := hf
    obtain ⟨y, mo, d, h, mi, sec, rfl⟩ := leftmostStamp_shape _ _ hg
    rw [timeFromTS_stamp env name y mo d h mi sec hg]
    cases env.civilToTime (digitsVal y) (digitsVal mo) (digitsVal d) (digitsVal h)
        (digitsVal mi) (digitsVal sec) with
    | none => exact Or.inr rfl
    | some t => exact Or.inl ⟨t, rfl⟩
  · exact Or.inr (timeFromTS_no_stamp env name (fun g hg => hf ⟨g, hg⟩))

/-- C20: when the library reads exactly the valid calendar dates and times of day,
`timeFromTS` returns a time exactly when the name has a substring of the form
`<word characters>-YYYY-MM-DD-hh-mm-ss-` and the six numbers of the leftmost one are a
valid date and time; the time returned is the one the library gives for these six numbers
in the zone; in every other case the answer is the internal error. -/
theorem C20_timeFromTS (env : Env) (name : String)
    (henv : ∀ y mo d h mi sec,
      (env.civilToTime y mo d h mi sec).isSome = true ↔ validCivil y mo d h mi sec) :
    ((∃ t, timeFromTS env name = .ok t) ↔
      ∃ y mo d h mi sec, leftmostStamp name.toList [y, mo, d, h, mi, sec]
        ∧ validCivil (digitsVal y) (digitsVal mo) (digitsVal d) (digitsVal h) (digitsVal mi)
            (digitsVal sec))
    ∧ (∀ t, timeFromTS env name = .ok t ↔
      ∃ y mo d h mi sec, leftmostStamp name.toList [y, mo, d, h, mi, sec]
        ∧ env.civilToTime (digitsVal y) (digitsVal mo) (digitsVal d) (digitsVal h)
            (digitsVal mi) (digitsVal sec) = some t)
    ∧ ((¬ ∃ t, timeFromTS env name = .ok t) → timeFromTS env name = .error .plInternalError)
    ∧ (∀ g g2, leftmostStamp name.toList g → leftmostStamp name.toList g2 → g = g2) := by
  have key : ∀ t, timeFromTS env name = .ok t ↔
      ∃ y mo d h mi sec, leftmostStamp name.toList [y, mo, d, h, mi, sec]
        ∧ env.civilToTime (digitsVal y) (digitsVal mo) (digitsVal d) (digitsVal h)
            (digitsVal mi) (digitsVal sec) = some t := by
    intro t
    constructor
    · intro ht
      by_cases hf : ∃ g, leftmostStamp name.toList g
      · obtain ⟨g, hg⟩ := hf
        obtain ⟨y, mo, d, h, mi, sec, rfl⟩ := leftmostStamp_shape _ _ hg
        refine ⟨y, mo, d, h, mi, sec, hg, ?_⟩
        rw [timeFromTS_stamp env name y mo d h mi sec hg] at ht
        cases hc : env.civilToTime (digitsVal y) (digitsVal mo) (digitsVal d) (digitsVal h)
            (digitsVal mi) (digitsVal sec) with
        | none => rw [hc] at ht; exact absurd ht (by simp)
        | some t2 =>
          rw [hc] at ht
          simp only [Except.ok.injEq] at ht
          rw [ht]
      · rw [timeFromTS_no_stamp env name (fun g hg => hf ⟨g, hg⟩)] at ht
        exact absurd ht (by simp)
    · rintro ⟨y, mo, d, h, mi, sec, hg, hc⟩
      rw [timeFromTS_stamp env name y mo d h mi sec hg, hc]
  refine ⟨?_, key, ?_, ?_⟩
  · constructor
    · rintro ⟨t, ht⟩
      obtain ⟨y, mo, d, h, mi, sec, hg, hc⟩ := (key t).mp ht
      exact ⟨y, mo, d, h, mi, sec, hg, (henv _ _ _ _ _ _).mp (by rw [hc]; rfl)⟩
    · rintro ⟨y, mo, d, h, mi, sec, hg, hv⟩
      have hs := (henv _ _ _ _ _ _).mpr hv
      obtain ⟨t, ht⟩ := Option.isSome_iff_exists.mp hs
      exact ⟨t, (key t).mpr ⟨y, mo, d, h, mi, sec, hg, ht⟩⟩
  · intro hno
    rcases timeFromTS_ok_or_internal env name with h | h
    · exact absurd h hno
    · exact h
  · intro g g2 h1 h2
    have e1 := (findStamp_some _ _).mpr h1
    have e2 := (findStamp_some _ _).mpr h2
    rw [e1] at e2
    exact Option.some.inj e2

theorem C20_timeFromTS_witness :
    (∀ y mo d h mi sec,
      (demoEnv.civilToTime y mo d h mi sec).isSome = true ↔ validCivil y mo d h mi sec)
    ∧ timeFromTS demoEnv "low-2026-11-04-12-00-00-0.ts" = .ok 1793782800000000000
    ∧ timeFromTS demoEnv "low-2026-02-30-12-00-00-0.ts" = .error .plInternalError
    ∧ ((∃ t, timeFromTS demoEnv "low-2026-11-04-12-00-00-0.ts" = .ok t) ↔
      ∃ y mo d h mi sec,
        leftmostStamp "low-2026-11-04-12-00-00-0.ts".toList [y, mo, d, h, mi, sec]
        ∧ validCivil (digitsVal y) (digitsVal mo) (digitsVal d) (digitsVal h) (digitsVal mi)
            (digitsVal sec)) :=
  ⟨fun y mo d h mi sec => by
      show (moscowCivilToTime y mo d h mi sec).isSome = true ↔ _
      unfold moscowCivilToTime validCivil
      split
      · rename_i hc
        simp only [Bool.and_eq_true, decide_eq_true_eq] at hc
        simp only [Option.isSome_some, true_iff]
        omega
      · rename_i hc
        simp only [Bool.and_eq_true, decide_eq_true_eq] at hc
        simp only [Option.isSome_none, Bool.false_eq_true, false_iff]
        intro hv
        exact hc (by omega),
   rfl, rfl,
   (C20_timeFromTS demoEnv "low-2026-11-04-12-00-00-0.ts" (fun y mo d h mi sec => by
      show (moscowCivilToTime y mo d h mi sec).isSome = true ↔ _
      unfold moscowCivilToTime validCivil
      split
      · rename_i hc
        simp only [Bool.and_eq_true, decide_eq_true_eq] at hc
        simp only [Option.isSome_some, true_iff]
        omega
      · rename_i hc
        simp only [Bool.and_eq_true, decide_eq_true_eq] at hc
        simp only [Option.isSome_none, Bool.false_eq_true, false_iff]
        intro hv
        exact hc (by omega))).1⟩

/-! ## The media-server client and the RTC list -/

/-- C26 fails when the call to the media server fails: for the client "c7" the request is
sent, the call returns an error, and `KickSRSStream` returns no error. -/
theorem C26_kick_error_dropped_counterexample :
    (SrsClientSet.KickSRSStream { Faults.none with kick := true } [] "c7").1 = true
    ∧ KickSRSStream { Faults.none with kick := true } [] "c7" = (none, ["c7"]) := by
  constructor <;> rfl

/-- C26 as amended: `KickSRSStream` never returns an error; with an empty client id no
request is sent to the media server; with another client id the request of
`SrsClientSet.KickSRSStream` is sent, whether or not that call returns an error. -/
theorem C26_kick_returns_no_error (flt : Faults) (kicked : List String) (cid : String) :
    (KickSRSStream flt kicked cid).1 = none
    ∧ (cid = "" → (KickSRSStream flt kicked cid).2 = kicked)
    ∧ (cid ≠ "" →
        (KickSRSStream flt kicked cid).2 = (SrsClientSet.KickSRSStream flt kicked cid).2
        ∧ (SrsClientSet.KickSRSStream flt kicked cid).2 = kicked ++ [cid]
        ∧ (SrsClientSet.KickSRSStream flt kicked cid).1 = flt.kick) := by
  unfold KickSRSStream SrsClientSet.KickSRSStream
  by_cases h : cid = "" <;> simp [h]

/-- C30 fails on a second `CreateStream` with a new password: the stream of `TestHTTP` is
created with the password "123" and created again with the password "new"; the stored row
has the password "new" and the RTC list still holds the password "123". -/
theorem C30_reactivation_keeps_old_password :
    (CreateStream demoEnv Faults.none 77 emptyWorld (demoRow 0).toStream).2.rtc
      = [{ ID := "00000000-1111-0000-0000-000000000000", Password := "123" }]
    ∧ ((CreateStream demoEnv Faults.none 99
          (CreateStream demoEnv Faults.none 77 emptyWorld (demoRow 0).toStream).2
          { (demoRow 0).toStream with Password := "new" }).1.toOption.map
            (fun s => s.Password)) = some "new"
    ∧ (CreateStream demoEnv Faults.none 99
          (CreateStream demoEnv Faults.none 77 emptyWorld (demoRow 0).toStream).2
          { (demoRow 0).toStream with Password := "new" }).2.repo
      = [{ demoRow 1 with CreatedAt := 77, UpdatedAt := 77, Password := "new" }]
    ∧ (CreateStream demoEnv Faults.none 99
          (CreateStream demoEnv Faults.none 77 emptyWorld (demoRow 0).toStream).2
          { (demoRow 0).toStream with Password := "new" }).2.rtc
      = [{ ID := "00000000-1111-0000-0000-000000000000", Password := "123" }] := by
  refine ⟨?_, ?_, ?_, ?_⟩ <;> decide

/-! ## Segment lines and their EXTINF lines in the live playlist -/

set_option maxRecDepth 20000 in
/-- C27 fails on the code: of a raw playlist of 5 segments, without anchor, the live file
starts its segment part with the name of segment 0, whose EXTINF line is not written; of a
raw playlist of 10 segments with an anchor at second 3, the live file starts its segment
part with the name of segment 4 without its EXTINF line, which the DVR file of the same
call does hold. -/
theorem C27_segment_without_extinf :
    refreshedLive 0 none (demoPlaylist 0 5)
      = some ("#EXTM3U\n#EXT-X-VERSION:3\n#EXT-X-TARGETDURATION:2\n"
          ++ "#EXT-X-PROGRAM-DATE-TIME:0\n#EXT-X-PLAYLIST-TYPE:EVENT\n"
          ++ linesText ["low-2026-11-04-12-00-00-0.ts",
              "#EXTINF:2.0,", "low-2026-11-04-12-00-01-1.ts",
              "#EXTINF:2.0,", "low-2026-11-04-12-00-02-2.ts",
              "#EXTINF:2.0,", "low-2026-11-04-12-00-03-3.ts",
              "#EXTINF:2.0,", "low-2026-11-04-12-00-04-4.ts"])
    ∧ refreshContent demoEnv 0 (some 1793782803000000000)
        (getTSNameLoop (scanLines (demoPlaylist 0 10)) 1 true ⟨[], []⟩)
      = (none,
         "#EXTM3U\n#EXT-X-VERSION:3\n#EXT-X-TARGETDURATION:2\n#EXT-X-MEDIA-SEQUENCE:4\n"
          ++ linesText ["low-2026-11-04-12-00-04-4.ts",
              "#EXTINF:2.0,", "low-2026-11-04-12-00-05-5.ts",
              "#EXTINF:2.0,", "low-2026-11-04-12-00-06-6.ts",
              "#EXTINF:2.0,", "low-2026-11-04-12-00-07-7.ts",
              "#EXTINF:2.0,", "low-2026-11-04-12-00-08-8.ts",
              "#EXTINF:2.0,", "low-2026-11-04-12-00-09-9.ts"],
         "#EXTM3U\n#EXT-X-VERSION:3\n#EXT-X-TARGETDURATION:2\n"
          ++ "#EXT-X-PROGRAM-DATE-TIME:1793782803\n#EXT-X-PLAYLIST-TYPE:EVENT\n"
          ++ linesText ["#EXTINF:2.0,", "low-2026-11-04-12-00-04-4.ts",
              "#EXTINF:2.0,", "low-2026-11-04-12-00-05-5.ts",
              "#EXTINF:2.0,", "low-2026-11-04-12-00-06-6.ts",
              "#EXTINF:2.0,", "low-2026-11-04-12-00-07-7.ts",
              "#EXTINF:2.0,", "low-2026-11-04-12-00-08-8.ts",
              "#EXTINF:2.0,", "low-2026-11-04-12-00-09-9.ts"]) := by
  constructor <;> rfl

theorem refreshSegments_fails (env : Env) (startTs : Option Time) (dvrOn : Bool) (n : Int)
    (x : PLline) (post : List PLline) (e : Error) (hx : x.TS = true)
    (he : timeFromTS env x.Line = .error e) (i : Int) (prev live dvr : String) :
    refreshSegments env startTs dvrOn n (x :: post) i false prev live dvr
      = (some e, live, dvr) := by
  unfold refreshSegments
  simp only [hx, Bool.not_false, Bool.and_self, if_true, he]

theorem refreshContent_fails (env : Env) (now : Time) (startTs : Option Time) (pl : PLstruct)
    (pre : List PLline) (x : PLline) (post : List PLline) (e : Error)
    (hts : pl.TS = pre ++ x :: post)
    (hpre : ∀ l ∈ pre, waits env startTs l)
    (hx : x.TS = true) (he : timeFromTS env x.Line = .error e) :
    refreshContent env now startTs pl
      = (some e, livePreamble env now startTs pl, dvrPreamble env startTs pl) := by
  rw [refreshContent_eq, hts, refreshSegments_waits _ _ _ _ pre (x :: post) hpre,
    refreshSegments_fails _ _ _ _ x post e hx he]

/-- The segment part is made of lines that wait, or has a first line that starts the
playlist or whose capture time cannot be read. -/
theorem segments_split (env : Env) (startTs : Option Time) (ts : List PLline) :
    (∀ l ∈ ts, waits env startTs l)
    ∨ ∃ pre x post, ts = pre ++ x :: post ∧ (∀ l ∈ pre, waits env startTs l) ∧ x.TS = true
        ∧ (starts env startTs x ∨ ∃ e, timeFromTS env x.Line = .error e) := by
  induction ts with
  | nil => left; intro l hl; exact absurd hl (List.not_mem_nil _)
  | cons l ls ih =>
    have step : waits env startTs l →
        ((∀ l2 ∈ l :: ls, waits env startTs l2)
        ∨ ∃ pre x post, l :: ls = pre ++ x :: post ∧ (∀ l2 ∈ pre, waits env startTs l2)
            ∧ x.TS = true
            ∧ (starts env startTs x ∨ ∃ e, timeFromTS env x.Line = .error e)) := by
      intro hw
      rcases ih with hall | ⟨pre, x, post, hts, hpre, hx, hor⟩
      · left
        intro l2 hl2
        rcases List.mem_cons.mp hl2 with rfl | h
        · exact hw
        · exact hall l2 h
      · right
        refine ⟨l :: pre, x, post, by rw [hts]; rfl, ?_, hx, hor⟩
        intro l2 hl2
        rcases List.mem_cons.mp hl2 with rfl | h
        · exact hw
        · exact hpre l2 h
    cases hl : l.TS with
    | false => exact step (Or.inl hl)
    | true =>
      cases ht : timeFromTS env l.Line with
      | error e =>
        right
        exact ⟨[], l, ls, rfl, fun _ h => absurd h (List.not_mem_nil _), hl, Or.inr ⟨e, ht⟩⟩
      | ok t =>
        cases ha : afterAnchor startTs t with
        | true =>
          right
          exact ⟨[], l, ls, rfl, fun _ h => absurd h (List.not_mem_nil _), hl,
            Or.inl ⟨hl, t, ht, ha⟩⟩
        | false => exact step (Or.inr ⟨t, ht, ha⟩)

theorem lastLine_snoc (prev : String) (pre : List PLline) (e : PLline) :
    lastLine prev (pre ++ [e]) = e.Line := by
  induction pre generalizing prev with
  | nil => rfl
  | cons a as ih => exact ih a.Line

theorem followExtinf_pre (pre : List PLline) (x : PLline) (post : List PLline)
    (h : followExtinf false (pre ++ x :: post) = true) (hx : x.TS = true) :
    ∃ pre2 e, pre = pre2 ++ [e] := by
  cases pre with
  | nil =>
    simp [followExtinf, hx] at h
  | cons a as =>
    exact ⟨(a :: as).dropLast, (a :: as).getLast (List.cons_ne_nil _ _),
      (List.dropLast_append_getLast (List.cons_ne_nil _ _)).symm⟩

theorem lastN_length_le {α : Type} (k : Nat) (l : List α) : (lastN k l).length ≤ k := by
  unfold lastN
  rw [List.length_drop]
  omega

/-- C28: when every segment-reference line of the segment part follows an EXTINF line,
for every start time and whether `Refresh` fails or not, the live file is its preamble
followed by the lines of the segment part from some place to the end, at most 12 of
them. -/
theorem C28_live_is_suffix (env : Env) (now : Time) (startTs : Option Time) (pl : PLstruct)
    (hext : followExtinf false pl.TS = true) :
    ∃ k, (refreshContent env now startTs pl).2.1
        = livePreamble env now startTs pl ++ linesText ((pl.TS.drop k).map (fun l => l.Line))
      ∧ (pl.TS.drop k).length ≤ 12 := by
  have hnone : livePreamble env now startTs pl
      = livePreamble env now startTs pl
        ++ linesText ((pl.TS.drop pl.TS.length).map (fun l => l.Line)) := by
    rw [List.drop_length]
    exact (String.append_empty _).symm
  rcases segments_split env startTs pl.TS with hall | ⟨pre, x, post, hts, hpre, hx, hs | ⟨e, he⟩⟩
  · refine ⟨pl.TS.length, ?_, by rw [List.drop_length]; exact Nat.zero_le _⟩
    rw [refreshContent_waits env now startTs pl hall]
    exact hnone
  · rw [refreshContent_start env now startTs pl pre x post hts hpre hs]
    obtain ⟨pre2, e, hp⟩ := followExtinf_pre pre x post (by rw [← hts]; exact hext) hx
    by_cases h8 : (x :: post).length ≤ 8
    · refine ⟨pre2.length, ?_, ?_⟩
      · have hd : pl.TS.drop pre2.length = e :: x :: post := by
          rw [hts, hp, List.append_assoc, List.drop_left]
          rfl
        have hl : lastN 12 (x :: post) = x :: post := by
          unfold lastN
          rw [Nat.sub_eq_zero_of_le (by omega), List.drop_zero]
        simp only [h8, if_true, hd, hl, hp, lineBefore, lastLine_snoc]
        rfl
      · rw [hts, hp, List.append_assoc, List.drop_left]
        simp only [List.singleton_append, List.length_cons] at h8 ⊢
        omega
    · refine ⟨pre.length + ((x :: post).length - 12), ?_, ?_⟩
      · have hd : pl.TS.drop (pre.length + ((x :: post).length - 12))
            = lastN 12 (x :: post) := by
          rw [hts, List.drop_append]
          rfl
        simp only [h8, if_false, List.nil_append, hd]
      · rw [hts, List.drop_append]
        exact lastN_length_le 12 (x :: post)
  · refine ⟨pl.TS.length, ?_, by rw [List.drop_length]; exact Nat.zero_le _⟩
    rw [refreshContent_fails env now startTs pl pre x post e hts hpre hx he]
    exact hnone

set_option maxRecDepth 20000 in
/-- C28 on a raw playlist of 10 segments with a start time at second 3: the live file
holds the last 11 lines of the segment part. -/
theorem C28_live_is_suffix_witness :
    followExtinf false (getTSNameLoop (scanLines (demoPlaylist 0 10)) 1 true ⟨[], []⟩).TS = true
    ∧ (refreshContent demoEnv 0 (some 1793782803000000000)
          (getTSNameLoop (scanLines (demoPlaylist 0 10)) 1 true ⟨[], []⟩)).2.1
        = livePreamble demoEnv 0 (some 1793782803000000000)
            (getTSNameLoop (scanLines (demoPlaylist 0 10)) 1 true ⟨[], []⟩)
          ++ linesText (((getTSNameLoop (scanLines (demoPlaylist 0 10)) 1 true ⟨[], []⟩).TS.drop
              9).map (fun l => l.Line))
    ∧ ∃ k, (refreshContent demoEnv 0 (some 1793782803000000000)
          (getTSNameLoop (scanLines (demoPlaylist 0 10)) 1 true ⟨[], []⟩)).2.1
        = livePreamble demoEnv 0 (some 1793782803000000000)
            (getTSNameLoop (scanLines (demoPlaylist 0 10)) 1 true ⟨[], []⟩)
          ++ linesText (((getTSNameLoop (scanLines (demoPlaylist 0 10)) 1 true ⟨[], []⟩).TS.drop
              k).map (fun l => l.Line))
      ∧ ((getTSNameLoop (scanLines (demoPlaylist 0 10)) 1 true ⟨[], []⟩).TS.drop k).length
          ≤ 12 :=
  ⟨rfl, rfl,
   C28_live_is_suffix demoEnv 0 (some 1793782803000000000)
    (getTSNameLoop (scanLines (demoPlaylist 0 10)) 1 true ⟨[], []⟩) rfl⟩

/-! ## The password of the push URL -/

theorem takeWhile_all {α : Type} (f : α → Bool) (l : List α) (h : ∀ x ∈ l, f x = true) :
    l.takeWhile f = l := by
  induction l with
  | nil => rfl
  | cons a as ih =>
    simp only [List.takeWhile_cons, h a (List.mem_cons_self _ _), if_true]
    rw [ih (fun x hx => h x (List.mem_cons_of_mem _ hx))]

/-- The password the handler reads from the query string of the push URL. -/
theorem findPassword_query (p : String) (hne : p ≠ "")
    (hp : ∀ c ∈ p.toList, passChar c = true) :
    findPassword ("?password=" ++ p) = some p := by
  have hl : p.toList ≠ [] := by
    intro h
    apply hne
    exact String.ext h
  have h1 : ("?password=" ++ p).toList = '?' :: ("password=".toList ++ p.toList) := rfl
  unfold findPassword
  rw [h1]
  have h2 : findPasswordChars ('?' :: ("password=".toList ++ p.toList))
      = findPasswordChars ("password=".toList ++ p.toList) := by
    rw [findPasswordChars]
    rfl
  have h3 : findPasswordChars ("password=".toList ++ p.toList) = some p.toList := by
    have hs := stripLit_append "password=".toList p.toList
    have e : "password=".toList ++ p.toList = 'p' :: ("assword=".toList ++ p.toList) := rfl
    rw [e] at hs ⊢
    rw [findPasswordChars, hs]
    simp only [takeWhile_all passChar p.toList hp]
    rw [if_pos (by simpa using hl)]
  rw [h2, h3]
  rfl

/-- The `switch` on the action never answers `ErrUnauthorized` once the password
is accepted. -/
theorem updateSRSAction_not_unauthorized (flt : Faults) (w : World) (st : SRSStream)
    (stream : Stream) :
    (updateSRSAction flt w st stream).1.2 ≠ some Error.ErrUnauthorized := by
  have hup : ∀ (s : Stream) (e : Error) (rows : List Row),
      Repo.UpdateStream flt w.repo s = (.error e, rows) → e = Error.dbError := by
    intro s e rows h
    unfold Repo.UpdateStream at h
    split at h
    · simp only [Prod.mk.injEq, Except.error.injEq] at h
      exact h.1.symm
    · dsimp only at h
      split at h <;> simp at h
  have hm : ∀ (s : Stream),
      (match Repo.UpdateStream flt w.repo s with
        | (.error err, _) => (((SRSfail, some err), w) : (Int × Option Error) × World)
        | (.ok _, rows) => ((SRSok, none), { w with repo := rows })).1.2
        ≠ some Error.ErrUnauthorized := by
    intro s
    cases h : Repo.UpdateStream flt w.repo s with
    | mk r rows =>
      cases r with
      | error e =>
        have := hup s e rows h
        subst this
        simp
      | ok a => simp
  unfold updateSRSAction
  split
  · split
    · simp
    · split
      · exact hm _
      · simp
  · split
    · split
      · exact hm _
      · simp
    · simp

/-- C29 fails for a password with `&` and for an empty password: the stream of `TestHTTP`
created with the password "a&b" gets a push URL that ends with "?password=a&b", and the
event with that query string is answered with `ErrUnauthorized`; created with an empty
password, the event with the query string "?password=" is answered with `ErrBadRequest`. -/
theorem C29_push_password_refused_counterexample :
    ((CreateStream demoEnv Faults.none 77 emptyWorld
        { (demoRow 0).toStream with Password := "a&b" }).1.toOption.map (fun s => s.RTMPpush))
      = some "rtmp://srs/live/00000000-1111-0000-0000-000000000000?password=a&b"
    ∧ (UpdateSRSStream demoEnv Faults.none
        (CreateStream demoEnv Faults.none 77 emptyWorld
          { (demoRow 0).toStream with Password := "a&b" }).2
        (demoEvent "on_publish" "?password=a&b")).1 = (SRSfail, some Error.ErrUnauthorized)
    ∧ ((CreateStream demoEnv Faults.none 77 emptyWorld
        { (demoRow 0).toStream with Password := "" }).1.toOption.map (fun s => s.RTMPpush))
      = some "rtmp://srs/live/00000000-1111-0000-0000-000000000000?password="
    ∧ (UpdateSRSStream demoEnv Faults.none
        (CreateStream demoEnv Faults.none 77 emptyWorld
          { (demoRow 0).toStream with Password := "" }).2
        (demoEvent "on_publish" "?password=")).1 = (SRSfail, some Error.ErrBadRequest) := by
  refine ⟨?_, ?_, ?_, ?_⟩ <;> decide

/-- C29 as amended: for a stored stream whose password is not empty and has neither `&`
nor `$`, `GetStream` returns the push URL that ends with `?password=` and the password;
an event for the application "live" with the identifier of the stream and that query
string as parameters has its password read and accepted: it reaches the `switch` on the
action (or is answered `SRSok` at once when the parameters contain `upstream=rtc`) and is
not answered with `ErrUnauthorized`. -/
theorem C29_push_password_accepted (env : Env) (flt : Faults) (w : World) (st : SRSStream)
    (r : Row)
    (hdb : flt.dbGet = false)
    (happ : st.App = "live")
    (hid : env.uuidFromString st.StreamID = some r.StreamID)
    (hrow : findRow w.repo r.StreamID = some r)
    (hne : r.Password ≠ "")
    (hp : ∀ c ∈ r.Password.toList, c ≠ '&' ∧ c ≠ '$')
    (hparam : st.Param = "?password=" ++ r.Password) :
    GetStream env flt w r.toStream = (.ok (addSRSUrls env.cfg r.toStream), w)
    ∧ (addSRSUrls env.cfg r.toStream).RTMPpush
        = env.cfg.RTMPAddr ++ "/" ++ r.App ++ "/" ++ uuidString r.StreamID ++ st.Param
    ∧ findPassword st.Param = some r.Password
    ∧ UpdateSRSStream env flt w st
        = (if strContains st.Param "upstream=rtc" then ((SRSok, none), w)
           else updateSRSAction flt w st r.toStream)
    ∧ (UpdateSRSStream env flt w st).1.2 ≠ some Error.ErrUnauthorized := by
  have hpass : findPassword st.Param = some r.Password := by
    rw [hparam]
    apply findPassword_query r.Password hne
    intro c hc
    have := hp c hc
    simp [passChar, this.1, this.2]
  have hup : UpdateSRSStream env flt w st
      = (if strContains st.Param "upstream=rtc" then ((SRSok, none), w)
         else updateSRSAction flt w st r.toStream) := by
    by_cases hrtc : strContains st.Param "upstream=rtc" = true
    · simp [UpdateSRSStream, hrtc]
    · have hrtc2 : strContains st.Param "upstream=rtc" = false := by simpa using hrtc
      rw [update_srs_authorized env flt w st r hdb happ hrtc2 hid hrow hpass]
      simp [hrtc2]
  refine ⟨?_, ?_, hpass, hup, ?_⟩
  · have hg := repo_get_ok flt w.repo r.StreamID r hdb hrow
    unfold GetStream
    have e : r.toStream.StreamID = r.StreamID := rfl
    rw [e, hg]
  · rw [hparam]
    simp only [addSRSUrls, Row.toStream, String.append_assoc]
  · rw [hup]
    split
    · simp
    · exact updateSRSAction_not_unauthorized flt w st r.toStream

/-- C29 as amended, on the stream of `TestHTTP`, password "123". -/
theorem C29_push_password_accepted_witness :
    (addSRSUrls demoEnv.cfg (demoRow 1).toStream).RTMPpush
      = "rtmp://srs/live/00000000-1111-0000-0000-000000000000?password=123"
    ∧ UpdateSRSStream demoEnv Faults.none (demoWorld 1) (demoEvent "on_publish" "?password=123")
      = updateSRSAction Faults.none (demoWorld 1) (demoEvent "on_publish" "?password=123")
          (demoRow 1).toStream
    ∧ (UpdateSRSStream demoEnv Faults.none (demoWorld 1)
        (demoEvent "on_publish" "?password=123")).1 = (SRSok, none) :=
  ⟨by decide,
   (C29_push_password_accepted demoEnv Faults.none (demoWorld 1)
      (demoEvent "on_publish" "?password=123") (demoRow 1)
      (by decide) (by decide) (by decide) (by decide) (by decide) (by decide) (by decide)).2.2.2.1,
   by decide⟩

/-! ## The errors the service returns -/

theorem CreateStream_error (env : Env) (flt : Faults) (now : Time) (w : World) (s : Stream)
    (e : Error) (h : (CreateStream env flt now w s).1 = .error e) :
    e = Error.ErrInternalError := by
  unfold CreateStream createFinish at h
  cases hg : Repo.GetStream flt w.repo s.StreamID <;> simp only [hg] at h
  · generalize Repo.CreateStream _ _ _ _ = rc at h
    rcases rc with ⟨_ | _, rows⟩
    · simpa using h.symm
    · dsimp only at h
      split at h <;> simp at h
  · generalize Repo.UpdateStream _ _ _ = rc at h
    rcases rc with ⟨_ | _, rows⟩
    · simpa using h.symm
    · dsimp only at h
      split at h <;> simp at h

theorem KickSRSStream_none (flt : Faults) (kicked : List String) (cid : String) :
    ∃ k, KickSRSStream flt kicked cid = (none, k) := by
  unfold KickSRSStream
  split <;> exact ⟨_, rfl⟩

theorem DeleteStream_error (env : Env) (flt : Faults) (w : World) (id : UUID)
    (e : Error) (h : (DeleteStream env flt w id).1 = .error e) :
    (e = Error.ErrNotFound ∧ ∃ e0, Repo.GetStream flt w.repo id = .error e0)
    ∨ (e = Error.ErrInternalError
        ∧ ((Playlist.Delete env flt w.fs (streamDir env id)).1 ≠ none ∨ flt.dbDelete = true)) := by
  unfold DeleteStream at h
  cases hg : Repo.GetStream flt w.repo id with
  | error e0 =>
    simp only [hg] at h
    left
    exact ⟨by simpa using h.symm, e0, rfl⟩
  | ok stream =>
    simp only [hg] at h
    obtain ⟨_, r, hr, hs⟩ := repo_get_ok_inv hg
    have hid : stream.StreamID = id := by rw [hs]; exact findRow_some_id hr
    obtain ⟨k, hk⟩ := KickSRSStream_none flt w.kicked stream.ClientId
    simp only [hk, hid] at h
    right
    cases hd : Playlist.Delete env flt w.fs (streamDir env id) with
    | mk err fs =>
      simp only [hd] at h
      cases err with
      | some e1 =>
        simp only at h
        exact ⟨by simpa using h.symm, Or.inl (by simp)⟩
      | none =>
        simp only at h
        unfold Repo.DeleteStream at h
        by_cases hf : flt.dbDelete = true
        · simp only [hf, if_true] at h
          exact ⟨by simpa using h.symm, Or.inr hf⟩
        · simp [hf] at h

theorem UpdateStream_error (flt : Faults) (rows rows1 : List Row) (s : Stream) (e : Error)
    (h : Repo.UpdateStream flt rows s = (.error e, rows1)) :
    e = Error.dbError ∧ flt.dbUpdate = true := by
  unfold Repo.UpdateStream at h
  split at h
  · rename_i hf
    simp only [Prod.mk.injEq, Except.error.injEq] at h
    exact ⟨h.1.symm, hf⟩
  · dsimp only at h
    split at h <;> simp at h

theorem StartStream_error (env : Env) (flt : Faults) (now : Time) (w : World) (id : UUID)
    (e : Error) (h : (StartStream env flt now w id).1 = .error e) :
    (e = Error.ErrNotFound ∧ ∃ e0, Repo.GetStream flt w.repo id = .error e0)
    ∨ (e = Error.ErrBadStatus
        ∧ ∃ s, Repo.GetStream flt w.repo id = .ok s ∧ s.Status = StreamStatusStopPublish)
    ∨ (e = Error.ErrInternalError ∧ flt.dbUpdate = true)
    ∨ (Playlist.Refresh env flt now w.fs (streamDir env id) AllPlaylists (some now)
        OutputPlaylistPrefix).1 = some e := by
  unfold StartStream at h
  cases hg : Repo.GetStream flt w.repo id with
  | error e0 =>
    simp only [hg] at h
    left
    exact ⟨by simpa using h.symm, e0, rfl⟩
  | ok stream =>
    simp only [hg] at h
    obtain ⟨_, r, hr, hs⟩ := repo_get_ok_inv hg
    have hid : stream.StreamID = id := by rw [hs]; exact findRow_some_id hr
    right
    by_cases h1 : stream.Status = StreamStatusStopPublish
    · simp only [h1, beq_self_eq_true, if_true] at h
      left
      exact ⟨by simpa using h.symm, stream, rfl, h1⟩
    · right
      have h1b : (stream.Status == StreamStatusStopPublish) = false := by simpa using h1
      simp only [h1b, Bool.false_eq_true, if_false] at h
      split at h
      · left
        cases hu : Repo.UpdateStream flt w.repo
            { stream with Status := StreamStatusStartRequired, StartedAt := some now } with
        | mk res rows =>
          simp only [hu] at h
          cases res with
          | error e1 =>
            simp only at h
            exact ⟨by simpa using h.symm, (UpdateStream_error _ _ _ _ _ hu).2⟩
          | ok a => simp at h
      · rw [hid] at h
        cases hrf : Playlist.Refresh env flt now w.fs (streamDir env id) AllPlaylists (some now)
            OutputPlaylistPrefix with
        | mk err fs =>
          simp only [hrf] at h
          cases err with
          | some e1 =>
            right
            simp only at h
            have : e1 = e := by simpa using h
            rw [this]
          | none =>
            left
            simp only at h
            generalize Playlist.Create fs _ _ _ = pc at h
            rcases pc with ⟨_, fs1⟩
            dsimp only at h
            generalize hu : Repo.UpdateStream _ _ _ = ru at h
            rcases ru with ⟨_ | _, rows⟩
            · simp only at h
              exact ⟨by simpa using h.symm, (UpdateStream_error _ _ _ _ _ hu).2⟩
            · simp at h

theorem StopStream_error (env : Env) (flt : Faults) (now : Time) (w : World) (id : UUID)
    (e : Error) (h : (StopStream env flt now w id).1 = .error e) :
    (e = Error.ErrNotFound ∧ ∃ e0, Repo.GetStream flt w.repo id = .error e0)
    ∨ (e = Error.ErrBadStatus
        ∧ ∃ s, Repo.GetStream flt w.repo id = .ok s
          ∧ (s.Status = StreamStatusStopPublish
            ∨ (Playlist.Stop w.fs (streamDir env id) OutputPlaylistPrefix s.StartedAt).1 ≠ none))
    ∨ (e = Error.ErrInternalError ∧ flt.dbUpdate = true) := by
  unfold StopStream at h
  cases hg : Repo.GetStream flt w.repo id with
  | error e0 =>
    simp only [hg] at h
    left
    exact ⟨by simpa using h.symm, e0, rfl⟩
  | ok stream =>
    simp only [hg] at h
    obtain ⟨_, r, hr, hs⟩ := repo_get_ok_inv hg
    have hid : stream.StreamID = id := by rw [hs]; exact findRow_some_id hr
    right
    by_cases h1 : stream.Status = StreamStatusStopPublish
    · simp only [h1, beq_self_eq_true, if_true] at h
      left
      exact ⟨by simpa using h.symm, stream, rfl, Or.inl h1⟩
    · have h1b : (stream.Status == StreamStatusStopPublish) = false := by simpa using h1
      simp only [h1b, Bool.false_eq_true, if_false] at h
      obtain ⟨k, hk⟩ := KickSRSStream_none flt w.kicked stream.ClientId
      simp only [hk, hid] at h
      cases hp : Playlist.Stop w.fs (streamDir env id) OutputPlaylistPrefix stream.StartedAt with
      | mk err fs =>
        simp only [hp] at h
        cases err with
        | some e1 =>
          left
          simp only at h
          exact ⟨by simpa using h.symm, stream, rfl, Or.inr (by rw [hp]; simp)⟩
        | none =>
          right
          simp only at h
          generalize hu : Repo.UpdateStream _ _ _ = ru at h
          rcases ru with ⟨_ | _, rows⟩
          · simp only at h
            exact ⟨by simpa using h.symm, (UpdateStream_error _ _ _ _ _ hu).2⟩
          · simp at h

theorem updateSRSAction_error (flt : Faults) (w : World) (st : SRSStream) (stream : Stream)
    (e : Error) (h : (updateSRSAction flt w st stream).1.2 = some e) :
    e = Error.ErrBadRequest ∨ (e = Error.dbError ∧ flt.dbUpdate = true) := by
  have hm : ∀ (s : Stream),
      (match Repo.UpdateStream flt w.repo s with
        | (.error err, _) => (((SRSfail, some err), w) : (Int × Option Error) × World)
        | (.ok _, rows) => ((SRSok, none), { w with repo := rows })).1.2 = some e →
      e = Error.ErrBadRequest ∨ (e = Error.dbError ∧ flt.dbUpdate = true) := by
    intro s hs
    cases hu : Repo.UpdateStream flt w.repo s with
    | mk r rows =>
      rw [hu] at hs
      cases r with
      | error e1 =>
        simp only [Option.some.injEq] at hs
        subst hs
        exact Or.inr (UpdateStream_error _ _ _ _ _ hu)
      | ok a => simp at hs
  unfold updateSRSAction at h
  split at h
  · split at h
    · simp at h
    · split at h
      · exact hm _ h
      · simp only [Option.some.injEq] at h
        exact Or.inl h.symm
  · split at h
    · split at h
      · exact hm _ h
      · simp at h
    · simp only [Option.some.injEq] at h
      exact Or.inl h.symm

theorem UpdateSRSStream_error (env : Env) (flt : Faults) (w : World) (st : SRSStream)
    (e : Error) (h : (UpdateSRSStream env flt w st).1.2 = some e) :
    e = Error.ErrBadRequest ∨ e = Error.ErrNotFound ∨ e = Error.ErrUnauthorized
    ∨ (e = Error.dbError ∧ flt.dbUpdate = true) := by
  unfold UpdateSRSStream at h
  split at h
  · simp at h
  · split at h
    · simp only [Option.some.injEq] at h
      exact Or.inl h.symm
    · split at h
      · simp only [Option.some.injEq] at h
        exact Or.inr (Or.inl h.symm)
      · split at h
        · simp only [Option.some.injEq] at h
          exact Or.inl h.symm
        · split at h
          · simp only [Option.some.injEq] at h
            exact Or.inr (Or.inl h.symm)
          · split at h
            · simp only [Option.some.injEq] at h
              exact Or.inr (Or.inr (Or.inl h.symm))
            · rcases updateSRSAction_error _ _ _ _ _ h with h1 | h1
              · exact Or.inl h1
              · exact Or.inr (Or.inr (Or.inr h1))

theorem refreshContent_error (env : Env) (now : Time) (startTs : Option Time) (pl : PLstruct)
    (e : Error) (h : (refreshContent env now startTs pl).1 = some e) :
    e = Error.plInternalError := by
  rcases segments_split env startTs pl.TS with hall | ⟨pre, x, post, hts, hpre, hx, hs | ⟨e1, he⟩⟩
  · rw [refreshContent_waits env now startTs pl hall] at h
    simp at h
  · rw [refreshContent_start env now startTs pl pre x post hts hpre hs] at h
    simp at h
  · rw [refreshContent_fails env now startTs pl pre x post e1 hts hpre hx he] at h
    simp only [Option.some.injEq] at h
    subst h
    rcases timeFromTS_ok_or_internal env x.Line with ⟨t, ht⟩ | hi
    · rw [ht] at he; simp at he
    · rw [hi] at he
      simp only [Except.error.injEq] at he
      exact he.symm

theorem refreshTier_error (env : Env) (flt : Faults) (now : Time) (livePath : String)
    (startTs : Option Time) (pfx : String) (fs : FS) (pl : String) (e : Error)
    (h : (refreshTier env flt now livePath startTs pfx fs pl).1 = some e) :
    e = Error.plIvalidStartTime ∨ e = Error.plInternalError
    ∨ (e = Error.osError ∧ (flt.openFile ≠ [] ∨ flt.fprintln ≠ [])) := by
  unfold refreshTier at h
  cases hg : getTSName fs (pathJoin livePath pl) with
  | error e0 =>
    rw [hg] at h
    simp only [Option.some.injEq] at h
    exact Or.inl h.symm
  | ok plLines =>
    rw [hg] at h
    simp only at h
    have hopen : ∀ q, flt.openFile.contains q = true → flt.openFile ≠ [] := by
      intro q hq hnil
      rw [hnil] at hq
      simp at hq
    split at h
    · rename_i h1
      simp only [Option.some.injEq] at h
      exact Or.inr (Or.inr ⟨h.symm, Or.inl (hopen _ h1)⟩)
    · split at h
      · rename_i h2
        simp only [Option.some.injEq] at h
        rw [Bool.and_eq_true] at h2
        exact Or.inr (Or.inr ⟨h.symm, Or.inl (hopen _ h2.2)⟩)
      · cases hc : refreshContent env now startTs plLines with
        | mk err3 rest3 =>
          rcases rest3 with ⟨live, dvr⟩
          simp only [hc] at h
          cases hl : flt.fprintln.lookup pl with
          | some km =>
            simp only [hl, Option.some.injEq] at h
            refine Or.inr (Or.inr ⟨h.symm, Or.inr ?_⟩)
            intro hnil
            rw [hnil] at hl
            simp at hl
          | none =>
            simp only [hl] at h
            have := refreshContent_error env now startTs plLines e (by rw [hc]; exact h)
            exact Or.inr (Or.inl this)

theorem refreshAll_error (env : Env) (flt : Faults) (now : Time) (livePath : String)
    (startTs : Option Time) (pfx : String) (tiers : List String) :
    ∀ (fs : FS) (e : Error), e ∈ (refreshAll env flt now livePath startTs pfx tiers fs).1 →
      e = Error.plIvalidStartTime ∨ e = Error.plInternalError
      ∨ (e = Error.osError ∧ (flt.openFile ≠ [] ∨ flt.fprintln ≠ [])) := by
  induction tiers with
  | nil => intro fs e h; simp [refreshAll] at h
  | cons pl rest ih =>
    intro fs e h
    unfold refreshAll at h
    cases ht : refreshTier env flt now livePath startTs pfx fs pl with
    | mk err fs1 =>
      cases hr : refreshAll env flt now livePath startTs pfx rest fs1 with
      | mk errs fs2 =>
        simp only [ht, hr, List.mem_append] at h
        rcases h with h | h
        · cases err with
          | none => simp at h
          | some e1 =>
            have he : e = e1 := by simpa using h
            subst he
            exact refreshTier_error env flt now livePath startTs pfx fs pl e (by rw [ht])
        · exact ih fs1 e (by rw [hr]; exact h)

theorem firstQueuedError_mem (k : Nat) (errs : List Error) (e : Error)
    (h : firstQueuedError k errs = some e) : e ∈ errs := by
  unfold firstQueuedError at h
  obtain ⟨hi, he⟩ := List.getElem?_eq_some.mp h
  rw [← he]
  exact List.getElem_mem _

/-- The receive from `errC` gives an error exactly when a task has sent one. -/
theorem firstQueuedError_none (k : Nat) (errs : List Error) :
    firstQueuedError k errs = none ↔ errs = [] := by
  unfold firstQueuedError
  constructor
  · intro h
    cases errs with
    | nil => rfl
    | cons x xs =>
      exfalso
      rw [List.getElem?_eq_none_iff] at h
      have := Nat.mod_lt k (Nat.succ_pos xs.length)
      simp only [List.length_cons, Nat.succ_eq_add_one] at h this
      omega
  · intro h
    rw [h]
    rfl

/-- Every task that sends an error may be the first to send it. -/
theorem firstQueuedError_any (errs : List Error) (e : Error) (h : e ∈ errs) :
    ∃ k, firstQueuedError k errs = some e := by
  obtain ⟨i, hi, he⟩ := List.getElem_of_mem h
  refine ⟨i, ?_⟩
  unfold firstQueuedError
  rw [Nat.mod_eq_of_lt hi, List.getElem?_eq_getElem hi, he]

theorem Refresh_error (env : Env) (flt : Faults) (now : Time) (fs : FS)
    (livePath plType : String) (startTs : Option Time) (pfx : String) (e : Error)
    (h : (Playlist.Refresh env flt now fs livePath plType startTs pfx).1 = some e) :
    e = Error.plIvalidStartTime ∨ e = Error.plInternalError
    ∨ (e = Error.osError ∧ (flt.openFile ≠ [] ∨ flt.fprintln ≠ [])) := by
  unfold Playlist.Refresh at h
  cases hr : refreshAll env flt now livePath startTs pfx
      (playlistTypes.filter (fun pl => env.regexpMatch plType pl)) fs with
  | mk errs fs1 =>
    rw [hr] at h
    exact refreshAll_error env flt now livePath startTs pfx _ fs e
      (by rw [hr]; exact firstQueuedError_mem _ _ _ h)

theorem UpdateHlsSRS_error (env : Env) (flt : Faults) (now : Time) (w : World) (st : SRSStream)
    (e : Error) (h : (UpdateHlsSRS env flt now w st).1.2 = some e) :
    e = Error.ErrNotFound
    ∨ ∃ (id : UUID) (s : Stream), env.uuidFromString st.StreamID = some id
        ∧ Repo.GetStream flt w.repo id = .ok s
        ∧ s.Status ≠ StreamStatusStopPublish
        ∧ (Playlist.Refresh env flt now w.fs (streamDir env s.StreamID) (pathBase st.M3U8)
              s.StartedAt OutputPlaylistPrefix).1 = some e := by
  unfold UpdateHlsSRS at h
  split at h
  · simp at h
  · cases hu : env.uuidFromString st.StreamID with
    | none =>
      simp only [hu, Option.some.injEq] at h
      exact Or.inl h.symm
    | some id =>
      simp only [hu] at h
      cases hg : Repo.GetStream flt w.repo id with
      | error e0 =>
        simp only [hg, Option.some.injEq] at h
        exact Or.inl h.symm
      | ok stream =>
        simp only [hg] at h
        by_cases hs : stream.Status = StreamStatusStopPublish
        · simp [hs, StreamStatusStopPublish, StreamStatusStartRequired] at h
        · have hsb : (stream.Status != StreamStatusStopPublish) = true := by simpa using hs
          simp only [hsb, if_true] at h
          cases hr : Playlist.Refresh env flt now w.fs (streamDir env stream.StreamID)
              (pathBase st.M3U8) stream.StartedAt OutputPlaylistPrefix with
          | mk err fs =>
            rw [hr] at h
            cases err with
            | some e1 =>
              simp only [Option.some.injEq] at h
              right
              exact ⟨id, stream, rfl, hg, hs, by rw [hr, h]⟩
            | none =>
              simp only at h
              split at h <;> simp at h

/-- C25 fails on four paths: on the publishing stream of `TestHTTP` without any playlist
file, `StartStream` and a segment-written notification return the error of `Refresh` as
it is, and `StopStream` returns `ErrBadStatus` for the failure of `playlist.Stop`; with a
database that refuses the update, an `on_unpublish` event returns the error of the
database as it is; with a database that fails the read of a stored stream, `DeleteStream`
returns `ErrNotFound`. -/
theorem C25_errors_not_internal_counterexample :
    (StartStream demoEnv Faults.none 90 (demoWorld 2) (demoRow 2).StreamID).1
      = .error Error.plIvalidStartTime
    ∧ (UpdateHlsSRS demoEnv Faults.none 90 (demoWorld 2)
        { demoEvent "on_hls" "" with M3U8 := "/live/low.m3u8" }).1
      = (0, some Error.plIvalidStartTime)
    ∧ (StopStream demoEnv Faults.none 90 (demoWorld 2) (demoRow 2).StreamID).1
      = .error Error.ErrBadStatus
    ∧ (UpdateSRSStream demoEnv { Faults.none with dbUpdate := true } (demoWorld 2)
        (demoEvent "on_unpublish" "?password=123")).1 = (SRSfail, some Error.dbError)
    ∧ (DeleteStream demoEnv { Faults.none with dbGet := true } (demoWorld 2)
        (demoRow 2).StreamID).1 = .error Error.ErrNotFound := by
  refine ⟨?_, ?_, ?_, ?_, ?_⟩ <;> rfl

/-- C25 as amended: every error of `CreateStream` is `ErrInternalError`; every error of
`DeleteStream` is `ErrNotFound`, when the read of the repository fails, or
`ErrInternalError`, when `playlist.Delete` or the delete of the repository fails; every
error of `StartStream` is `ErrNotFound` (the read fails), `ErrBadStatus` (the stream is
stopped), `ErrInternalError` (the update fails) or the error of `Refresh` as it is; every
error of `StopStream` is `ErrNotFound` (the read fails), `ErrBadStatus` (the stream is
stopped or `playlist.Stop` fails) or `ErrInternalError` (the update fails); every error
of `UpdateSRSStream` is `ErrBadRequest`, `ErrNotFound`, `ErrUnauthorized` or the error of
the update as it is; every error of `UpdateHlsSRS` is `ErrNotFound` or the error of
`Refresh` as it is. An error of `Refresh` is one of the errors its tasks have sent, the one
sent first: `ErrIvalidStartTime` (a raw playlist cannot be read), the `ErrInternalError` of
the playlist package (a segment name without a capture time that can be read) or the error
of `os.OpenFile` or of `fmt.Fprintln`. -/
theorem C25_errors_returned (env : Env) (flt : Faults) (now : Time) (w : World)
    (s : Stream) (id : UUID) (st : SRSStream) (e : Error) :
    ((CreateStream env flt now w s).1 = .error e → e = Error.ErrInternalError)
    ∧ ((DeleteStream env flt w id).1 = .error e →
        (e = Error.ErrNotFound ∧ ∃ e0, Repo.GetStream flt w.repo id = .error e0)
        ∨ (e = Error.ErrInternalError
            ∧ ((Playlist.Delete env flt w.fs (streamDir env id)).1 ≠ none ∨ flt.dbDelete = true)))
    ∧ ((StartStream env flt now w id).1 = .error e →
        (e = Error.ErrNotFound ∧ ∃ e0, Repo.GetStream flt w.repo id = .error e0)
        ∨ (e = Error.ErrBadStatus
            ∧ ∃ s0, Repo.GetStream flt w.repo id = .ok s0
              ∧ s0.Status = StreamStatusStopPublish)
        ∨ (e = Error.ErrInternalError ∧ flt.dbUpdate = true)
        ∨ (Playlist.Refresh env flt now w.fs (streamDir env id) AllPlaylists (some now)
            OutputPlaylistPrefix).1 = some e)
    ∧ ((StopStream env flt now w id).1 = .error e →
        (e = Error.ErrNotFound ∧ ∃ e0, Repo.GetStream flt w.repo id = .error e0)
        ∨ (e = Error.ErrBadStatus
            ∧ ∃ s0, Repo.GetStream flt w.repo id = .ok s0
              ∧ (s0.Status = StreamStatusStopPublish
                ∨ (Playlist.Stop w.fs (streamDir env id) OutputPlaylistPrefix
                    s0.StartedAt).1 ≠ none))
        ∨ (e = Error.ErrInternalError ∧ flt.dbUpdate = true))
    ∧ ((UpdateSRSStream env flt w st).1.2 = some e →
        e = Error.ErrBadRequest ∨ e = Error.ErrNotFound ∨ e = Error.ErrUnauthorized
        ∨ (e = Error.dbError ∧ flt.dbUpdate = true))
    ∧ ((UpdateHlsSRS env flt now w st).1.2 = some e →
        e = Error.ErrNotFound
        ∨ ∃ (id0 : UUID) (s0 : Stream), env.uuidFromString st.StreamID = some id0
            ∧ Repo.GetStream flt w.repo id0 = .ok s0
            ∧ s0.Status ≠ StreamStatusStopPublish
            ∧ (Playlist.Refresh env flt now w.fs (streamDir env s0.StreamID)
                (pathBase st.M3U8) s0.StartedAt OutputPlaylistPrefix).1 = some e)
    ∧ (∀ (fs : FS) (livePath plType : String) (startTs : Option Time) (pfx : String),
        (Playlist.Refresh env flt now fs livePath plType startTs pfx).1 = some e →
        (e = Error.plIvalidStartTime ∨ e = Error.plInternalError
          ∨ (e = Error.osError ∧ (flt.openFile ≠ [] ∨ flt.fprintln ≠ [])))
        ∧ e ∈ (refreshAll env flt now livePath startTs pfx
            (playlistTypes.filter (fun pl => env.regexpMatch plType pl)) fs).1) :=
  ⟨CreateStream_error env flt now w s e, DeleteStream_error env flt w id e,
   StartStream_error env flt now w id e, StopStream_error env flt now w id e,
   UpdateSRSStream_error env flt w st e, UpdateHlsSRS_error env flt now w st e,
   fun fs livePath plType startTs pfx h =>
     ⟨Refresh_error env flt now fs livePath plType startTs pfx e h,
      firstQueuedError_mem flt.firstQueued _ e h⟩⟩

set_option maxRecDepth 20000 in
/-- C25 as amended, on the publishing stream of `TestHTTP` whose low tier lists a segment
name without capture time and whose other tiers have no raw playlist: the three tasks of
`Refresh` send an error, and `StartStream` returns the error of `Refresh` as it is, which
is the `ErrInternalError` of the playlist package when the task of the low tier sends
first and `ErrIvalidStartTime` when the task of the mid tier does. -/
theorem C25_errors_returned_witness :
    (refreshAll demoEnv Faults.none 90 "/tmp/00000000-1111-0000-0000-000000000000" (some 90)
        OutputPlaylistPrefix playlistTypes
        (lowFiles "#EXTM3U\n#EXTINF:2.0,\nseg.ts\n")).1
      = [Error.plInternalError, Error.plIvalidStartTime, Error.plIvalidStartTime]
    ∧ (StartStream demoEnv Faults.none 90
        { demoWorld 2 with fs := lowFiles "#EXTM3U\n#EXTINF:2.0,\nseg.ts\n" }
        (demoRow 2).StreamID).1 = .error Error.plInternalError
    ∧ (StartStream demoEnv { Faults.none with firstQueued := 1 } 90
        { demoWorld 2 with fs := lowFiles "#EXTM3U\n#EXTINF:2.0,\nseg.ts\n" }
        (demoRow 2).StreamID).1 = .error Error.plIvalidStartTime
    ∧ ((Error.plIvalidStartTime = Error.ErrNotFound
          ∧ ∃ e0, Repo.GetStream { Faults.none with firstQueued := 1 }
              ({ demoWorld 2 with fs := lowFiles "#EXTM3U\n#EXTINF:2.0,\nseg.ts\n" } : World).repo
              (demoRow 2).StreamID = .error e0)
        ∨ (Error.plIvalidStartTime = Error.ErrBadStatus
            ∧ ∃ s0, Repo.GetStream { Faults.none with firstQueued := 1 }
                ({ demoWorld 2 with fs := lowFiles "#EXTM3U\n#EXTINF:2.0,\nseg.ts\n" } : World).repo
                (demoRow 2).StreamID = .ok s0
              ∧ s0.Status = StreamStatusStopPublish)
        ∨ (Error.plIvalidStartTime = Error.ErrInternalError
            ∧ ({ Faults.none with firstQueued := 1 } : Faults).dbUpdate = true)
        ∨ (Playlist.Refresh demoEnv { Faults.none with firstQueued := 1 } 90
            ({ demoWorld 2 with fs := lowFiles "#EXTM3U\n#EXTINF:2.0,\nseg.ts\n" } : World).fs
            (streamDir demoEnv (demoRow 2).StreamID) AllPlaylists (some 90)
            OutputPlaylistPrefix).1 = some Error.plIvalidStartTime) :=
  ⟨rfl, rfl, rfl,
   (C25_errors_returned demoEnv { Faults.none with firstQueued := 1 } 90
      { demoWorld 2 with fs := lowFiles "#EXTM3U\n#EXTINF:2.0,\nseg.ts\n" }
      Stream.zero (demoRow 2).StreamID (demoEvent "on_hls" "") Error.plIvalidStartTime).2.2.1 rfl⟩

/-! ## The end of a playlist -/

theorem readFile_map_write (fs : FS) (p c q : String) :
    readFile (fs.map (fun e => if e.1 == p then (p, c) else e)) q
      = if q = p then (readFile fs p).map (fun _ => c) else readFile fs q := by
  induction fs with
  | nil => simp [readFile]
  | cons e fs ih =>
    unfold readFile at ih ⊢
    by_cases hep : e.1 = p
    · by_cases hq : q = p
      · simp [List.find?_cons, hep, hq]
      · have hq2 : ¬ p = q := fun h => hq h.symm
        have h1 : (p == q) = false := by simpa using hq2
        have h2 : (e.1 == q) = false := by rw [hep]; exact h1
        simp only [List.map_cons, hep, beq_self_eq_true, if_true, List.find?_cons, hq, if_false,
          h1]
        have := ih
        simp only [hq, if_false] at this
        rw [this]
    · have hb : (e.1 == p) = false := by simpa using hep
      simp only [List.map_cons, hb, Bool.false_eq_true, if_false, List.find?_cons]
      by_cases heq : e.1 = q
      · have hq : ¬ q = p := fun h => hep (heq.trans h)
        simp [heq, hq]
      · have hb2 : (e.1 == q) = false := by simpa using heq
        simp only [hb2]
        exact ih

theorem readFile_writeFile (fs : FS) (p c q : String) :
    readFile (writeFile fs p c) q = if q = p then some c else readFile fs q := by
  unfold writeFile
  by_cases ha : fs.any (fun e => e.1 == p) = true
  · simp only [ha, if_true]
    rw [readFile_map_write]
    have hs : (readFile fs p).isSome = true := by rw [readFile_isSome]; exact ha
    cases hr : readFile fs p with
    | none => rw [hr] at hs; simp at hs
    | some c0 => rfl
  · simp only [ha, Bool.false_eq_true, if_false]
    have hnone : readFile fs p = none := by
      have := readFile_isSome fs p
      cases hr : readFile fs p with
      | none => rfl
      | some c0 =>
        rw [hr] at this
        simp only [Option.isSome_some] at this
        exact absurd this.symm ha
    unfold readFile at hnone ⊢
    rw [List.find?_append]
    by_cases hq : q = p
    · subst hq
      simp only [Option.map_eq_none'] at hnone
      simp [hnone]
    · have h1 : ((p == q) = false) := by
        have : ¬ p = q := fun h => hq h.symm
        simpa using this
      simp only [hq, if_false]
      cases hf : List.find? (fun e => e.1 == q) fs with
      | none => simp [List.find?_cons, h1]
      | some x => simp

theorem readFile_appendFile {fs fs1 : FS} {p s : String} (h : appendFile fs p s = some fs1)
    (q : String) :
    readFile fs1 q = if q = p then (readFile fs q).map (fun c => c ++ s) else readFile fs q := by
  unfold appendFile at h
  cases hr : readFile fs p with
  | none => simp [hr] at h
  | some c =>
    simp only [hr, Option.some.injEq] at h
    rw [← h, readFile_writeFile]
    by_cases hq : q = p
    · simp [hq, hr]
    · simp [hq]

theorem appendFile_some_iff (fs : FS) (p s : String) :
    (∃ fs1, appendFile fs p s = some fs1) ↔ (readFile fs p).isSome = true := by
  unfold appendFile
  cases hr : readFile fs p <;> simp

theorem appendFile_isSome_eq {fs fs1 : FS} {p s : String} (h : appendFile fs p s = some fs1)
    (q : String) : (readFile fs1 q).isSome = (readFile fs q).isSome := by
  rw [readFile_appendFile h q]
  by_cases hq : q = p
  · simp [hq]
  · simp [hq]

theorem appendedTo_none (s q : String) (paths : List String) :
    appendedTo s q paths none = none := by
  induction paths with
  | nil => rfl
  | cons p ps ih =>
    unfold appendedTo at ih ⊢
    simp only [List.foldl_cons, Option.map_none', ite_self]
    exact ih

theorem appendedTo_not_mem (s q : String) (paths : List String) (c : Option String)
    (h : q ∉ paths) : appendedTo s q paths c = c := by
  induction paths generalizing c with
  | nil => rfl
  | cons p ps ih =>
    have hp : ¬ q = p := fun e => h (e ▸ List.mem_cons_self _ _)
    unfold appendedTo at ih ⊢
    simp only [List.foldl_cons, hp, if_false]
    exact ih c (fun hm => h (List.mem_cons_of_mem _ hm))

theorem appendedTo_nodup (s q : String) (paths : List String) (c : Option String)
    (hn : paths.Nodup) :
    appendedTo s q paths c = if q ∈ paths then c.map (fun x => x ++ s) else c := by
  induction paths generalizing c with
  | nil => simp [appendedTo]
  | cons p ps ih =>
    have hnd := List.nodup_cons.mp hn
    by_cases hq : q = p
    · subst hq
      have := appendedTo_not_mem s q ps (c.map (fun x => x ++ s)) hnd.1
      unfold appendedTo at this ⊢
      simp only [List.foldl_cons, if_true, List.mem_cons, true_or]
      exact this
    · have := ih c hnd.2
      unfold appendedTo at this ⊢
      simp only [List.foldl_cons, hq, if_false, List.mem_cons, false_or]
      exact this

theorem stopLoop_read (livePath pfx : String) (startTs : Option Time) (tiers : List String) :
    ∀ (fs res : FS), stopLoop livePath pfx startTs tiers fs = (none, res) →
      ∀ q, readFile res q
        = appendedTo "#EXT-X-ENDLIST\n" q (stopFiles livePath pfx startTs tiers)
            (readFile fs q) := by
  induction tiers with
  | nil =>
    intro fs res h q
    simp only [stopLoop, Prod.mk.injEq, true_and] at h
    rw [← h]
    rfl
  | cons pl rest ih =>
    intro fs res h q
    unfold stopLoop at h
    cases h1 : appendFile fs (pathJoin livePath (pfx ++ pl)) "#EXT-X-ENDLIST\n" with
    | none => simp [h1] at h
    | some fs1 =>
      simp only [h1] at h
      by_cases ha : anchored startTs = true
      · simp only [ha, if_true] at h
        cases h2 : appendFile fs1 (pathJoin livePath (dvrName pfx startTs pl))
            "#EXT-X-ENDLIST\n" with
        | none => simp [h2] at h
        | some fs2 =>
          simp only [h2] at h
          rw [ih fs2 res h q, readFile_appendFile h2 q, readFile_appendFile h1 q]
          simp only [stopFiles, ha, if_true, appendedTo, List.foldl_cons, List.singleton_append]
      · simp only [ha, Bool.false_eq_true, if_false] at h
        rw [ih fs1 res h q, readFile_appendFile h1 q]
        simp only [stopFiles, ha, Bool.false_eq_true, if_false, appendedTo, List.foldl_cons,
          List.nil_append]

theorem stopLoop_none_iff (livePath pfx : String) (startTs : Option Time)
    (tiers : List String) :
    ∀ fs : FS, (stopLoop livePath pfx startTs tiers fs).1 = none
      ↔ ∀ p ∈ stopFiles livePath pfx startTs tiers, (readFile fs p).isSome = true := by
  induction tiers with
  | nil =>
    intro fs
    simp [stopLoop, stopFiles]
  | cons pl rest ih =>
    intro fs
    unfold stopLoop
    cases h1 : appendFile fs (pathJoin livePath (pfx ++ pl)) "#EXT-X-ENDLIST\n" with
    | none =>
      have hno : ¬ (readFile fs (pathJoin livePath (pfx ++ pl))).isSome = true := by
        intro hs
        obtain ⟨fs1, hfs1⟩ := (appendFile_some_iff fs _ "#EXT-X-ENDLIST\n").mpr hs
        rw [h1] at hfs1
        exact absurd hfs1 (by simp)
      simp only [false_iff, reduceCtorEq]
      intro hall
      exact hno (hall _ (by simp [stopFiles]))
    | some fs1 =>
      have hyes : (readFile fs (pathJoin livePath (pfx ++ pl))).isSome = true :=
        (appendFile_some_iff fs _ "#EXT-X-ENDLIST\n").mp ⟨fs1, h1⟩
      simp only
      by_cases ha : anchored startTs = true
      · simp only [ha, if_true]
        cases h2 : appendFile fs1 (pathJoin livePath (dvrName pfx startTs pl))
            "#EXT-X-ENDLIST\n" with
        | none =>
          have hno : ¬ (readFile fs (pathJoin livePath (dvrName pfx startTs pl))).isSome = true := by
            intro hs
            rw [← appendFile_isSome_eq h1] at hs
            obtain ⟨fs2, hfs2⟩ := (appendFile_some_iff fs1 _ "#EXT-X-ENDLIST\n").mpr hs
            rw [h2] at hfs2
            exact absurd hfs2 (by simp)
          simp only [false_iff, reduceCtorEq]
          intro hall
          exact hno (hall _ (by simp [stopFiles, ha]))
        | some fs2 =>
          have hyes2 : (readFile fs (pathJoin livePath (dvrName pfx startTs pl))).isSome = true := by
            rw [← appendFile_isSome_eq h1]
            exact (appendFile_some_iff fs1 _ "#EXT-X-ENDLIST\n").mp ⟨fs2, h2⟩
          simp only
          rw [ih fs2]
          simp only [stopFiles, ha, if_true, List.singleton_append, List.mem_cons]
          constructor
          · intro hall p hp
            rcases hp with rfl | rfl | hp
            · exact hyes
            · exact hyes2
            · have := hall p hp
              rw [appendFile_isSome_eq h2, appendFile_isSome_eq h1] at this
              exact this
          · intro hall p hp
            rw [appendFile_isSome_eq h2, appendFile_isSome_eq h1]
            exact hall p (Or.inr (Or.inr hp))
      · simp only [ha, Bool.false_eq_true, if_false]
        rw [ih fs1]
        simp only [stopFiles, ha, Bool.false_eq_true, if_false, List.nil_append, List.mem_cons]
        constructor
        · intro hall p hp
          rcases hp with rfl | hp
          · exact hyes
          · have := hall p hp
            rw [appendFile_isSome_eq h1] at this
            exact this
        · intro hall p hp
          rw [appendFile_isSome_eq h1]
          exact hall p (Or.inr hp)

theorem stopLoop_creates_nothing (livePath pfx : String) (startTs : Option Time)
    (tiers : List String) :
    ∀ (fs : FS) (q : String), readFile fs q = none →
      readFile (stopLoop livePath pfx startTs tiers fs).2 q = none := by
  have key : ∀ {fs fs1 : FS} {p : String} (q : String),
      appendFile fs p "#EXT-X-ENDLIST\n" = some fs1 → readFile fs q = none →
      readFile fs1 q = none := by
    intro fs fs1 p q h hq
    have := appendFile_isSome_eq h q
    rw [hq] at this
    cases hr : readFile fs1 q with
    | none => rfl
    | some c => rw [hr] at this; simp at this
  induction tiers with
  | nil => intro fs q h; exact h
  | cons pl rest ih =>
    intro fs q hq
    unfold stopLoop
    cases h1 : appendFile fs (pathJoin livePath (pfx ++ pl)) "#EXT-X-ENDLIST\n" with
    | none => exact hq
    | some fs1 =>
      simp only
      by_cases ha : anchored startTs = true
      · simp only [ha, if_true]
        cases h2 : appendFile fs1 (pathJoin livePath (dvrName pfx startTs pl))
            "#EXT-X-ENDLIST\n" with
        | none => exact key q h1 hq
        | some fs2 => exact ih fs2 q (key q h2 (key q h1 hq))
      · simp only [ha, Bool.false_eq_true, if_false]
        exact ih fs1 q (key q h1 hq)

theorem ite_char_ne {c : Prop} [Decidable c] {a b x : Char} (ha : a ≠ x) (hb : b ≠ x) :
    (if c then a else b) ≠ x := by
  split <;> assumption

theorem digitChar_ne_slash (n : Nat) : Nat.digitChar n ≠ '/' := by
  unfold Nat.digitChar
  repeat' apply ite_char_ne
  all_goals decide

theorem toDigitsCore_no_slash (f : Nat) : ∀ (n : Nat) (acc : List Char),
    (∀ c ∈ acc, c ≠ '/') → ∀ c ∈ Nat.toDigitsCore 10 f n acc, c ≠ '/' := by
  induction f with
  | zero => intro n acc h; simpa [Nat.toDigitsCore] using h
  | succ f ih =>
    intro n acc h
    unfold Nat.toDigitsCore
    have hacc : ∀ c ∈ Nat.digitChar (n % 10) :: acc, c ≠ '/' := by
      intro c hc
      rcases List.mem_cons.mp hc with rfl | hc
      · exact digitChar_ne_slash _
      · exact h c hc
    dsimp only
    split
    · exact hacc
    · exact ih _ _ hacc

theorem natRepr_no_slash (n : Nat) : ∀ c ∈ (toString n).toList, c ≠ '/' := by
  show ∀ c ∈ (Nat.repr n).toList, c ≠ '/'
  unfold Nat.repr Nat.toDigits
  exact toDigitsCore_no_slash _ _ _ (fun _ h => absurd h (List.not_mem_nil _))

theorem intRepr_no_slash (i : Int) : ∀ c ∈ (toString i).toList, c ≠ '/' := by
  cases i with
  | ofNat n => exact natRepr_no_slash n
  | negSucc n =>
    show ∀ c ∈ ("-" ++ toString (n + 1)).toList, c ≠ '/'
    intro c hc
    have : c ∈ '-' :: (toString (n + 1)).toList := hc
    rcases List.mem_cons.mp this with rfl | h
    · decide
    · exact natRepr_no_slash _ c h


theorem joinSlash_snoc (ys : List (List Char)) :
    ∃ pre, ∀ u, joinSlash (ys ++ [u]) = pre ++ u := by
  induction ys with
  | nil => exact ⟨[], fun u => by simp [joinSlash]⟩
  | cons y ys ih =>
    obtain ⟨pre, hpre⟩ := ih
    refine ⟨y ++ '/' :: pre, fun u => ?_⟩
    cases hys : ys ++ [u] with
    | nil => simp at hys
    | cons z zs =>
      have := hpre u
      rw [hys] at this
      rw [List.cons_append, hys]
      simp [joinSlash, this]

theorem splitSlash_tail (base : List Char) :
    ∃ xs l, ∀ t, (∀ c ∈ t, c ≠ '/') → splitSlash (base ++ t) = xs ++ [l ++ t] := by
  induction base with
  | nil => exact ⟨[], [], fun t h => by simpa using splitSlash_no_slash t h⟩
  | cons c cs ih =>
    obtain ⟨xs, l, h⟩ := ih
    by_cases hc : c = '/'
    · exact ⟨[] :: xs, l, fun t ht => by simp [splitSlash, hc, h t ht]⟩
    · cases xs with
      | nil => exact ⟨[], c :: l, fun t ht => by simp [splitSlash, hc, h t ht]⟩
      | cons x xs2 => exact ⟨(c :: x) :: xs2, l, fun t ht => by simp [splitSlash, hc, h t ht]⟩

/-- Cleaning a path that ends with an ordinary name keeps the name at the end, after a text
that does not depend on the name. -/
theorem pathClean_common (base : List Char) :
    ∃ R, ∀ t, (∀ c ∈ t, c ≠ '/') → 2 < t.length → pathClean (base ++ t) = R ++ t := by
  obtain ⟨xs, l, hsplit⟩ := splitSlash_tail base
  obtain ⟨pre, hpre⟩ :=
    joinSlash_snoc ((xs.foldl (cleanStep (startsWith base ['/'])) []).reverse)
  refine ⟨(if startsWith base ['/'] = true then ['/'] else []) ++ pre ++ l, fun t hns hlen => ?_⟩
  have hroot : startsWith (base ++ t) ['/'] = startsWith base ['/'] := by
    cases base with
    | nil =>
      cases t with
      | nil => simp at hlen
      | cons c cs =>
        have := hns c (List.mem_cons_self _ _)
        simp [startsWith, this]
    | cons b bs => simp [startsWith]
  have hl : 2 < (l ++ t).length := by rw [List.length_append]; omega
  have h0 : (l ++ t == []) = false := by
    apply beq_eq_false_iff_ne.mpr
    intro h; rw [h] at hl; simp at hl
  have h1 : (l ++ t == ['.']) = false := by
    apply beq_eq_false_iff_ne.mpr
    intro h; rw [h] at hl; simp at hl
  have h2 : (l ++ t == ['.', '.']) = false := by
    apply beq_eq_false_iff_ne.mpr
    intro h; rw [h] at hl; simp at hl
  unfold pathClean
  simp only [hroot, hsplit t hns, List.foldl_append, List.foldl_cons, List.foldl_nil]
  have hstep : ∀ acc, cleanStep (startsWith base ['/']) acc (l ++ t) = (l ++ t) :: acc := by
    intro acc
    simp [cleanStep, h0, h1, h2]
  rw [hstep, List.reverse_cons, hpre]
  have hout : ((if startsWith base ['/'] = true then ['/'] else []) ++ (pre ++ (l ++ t)) == [])
      = false := by
    apply beq_eq_false_iff_ne.mpr
    intro h
    have := congrArg List.length h
    simp only [List.length_append, List.length_nil] at this
    omega
  simp only [hout, Bool.false_eq_true, if_false, List.append_assoc]

theorem pathJoin_common (a pfx : String) :
    ∃ R, ∀ t : List Char, (∀ c ∈ t, c ≠ '/') → 2 < t.length →
      (pathJoin a (pfx ++ String.mk t)).toList = R ++ t := by
  by_cases ha : a.toList = []
  · obtain ⟨R, hR⟩ := pathClean_common pfx.toList
    refine ⟨R, fun t hns hlen => ?_⟩
    have hb : (pfx ++ String.mk t).toList = pfx.toList ++ t := rfl
    have hbne : ((pfx.toList ++ t) == []) = false := by
      apply beq_eq_false_iff_ne.mpr
      intro h
      have := congrArg List.length h
      simp only [List.length_append, List.length_nil] at this
      omega
    unfold pathJoin
    rw [hb, ha, hbne]
    simp only [beq_self_eq_true, Bool.and_false, Bool.false_eq_true, if_false, if_true]
    exact hR t hns hlen
  · obtain ⟨R, hR⟩ := pathClean_common (a.toList ++ '/' :: pfx.toList)
    refine ⟨R, fun t hns hlen => ?_⟩
    have hb : (pfx ++ String.mk t).toList = pfx.toList ++ t := rfl
    have hbne : ((pfx.toList ++ t) == []) = false := by
      apply beq_eq_false_iff_ne.mpr
      intro h
      have := congrArg List.length h
      simp only [List.length_append, List.length_nil] at this
      omega
    have hane : (a.toList == []) = false := beq_eq_false_iff_ne.mpr ha
    unfold pathJoin
    rw [hb, hane, hbne]
    simp only [Bool.false_and, Bool.false_eq_true, if_false]
    have := hR t hns hlen
    rw [List.append_assoc, List.cons_append] at this
    exact this

theorem tier_cases (x : List Char) (hx : x ∈ playlistTypes.map String.toList) :
    x = 'l' :: "ow.m3u8".toList ∨ x = 'm' :: "id.m3u8".toList ∨ x = 'h' :: "igh.m3u8".toList := by
  simp only [playlistTypes, List.map_cons, List.map_nil, List.mem_cons, List.mem_singleton,
    List.not_mem_nil, or_false] at hx
  rcases hx with rfl | rfl | rfl
  · exact Or.inl rfl
  · exact Or.inr (Or.inl rfl)
  · exact Or.inr (Or.inr rfl)

theorem tier_props (x : List Char) (hx : x ∈ playlistTypes.map String.toList) :
    (∀ c ∈ x, c ≠ '/') ∧ 8 ≤ x.length ∧ x.length ≤ 9 ∧ x.head? ≠ some '-' := by
  rcases tier_cases x hx with rfl | rfl | rfl <;> decide

theorem tier_ne_stamped (u x y : List Char)
    (hx : x ∈ playlistTypes.map String.toList) (hy : y ∈ playlistTypes.map String.toList) :
    x ≠ u ++ '-' :: y := by
  intro h
  have hlen := congrArg List.length h
  rw [List.length_append, List.length_cons] at hlen
  have px := tier_props x hx
  have py := tier_props y hy
  have hu : u = [] := List.length_eq_zero.mp (by omega)
  subst hu
  rw [h] at px
  exact px.2.2.2 rfl

/-- The names `Playlist.Stop` appends to the prefix, without and with a stamp `u`. -/
theorem stop_tails_nodup (u : List Char) :
    (["low.m3u8".toList, u ++ '-' :: "low.m3u8".toList, "mid.m3u8".toList,
      u ++ '-' :: "mid.m3u8".toList, "high.m3u8".toList,
      u ++ '-' :: "high.m3u8".toList] : List (List Char)).Nodup := by
  have hl : "low.m3u8".toList ∈ playlistTypes.map String.toList := by decide
  have hm : "mid.m3u8".toList ∈ playlistTypes.map String.toList := by decide
  have hh : "high.m3u8".toList ∈ playlistTypes.map String.toList := by decide
  have inj : ∀ x y : List Char, x ≠ y → u ++ '-' :: x ≠ u ++ '-' :: y := by
    intro x y hxy h
    exact hxy (List.cons.inj (List.append_cancel_left h)).2
  have hlm : "low.m3u8".toList ≠ "mid.m3u8".toList := by decide
  have hlh : "low.m3u8".toList ≠ "high.m3u8".toList := by decide
  have hmh : "mid.m3u8".toList ≠ "high.m3u8".toList := by decide
  simp only [List.nodup_cons, List.mem_cons, List.mem_singleton, List.not_mem_nil, or_false,
    not_or, List.nodup_nil, and_true]
  refine ⟨⟨tier_ne_stamped u _ _ hl hl, hlm, tier_ne_stamped u _ _ hl hm, hlh,
      tier_ne_stamped u _ _ hl hh⟩,
    ⟨(tier_ne_stamped u _ _ hm hl).symm, inj _ _ hlm, (tier_ne_stamped u _ _ hh hl).symm,
      inj _ _ hlh⟩,
    ⟨tier_ne_stamped u _ _ hm hm, hmh, tier_ne_stamped u _ _ hm hh⟩,
    ⟨(tier_ne_stamped u _ _ hh hm).symm, inj _ _ hmh⟩,
    tier_ne_stamped u _ _ hh hh, not_false⟩

theorem dvrName_eq (pfx : String) (t : Time) (pl : String) :
    dvrName pfx (some t) pl
      = pfx ++ String.mk ((toString t.Unix).toList ++ '-' :: pl.toList) := by
  apply String.ext
  simp [dvrName]

theorem stopFiles_nodup (a pfx : String) (startTs : Option Time) :
    (stopFiles a pfx startTs playlistTypes).Nodup := by
  obtain ⟨R, hR⟩ := pathJoin_common a pfx
  have hinj : ∀ t1 t2 : List Char, ((∀ c ∈ t1, c ≠ '/') ∧ 2 < t1.length) →
      ((∀ c ∈ t2, c ≠ '/') ∧ 2 < t2.length) →
      pathJoin a (pfx ++ String.mk t1) = pathJoin a (pfx ++ String.mk t2) → t1 = t2 := by
    intro t1 t2 h1 h2 h
    have := congrArg String.toList h
    rw [hR t1 h1.1 h1.2, hR t2 h2.1 h2.2] at this
    exact List.append_cancel_left this
  have good : ∀ x ∈ playlistTypes.map String.toList, (∀ c ∈ x, c ≠ '/') ∧ 2 < x.length := by
    intro x hx
    have := tier_props x hx
    exact ⟨this.1, by omega⟩
  have goodu : ∀ (u : List Char), (∀ c ∈ u, c ≠ '/') → ∀ x ∈ playlistTypes.map String.toList,
      (∀ c ∈ u ++ '-' :: x, c ≠ '/') ∧ 2 < (u ++ '-' :: x).length := by
    intro u hu x hx
    have := tier_props x hx
    refine ⟨?_, by rw [List.length_append, List.length_cons]; omega⟩
    intro c hc
    rcases List.mem_append.mp hc with h | h
    · exact hu c h
    · rcases List.mem_cons.mp h with rfl | h
      · decide
      · exact this.1 c h
  have hl : "low.m3u8".toList ∈ playlistTypes.map String.toList := by decide
  have hm : "mid.m3u8".toList ∈ playlistTypes.map String.toList := by decide
  have hh : "high.m3u8".toList ∈ playlistTypes.map String.toList := by decide
  cases ha : anchored startTs with
  | false =>
    have e : stopFiles a pfx startTs playlistTypes
        = (["low.m3u8".toList, "mid.m3u8".toList, "high.m3u8".toList] : List (List Char)).map
            (fun t => pathJoin a (pfx ++ String.mk t)) := by
      simp only [stopFiles, playlistTypes, ha, Bool.false_eq_true, if_false, List.nil_append,
        List.map_cons, List.map_nil]
      rfl
    rw [e]
    apply List.Nodup.map_on
    · intro x hx y hy hxy
      have gx : (∀ c ∈ x, c ≠ '/') ∧ 2 < x.length := good x (by simpa [playlistTypes] using hx)
      have gy : (∀ c ∈ y, c ≠ '/') ∧ 2 < y.length := good y (by simpa [playlistTypes] using hy)
      exact hinj x y gx gy hxy
    · decide
  | true =>
    cases startTs with
    | none => simp [anchored] at ha
    | some τ =>
      have e : stopFiles a pfx (some τ) playlistTypes
          = (["low.m3u8".toList, (toString τ.Unix).toList ++ '-' :: "low.m3u8".toList,
              "mid.m3u8".toList, (toString τ.Unix).toList ++ '-' :: "mid.m3u8".toList,
              "high.m3u8".toList, (toString τ.Unix).toList ++ '-' :: "high.m3u8".toList] :
              List (List Char)).map (fun t => pathJoin a (pfx ++ String.mk t)) := by
        simp only [stopFiles, playlistTypes, ha, if_true, List.singleton_append, List.map_cons,
          List.map_nil, dvrName_eq, List.append_nil]
        rfl
      rw [e]
      apply List.Nodup.map_on
      · have gu := goodu (toString τ.Unix).toList (intRepr_no_slash _)
        have allgood : ∀ x ∈ (["low.m3u8".toList,
            (toString τ.Unix).toList ++ '-' :: "low.m3u8".toList,
            "mid.m3u8".toList, (toString τ.Unix).toList ++ '-' :: "mid.m3u8".toList,
            "high.m3u8".toList, (toString τ.Unix).toList ++ '-' :: "high.m3u8".toList] :
            List (List Char)), (∀ c ∈ x, c ≠ '/') ∧ 2 < x.length := by
          intro x hx
          simp only [List.mem_cons, List.mem_singleton, List.not_mem_nil, or_false] at hx
          rcases hx with rfl | rfl | rfl | rfl | rfl | rfl
          · exact good _ hl
          · exact gu _ hl
          · exact good _ hm
          · exact gu _ hm
          · exact good _ hh
          · exact gu _ hh
        intro x hx y hy hxy
        exact hinj x y (allgood x hx) (allgood y hy) hxy
      · exact stop_tails_nodup _

/-- C21: `Playlist.Stop` ends without error exactly when the live playlist of every tier
and, with a DVR anchor, the DVR playlist of every tier exist; then each of these files has
its former content followed by one line `#EXT-X-ENDLIST` and every other file is as
before; whether it fails or not, it creates no file. The files are, for the tiers low, mid
and high, the prefix followed by the name of the tier and, with an anchor, the prefix, the
Unix time of the anchor, a hyphen and the name of the tier. -/
theorem C21_stop_appends (fs : FS) (livePath pfx : String) (startTs : Option Time) :
    ((Playlist.Stop fs livePath pfx startTs).1 = none
      ↔ ∀ p ∈ stopFiles livePath pfx startTs playlistTypes, (readFile fs p).isSome = true)
    ∧ ((Playlist.Stop fs livePath pfx startTs).1 = none →
        ∀ q, readFile (Playlist.Stop fs livePath pfx startTs).2 q
          = if q ∈ stopFiles livePath pfx startTs playlistTypes
            then (readFile fs q).map (fun c => c ++ "#EXT-X-ENDLIST\n")
            else readFile fs q)
    ∧ (∀ q, readFile fs q = none → readFile (Playlist.Stop fs livePath pfx startTs).2 q = none)
    ∧ stopFiles livePath pfx startTs playlistTypes
        = (pathJoin livePath (pfx ++ "low.m3u8")
            :: (if anchored startTs then [pathJoin livePath (dvrName pfx startTs "low.m3u8")]
                else []))
          ++ (pathJoin livePath (pfx ++ "mid.m3u8")
            :: (if anchored startTs then [pathJoin livePath (dvrName pfx startTs "mid.m3u8")]
                else []))
          ++ (pathJoin livePath (pfx ++ "high.m3u8")
            :: (if anchored startTs then [pathJoin livePath (dvrName pfx startTs "high.m3u8")]
                else []))
    ∧ (∀ (t : Time) (pl : String), dvrName pfx (some t) pl = pfx ++ toString t.Unix ++ "-" ++ pl) := by
  refine ⟨stopLoop_none_iff livePath pfx startTs playlistTypes fs, ?_,
    stopLoop_creates_nothing livePath pfx startTs playlistTypes fs, ?_, fun _ _ => rfl⟩
  · intro h q
    have hres : stopLoop livePath pfx startTs playlistTypes fs
        = (none, (Playlist.Stop fs livePath pfx startTs).2) := by
      unfold Playlist.Stop at h ⊢
      exact Prod.ext h rfl
    rw [stopLoop_read livePath pfx startTs playlistTypes fs _ hres q,
      appendedTo_nodup _ _ _ _ (stopFiles_nodup livePath pfx startTs)]
  · simp only [stopFiles, playlistTypes, List.append_nil, List.cons_append, List.append_assoc]

set_option maxRecDepth 20000 in
/-- C21 on the stream of `liveWorld`, without anchor: the raw playlists are not touched,
the live playlist of the low tier ends with the marker. -/
theorem C21_stop_appends_witness :
    (Playlist.Stop (liveWorld 2).fs "/tmp/00000000-1111-0000-0000-000000000000"
        OutputPlaylistPrefix none).1 = none
    ∧ readFile (Playlist.Stop (liveWorld 2).fs "/tmp/00000000-1111-0000-0000-000000000000"
        OutputPlaylistPrefix none).2
        "/tmp/00000000-1111-0000-0000-000000000000/master-low.m3u8"
      = (if "/tmp/00000000-1111-0000-0000-000000000000/master-low.m3u8"
            ∈ stopFiles "/tmp/00000000-1111-0000-0000-000000000000" OutputPlaylistPrefix none
                playlistTypes
          then (readFile (liveWorld 2).fs
              "/tmp/00000000-1111-0000-0000-000000000000/master-low.m3u8").map
                (fun c => c ++ "#EXT-X-ENDLIST\n")
          else readFile (liveWorld 2).fs
              "/tmp/00000000-1111-0000-0000-000000000000/master-low.m3u8")
    ∧ readFile (Playlist.Stop (liveWorld 2).fs "/tmp/00000000-1111-0000-0000-000000000000"
        OutputPlaylistPrefix none).2
        "/tmp/00000000-1111-0000-0000-000000000000/master-low.m3u8"
      = some "#EXTM3U\n#EXT-X-ENDLIST\n" :=
  ⟨by decide,
   (C21_stop_appends (liveWorld 2).fs "/tmp/00000000-1111-0000-0000-000000000000"
      OutputPlaylistPrefix none).2.1 (by decide) _,
   by decide⟩

/-! ## The master playlist -/

theorem containsChars_append_left (a b sub : List Char) (h : containsChars b sub = true) :
    containsChars (a ++ b) sub = true := by
  induction a with
  | nil => exact h
  | cons c cs ih =>
    simp only [List.cons_append, containsChars, Bool.or_eq_true]
    exact Or.inr ih

theorem strContains_append_left (a b sub : String) (h : strContains b sub = true) :
    strContains (a ++ b) sub = true :=
  containsChars_append_left a.toList b.toList sub.toList h

theorem Create_eq (fs : FS) (livePath pfx : String) (startTs : Option Time) :
    Playlist.Create fs livePath pfx startTs
      = if playlistTypes.all (tierHasSegment fs livePath) then
          (none, writeFile fs (pathJoin livePath (createPrefix pfx startTs ++ "index" ++ ".m3u8"))
            ("#EXTM3U\n"
              ++ streamInf (createPrefix pfx startTs ++ "low.m3u8")
              ++ (createPrefix pfx startTs ++ "low.m3u8") ++ "\n"
              ++ streamInf (createPrefix pfx startTs ++ "mid.m3u8")
              ++ (createPrefix pfx startTs ++ "mid.m3u8") ++ "\n"
              ++ streamInf (createPrefix pfx startTs ++ "high.m3u8")
              ++ (createPrefix pfx startTs ++ "high.m3u8") ++ "\n"))
        else (some .plOperationTimedout, fs) := by
  unfold Playlist.Create genMasterPlaylist createPrefix
  rfl

theorem toDigitsCore_all (P : Char → Prop) (hP : ∀ n, P (Nat.digitChar n)) (f : Nat) :
    ∀ (n : Nat) (acc : List Char), (∀ c ∈ acc, P c) →
      ∀ c ∈ Nat.toDigitsCore 10 f n acc, P c := by
  induction f with
  | zero => intro n acc h; simpa [Nat.toDigitsCore] using h
  | succ f ih =>
    intro n acc h
    unfold Nat.toDigitsCore
    have hacc : ∀ c ∈ Nat.digitChar (n % 10) :: acc, P c := by
      intro c hc
      rcases List.mem_cons.mp hc with rfl | hc
      · exact hP _
      · exact h c hc
    dsimp only
    split
    · exact hacc
    · exact ih _ _ hacc

theorem intRepr_all (P : Char → Prop) (hP : ∀ n, P (Nat.digitChar n)) (hm : P '-') (i : Int) :
    ∀ c ∈ (toString i).toList, P c := by
  have hnat : ∀ n : Nat, ∀ c ∈ (toString n).toList, P c := by
    intro n
    show ∀ c ∈ (Nat.repr n).toList, P c
    unfold Nat.repr Nat.toDigits
    exact toDigitsCore_all P hP _ _ _ (fun _ h => absurd h (List.not_mem_nil _))
  cases i with
  | ofNat n => exact hnat n
  | negSucc n =>
    show ∀ c ∈ ("-" ++ toString (n + 1)).toList, P c
    intro c hc
    have : c ∈ '-' :: (toString (n + 1)).toList := hc
    rcases List.mem_cons.mp this with rfl | h
    · exact hm
    · exact hnat _ c h

theorem digitChar_ne_l_m (n : Nat) : Nat.digitChar n ≠ 'l' ∧ Nat.digitChar n ≠ 'm' := by
  constructor
  · unfold Nat.digitChar
    repeat' apply ite_char_ne
    all_goals decide
  · unfold Nat.digitChar
    repeat' apply ite_char_ne
    all_goals decide

/-- With the prefix of the service the name of a tier occurs in the name of no other
tier, whatever the anchor. -/
theorem master_names_plain (startTs : Option Time) :
    strContains (createPrefix OutputPlaylistPrefix startTs ++ "mid.m3u8") "low" = false
    ∧ strContains (createPrefix OutputPlaylistPrefix startTs ++ "high.m3u8") "low" = false
    ∧ strContains (createPrefix OutputPlaylistPrefix startTs ++ "high.m3u8") "mid" = false := by
  have plain : strContains ("master-" ++ "mid.m3u8") "low" = false
      ∧ strContains ("master-" ++ "high.m3u8") "low" = false
      ∧ strContains ("master-" ++ "high.m3u8") "mid" = false := by decide
  have stamped : ∀ u : List Char, (∀ c ∈ u, c ≠ 'l' ∧ c ≠ 'm') →
      containsChars ("master-".toList ++ u ++ "-".toList ++ "mid.m3u8".toList) "low".toList = false
      ∧ containsChars ("master-".toList ++ u ++ "-".toList ++ "high.m3u8".toList) "low".toList
          = false
      ∧ containsChars ("master-".toList ++ u ++ "-".toList ++ "high.m3u8".toList) "mid".toList
          = false := by
    intro u hu
    have hl : ∀ x ∈ "master-".toList ++ u ++ "-".toList, x ≠ 'l' := by
      intro x hx
      rcases List.mem_append.mp hx with h | h
      · rcases List.mem_append.mp h with h | h
        · exact (by decide : ∀ y ∈ "master-".toList, y ≠ 'l') x h
        · exact (hu x h).1
      · exact (by decide : ∀ y ∈ "-".toList, y ≠ 'l') x h
    have hm : ∀ x ∈ u ++ "-".toList, x ≠ 'm' := by
      intro x hx
      rcases List.mem_append.mp hx with h | h
      · exact (hu x h).2
      · exact (by decide : ∀ y ∈ "-".toList, y ≠ 'm') x h
    refine ⟨?_, ?_, ?_⟩
    · have := containsChars_skip _ "mid.m3u8".toList 'l' "ow".toList hl
      exact this.trans (by decide)
    · have := containsChars_skip _ "high.m3u8".toList 'l' "ow".toList hl
      exact this.trans (by decide)
    · have e : "master-".toList ++ u ++ "-".toList ++ "high.m3u8".toList
          = 'm' :: 'a' :: ("ster-".toList ++ ((u ++ "-".toList) ++ "high.m3u8".toList)) := by
        simp [List.append_assoc]
      rw [e]
      have s1 := containsChars_skip "aster-".toList
        ((u ++ "-".toList) ++ "high.m3u8".toList) 'm' "id".toList (by decide)
      have s2 := containsChars_skip (u ++ "-".toList) "high.m3u8".toList 'm' "id".toList hm
      have h1 : containsChars
          ('m' :: 'a' :: ("ster-".toList ++ ((u ++ "-".toList) ++ "high.m3u8".toList)))
          "mid".toList
          = containsChars ("aster-".toList ++ ((u ++ "-".toList) ++ "high.m3u8".toList))
              "mid".toList := by
        rfl
      exact h1.trans (s1.trans (s2.trans (by decide)))
  unfold createPrefix OutputPlaylistPrefix
  cases startTs with
  | none => exact plain
  | some t =>
    by_cases hz : t.IsZero = true
    · simp only [hz, Bool.not_true, Bool.false_eq_true, if_false]
      exact plain
    · simp only [hz, Bool.not_false, if_true]
      have hu := intRepr_all (fun c => c ≠ 'l' ∧ c ≠ 'm') digitChar_ne_l_m (by decide) t.Unix
      exact stamped (toString t.Unix).toList hu

/-- When `Playlist.Create` ends without error and "low" occurs neither in the name of the
mid tier playlist nor in that of the high tier playlist, and "mid" does not occur in the
name of the high tier playlist, the files are the former ones with the master playlist
written: its name is the prefix followed by `index.m3u8`, its content the line `#EXTM3U`
and, for low, mid and high, the capability line of the tier and the name of its playlist. -/
theorem master_playlist_of_plain_names (fs res : FS) (livePath pfx : String) (startTs : Option Time)
    (hok : Playlist.Create fs livePath pfx startTs = (none, res))
    (hmid : strContains (createPrefix pfx startTs ++ "mid.m3u8") "low" = false)
    (hhigh : strContains (createPrefix pfx startTs ++ "high.m3u8") "low" = false
      ∧ strContains (createPrefix pfx startTs ++ "high.m3u8") "mid" = false) :
    res = writeFile fs (pathJoin livePath (createPrefix pfx startTs ++ "index" ++ ".m3u8"))
        ("#EXTM3U\n"
          ++ "#EXT-X-STREAM-INF:BANDWIDTH=1100000,RESOLUTION=852x480,FRAME-RATE=25.000,CODECS=\"avc1.4d0028,mp4a.40.2\",CLOSED-CAPTIONS=NONE\n"
          ++ (createPrefix pfx startTs ++ "low.m3u8") ++ "\n"
          ++ "#EXT-X-STREAM-INF:BANDWIDTH=2200000,RESOLUTION=1280x720,FRAME-RATE=25.000,CODECS=\"avc1.4d0028,mp4a.40.2\",CLOSED-CAPTIONS=NONE\n"
          ++ (createPrefix pfx startTs ++ "mid.m3u8") ++ "\n"
          ++ "#EXT-X-STREAM-INF:BANDWIDTH=6500000,RESOLUTION=1920x1080,FRAME-RATE=25.000,CODECS=\"avc1.4d0028,mp4a.40.2\",CLOSED-CAPTIONS=NONE\n"
          ++ (createPrefix pfx startTs ++ "high.m3u8") ++ "\n")
    ∧ (∀ tier, createPrefix pfx startTs ++ tier
        = if anchored startTs then dvrName pfx startTs tier else pfx ++ tier) := by
  constructor
  · rw [Create_eq] at hok
    split at hok
    · have hres := (Prod.mk.inj hok).2
      rw [← hres]
      have hl : streamInf (createPrefix pfx startTs ++ "low.m3u8")
          = "#EXT-X-STREAM-INF:BANDWIDTH=1100000,RESOLUTION=852x480,FRAME-RATE=25.000,CODECS=\"avc1.4d0028,mp4a.40.2\",CLOSED-CAPTIONS=NONE\n" := by
        unfold streamInf
        rw [if_pos (strContains_append_left _ "low.m3u8" "low" (by decide))]
      have hm : streamInf (createPrefix pfx startTs ++ "mid.m3u8")
          = "#EXT-X-STREAM-INF:BANDWIDTH=2200000,RESOLUTION=1280x720,FRAME-RATE=25.000,CODECS=\"avc1.4d0028,mp4a.40.2\",CLOSED-CAPTIONS=NONE\n" := by
        unfold streamInf
        rw [hmid, if_neg (by simp),
          if_pos (strContains_append_left _ "mid.m3u8" "mid" (by decide))]
      have hh : streamInf (createPrefix pfx startTs ++ "high.m3u8")
          = "#EXT-X-STREAM-INF:BANDWIDTH=6500000,RESOLUTION=1920x1080,FRAME-RATE=25.000,CODECS=\"avc1.4d0028,mp4a.40.2\",CLOSED-CAPTIONS=NONE\n" := by
        unfold streamInf
        rw [hhigh.1, hhigh.2, if_neg (by simp), if_neg (by simp),
          if_pos (strContains_append_left _ "high.m3u8" "high" (by decide))]
      rw [hl, hm, hh]
    · simp at hok
  · intro tier
    unfold createPrefix anchored dvrName
    cases startTs with
    | none => rfl
    | some t =>
      by_cases hz : t.IsZero = true
      · simp [hz]
      · simp [hz]

/-- C22: `Playlist.Create` is called with the prefix `OutputPlaylistPrefix`, with or
without a DVR anchor. When it ends without error, the files are the former ones with the
master playlist written: its name is `master-index.m3u8` without anchor and
`master-{unix anchor}-index.m3u8` with one, its content the line `#EXTM3U` and, for low, mid
and high in this order, the capability line of the tier and the name of its playlist, which
is the name of the live file `Refresh` writes for the tier, with an anchor the name of its
DVR file. -/
theorem C22_master_playlist (fs res : FS) (livePath : String) (startTs : Option Time)
    (hok : Playlist.Create fs livePath OutputPlaylistPrefix startTs = (none, res)) :
    res = writeFile fs
        (pathJoin livePath (createPrefix OutputPlaylistPrefix startTs ++ "index" ++ ".m3u8"))
        ("#EXTM3U\n"
          ++ "#EXT-X-STREAM-INF:BANDWIDTH=1100000,RESOLUTION=852x480,FRAME-RATE=25.000,CODECS=\"avc1.4d0028,mp4a.40.2\",CLOSED-CAPTIONS=NONE\n"
          ++ (createPrefix OutputPlaylistPrefix startTs ++ "low.m3u8") ++ "\n"
          ++ "#EXT-X-STREAM-INF:BANDWIDTH=2200000,RESOLUTION=1280x720,FRAME-RATE=25.000,CODECS=\"avc1.4d0028,mp4a.40.2\",CLOSED-CAPTIONS=NONE\n"
          ++ (createPrefix OutputPlaylistPrefix startTs ++ "mid.m3u8") ++ "\n"
          ++ "#EXT-X-STREAM-INF:BANDWIDTH=6500000,RESOLUTION=1920x1080,FRAME-RATE=25.000,CODECS=\"avc1.4d0028,mp4a.40.2\",CLOSED-CAPTIONS=NONE\n"
          ++ (createPrefix OutputPlaylistPrefix startTs ++ "high.m3u8") ++ "\n")
    ∧ createPrefix OutputPlaylistPrefix startTs
        = (match startTs with
           | some t => if t.IsZero then "master-" else "master-" ++ toString t.Unix ++ "-"
           | none => "master-")
    ∧ (∀ tier, createPrefix OutputPlaylistPrefix startTs ++ tier
        = if anchored startTs then dvrName OutputPlaylistPrefix startTs tier
          else OutputPlaylistPrefix ++ tier) := by
  have hp := master_names_plain startTs
  have hg := master_playlist_of_plain_names fs res livePath OutputPlaylistPrefix startTs hok
    hp.1 hp.2
  refine ⟨hg.1, ?_, hg.2⟩
  unfold createPrefix OutputPlaylistPrefix
  cases startTs with
  | none => rfl
  | some t =>
    by_cases hz : t.IsZero = true
    · simp [hz]
    · simp [hz]

set_option maxRecDepth 20000 in
/-- C22 on the stream of `rawWorld` with an anchor at second 1793782800: the call succeeds
and the files are the former ones followed by the master playlist. -/
theorem C22_master_playlist_witness :
    Playlist.Create (rawWorld 2).fs "/tmp/00000000-1111-0000-0000-000000000000"
        OutputPlaylistPrefix (some 1793782800000000000)
      = (none, (rawWorld 2).fs
          ++ [("/tmp/00000000-1111-0000-0000-000000000000/master-1793782800-index.m3u8",
               "#EXTM3U\n"
               ++ "#EXT-X-STREAM-INF:BANDWIDTH=1100000,RESOLUTION=852x480,FRAME-RATE=25.000,CODECS=\"avc1.4d0028,mp4a.40.2\",CLOSED-CAPTIONS=NONE\n"
               ++ "master-1793782800-low.m3u8\n"
               ++ "#EXT-X-STREAM-INF:BANDWIDTH=2200000,RESOLUTION=1280x720,FRAME-RATE=25.000,CODECS=\"avc1.4d0028,mp4a.40.2\",CLOSED-CAPTIONS=NONE\n"
               ++ "master-1793782800-mid.m3u8\n"
               ++ "#EXT-X-STREAM-INF:BANDWIDTH=6500000,RESOLUTION=1920x1080,FRAME-RATE=25.000,CODECS=\"avc1.4d0028,mp4a.40.2\",CLOSED-CAPTIONS=NONE\n"
               ++ "master-1793782800-high.m3u8\n")])
    ∧ (rawWorld 2).fs
          ++ [("/tmp/00000000-1111-0000-0000-000000000000/master-1793782800-index.m3u8",
               "#EXTM3U\n"
               ++ "#EXT-X-STREAM-INF:BANDWIDTH=1100000,RESOLUTION=852x480,FRAME-RATE=25.000,CODECS=\"avc1.4d0028,mp4a.40.2\",CLOSED-CAPTIONS=NONE\n"
               ++ "master-1793782800-low.m3u8\n"
               ++ "#EXT-X-STREAM-INF:BANDWIDTH=2200000,RESOLUTION=1280x720,FRAME-RATE=25.000,CODECS=\"avc1.4d0028,mp4a.40.2\",CLOSED-CAPTIONS=NONE\n"
               ++ "master-1793782800-mid.m3u8\n"
               ++ "#EXT-X-STREAM-INF:BANDWIDTH=6500000,RESOLUTION=1920x1080,FRAME-RATE=25.000,CODECS=\"avc1.4d0028,mp4a.40.2\",CLOSED-CAPTIONS=NONE\n"
               ++ "master-1793782800-high.m3u8\n")]
      = writeFile (rawWorld 2).fs
          (pathJoin "/tmp/00000000-1111-0000-0000-000000000000"
            (createPrefix OutputPlaylistPrefix (some 1793782800000000000) ++ "index" ++ ".m3u8"))
          ("#EXTM3U\n"
          ++ "#EXT-X-STREAM-INF:BANDWIDTH=1100000,RESOLUTION=852x480,FRAME-RATE=25.000,CODECS=\"avc1.4d0028,mp4a.40.2\",CLOSED-CAPTIONS=NONE\n"
          ++ (createPrefix OutputPlaylistPrefix (some 1793782800000000000) ++ "low.m3u8") ++ "\n"
          ++ "#EXT-X-STREAM-INF:BANDWIDTH=2200000,RESOLUTION=1280x720,FRAME-RATE=25.000,CODECS=\"avc1.4d0028,mp4a.40.2\",CLOSED-CAPTIONS=NONE\n"
          ++ (createPrefix OutputPlaylistPrefix (some 1793782800000000000) ++ "mid.m3u8") ++ "\n"
          ++ "#EXT-X-STREAM-INF:BANDWIDTH=6500000,RESOLUTION=1920x1080,FRAME-RATE=25.000,CODECS=\"avc1.4d0028,mp4a.40.2\",CLOSED-CAPTIONS=NONE\n"
          ++ (createPrefix OutputPlaylistPrefix (some 1793782800000000000) ++ "high.m3u8")
          ++ "\n") :=
  ⟨rfl,
   (C22_master_playlist (rawWorld 2).fs _ "/tmp/00000000-1111-0000-0000-000000000000"
      (some 1793782800000000000) rfl).1⟩

/-! ## Removing the directory of a stream -/

theorem hexRun_iff (k : Nat) : ∀ (s rest : List Char),
    hexRun k s = some rest ↔ ∃ g, hexGroup k g ∧ s = g ++ rest := by
  induction k with
  | zero =>
    intro s rest
    simp only [hexRun, Option.some.injEq]
    constructor
    · intro h
      exact ⟨[], ⟨rfl, fun _ hc => absurd hc (List.not_mem_nil _)⟩, h⟩
    · rintro ⟨g, ⟨hl, _⟩, hs⟩
      have : g = [] := List.length_eq_zero.mp hl
      subst this
      exact hs
  | succ k ih =>
    intro s rest
    cases s with
    | nil =>
      simp only [hexRun]
      constructor
      · intro h; exact absurd h (by simp)
      · rintro ⟨g, ⟨hl, _⟩, hs⟩
        have := congrArg List.length hs
        simp only [List.length_nil, List.length_append] at this
        omega
    | cons c cs =>
      simp only [hexRun]
      by_cases hc : isHex c = true
      · simp only [hc, if_true]
        rw [ih cs rest]
        constructor
        · rintro ⟨g, ⟨hl, hg⟩, hs⟩
          refine ⟨c :: g, ⟨by simp [hl], ?_⟩, by simp [hs]⟩
          intro x hx
          rcases List.mem_cons.mp hx with rfl | hx
          · exact hc
          · exact hg x hx
        · rintro ⟨g, ⟨hl, hg⟩, hs⟩
          cases g with
          | nil => simp at hl
          | cons x xs =>
            simp only [List.cons_append, List.cons.injEq] at hs
            refine ⟨xs, ⟨by simpa using hl, fun y hy => hg y (List.mem_cons_of_mem _ hy)⟩, hs.2⟩
      · simp only [hc, Bool.false_eq_true, if_false]
        constructor
        · intro h; exact absurd h (by simp)
        · rintro ⟨g, ⟨hl, hg⟩, hs⟩
          cases g with
          | nil => simp at hl
          | cons x xs =>
            simp only [List.cons_append, List.cons.injEq] at hs
            exact absurd (hs.1 ▸ hg x (List.mem_cons_self _ _)) hc

theorem hexRunDash_iff (k : Nat) (s rest : List Char) :
    hexRunDash k s = some rest ↔ ∃ g, hexGroup k g ∧ s = g ++ '-' :: rest := by
  unfold hexRunDash
  constructor
  · intro h
    split at h
    · rename_i r hr
      simp only [Option.some.injEq] at h
      subst h
      exact (hexRun_iff k s _).mp hr
    · simp at h
  · rintro ⟨g, hg, hs⟩
    rw [(hexRun_iff k s ('-' :: rest)).mpr ⟨g, hg, hs⟩]
    rfl

theorem uuidAt_iff (s : List Char) :
    uuidAt s = true ↔ ∃ u post, uuidShaped u ∧ s = u ++ post := by
  constructor
  · intro h
    unfold uuidAt at h
    split at h
    · simp at h
    · rename_i s1 h1
      split at h
      · simp at h
      · rename_i s2 h2
        split at h
        · simp at h
        · rename_i s3 h3
          split at h
          · simp at h
          · rename_i s4 h4
            obtain ⟨a, ga, ea⟩ := (hexRunDash_iff _ _ _).mp h1
            obtain ⟨b, gb, eb⟩ := (hexRunDash_iff _ _ _).mp h2
            obtain ⟨c, gc, ec⟩ := (hexRunDash_iff _ _ _).mp h3
            obtain ⟨d, gd, ed⟩ := (hexRunDash_iff _ _ _).mp h4
            obtain ⟨post, hpost⟩ := Option.isSome_iff_exists.mp h
            obtain ⟨e, ge, ee⟩ := (hexRun_iff _ _ _).mp hpost
            refine ⟨a ++ '-' :: (b ++ '-' :: (c ++ '-' :: (d ++ '-' :: e))), post,
              ⟨a, b, c, d, e, rfl, ga, gb, gc, gd, ge⟩, ?_⟩
            rw [ea, eb, ec, ed, ee]
            simp [List.append_assoc]
  · rintro ⟨u, post, ⟨a, b, c, d, e, rfl, ga, gb, gc, gd, ge⟩, rfl⟩
    unfold uuidAt
    have e1 : hexRunDash 8 ((a ++ '-' :: (b ++ '-' :: (c ++ '-' :: (d ++ '-' :: e)))) ++ post)
        = some (b ++ '-' :: (c ++ '-' :: (d ++ '-' :: (e ++ post)))) :=
      (hexRunDash_iff _ _ _).mpr ⟨a, ga, by simp [List.append_assoc]⟩
    have e2 : hexRunDash 4 (b ++ '-' :: (c ++ '-' :: (d ++ '-' :: (e ++ post))))
        = some (c ++ '-' :: (d ++ '-' :: (e ++ post))) :=
      (hexRunDash_iff _ _ _).mpr ⟨b, gb, rfl⟩
    have e3 : hexRunDash 4 (c ++ '-' :: (d ++ '-' :: (e ++ post)))
        = some (d ++ '-' :: (e ++ post)) :=
      (hexRunDash_iff _ _ _).mpr ⟨c, gc, rfl⟩
    have e4 : hexRunDash 4 (d ++ '-' :: (e ++ post)) = some (e ++ post) :=
      (hexRunDash_iff _ _ _).mpr ⟨d, gd, rfl⟩
    have e5 : hexRun 12 (e ++ post) = some post := (hexRun_iff _ _ _).mpr ⟨e, ge, rfl⟩
    simp only [e1, e2, e3, e4, e5, Option.isSome_some]

theorem uuidShaped_ne_nil (u : List Char) (h : uuidShaped u) : u ≠ [] := by
  obtain ⟨a, b, c, d, e, rfl, ga, _⟩ := h
  intro hn
  have := congrArg List.length hn
  simp only [List.length_append, List.length_cons, List.length_nil] at this
  omega

/-- The expression of `Delete` matches exactly the texts that have a substring shaped like
an identifier. -/
theorem reUUID_iff (s : List Char) : reUUID s = true ↔ hasUuid s := by
  induction s with
  | nil =>
    simp only [reUUID, Bool.false_eq_true, false_iff]
    rintro ⟨pre, u, post, hs, hu⟩
    have hne := uuidShaped_ne_nil u hu
    have := congrArg List.length hs
    simp only [List.length_nil, List.length_append] at this
    have : u.length = 0 := by omega
    exact hne (List.length_eq_zero.mp this)
  | cons c cs ih =>
    simp only [reUUID, Bool.or_eq_true, uuidAt_iff, ih]
    constructor
    · rintro (⟨u, post, hu, hs⟩ | ⟨pre, u, post, hs, hu⟩)
      · exact ⟨[], u, post, hs, hu⟩
      · exact ⟨c :: pre, u, post, by rw [hs]; rfl, hu⟩
    · rintro ⟨pre, u, post, hs, hu⟩
      cases pre with
      | nil => exact Or.inl ⟨u, post, hu, hs⟩
      | cons x xs =>
        simp only [List.cons_append, List.cons.injEq] at hs
        exact Or.inr ⟨xs, u, post, hs.2, hu⟩

theorem readFile_filter (fs : FS) (P : String → Bool) (q : String) :
    readFile (fs.filter (fun e => P e.1)) q = if P q = true then readFile fs q else none := by
  induction fs with
  | nil => simp [readFile]
  | cons e fs ih =>
    unfold readFile at ih ⊢
    by_cases he : P e.1 = true
    · simp only [List.filter_cons, he, if_true, List.find?_cons]
      by_cases heq : e.1 = q
      · have hb : (e.1 == q) = true := by simpa using heq
        rw [← heq]
        simp [he]
      · have hb : (e.1 == q) = false := by simpa using heq
        simp only [hb]
        exact ih
    · simp only [List.filter_cons, he, Bool.false_eq_true, if_false, List.find?_cons]
      by_cases heq : e.1 = q
      · rw [ih, ← heq]
        simp [he]
      · have hb : (e.1 == q) = false := by simpa using heq
        simp only [hb]
        exact ih

/-- C23: `Playlist.Delete` fails with the internal error of the package and leaves the
files as they are when the path has no substring shaped like a stream identifier (8, 4, 4,
4 and 12 hexadecimal digits separated by hyphens); when the path has one and the removal
itself succeeds, it ends without error and the files are those `os.RemoveAll` leaves when
it is called with this very path; when the removal itself succeeds, it fails exactly when
the path has no such substring. -/
theorem C23_delete (env : Env) (flt : Faults) (fs : FS) (filePath : String) :
    (¬ hasUuid filePath.toList →
      Playlist.Delete env flt fs filePath = (some Error.plInternalError, fs))
    ∧ (hasUuid filePath.toList → flt.removeAll = false →
        Playlist.Delete env flt fs filePath = (none, env.removeAll fs filePath))
    ∧ (flt.removeAll = false →
        ((Playlist.Delete env flt fs filePath).1 ≠ none ↔ ¬ hasUuid filePath.toList))
    ∧ (∀ u : List Char, uuidShaped u ↔
        ∃ a b c d e, u = a ++ '-' :: (b ++ '-' :: (c ++ '-' :: (d ++ '-' :: e)))
          ∧ hexGroup 8 a ∧ hexGroup 4 b ∧ hexGroup 4 c ∧ hexGroup 4 d ∧ hexGroup 12 e)
    ∧ (hasUuid filePath.toList
        ↔ ∃ pre u post, filePath.toList = pre ++ (u ++ post) ∧ uuidShaped u) := by
  have hno : ¬ hasUuid filePath.toList →
      Playlist.Delete env flt fs filePath = (some Error.plInternalError, fs) := by
    intro h
    have hr : reUUID filePath.toList = false := by
      cases hb : reUUID filePath.toList with
      | false => rfl
      | true => exact absurd ((reUUID_iff _).mp hb) h
    unfold Playlist.Delete
    simp only [hr, Bool.not_false, if_true]
  have hyes : hasUuid filePath.toList → flt.removeAll = false →
      Playlist.Delete env flt fs filePath = (none, env.removeAll fs filePath) := by
    intro h hf
    have hr : reUUID filePath.toList = true := (reUUID_iff _).mpr h
    unfold Playlist.Delete
    simp only [hr, hf, Bool.not_true, Bool.false_eq_true, if_false]
  refine ⟨hno, hyes, ?_, fun u => Iff.rfl, Iff.rfl⟩
  intro hf
  constructor
  · intro herr hu
    rw [hyes hu hf] at herr
    exact herr rfl
  · intro hn
    rw [hno hn]
    simp

/-- What `lexicalRemoveAll` removes: the file named by the clean form of the path and the
files whose names continue it after a slash read as absent, every other file as before. -/
theorem lexicalRemoveAll_read (fs : FS) (p q : String) :
    ((q.toList = pathClean p.toList ∨ ∃ rest, q.toList = pathClean p.toList ++ '/' :: rest) →
        readFile (lexicalRemoveAll fs p) q = none)
    ∧ (¬ (q.toList = pathClean p.toList
          ∨ ∃ rest, q.toList = pathClean p.toList ++ '/' :: rest) →
        readFile (lexicalRemoveAll fs p) q = readFile fs q) := by
  have hread := readFile_filter fs
    (fun x => !(x.toList == pathClean p.toList
      || startsWith x.toList (pathClean p.toList ++ ['/']))) q
  have hiff : (∃ rest, q.toList = pathClean p.toList ++ '/' :: rest)
      ↔ startsWith q.toList (pathClean p.toList ++ ['/']) = true := by
    rw [startsWith_iff]
    constructor
    · rintro ⟨rest, hr⟩
      exact ⟨rest, by rw [hr]; simp⟩
    · rintro ⟨rest, hr⟩
      exact ⟨rest, by rw [hr]; simp⟩
  constructor
  · intro hq
    show readFile (fs.filter _) q = none
    rw [hread]
    rcases hq with h1 | h2
    · have hb : (q.toList == pathClean p.toList) = true := by
        rw [h1]
        exact beq_self_eq_true _
      simp only [hb, Bool.true_or, Bool.not_true, Bool.false_eq_true, if_false]
    · have := hiff.mp h2
      simp only [this, Bool.or_true, Bool.not_true, Bool.false_eq_true, if_false]
  · intro hq
    show readFile (fs.filter _) q = readFile fs q
    rw [hread]
    have h1 : ¬ q.toList = pathClean p.toList := fun h => hq (Or.inl h)
    have h2 : ¬ startsWith q.toList (pathClean p.toList ++ ['/']) = true :=
      fun h => hq (Or.inr (hiff.mpr h))
    have h2b : startsWith q.toList (pathClean p.toList ++ ['/']) = false := by simpa using h2
    have h1b : (q.toList == pathClean p.toList) = false := by simpa using h1
    simp only [h1b, h2b, Bool.or_false, Bool.not_false, if_true]

/-- C23 on the stream of `liveWorld`, where files are named by their clean paths: the
directory of the stream is removed with the three playlists in it, also when it is named
with a slash at its end; the directory "/tmp/streams" is refused. -/
theorem C23_delete_witness :
    Playlist.Delete demoEnv Faults.none (liveWorld 2).fs "/tmp/streams"
      = (some Error.plInternalError, (liveWorld 2).fs)
    ∧ (liveWorld 2).fs.map (fun e => e.1)
      = ["/tmp/00000000-1111-0000-0000-000000000000/master-low.m3u8",
         "/tmp/00000000-1111-0000-0000-000000000000/master-mid.m3u8",
         "/tmp/00000000-1111-0000-0000-000000000000/master-high.m3u8"]
    ∧ Playlist.Delete demoEnv Faults.none (liveWorld 2).fs
        "/tmp/00000000-1111-0000-0000-000000000000/"
      = (none, demoEnv.removeAll (liveWorld 2).fs "/tmp/00000000-1111-0000-0000-000000000000/")
    ∧ demoEnv.removeAll (liveWorld 2).fs "/tmp/00000000-1111-0000-0000-000000000000/" = []
    ∧ demoEnv.removeAll (liveWorld 2).fs "/tmp/00000000-1111-0000-0000-000000000000" = [] :=
  ⟨by decide, by decide,
   (C23_delete demoEnv Faults.none (liveWorld 2).fs
      "/tmp/00000000-1111-0000-0000-000000000000/").2.1
      ((reUUID_iff _).mp (by decide)) rfl,
   by decide, by decide⟩

/-! ## The wait of `Playlist.Create` -/

theorem numbered_any (f : String → Bool) (k : Int) (ls : List String) :
    (numbered f k ls).any (fun l => l.TS) = ls.any f := by
  induction ls generalizing k with
  | nil => rfl
  | cons l ls ih => simp only [numbered, List.any_cons, ih]

/-- A tier shows a segment when its raw playlist can be read and a line from the first
EXTINF line on has `.ts` after at least one character. -/
theorem tierHasSegment_iff (fs : FS) (livePath item : String) :
    tierHasSegment fs livePath item = true
      ↔ ∃ content, readFile fs (pathJoin livePath item) = some content
          ∧ ∃ l ∈ (scanLines content).dropWhile (fun l => !reHd l), reTs l = true := by
  unfold tierHasSegment getTSName
  cases hr : readFile fs (pathJoin livePath item) with
  | none => simp
  | some content =>
    simp only [getTSNameLoop_header, List.nil_append, numbered_any, List.any_eq_true,
      Option.some.injEq, exists_eq_left']

theorem setTask_keys (tasks : List (String × TierTask)) (item : String) (t : TierTask) :
    (setTask tasks item t).map (fun e => e.1) = tasks.map (fun e => e.1) := by
  unfold setTask
  rw [List.map_map]
  apply List.map_congr_left
  intro e _
  by_cases h : e.1 = item
  · simp [h]
  · simp [h]

theorem setTask_cons_eq (a : String) (b : TierTask) (es : List (String × TierTask))
    (t : TierTask) : setTask ((a, b) :: es) a t = (a, t) :: setTask es a t := by
  simp [setTask]

theorem setTask_cons_ne (a : String) (b : TierTask) (es : List (String × TierTask))
    (item : String) (t : TierTask) (h : a ≠ item) :
    setTask ((a, b) :: es) item t = (a, b) :: setTask es item t := by
  simp [setTask, h]

theorem lookup_cons_eq (a : String) (b : TierTask) (es : List (String × TierTask)) :
    List.lookup a ((a, b) :: es) = some b := by
  simp [List.lookup]

theorem lookup_cons_ne (a k : String) (b : TierTask) (es : List (String × TierTask))
    (h : k ≠ a) : List.lookup k ((a, b) :: es) = List.lookup k es := by
  have hb : (k == a) = false := by simpa using h
  simp [List.lookup, hb]

theorem lookup_setTask (tasks : List (String × TierTask)) (item k : String) (t : TierTask) :
    (setTask tasks item t).lookup k
      = if k = item then (tasks.lookup item).map (fun _ => t) else tasks.lookup k := by
  induction tasks with
  | nil => simp [setTask]
  | cons e es ih =>
    obtain ⟨a, b⟩ := e
    by_cases ha : a = item
    · subst ha
      rw [setTask_cons_eq]
      by_cases hk : k = a
      · subst hk
        rw [lookup_cons_eq, lookup_cons_eq, if_pos rfl]
        rfl
      · rw [lookup_cons_ne _ _ _ _ hk, lookup_cons_ne _ _ _ _ hk, ih, if_neg hk, if_neg hk]
    · rw [setTask_cons_ne _ _ _ _ _ ha]
      by_cases hk : k = item
      · subst hk
        have hka : k ≠ a := fun h => ha h.symm
        rw [lookup_cons_ne _ _ _ _ hka, lookup_cons_ne _ _ _ _ hka, ih]
      · by_cases hka : k = a
        · subst hka
          rw [lookup_cons_eq, lookup_cons_eq, if_neg hk]
        · rw [lookup_cons_ne _ _ _ _ hka, lookup_cons_ne _ _ _ _ hka, ih, if_neg hk, if_neg hk]

theorem doneCount_le (tasks : List (String × TierTask)) : doneCount tasks ≤ tasks.length :=
  List.length_filter_le _ _

theorem doneCount_setTask (tasks : List (String × TierTask)) (item : String)
    (old t : TierTask) (hn : (tasks.map (fun e => e.1)).Nodup)
    (hl : tasks.lookup item = some old) (hold : old ≠ TierTask.done) :
    doneCount (setTask tasks item t)
      = doneCount tasks + (if t = TierTask.done then 1 else 0) := by
  induction tasks with
  | nil => simp at hl
  | cons e es ih =>
    obtain ⟨a, b⟩ := e
    simp only [List.map_cons, List.nodup_cons] at hn
    by_cases ha : a = item
    · subst ha
      have hb : b = old := by simpa [List.lookup] using hl
      subst hb
      have hrest : setTask es a t = es := by
        unfold setTask
        conv_rhs => rw [← List.map_id es]
        apply List.map_congr_left
        intro x hx
        have : x.1 ≠ a := fun h => hn.1 (h ▸ List.mem_map_of_mem (fun e => e.1) hx)
        simp [this]
      have hhead : setTask ((a, b) :: es) a t = (a, t) :: setTask es a t := by
        simp [setTask]
      rw [hhead, hrest]
      unfold doneCount
      by_cases ht : t = TierTask.done
      · simp [List.filter_cons, ht, hold]
      · simp [List.filter_cons, ht, hold]
    · have hb : (item == a) = false := by
        have : ¬ item = a := fun h => ha h.symm
        simpa using this
      have hl2 : es.lookup item = some old := by
        simpa [List.lookup, hb] using hl
      have hhead : setTask ((a, b) :: es) item t = (a, b) :: setTask es item t := by
        simp [setTask, ha]
      rw [hhead]
      have := ih hn.2 hl2
      unfold doneCount at this ⊢
      by_cases hd : b = TierTask.done
      · simp only [List.filter_cons, hd, beq_self_eq_true, if_true, List.length_cons, this]
        omega
      · have hd2 : (b == TierTask.done) = false := by simpa using hd
        simp only [List.filter_cons, hd2, Bool.false_eq_true, if_false, this]

theorem someSending_setTask_done (tasks : List (String × TierTask)) (item : String)
    (h : someSending tasks = false) : someSending (setTask tasks item TierTask.done) = false := by
  unfold someSending setTask at *
  rw [List.any_eq_false] at h ⊢
  intro x hx
  obtain ⟨e, he, rfl⟩ := List.mem_map.mp hx
  by_cases hc : e.1 = item
  · simp [hc]
  · simpa [hc] using h e he

theorem playlistTypes_nodup : playlistTypes.Nodup := by decide

theorem lookup_of_all_done (tasks : List (String × TierTask)) (item : String)
    (hi : item ∈ tasks.map (fun e => e.1)) (hd : doneCount tasks = tasks.length) :
    tasks.lookup item = some TierTask.done := by
  have hall : ∀ e ∈ tasks, (e.2 == TierTask.done) = true := by
    unfold doneCount at hd
    exact List.filter_length_eq_length.mp hd
  clear hd
  induction tasks with
  | nil => simp at hi
  | cons e es ih =>
    obtain ⟨a, b⟩ := e
    by_cases ha : item = a
    · subst ha
      have := hall (item, b) (List.mem_cons_self _ _)
      simp only [beq_iff_eq] at this
      simp [List.lookup, this]
    · have hb : (item == a) = false := by simpa using ha
      simp only [List.lookup, hb]
      apply ih
      · simp only [List.map_cons, List.mem_cons] at hi
        rcases hi with h | h
        · exact absurd h ha
        · exact h
      · exact fun x hx => hall x (List.mem_cons_of_mem _ hx)

theorem createInit_inv (fs : FS) : CreateInv (createInit fs) := by
  refine ⟨rfl, fun h => h, ?_⟩
  show doneCount _ = 0 ∧ false = false ∧ (false = true → false = true)
  exact ⟨rfl, rfl, fun h => h⟩

theorem createInv_step (livePath pfx : String) (startTs : Option Time) (s : CreateState)
    (e : CreateEvent) (h : CreateInv s) : CreateInv (createStep livePath pfx startTs s e) := by
  obtain ⟨fs, fired, tcanel, tasks, main, wrote⟩ := s
  obtain ⟨hk, htc, hm⟩ := h
  dsimp only at hk htc hm
  have hnd : (tasks.map (fun e => e.1)).Nodup := by rw [hk]; exact playlistTypes_nodup
  have hlen : tasks.length = 3 := by
    have := congrArg List.length hk
    simpa [playlistTypes] using this
  cases e with
  | server fs2 => exact ⟨hk, htc, hm⟩
  | timer =>
    show CreateInv (if fired = true then _ else _)
    by_cases hf : fired = true
    · rw [if_pos hf]
      exact ⟨hk, htc, hm⟩
    · rw [if_neg hf]
      cases main with
      | running n =>
        obtain ⟨h1, h2, _⟩ := hm
        exact ⟨hk, fun _ => rfl, h1, h2, fun _ => rfl⟩
      | parked n =>
        obtain ⟨h1, h2, _, _, h5⟩ := hm
        exact ⟨hk, fun _ => rfl, rfl, h5, rfl, by rw [h1]; exact h2⟩
      | returned x =>
        cases x with
        | none => exact ⟨hk, fun _ => rfl, hm⟩
        | some e0 => exact ⟨hk, fun _ => rfl, hm.1, hm.2.1, rfl, hm.2.2.2⟩
  | poll item =>
    show CreateInv (if (tasks.lookup item == some TierTask.polling
        && tierHasSegment fs livePath item) = true then _ else _)
    by_cases hc : (tasks.lookup item == some TierTask.polling
        && tierHasSegment fs livePath item) = true
    · rw [if_pos hc]
      rw [Bool.and_eq_true] at hc
      have hl : tasks.lookup item = some TierTask.polling := by simpa using hc.1
      have hd1 := doneCount_setTask tasks item _ TierTask.done hnd hl (by decide)
      have hd0 := doneCount_setTask tasks item _ TierTask.sending hnd hl (by decide)
      simp only [if_true] at hd1
      simp only [(by decide : ¬ TierTask.sending = TierTask.done), if_false,
        Nat.add_zero] at hd0
      cases main with
      | running n =>
        exact ⟨(setTask_keys _ _ _).trans hk, htc, hd0.trans hm.1, hm.2⟩
      | parked n =>
        obtain ⟨h1, h2, h3, h4, h5⟩ := hm
        exact ⟨(setTask_keys _ _ _).trans hk, htc, by rw [hd1, h1], h5,
          fun hf => by
            have hf2 : fired = true := hf
            rw [h4] at hf2
            exact absurd hf2 Bool.false_ne_true⟩
      | returned x =>
        cases x with
        | none => exact ⟨(setTask_keys _ _ _).trans hk, htc, hd0.trans hm.1, hm.2⟩
        | some e0 =>
          exact ⟨(setTask_keys _ _ _).trans hk, htc, hm.1, hm.2.1, hm.2.2.1,
            by rw [hd0]; exact hm.2.2.2⟩
    · rw [if_neg hc]
      exact ⟨hk, htc, hm⟩
  | run pick =>
    cases main with
    | parked n => exact ⟨hk, htc, hm⟩
    | returned x => exact ⟨hk, htc, hm⟩
    | running n =>
      obtain ⟨h1, h2, h3⟩ := hm
      show CreateInv (if n < playlistTypes.length then _ else _)
      by_cases hn : n < playlistTypes.length
      · rw [if_pos hn]
        have hn3 : n < 3 := hn
        by_cases hready : (!tcanel && !someSending tasks) = true
        · rw [if_pos hready]
          rw [Bool.and_eq_true] at hready
          have ht : tcanel = false := by simpa using hready.1
          have hs : someSending tasks = false := by simpa using hready.2
          refine ⟨hk, htc, h1, hn3, hs, ?_, h2⟩
          cases fired with
          | false => rfl
          | true => rw [h3 rfl] at ht; exact absurd ht (by decide)
        · rw [if_neg hready]
          cases pick with
          | none =>
            show CreateInv (if tcanel = true then _ else _)
            by_cases ht : tcanel = true
            · rw [if_pos ht]
              exact ⟨hk, fun h => absurd h Bool.false_ne_true, rfl, h2, htc ht,
                by rw [h1]; exact hn3⟩
            · rw [if_neg ht]
              exact ⟨hk, htc, h1, h2, h3⟩
          | some item =>
            show CreateInv (if (tasks.lookup item == some TierTask.sending) = true then _ else _)
            by_cases hl0 : (tasks.lookup item == some TierTask.sending) = true
            · rw [if_pos hl0]
              have hl : tasks.lookup item = some TierTask.sending := by simpa using hl0
              have hd1 := doneCount_setTask tasks item _ TierTask.done hnd hl (by decide)
              simp only [if_true] at hd1
              exact ⟨(setTask_keys _ _ _).trans hk, htc, by rw [hd1, h1], h2, h3⟩
            · rw [if_neg hl0]
              exact ⟨hk, htc, h1, h2, h3⟩
      · rw [if_neg hn]
        have hle := doneCount_le tasks
        have hn3 : ¬ n < 3 := hn
        exact ⟨hk, htc, (by omega : doneCount tasks = 3), rfl⟩

theorem createInv_foldl (livePath pfx : String) (startTs : Option Time)
    (events : List CreateEvent) :
    ∀ s, CreateInv s → CreateInv (events.foldl (createStep livePath pfx startTs) s) := by
  induction events with
  | nil => intro s h; exact h
  | cons e es ih => intro s h; exact ih _ (createInv_step livePath pfx startTs s e h)

theorem createInv_run (livePath pfx : String) (startTs : Option Time) (fs : FS)
    (events : List CreateEvent) : CreateInv (createRun livePath pfx startTs fs events) :=
  createInv_foldl livePath pfx startTs events _ (createInit_inv fs)

theorem createRun_append (livePath pfx : String) (startTs : Option Time) (fs : FS)
    (pre post : List CreateEvent) :
    createRun livePath pfx startTs fs (pre ++ post)
      = post.foldl (createStep livePath pfx startTs) (createRun livePath pfx startTs fs pre) := by
  unfold createRun
  rw [List.foldl_append]

/-- The steps of a call of `Playlist.Create`, one by one: nothing happens; the files
change; the timer fires while the calling goroutine is blocked, which returns the timeout;
the timer fires otherwise, its value waits; a task finds a segment while the calling
goroutine is blocked, which receives its value at once; a task finds a segment otherwise,
it blocks in its send; the `select` finds nothing ready and blocks; the `select` takes the
value of the timer, the call returns the timeout; the `select` takes a blocked send; past
the loop the master playlist is written and the call returns. -/
theorem createStep_cases (livePath pfx : String) (startTs : Option Time) (s : CreateState)
    (e : CreateEvent) :
    createStep livePath pfx startTs s e = s
    ∨ (∃ f, e = CreateEvent.server f ∧ createStep livePath pfx startTs s e = { s with fs := f })
    ∨ (∃ n, e = CreateEvent.timer ∧ s.fired = false ∧ s.main = .parked n
        ∧ createStep livePath pfx startTs s e
          = { s with fired := true, main := .returned (some .plOperationTimedout) })
    ∨ (e = CreateEvent.timer ∧ s.fired = false ∧ (∀ n, s.main ≠ .parked n)
        ∧ createStep livePath pfx startTs s e = { s with fired := true, tcanel := true })
    ∨ (∃ item n, e = CreateEvent.poll item ∧ s.tasks.lookup item = some TierTask.polling
        ∧ tierHasSegment s.fs livePath item = true ∧ s.main = .parked n
        ∧ createStep livePath pfx startTs s e
          = { s with tasks := setTask s.tasks item .done, main := .running (n + 1) })
    ∨ (∃ item, e = CreateEvent.poll item ∧ s.tasks.lookup item = some TierTask.polling
        ∧ tierHasSegment s.fs livePath item = true ∧ (∀ n, s.main ≠ .parked n)
        ∧ createStep livePath pfx startTs s e
          = { s with tasks := setTask s.tasks item .sending })
    ∨ (∃ pick n, e = CreateEvent.run pick ∧ s.main = .running n ∧ n < 3
        ∧ s.tcanel = false ∧ someSending s.tasks = false
        ∧ createStep livePath pfx startTs s e = { s with main := .parked n })
    ∨ (∃ n, e = CreateEvent.run none ∧ s.main = .running n ∧ n < 3 ∧ s.tcanel = true
        ∧ createStep livePath pfx startTs s e
          = { s with tcanel := false, main := .returned (some .plOperationTimedout) })
    ∨ (∃ item n, e = CreateEvent.run (some item) ∧ s.main = .running n ∧ n < 3
        ∧ s.tasks.lookup item = some TierTask.sending
        ∧ createStep livePath pfx startTs s e
          = { s with tasks := setTask s.tasks item .done, main := .running (n + 1) })
    ∨ (∃ pick n f, e = CreateEvent.run pick ∧ s.main = .running n ∧ ¬ n < 3
        ∧ createStep livePath pfx startTs s e
          = { s with fs := f, main := .returned none, wrote := true }) := by
  obtain ⟨fs, fired, tcanel, tasks, main, wrote⟩ := s
  cases e with
  | server fs2 => exact Or.inr (Or.inl ⟨fs2, rfl, rfl⟩)
  | timer =>
    by_cases hf : fired = true
    · left
      show (if fired = true then _ else _ : CreateState) = _
      rw [if_pos hf]
    · have hff : fired = false := by simpa using hf
      cases main with
      | parked n =>
        refine Or.inr (Or.inr (Or.inl ⟨n, rfl, hff, rfl, ?_⟩))
        show (if fired = true then _ else _ : CreateState) = _
        rw [if_neg hf]
      | running n =>
        refine Or.inr (Or.inr (Or.inr (Or.inl ⟨rfl, hff, (fun _ h => CreateMain.noConfusion h), ?_⟩)))
        show (if fired = true then _ else _ : CreateState) = _
        rw [if_neg hf]
      | returned x =>
        refine Or.inr (Or.inr (Or.inr (Or.inl ⟨rfl, hff, (fun _ h => CreateMain.noConfusion h), ?_⟩)))
        show (if fired = true then _ else _ : CreateState) = _
        rw [if_neg hf]
  | poll item =>
    by_cases hc : (tasks.lookup item == some TierTask.polling
        && tierHasSegment fs livePath item) = true
    · have hc2 := hc
      rw [Bool.and_eq_true] at hc2
      have hl : tasks.lookup item = some TierTask.polling := by simpa using hc2.1
      cases main with
      | parked n =>
        refine Or.inr (Or.inr (Or.inr (Or.inr (Or.inl ⟨item, n, rfl, hl, hc2.2, rfl, ?_⟩))))
        show (if (tasks.lookup item == some TierTask.polling
          && tierHasSegment fs livePath item) = true then _ else _ : CreateState) = _
        rw [if_pos hc]
      | running n =>
        refine Or.inr (Or.inr (Or.inr (Or.inr (Or.inr (Or.inl
          ⟨item, rfl, hl, hc2.2, (fun _ h => CreateMain.noConfusion h), ?_⟩)))))
        show (if (tasks.lookup item == some TierTask.polling
          && tierHasSegment fs livePath item) = true then _ else _ : CreateState) = _
        rw [if_pos hc]
      | returned x =>
        refine Or.inr (Or.inr (Or.inr (Or.inr (Or.inr (Or.inl
          ⟨item, rfl, hl, hc2.2, (fun _ h => CreateMain.noConfusion h), ?_⟩)))))
        show (if (tasks.lookup item == some TierTask.polling
          && tierHasSegment fs livePath item) = true then _ else _ : CreateState) = _
        rw [if_pos hc]
    · left
      show (if (tasks.lookup item == some TierTask.polling
        && tierHasSegment fs livePath item) = true then _ else _ : CreateState) = _
      rw [if_neg hc]
  | run pick =>
    cases main with
    | parked n => exact Or.inl rfl
    | returned x => exact Or.inl rfl
    | running n =>
      by_cases hn : n < playlistTypes.length
      · have hn3 : n < 3 := hn
        by_cases hready : (!tcanel && !someSending tasks) = true
        · have hr2 := hready
          rw [Bool.and_eq_true] at hr2
          have ht : tcanel = false := by simpa using hr2.1
          have hs : someSending tasks = false := by simpa using hr2.2
          refine Or.inr (Or.inr (Or.inr (Or.inr (Or.inr (Or.inr (Or.inl
            ⟨pick, n, rfl, rfl, hn3, ht, hs, ?_⟩))))))
          show (if n < playlistTypes.length then _ else _ : CreateState) = _
          rw [if_pos hn, if_pos hready]
        · cases pick with
          | none =>
            by_cases ht : tcanel = true
            · refine Or.inr (Or.inr (Or.inr (Or.inr (Or.inr (Or.inr (Or.inr (Or.inl
                ⟨n, rfl, rfl, hn3, ht, ?_⟩)))))))
              show (if n < playlistTypes.length then _ else _ : CreateState) = _
              rw [if_pos hn, if_neg hready]
              show (if tcanel = true then _ else _ : CreateState) = _
              rw [if_pos ht]
            · left
              show (if n < playlistTypes.length then _ else _ : CreateState) = _
              rw [if_pos hn, if_neg hready]
              show (if tcanel = true then _ else _ : CreateState) = _
              rw [if_neg ht]
          | some item =>
            by_cases hl0 : (tasks.lookup item == some TierTask.sending) = true
            · have hl : tasks.lookup item = some TierTask.sending := by simpa using hl0
              refine Or.inr (Or.inr (Or.inr (Or.inr (Or.inr (Or.inr (Or.inr (Or.inr (Or.inl
                ⟨item, n, rfl, rfl, hn3, hl, ?_⟩))))))))
              show (if n < playlistTypes.length then _ else _ : CreateState) = _
              rw [if_pos hn, if_neg hready]
              show (if (tasks.lookup item == some TierTask.sending) = true then _ else _ :
                CreateState) = _
              rw [if_pos hl0]
            · left
              show (if n < playlistTypes.length then _ else _ : CreateState) = _
              rw [if_pos hn, if_neg hready]
              show (if (tasks.lookup item == some TierTask.sending) = true then _ else _ :
                CreateState) = _
              rw [if_neg hl0]
      · have hn3 : ¬ n < 3 := hn
        refine Or.inr (Or.inr (Or.inr (Or.inr (Or.inr (Or.inr (Or.inr (Or.inr (Or.inr
          ⟨pick, n, (createStep livePath pfx startTs
            ⟨fs, fired, tcanel, tasks, .running n, wrote⟩ (.run pick)).fs, rfl, rfl, hn3, ?_⟩))))))))
        have hs : createStep livePath pfx startTs ⟨fs, fired, tcanel, tasks, .running n, wrote⟩
            (.run pick)
            = (if n < playlistTypes.length then
                createStep livePath pfx startTs ⟨fs, fired, tcanel, tasks, .running n, wrote⟩
                  (.run pick)
               else
                { fs := (genMasterPlaylist fs
                      ((match startTs with
                        | some t => if !t.IsZero then pfx ++ toString t.Unix ++ "-" else pfx
                        | none => pfx) ++ "index")
                      (playlistTypes.map (fun item =>
                        (match startTs with
                          | some t => if !t.IsZero then pfx ++ toString t.Unix ++ "-" else pfx
                          | none => pfx) ++ item)) livePath).2,
                  fired := fired, tcanel := tcanel, tasks := tasks,
                  main := .returned none, wrote := true }) := by
          rw [if_neg hn]
          show (if n < playlistTypes.length then _ else _ : CreateState) = _
          rw [if_neg hn]
          rfl
        rw [if_neg hn] at hs
        rw [hs]

/-- A step moves at most one task, and never back to polling: a task leaves polling when it
reads a raw playlist that shows a segment, and a blocked send is taken by a `select`. -/
theorem createStep_tasks (livePath pfx : String) (startTs : Option Time) (s : CreateState)
    (e : CreateEvent) :
    (createStep livePath pfx startTs s e).tasks = s.tasks
    ∨ ∃ item t, (createStep livePath pfx startTs s e).tasks = setTask s.tasks item t
        ∧ t ≠ TierTask.polling
        ∧ ((e = CreateEvent.poll item ∧ tierHasSegment s.fs livePath item = true)
            ∨ s.tasks.lookup item = some TierTask.sending) := by
  rcases createStep_cases livePath pfx startTs s e with h | ⟨f, _, h⟩ | ⟨n, _, _, _, h⟩
    | ⟨_, _, _, h⟩ | ⟨item, n, he, _, hs, _, h⟩ | ⟨item, he, _, hs, _, h⟩
    | ⟨pick, n, _, _, _, _, _, h⟩ | ⟨n, _, _, _, _, h⟩ | ⟨item, n, _, _, _, hl, h⟩
    | ⟨pick, n, f, _, _, _, h⟩
  all_goals rw [h]
  · exact Or.inl rfl
  · exact Or.inl rfl
  · exact Or.inl rfl
  · exact Or.inl rfl
  · exact Or.inr ⟨item, .done, rfl, by decide, Or.inl ⟨he, hs⟩⟩
  · exact Or.inr ⟨item, .sending, rfl, by decide, Or.inl ⟨he, hs⟩⟩
  · exact Or.inl rfl
  · exact Or.inl rfl
  · exact Or.inr ⟨item, .done, rfl, by decide, Or.inr hl⟩
  · exact Or.inl rfl

theorem createStep_shown (livePath pfx : String) (startTs : Option Time) (s : CreateState)
    (e : CreateEvent) (item : String) (t : TierTask)
    (h : (createStep livePath pfx startTs s e).tasks.lookup item = some t)
    (ht : t ≠ TierTask.polling) :
    (∃ t0, s.tasks.lookup item = some t0 ∧ t0 ≠ TierTask.polling)
    ∨ (e = CreateEvent.poll item ∧ tierHasSegment s.fs livePath item = true) := by
  rcases createStep_tasks livePath pfx startTs s e with h0 | ⟨item2, t2, h1, h2, h3⟩
  · rw [h0] at h
    exact Or.inl ⟨t, h, ht⟩
  · rw [h1, lookup_setTask] at h
    by_cases hi : item = item2
    · subst hi
      rcases h3 with h3 | h3
      · exact Or.inr h3
      · exact Or.inl ⟨_, h3, by decide⟩
    · rw [if_neg hi] at h
      exact Or.inl ⟨t, h, ht⟩

/-- A task that is not polling has read a raw playlist that showed a segment. -/
theorem createRun_shown (livePath pfx : String) (startTs : Option Time)
    (events : List CreateEvent) :
    ∀ (s : CreateState) (item : String) (t : TierTask),
      (events.foldl (createStep livePath pfx startTs) s).tasks.lookup item = some t →
      t ≠ TierTask.polling →
      (∃ t0, s.tasks.lookup item = some t0 ∧ t0 ≠ TierTask.polling)
      ∨ ∃ pre post, events = pre ++ CreateEvent.poll item :: post
          ∧ tierHasSegment (pre.foldl (createStep livePath pfx startTs) s).fs livePath item
              = true := by
  induction events with
  | nil => intro s item t h ht; exact Or.inl ⟨t, h, ht⟩
  | cons e es ih =>
    intro s item t h ht
    rcases ih (createStep livePath pfx startTs s e) item t h ht with ⟨t0, h0, ht0⟩ | ⟨pre, post, he, hs⟩
    · rcases createStep_shown livePath pfx startTs s e item t0 h0 ht0 with h1 | ⟨h1, h2⟩
      · exact Or.inl h1
      · exact Or.inr ⟨[], es, by rw [h1]; rfl, h2⟩
    · exact Or.inr ⟨e :: pre, post, by rw [he]; rfl, hs⟩

theorem createInit_lookup (fs : FS) (item : String) (t : TierTask)
    (h : (createInit fs).tasks.lookup item = some t) : t = TierTask.polling := by
  have h2 : List.lookup item [("low.m3u8", TierTask.polling), ("mid.m3u8", TierTask.polling),
      ("high.m3u8", TierTask.polling)] = some t := h
  simp only [List.lookup] at h2
  split at h2
  · exact (Option.some.inj h2).symm
  · split at h2
    · exact (Option.some.inj h2).symm
    · split at h2
      · exact (Option.some.inj h2).symm
      · exact absurd h2 (by simp)

/-- The master playlist is written once, by the calling goroutine; before that the files
are those the last `server` step left. -/
theorem createStep_wrote (livePath pfx : String) (startTs : Option Time) (s : CreateState)
    (e : CreateEvent) :
    (s.wrote = true → (createStep livePath pfx startTs s e).wrote = true)
    ∧ ((createStep livePath pfx startTs s e).wrote = false →
        (createStep livePath pfx startTs s e).fs
          = (match e with
             | .server f => f
             | _ => s.fs)) := by
  rcases createStep_cases livePath pfx startTs s e with h | ⟨f, he, h⟩ | ⟨n, he, _, _, h⟩
    | ⟨he, _, _, h⟩ | ⟨item, n, he, _, hs, _, h⟩ | ⟨item, he, _, hs, _, h⟩
    | ⟨pick, n, he, _, _, _, _, h⟩ | ⟨n, he, _, _, _, h⟩ | ⟨item, n, he, _, _, hl, h⟩
    | ⟨pick, n, f, he, _, _, h⟩
  · rw [h]
    refine ⟨fun x => x, fun hw => ?_⟩
    cases e with
    | server f =>
      have : (createStep livePath pfx startTs s (.server f)).fs = f := rfl
      rw [h] at this
      exact this
    | timer => rfl
    | poll item => rfl
    | run pick => rfl
  all_goals rw [h, he]
  · exact ⟨fun x => x, fun _ => rfl⟩
  · exact ⟨fun x => x, fun _ => rfl⟩
  · exact ⟨fun x => x, fun _ => rfl⟩
  · exact ⟨fun x => x, fun _ => rfl⟩
  · exact ⟨fun x => x, fun _ => rfl⟩
  · exact ⟨fun x => x, fun _ => rfl⟩
  · exact ⟨fun x => x, fun _ => rfl⟩
  · exact ⟨fun x => x, fun _ => rfl⟩
  · exact ⟨fun _ => rfl, fun hw => absurd hw.symm Bool.false_ne_true⟩

theorem createRun_files (livePath pfx : String) (startTs : Option Time)
    (events : List CreateEvent) :
    ∀ s : CreateState, (events.foldl (createStep livePath pfx startTs) s).wrote = false →
      s.wrote = false
      ∧ (events.foldl (createStep livePath pfx startTs) s).fs = serverFiles s.fs events := by
  induction events with
  | nil => intro s h; exact ⟨h, rfl⟩
  | cons e es ih =>
    intro s h
    obtain ⟨h1, h2⟩ := ih (createStep livePath pfx startTs s e) h
    have hw := createStep_wrote livePath pfx startTs s e
    constructor
    · cases hs : s.wrote with
      | false => rfl
      | true => rw [hw.1 hs] at h1; exact absurd h1 (by decide)
    · show _ = serverFiles _ (e :: es)
      unfold serverFiles at h2 ⊢
      rw [List.foldl_cons, h2, hw.2 h1]
      cases e <;> rfl

/-- Once the call has returned, nothing changes its result. -/
theorem createStep_returned (livePath pfx : String) (startTs : Option Time) (s : CreateState)
    (e : CreateEvent) (x : Option Error) (hx : s.main = .returned x) :
    (createStep livePath pfx startTs s e).main = .returned x
    ∧ (createStep livePath pfx startTs s e).wrote = s.wrote := by
  rcases createStep_cases livePath pfx startTs s e with h | ⟨f, he, h⟩ | ⟨n, he, _, hm, h⟩
    | ⟨he, _, _, h⟩ | ⟨item, n, he, _, hs, hm, h⟩ | ⟨item, he, _, hs, _, h⟩
    | ⟨pick, n, he, hm, _, _, _, h⟩ | ⟨n, he, hm, _, _, h⟩ | ⟨item, n, he, hm, _, hl, h⟩
    | ⟨pick, n, f, he, hm, _, h⟩
  all_goals rw [h]
  · exact ⟨hx, rfl⟩
  · exact ⟨hx, rfl⟩
  · rw [hx] at hm; cases hm
  · exact ⟨hx, rfl⟩
  · rw [hx] at hm; cases hm
  · exact ⟨hx, rfl⟩
  · rw [hx] at hm; cases hm
  · rw [hx] at hm; cases hm
  · rw [hx] at hm; cases hm
  · rw [hx] at hm; cases hm

theorem createRun_returned (livePath pfx : String) (startTs : Option Time)
    (events : List CreateEvent) (x : Option Error) :
    ∀ s : CreateState, s.main = .returned x →
      (events.foldl (createStep livePath pfx startTs) s).main = .returned x
      ∧ (events.foldl (createStep livePath pfx startTs) s).wrote = s.wrote := by
  induction events with
  | nil => intro s h; exact ⟨h, rfl⟩
  | cons e es ih =>
    intro s h
    have h1 := createStep_returned livePath pfx startTs s e x h
    have h2 := ih _ h1.1
    exact ⟨h2.1, h2.2.trans h1.2⟩

/-- On files that do not change, with no step late, the call is `Playlist.Create`. -/
theorem createRun_quiet (fs : FS) (livePath pfx : String) (startTs : Option Time) :
    (createRun livePath pfx startTs fs createQuiet).main
      = .returned (Playlist.Create fs livePath pfx startTs).1
    ∧ (createRun livePath pfx startTs fs createQuiet).fs
      = (Playlist.Create fs livePath pfx startTs).2 := by
  cases ha : tierHasSegment fs livePath "low.m3u8" <;>
  cases hb : tierHasSegment fs livePath "mid.m3u8" <;>
  cases hc : tierHasSegment fs livePath "high.m3u8" <;>
  simp [createRun, createQuiet, createInit, createStep, setTask, someSending, playlistTypes,
    List.lookup, Playlist.Create, genMasterPlaylist, ha, hb, hc]

set_option maxRecDepth 40000 in
/-- C24, a counterexample: the low and the mid tier show a segment and their values are
received; the timer fires while the calling goroutine is between two receives, the high
tier having shown no segment; the segment of the high tier is written after that, its
task finds it and blocks in its send; the next `select` has the value of the timer and the
send ready and takes the send: the call returns without error and has written the master
playlist. -/
theorem C24_create_timeout_counterexample :
    tierHasSegment ((rawWorld 2).fs.take 2) "/tmp/00000000-1111-0000-0000-000000000000"
        "high.m3u8" = false
    ∧ (createRun "/tmp/00000000-1111-0000-0000-000000000000" OutputPlaylistPrefix none
        ((rawWorld 2).fs.take 2)
        [.poll "low.m3u8", .run (some "low.m3u8"), .poll "mid.m3u8", .run (some "mid.m3u8"),
         .poll "high.m3u8", .timer])
      = { fs := (rawWorld 2).fs.take 2, fired := true, tcanel := true,
          tasks := [("low.m3u8", .done), ("mid.m3u8", .done), ("high.m3u8", .polling)],
          main := .running 2, wrote := false }
    ∧ (createRun "/tmp/00000000-1111-0000-0000-000000000000" OutputPlaylistPrefix none
        ((rawWorld 2).fs.take 2)
        [.poll "low.m3u8", .run (some "low.m3u8"), .poll "mid.m3u8", .run (some "mid.m3u8"),
         .poll "high.m3u8", .timer,
         .server (rawWorld 2).fs, .poll "high.m3u8", .run (some "high.m3u8"), .run none])
      = { fs := (Playlist.Create (rawWorld 2).fs "/tmp/00000000-1111-0000-0000-000000000000"
            OutputPlaylistPrefix none).2,
          fired := true, tcanel := true,
          tasks := [("low.m3u8", .done), ("mid.m3u8", .done), ("high.m3u8", .done)],
          main := .returned none, wrote := true } := by
  refine ⟨?_, ?_, ?_⟩ <;> rfl

theorem someSending_of_lookup (tasks : List (String × TierTask)) (item : String)
    (h : tasks.lookup item = some TierTask.sending) : someSending tasks = true := by
  induction tasks with
  | nil => simp at h
  | cons e es ih =>
    obtain ⟨a, b⟩ := e
    unfold someSending at ih ⊢
    by_cases ha : item = a
    · subst ha
      rw [lookup_cons_eq] at h
      have hb : b = TierTask.sending := Option.some.inj h
      simp [hb]
    · rw [lookup_cons_ne _ _ _ _ ha] at h
      simp [ih h]

theorem createStep_timer_parked (livePath pfx : String) (startTs : Option Time)
    (s : CreateState) (n : Nat) (h : s.main = .parked n) (hf : s.fired = false) :
    (createStep livePath pfx startTs s .timer).main = .returned (some .plOperationTimedout)
    ∧ (createStep livePath pfx startTs s .timer).wrote = s.wrote := by
  obtain ⟨fs, fired, tcanel, tasks, main, wrote⟩ := s
  dsimp only at h hf
  subst h
  subst hf
  exact ⟨rfl, rfl⟩

theorem createStep_run_park (livePath pfx : String) (startTs : Option Time)
    (s : CreateState) (n : Nat) (pick : Option String) (h : s.main = .running n) (hn : n < 3)
    (ht : s.tcanel = false) (hs : someSending s.tasks = false) :
    (createStep livePath pfx startTs s (.run pick)).main = .parked n := by
  obtain ⟨fs, fired, tcanel, tasks, main, wrote⟩ := s
  dsimp only at h ht hs
  subst h
  subst ht
  have hn2 : n < playlistTypes.length := hn
  show (if n < playlistTypes.length then
      (if (!false && !someSending tasks) = true then _ else _) else _ : CreateState).main = _
  have : (!false && !someSending tasks) = true := by rw [hs]; rfl
  rw [if_pos hn2, if_pos this]

theorem createStep_run_timeout (livePath pfx : String) (startTs : Option Time)
    (s : CreateState) (n : Nat) (h : s.main = .running n) (hn : n < 3)
    (ht : s.tcanel = true) :
    (createStep livePath pfx startTs s (.run none)).main
      = .returned (some .plOperationTimedout) := by
  obtain ⟨fs, fired, tcanel, tasks, main, wrote⟩ := s
  dsimp only at h ht
  subst h
  subst ht
  have hn2 : n < playlistTypes.length := hn
  show (if n < playlistTypes.length then _ else _ : CreateState).main = _
  rw [if_pos hn2]
  rfl

theorem createStep_run_receive (livePath pfx : String) (startTs : Option Time)
    (s : CreateState) (n : Nat) (item : String) (h : s.main = .running n) (hn : n < 3)
    (hl : s.tasks.lookup item = some TierTask.sending) :
    (createStep livePath pfx startTs s (.run (some item))).main = .running (n + 1) := by
  obtain ⟨fs, fired, tcanel, tasks, main, wrote⟩ := s
  dsimp only at h hl
  subst h
  have hn2 : n < playlistTypes.length := hn
  have hs := someSending_of_lookup tasks item hl
  have hr : ¬ (!tcanel && !someSending tasks) = true := by rw [hs]; simp
  have hl2 : (tasks.lookup item == some TierTask.sending) = true := by rw [hl]; rfl
  show (if n < playlistTypes.length then
      (if (!tcanel && !someSending tasks) = true then _
       else (if (tasks.lookup item == some TierTask.sending) = true then _ else _))
      else _ : CreateState).main = _
  rw [if_pos hn2, if_neg hr, if_pos hl2]

/-- C24 as amended, on a call of `Playlist.Create` after any steps of its goroutines, of the
timer and of the media server. The call has returned without error, or has written the
master playlist, only when the values of the three tasks have been received, each task
having read a raw playlist that showed a segment. The only error it returns is the
timeout, with fewer than three values received and no master playlist written; as long
as the master playlist is not written the files are those the media server left. While the
calling goroutine is blocked in its `select`, fewer than three tasks have found a segment,
none is blocked in its send and the timer has not fired; when the timer fires then, the
call returns the timeout and writes nothing, whatever follows. A `select` that finds
nothing ready blocks. When the timer has fired while the calling goroutine was between two
receives, its value waits: the next `select` returns the timeout when it takes this
value, and goes on when it takes the send of a blocked task. On files that do not change,
with no step late, the call is the `Playlist.Create` of the service. A task finds a
segment when its raw playlist can be read and a line from the first EXTINF line on has
`.ts` after at least one character. -/
theorem C24_create_timeout (fs : FS) (livePath pfx : String) (startTs : Option Time)
    (events : List CreateEvent) :
    (((createRun livePath pfx startTs fs events).main = .returned none
        ∨ (createRun livePath pfx startTs fs events).wrote = true) →
      ∀ item ∈ playlistTypes,
        (createRun livePath pfx startTs fs events).tasks.lookup item = some TierTask.done
        ∧ ∃ pre post, events = pre ++ CreateEvent.poll item :: post
            ∧ tierHasSegment (createRun livePath pfx startTs fs pre).fs livePath item = true)
    ∧ (∀ e, (createRun livePath pfx startTs fs events).main = .returned (some e) →
        e = Error.plOperationTimedout
        ∧ (createRun livePath pfx startTs fs events).wrote = false
        ∧ (createRun livePath pfx startTs fs events).fired = true
        ∧ doneCount (createRun livePath pfx startTs fs events).tasks < 3)
    ∧ ((createRun livePath pfx startTs fs events).wrote = false →
        (createRun livePath pfx startTs fs events).fs = serverFiles fs events)
    ∧ (∀ n, (createRun livePath pfx startTs fs events).main = .parked n →
        n < 3
        ∧ doneCount (createRun livePath pfx startTs fs events).tasks = n
        ∧ someSending (createRun livePath pfx startTs fs events).tasks = false
        ∧ (createRun livePath pfx startTs fs events).fired = false
        ∧ ∀ post,
            (createRun livePath pfx startTs fs (events ++ CreateEvent.timer :: post)).main
              = .returned (some Error.plOperationTimedout)
            ∧ (createRun livePath pfx startTs fs (events ++ CreateEvent.timer :: post)).wrote
              = false)
    ∧ (∀ n, (createRun livePath pfx startTs fs events).main = .running n → n < 3 →
        (createRun livePath pfx startTs fs events).tcanel = false →
        someSending (createRun livePath pfx startTs fs events).tasks = false →
        ∀ pick, (createRun livePath pfx startTs fs (events ++ [CreateEvent.run pick])).main
          = .parked n)
    ∧ (∀ n, (createRun livePath pfx startTs fs events).main = .running n → n < 3 →
        (createRun livePath pfx startTs fs events).fired = true →
        (createRun livePath pfx startTs fs events).tcanel = true
        ∧ (createRun livePath pfx startTs fs (events ++ [CreateEvent.run none])).main
            = .returned (some Error.plOperationTimedout)
        ∧ ∀ item,
            (createRun livePath pfx startTs fs events).tasks.lookup item
              = some TierTask.sending →
            (createRun livePath pfx startTs fs (events ++ [CreateEvent.run (some item)])).main
              = .running (n + 1))
    ∧ ((createRun livePath pfx startTs fs createQuiet).main
          = .returned (Playlist.Create fs livePath pfx startTs).1
        ∧ (createRun livePath pfx startTs fs createQuiet).fs
          = (Playlist.Create fs livePath pfx startTs).2)
    ∧ (∀ (files : FS) (item : String), tierHasSegment files livePath item = true
        ↔ ∃ content, readFile files (pathJoin livePath item) = some content
            ∧ ∃ l ∈ (scanLines content).dropWhile (fun l => !reHd l), reTs l = true) := by
  have hinv := createInv_run livePath pfx startTs fs events
  obtain ⟨hk, htc, hm⟩ := hinv
  have hlen : (createRun livePath pfx startTs fs events).tasks.length = 3 := by
    have := congrArg List.length hk
    simpa [playlistTypes] using this
  refine ⟨?_, ?_, ?_, ?_, ?_, ?_, createRun_quiet fs livePath pfx startTs,
    fun files item => tierHasSegment_iff files livePath item⟩
  · intro hok item hitem
    have hd : doneCount (createRun livePath pfx startTs fs events).tasks = 3 := by
      cases hmain : (createRun livePath pfx startTs fs events).main with
      | running n =>
        rw [hmain] at hm
        rcases hok with h | h
        · rw [hmain] at h; cases h
        · rw [hm.2.1] at h; cases h
      | parked n =>
        rw [hmain] at hm
        rcases hok with h | h
        · rw [hmain] at h; cases h
        · rw [hm.2.2.2.2] at h; cases h
      | returned x =>
        rw [hmain] at hm
        cases x with
        | none => exact hm.1
        | some e0 =>
          rcases hok with h | h
          · rw [hmain] at h; cases h
          · rw [hm.2.1] at h; cases h
    have hl := lookup_of_all_done (createRun livePath pfx startTs fs events).tasks item
      (by rw [hk]; exact hitem) (by rw [hd, hlen])
    refine ⟨hl, ?_⟩
    rcases createRun_shown livePath pfx startTs events (createInit fs) item TierTask.done hl
        (by decide) with ⟨t0, h0, ht0⟩ | h
    · exact absurd (createInit_lookup fs item t0 h0) ht0
    · exact h
  · intro e he
    rw [he] at hm
    exact hm
  · intro hw
    exact (createRun_files livePath pfx startTs events (createInit fs) hw).2
  · intro n hn
    rw [hn] at hm
    obtain ⟨h1, h2, h3, h4, h5⟩ := hm
    refine ⟨h2, h1, h3, h4, fun post => ?_⟩
    rw [createRun_append, List.foldl_cons]
    have hstep := createStep_timer_parked livePath pfx startTs _ n hn h4
    have hret := createRun_returned livePath pfx startTs post _ _ hstep.1
    exact ⟨hret.1, by rw [hret.2, hstep.2, h5]⟩
  · intro n hn hn3 ht hs pick
    rw [createRun_append]
    exact createStep_run_park livePath pfx startTs _ n pick hn hn3 ht hs
  · intro n hn hn3 hf
    rw [hn] at hm
    have ht := hm.2.2 hf
    refine ⟨ht, ?_, fun item hl => ?_⟩
    · rw [createRun_append]
      exact createStep_run_timeout livePath pfx startTs _ n hn hn3 ht
    · rw [createRun_append]
      exact createStep_run_receive livePath pfx startTs _ n item hn hn3 hl

set_option maxRecDepth 40000 in
/-- C24 as amended, on a stream whose high tier has no raw playlist: the low and the mid
tier report, the calling goroutine blocks with two values, and once the timer fires the
call has returned the timeout and has written nothing, also when the raw playlist of the
high tier is written afterwards. -/
theorem C24_create_timeout_witness :
    (createRun "/tmp/00000000-1111-0000-0000-000000000000" OutputPlaylistPrefix none
        ((rawWorld 2).fs.take 2)
        [.run none, .poll "low.m3u8", .run none, .poll "mid.m3u8", .run none,
         .poll "high.m3u8"]).main = .parked 2
    ∧ (∀ post,
        (createRun "/tmp/00000000-1111-0000-0000-000000000000" OutputPlaylistPrefix none
          ((rawWorld 2).fs.take 2)
          ([.run none, .poll "low.m3u8", .run none, .poll "mid.m3u8", .run none,
            .poll "high.m3u8"] ++ CreateEvent.timer :: post)).main
          = .returned (some Error.plOperationTimedout)
        ∧ (createRun "/tmp/00000000-1111-0000-0000-000000000000" OutputPlaylistPrefix none
          ((rawWorld 2).fs.take 2)
          ([.run none, .poll "low.m3u8", .run none, .poll "mid.m3u8", .run none,
            .poll "high.m3u8"] ++ CreateEvent.timer :: post)).wrote = false)
    ∧ createRun "/tmp/00000000-1111-0000-0000-000000000000" OutputPlaylistPrefix none
        ((rawWorld 2).fs.take 2)
        [.run none, .poll "low.m3u8", .run none, .poll "mid.m3u8", .run none,
         .poll "high.m3u8", .timer, .server (rawWorld 2).fs, .poll "high.m3u8",
         .run (some "high.m3u8"), .run none]
      = { fs := (rawWorld 2).fs, fired := true, tcanel := false,
          tasks := [("low.m3u8", .done), ("mid.m3u8", .done), ("high.m3u8", .sending)],
          main := .returned (some Error.plOperationTimedout), wrote := false } :=
  ⟨rfl,
   ((C24_create_timeout ((rawWorld 2).fs.take 2) "/tmp/00000000-1111-0000-0000-000000000000"
      OutputPlaylistPrefix none
      [.run none, .poll "low.m3u8", .run none, .poll "mid.m3u8", .run none,
       .poll "high.m3u8"]).2.2.2.1 2 rfl).2.2.2.2,
   rfl⟩

end Srsmgmt
